import Mathlib

/-!
The online-user registry of Anope (`src/users.cpp`, `src/actions.cpp`).

A shallow embedding of the user registry: the two global indices
`UserListByNick` / `UserListByUID`, the `User` methods that maintain them,
the account link (`User::Login` / `User::Logout`), and the event handlers
`do_nick`, `do_quit`, `do_kill`, `kill_user`.

Conventions of the embedding.

* A `User *` is an address (`Nat`); the heap `users` maps an address to the
  object living there.  A method called on an address that holds no object
  has no behaviour in C++; the embedding leaves the world unchanged there.
* A C++ exception is returned as `Except.error` together with the world at
  the moment of the `throw`.
* Calls into code that is not part of these sources (module hooks, protocol
  output, NickServ validation, the mode stacker) are appended to `log`.  The
  entries of the two hooks that run inside the destructor carry the core
  state at the moment of the call.
* `Alog` output is diagnostic only and is not modelled.
-/

namespace Anope

/-! ## Strings and the hash maps -/

/-- Modelled from the spec: the key under which a case-insensitive container
files a name (`Anope::string` and its `ci` comparators are not among the
sources); ASCII letters are folded to lower case. -/
def ci_fold (s : String) : List Char := s.data.map Char.toLower

/-- Source `Anope::string::equals_ci`. -/
def equals_ci (a b : String) : Bool := ci_fold a == ci_fold b

/-- Source `isdigit(s[0])`; reading position 0 of an empty string gives NUL. -/
def isdigit0 (s : String) : Bool :=
  match s.data with
  | [] => false
  | c :: _ => c.isDigit

/-- Operator `++` on a `uint32`: the successor modulo `2 ^ 32`. -/
def uint32_inc (n : Nat) : Nat := if n = 4294967295 then 0 else n + 1

/-- Operator `--` on a `uint32`: the predecessor modulo `2 ^ 32`. -/
def uint32_dec (n : Nat) : Nat := if n = 0 then 4294967295 else n - 1

/-- Operator `++` on an `int32`: the successor, which wraps from the largest
value to the smallest. -/
def int32_inc (n : Int) : Int := if n = 2147483647 then -2147483648 else n + 1

/-- Operator `--` on an `int32`: the predecessor, which wraps from the
smallest value to the largest. -/
def int32_dec (n : Int) : Int := if n = -2147483648 then 2147483647 else n - 1

/-- Conversion of an unsigned 32-bit value to `int`. -/
def int32_of_uint32 (n : Nat) : Int :=
  if n ≤ 2147483647 then (n : Int) else (n : Int) - 4294967296

/-- Conversion of an `int` to an unsigned 32-bit value. -/
def uint32_of_int32 (z : Int) : Nat :=
  if 0 ≤ z then z.toNat else (z + 4294967296).toNat

/-- Source `map.find(k)` for a hash map whose key equality is `key a = key b`. -/
def hmap_find (key : String → List Char) (m : List (String × Nat)) (k : String) :
    Option (String × Nat) :=
  m.find? (fun e => key e.1 == key k)

/-- Source `map.erase(k)`. -/
def hmap_erase (key : String → List Char) (m : List (String × Nat)) (k : String) :
    List (String × Nat) :=
  m.filter (fun e => !(key e.1 == key k))

/-- Source `map[k] = v`: an existing entry keeps its key and takes the new value,
otherwise a new entry is inserted. -/
def hmap_set (key : String → List Char) (m : List (String × Nat)) (k : String) (v : Nat) :
    List (String × Nat) :=
  match hmap_find key m k with
  | some _ => m.map (fun e => if key e.1 == key k then (e.1, v) else e)
  | none => m ++ [(k, v)]

/-! ## Data model -/

inductive UserModeName
  | UMODE_OPER
  | UMODE_REGISTERED
  | UMODE_CLOAK
  | UMODE_VHOST
  | UMODE_PROTECTED
  | UMODE_GOD
  | UMODE_OTHER (n : Nat)
deriving DecidableEq, Repr

inductive ModeType
  | MODE_REGULAR
  | MODE_PARAM
deriving DecidableEq, Repr

/-- A user mode descriptor of the mode registry. -/
structure UserMode where
  Name : UserModeName
  ModeChar : Char
  Type_ : ModeType
deriving DecidableEq, Repr

inductive NickCoreFlag
  | NI_SECURE
  | NI_SUSPENDED
  | NI_MSG
  | NI_KILLPROTECT
deriving DecidableEq, Repr

inductive NickNameFlag
  | NS_FORBIDDEN
  | NS_COLLIDED
  | NS_HELD
deriving DecidableEq, Repr

/-- An account (`NickCore`); `Users` is the list of sessions logged in to it. -/
structure NickCore where
  display : String
  Users : List Nat
  access : List String
  flags : List NickCoreFlag
deriving DecidableEq, Repr

def NickCore.HasFlag (nc : NickCore) (f : NickCoreFlag) : Bool := nc.flags.contains f

/-- A registered nickname record (`NickAlias`); `nc` is the owning account. -/
structure NickAlias where
  nick : String
  nc : Nat
  last_seen : Int
  last_quit : String
  last_usermask : String
  last_realname : String
  flags : List NickNameFlag
deriving DecidableEq, Repr

def NickAlias.HasFlag (na : NickAlias) (f : NickNameFlag) : Bool := na.flags.contains f

/-- A connected client (`User`). -/
structure User where
  nick : String
  uid : String
  ident : String
  vident : String
  host : String
  vhost : String
  chost : String
  hostip : String
  realname : String
  server : Option Nat
  nc : Option Nat
  OnAccess : Bool
  isSuperAdmin : Int
  timestamp : Int
  my_signon : Int
  invalid_pw_count : Nat
  invalid_pw_time : Int
  lastmemosend : Int
  lastnickreg : Int
  lastmail : Int
  modes : UserModeName → Bool
  Params : UserModeName → Option String
  chans : List Nat

/-- The core state: heap of sessions, the two indices, the counters, and the
account directory and channel membership that the sessions refer to.  The
counter `opcnt` is an `int32` and `usercnt`, `maxusercnt` are `uint32`: they
are changed with `int32_inc`, `int32_dec`, `uint32_inc`, `uint32_dec`. -/
@[ext]
structure State where
  users : Nat → Option User
  nextUser : Nat
  UserListByNick : List (String × Nat)
  UserListByUID : List (String × Nat)
  opcnt : Int
  usercnt : Nat
  maxusercnt : Nat
  maxusertime : Int
  cores : Nat → NickCore
  aliases : List Char → Option NickAlias
  channels : Nat → List Nat
  now : Int

inductive Exception
  | CoreException (msg : String)
  | CString (msg : String)
deriving DecidableEq, Repr

/-- Calls that leave the core.  `OnUserLogoff` and `OnCancel` carry the core
state in which the callee runs; `OnCancel` names the record by the folded
nickname it is filed under. -/
inductive Event
  | OnUserLogoff (u : Nat) (snap : State)
  | OnCancel (na : List Char) (u : Nat) (snap : State)
  | OnUserNickChange (u : Nat) (oldnick : String)
  | OnUserQuit (u : Nat) (reason : String)
  | OnUserModeSet (u : Nat) (Name : UserModeName)
  | OnUserModeUnset (u : Nat) (Name : UserModeName)
  | OnPreUserConnect (u : Nat)
  | OnUserConnect (u : Nat)
  | StackerAdd (bi : String) (u : Nat) (um : UserMode) (Set : Bool) (Param : String)
  | add_session (nick host ip : String)
  | del_session (host : String)
  | check_memos (u : Nat)
  | XLineCheckAll (u : Nat)
  | SQLineCheck (u : Nat)
  | SendUnregisteredNick (u : Nat)
  | validate_user (u : Nat)
  | do_on_id (u : Nat)
  | SetAutoIdentificationToken (u : Nat)
  | SendSVSKill (source : String) (u : Option Nat) (buf : String)
  | SendGlobops (source : String) (msg : String)
  | notice_lang (source : String) (u : Nat) (message : String) (arg : String)
  | SendForceNickChange (u : Nat) (newnick : String) (when : Int)

@[ext]
structure World extends State where
  log : List Event

/-- What the handlers read from the protocol description (`ircd->...`), the
configuration (`Config->...`) and from collaborators whose answer decides a
branch. -/
structure Env where
  ts6 : Bool
  vhost : Bool
  nickvhost : Bool
  nickip : Bool
  sqline : Bool
  quitonkill : Bool
  svsnick : Bool
  LimitSessions : Bool
  WallOper : Bool
  BadPassLimit : Nat
  BadPassTimeout : Int
  NSGuestNickPrefix : String
  s_NickServ : String
  ServerName : String
  /-- The mode registry: the user modes the protocol module registered. -/
  UserModes : List UserMode
  /-- Collaborator `is_on_access(u, nc)` of NickServ: is the mask of the session on
  the access list of the account. -/
  is_on_access : User → NickCore → Bool
  /-- Collaborator `Server::Find(name)`. -/
  Server_Find : String → Option Nat
  /-- Collaborator `Server::IsULined()`. -/
  Server_IsULined : Nat → Bool
  /-- Collaborator `ntoa`, applied to the numeric address given to `do_nick`. -/
  ntoa : Nat → String
  /-- Whether a module answers `EVENT_STOP` to `OnPreUserConnect`. -/
  OnPreUserConnect_stop : State → Nat → Bool
  /-- Collaborator `SQLine->Check(user)`. -/
  SQLine_Check : State → Nat → Bool
  /-- Collaborator `Anope::Match(str, mask)`, the wildcard matcher. -/
  Match : String → String → Bool

/-! Assignments to the globals and to the objects on the heap. -/

def World.emit (w : World) (e : Event) : World := { w with log := w.log ++ [e] }

def World.setUser (w : World) (p : Nat) (u : User) : World :=
  { w with users := Function.update w.users p (some u) }

def World.delUser (w : World) (p : Nat) : World :=
  { w with users := Function.update w.users p none }

def World.setNextUser (w : World) (n : Nat) : World := { w with nextUser := n }

def World.setUserListByNick (w : World) (m : List (String × Nat)) : World :=
  { w with UserListByNick := m }

def World.setUserListByUID (w : World) (m : List (String × Nat)) : World :=
  { w with UserListByUID := m }

def World.setOpcnt (w : World) (n : Int) : World := { w with opcnt := n }

def World.setUsercnt (w : World) (n : Nat) : World := { w with usercnt := n }

def World.setMaxusers (w : World) (n : Nat) (t : Int) : World :=
  { w with maxusercnt := n, maxusertime := t }

def World.setCore (w : World) (c : Nat) (nc : NickCore) : World :=
  { w with cores := Function.update w.cores c nc }

def World.setAlias (w : World) (k : List Char) (na : NickAlias) : World :=
  { w with aliases := Function.update w.aliases k (some na) }

def World.setChannel (w : World) (c : Nat) (l : List Nat) : World :=
  { w with channels := Function.update w.channels c l }

/-- The clock: `Anope::CurTime` and `time(NULL)` read `now`. -/
def World.setNow (w : World) (t : Int) : World := { w with now := t }

/-- A field assignment `user->f = v` on the object at `p`. -/
def World.modUser (w : World) (p : Nat) (f : User → User) : World :=
  match w.users p with
  | none => w
  | some u => w.setUser p (f u)

/-- Modelled from the spec: `findnick` (`lookup_registered_nickname(name) ->
optional record`, not among the sources); records are filed under the folded
nickname. -/
def findnick (w : World) (nick : String) : Option NickAlias := w.aliases (ci_fold nick)

/-- Modelled from the spec: `ModeManager::FindUserModeByName` ("resolve mode
descriptor by wire character or name", the mode registry is not among the
sources). -/
def FindUserModeByName (env : Env) (Name : UserModeName) : Option UserMode :=
  env.UserModes.find? (fun um => um.Name == Name)

/-- Modelled from the spec: `ModeManager::FindUserModeByChar`, see
`FindUserModeByName`. -/
def FindUserModeByChar (env : Env) (c : Char) : Option UserMode :=
  env.UserModes.find? (fun um => um.ModeChar == c)

/-! ## `User` methods -/

def User.HasMode (u : User) (Name : UserModeName) : Bool := u.modes Name

def User.GetCloakedHost (u : User) : String := u.chost

def User.GetIdent (u : User) : String := u.ident

def User.GetDisplayedHost (env : Env) (u : User) : String :=
  if env.vhost && !(u.vhost == "") then u.vhost
  else if u.HasMode .UMODE_CLOAK && !(u.GetCloakedHost == "") then u.GetCloakedHost
  else u.host

def User.Account (u : User) : Option Nat := u.nc

/-- Source `User::IsIdentified(CheckNick)`. -/
def User.IsIdentified (w : World) (u : User) (CheckNick : Bool) : Bool :=
  match CheckNick, u.nc with
  | true, some c =>
    match findnick w (w.cores c).display with
    | some na => na.nc == c
    | none => false
  | _, nc => nc.isSome

/-- Source `User::IsRecognized(CheckSecure)`. -/
def User.IsRecognized (w : World) (u : User) (CheckSecure : Bool) : Bool :=
  if CheckSecure && u.OnAccess then
    match findnick w u.nick with
    | none => false
    | some na => if !(w.cores na.nc).HasFlag .NI_SECURE then false else u.OnAccess
  else u.OnAccess

/-- Source `is_oper(user)`. -/
def is_oper (u : Option User) : Bool :=
  match u with
  | some u => u.HasMode .UMODE_OPER
  | none => false

/-- The freshly constructed object, before it is entered in the indices. -/
def User.init (snick suid : String) : User :=
  { nick := snick, uid := suid, ident := "", vident := "", host := "", vhost := "",
    chost := "", hostip := "", realname := "", server := none, nc := none,
    OnAccess := false, isSuperAdmin := 0, timestamp := 0, my_signon := 0,
    invalid_pw_count := 0, invalid_pw_time := 0, lastmemosend := 0, lastnickreg := 0,
    lastmail := 0, modes := fun _ => false, Params := fun _ => none, chans := [] }

/-- Source `new User(snick, suid)`: the constructor, at the next free address. -/
def User.new (w : World) (snick suid : String) : Except Exception Nat × World :=
  if snick = "" then
    (.error (.CoreException "what the craq, empty nick passed to constructor"), w)
  else
    let p := w.nextUser
    let w := (w.setUser p (User.init snick suid)).setNextUser (p + 1)
    let w := w.setUserListByNick (hmap_set ci_fold w.UserListByNick snick p)
    let w := if suid = "" then w
      else w.setUserListByUID (hmap_set String.data w.UserListByUID suid p)
    let w := w.setUsercnt (uint32_inc w.usercnt)
    let w := if w.usercnt > w.maxusercnt then w.setMaxusers w.usercnt w.now else w
    (.ok p, w)

/-- Source `User::SetNewNick(newnick)`. -/
def User.SetNewNick (env : Env) (w : World) (p : Nat) (newnick : String) :
    Except Exception Unit × World :=
  if newnick = "" then
    (.error (.CoreException "User::SetNewNick() got a bad argument"), w)
  else
    match w.users p with
    | none => (.ok (), w)
    | some u =>
      let w := w.setUserListByNick (hmap_erase ci_fold w.UserListByNick u.nick)
      let w := w.setUser p { u with nick := newnick }
      let w := w.setUserListByNick (hmap_set ci_fold w.UserListByNick newnick p)
      let w := w.modUser p (fun u => { u with OnAccess := false })
      let w := match findnick w newnick with
        | some na => w.modUser p (fun u => { u with OnAccess := env.is_on_access u (w.cores na.nc) })
        | none => w
      (.ok (), w)

/-- Source `User::UpdateHost()`.  The two tests of `na` are one `match`. -/
def User.UpdateHost (env : Env) (w : World) (p : Nat) : World :=
  match w.users p with
  | none => w
  | some u =>
    if u.host = "" then w
    else
      match findnick w u.nick with
      | none => w.setUser p { u with OnAccess := false }
      | some na =>
        let access := env.is_on_access { u with OnAccess := false } (w.cores na.nc)
        let u := { u with OnAccess := access }
        let w := w.setUser p u
        if User.IsIdentified w u true || User.IsRecognized w u true then
          w.setAlias (ci_fold u.nick)
            { na with last_usermask := u.GetIdent ++ "@" ++ u.GetDisplayedHost env }
        else w

/-- Source `User::SetDisplayedHost(shost)`. -/
def User.SetDisplayedHost (env : Env) (w : World) (p : Nat) (shost : String) :
    Except Exception Unit × World :=
  if shost = "" then
    (.error (.CoreException
      "empty host? in MY services? it seems it's more likely than I thought."), w)
  else
    match w.users p with
    | none => (.ok (), w)
    | some u => (.ok (), User.UpdateHost env (w.setUser p { u with vhost := shost }) p)

/-- Source `User::SetCloakedHost(newhost)`. -/
def User.SetCloakedHost (env : Env) (w : World) (p : Nat) (newhost : String) :
    Except Exception Unit × World :=
  if newhost = "" then
    (.error (.CString "empty host in User::SetCloakedHost"), w)
  else
    match w.users p with
    | none => (.ok (), w)
    | some u => (.ok (), User.UpdateHost env (w.setUser p { u with chost := newhost }) p)

/-- Source `User::SetVIdent(sident)`. -/
def User.SetVIdent (env : Env) (w : World) (p : Nat) (sident : String) : World :=
  match w.users p with
  | none => w
  | some u => User.UpdateHost env (w.setUser p { u with vident := sident }) p

/-- Source `User::SetIdent(sident)`. -/
def User.SetIdent (env : Env) (w : World) (p : Nat) (sident : String) : World :=
  match w.users p with
  | none => w
  | some u => User.UpdateHost env (w.setUser p { u with ident := sident }) p

/-- Source `User::Logout()`. -/
def User.Logout (w : World) (p : Nat) : World :=
  match w.users p with
  | none => w
  | some u =>
    match u.nc with
    | none => w
    | some c =>
      let w := w.setCore c { w.cores c with Users := (w.cores c).Users.erase p }
      w.setUser p { u with nc := none }

/-- Source `User::Login(core)`. -/
def User.Login (env : Env) (w : World) (p : Nat) (core : Nat) : World :=
  match w.users p with
  | none => w
  | some _ =>
    let w := User.Logout w p
    match w.users p with
    | none => w
    | some u =>
      let w := w.setUser p { u with nc := some core }
      let w := w.setCore core { w.cores core with Users := (w.cores core).Users ++ [p] }
      let w := User.UpdateHost env w p
      w.emit (.check_memos p)

/-- Source `User::SetModeInternal(um, Param)`; `Params.insert` keeps an entry
that is already there. -/
def User.SetModeInternal (w : World) (p : Nat) (um : Option UserMode) (Param : String) : World :=
  match um with
  | none => w
  | some um =>
    match w.users p with
    | none => w
    | some u =>
      let u := { u with modes := Function.update u.modes um.Name true }
      let u := if Param ≠ "" then
          match u.Params um.Name with
          | some _ => u
          | none => { u with Params := Function.update u.Params um.Name (some Param) }
        else u
      (w.setUser p u).emit (.OnUserModeSet p um.Name)

/-- Source `User::RemoveModeInternal(um)`. -/
def User.RemoveModeInternal (w : World) (p : Nat) (um : Option UserMode) : World :=
  match um with
  | none => w
  | some um =>
    match w.users p with
    | none => w
    | some u =>
      let u := { u with modes := Function.update u.modes um.Name false }
      let u := { u with Params := Function.update u.Params um.Name none }
      (w.setUser p u).emit (.OnUserModeUnset p um.Name)

/-- Source `User::SetMode(bi, um, Param)`. -/
def User.SetMode (w : World) (bi : String) (p : Nat) (um : Option UserMode) (Param : String) :
    World :=
  match um with
  | none => w
  | some m =>
    match w.users p with
    | none => w
    | some u =>
      if u.HasMode m.Name then w
      else
        let w := w.emit (.StackerAdd bi p m true Param)
        User.SetModeInternal w p um Param

/-- Source `User::RemoveMode(bi, um)`. -/
def User.RemoveMode (w : World) (bi : String) (p : Nat) (um : Option UserMode) : World :=
  match um with
  | none => w
  | some m =>
    match w.users p with
    | none => w
    | some u =>
      if !u.HasMode m.Name then w
      else
        let w := w.emit (.StackerAdd bi p m false "")
        User.RemoveModeInternal w p um

/-- Source `User::RemoveMode(bi, Name)`. -/
def User.RemoveModeByName (env : Env) (w : World) (bi : String) (p : Nat)
    (Name : UserModeName) : World :=
  User.RemoveMode w bi p (FindUserModeByName env Name)

/-- Modelled from the spec: `Channel::DeleteUser` (the channel membership
collaborator is not among the sources): the session leaves the channel, and
the channel leaves the session's list of back-references. -/
def Channel.DeleteUser (w : World) (c : Nat) (p : Nat) : World :=
  let w := w.setChannel c ((w.channels c).filter (fun q => !(q == p)))
  w.modUser p (fun u => { u with chans := u.chans.erase c })

/-- The loop `while (!this->chans.empty()) this->chans.front()->chan->DeleteUser(this);`
run for at most `fuel` rounds. -/
def User.leaveChannels (w : World) (p : Nat) : Nat → World
  | 0 => w
  | fuel + 1 =>
    match w.users p with
    | none => w
    | some u =>
      match u.chans with
      | [] => w
      | c :: _ => User.leaveChannels (Channel.DeleteUser w c p) p fuel

/-- Source `User::~User()`.  The channel loop gets one round per entry of
`chans`, which is what it needs (`leaveChannels_chans`). -/
def User.dtor (env : Env) (w : World) (p : Nat) : World :=
  match w.users p with
  | none => w
  | some u =>
    let w := User.Logout w p
    let w := w.emit (.OnUserLogoff p w.toState)
    let w := w.setUsercnt (uint32_dec w.usercnt)
    let w := if is_oper (w.users p) then w.setOpcnt (int32_dec w.opcnt) else w
    let w := User.leaveChannels w p u.chans.length
    let ulined := match u.server with
      | some s => env.Server_IsULined s
      | none => false
    let w := if env.LimitSessions && !ulined then w.emit (.del_session u.host) else w
    let w := w.setUserListByNick (hmap_erase ci_fold w.UserListByNick u.nick)
    let w := if u.uid = "" then w
      else w.setUserListByUID (hmap_erase String.data w.UserListByUID u.uid)
    match findnick w u.nick with
    | some _ => w.emit (.OnCancel (ci_fold u.nick) p w.toState)
    | none => w

/-- The statement `delete user`: the destructor runs, then the object is gone. -/
def User.delete (env : Env) (w : World) (p : Nat) : World :=
  (User.dtor env w p).delUser p

/-! ## Lookup and the event handlers -/

/-- Source `finduser(nick)`. -/
def finduser (env : Env) (w : World) (nick : String) : Option Nat :=
  if isdigit0 nick && env.ts6 then
    match hmap_find String.data w.UserListByUID nick with
    | some e => some e.2
    | none => none
  else
    match hmap_find ci_fold w.UserListByNick nick with
    | some e => some e.2
    | none => none

/-- The update of the registered record that `do_quit` and `do_kill` share. -/
def note_last_quit (w : World) (p : Nat) (reason : String) : World :=
  match w.users p with
  | none => w
  | some u =>
    match findnick w u.nick with
    | none => w
    | some na =>
      if !na.HasFlag .NS_FORBIDDEN && !(w.cores na.nc).HasFlag .NI_SUSPENDED
          && (User.IsRecognized w u false || User.IsIdentified w u true) then
        w.setAlias (ci_fold u.nick) { na with last_seen := w.now, last_quit := reason }
      else w

/-- Source `do_quit(source, ac, av)`; `reason` is `av[0]`. -/
def do_quit (env : Env) (w : World) (source reason : String) : World :=
  match finduser env w source with
  | none => w
  | some user =>
    let w := note_last_quit w user reason
    let w := w.emit (.OnUserQuit user reason)
    User.delete env w user

/-- Source `do_kill(nick, msg)`. -/
def do_kill (env : Env) (w : World) (nick msg : String) : World :=
  match finduser env w nick with
  | none => w
  | some user =>
    let w := note_last_quit w user msg
    User.delete env w user

/-- Source `kill_user(source, user, reason)`. -/
def kill_user (env : Env) (w : World) (source user reason : String) : World :=
  if user = "" then w
  else
    let real_source := if source = "" then env.ServerName else source
    let buf := real_source ++ " (" ++ reason ++ ")"
    let w := w.emit (.SendSVSKill source (finduser env w user) buf)
    if !env.quitonkill && (finduser env w user).isSome then do_kill env w user buf
    else w

/-- The arm of `do_nick` for `source.empty()`: a new user is introduced.
Without `ircd->nickip` the buffer `ipbuf` is never written; the embedding
reads it as the empty string. -/
def do_nick_new (env : Env) (w : World) (nick username host server realname : String)
    (ts : Int) (ip : Nat) (vhost uid : String) : Except Exception (Option Nat) × World :=
  let vhost2 := if env.nickvhost && !(vhost == "") && vhost == "*" then "" else vhost
  let ipbuf := if env.nickip then env.ntoa ip else ""
  let serv := env.Server_Find server
  match User.new w nick (if !(uid == "") then uid else "") with
  | (.error e, w) => (.error e, w)
  | (.ok user, w) =>
    let w := User.SetIdent env w user username
    let w := w.modUser user (fun u => { u with host := host })
    let w := w.modUser user (fun u => { u with server := serv })
    let w := w.modUser user (fun u => { u with realname := realname })
    let w := w.modUser user (fun u => { u with timestamp := ts })
    let w := w.modUser user (fun u => { u with my_signon := w.now })
    match (if !(vhost2 == "") then User.SetCloakedHost env w user vhost2 else (.ok (), w)) with
    | (.error e, w) => (.error e, w)
    | (.ok _, w) =>
      let w := User.SetVIdent env w user username
      let w := w.modUser user (fun u => { u with hostip := if env.nickip then ipbuf else "" })
      let w := w.emit (.OnPreUserConnect user)
      if env.OnPreUserConnect_stop w.toState user then (.ok (finduser env w nick), w)
      else
        let ulined := match serv with
          | some s => env.Server_IsULined s
          | none => false
        let w := if env.LimitSessions && !ulined then w.emit (.add_session nick host ipbuf)
          else w
        let w := w.emit (.XLineCheckAll user)
        if (finduser env w nick).isNone then (.ok none, w)
        else (.ok (some user), w.emit (.OnUserConnect user))

/-- In `do_nick`, an old user changes nick: the statements
`user->isSuperAdmin = 0;` and `user->timestamp = ts;`. -/
def do_nick_begin (w : World) (user : Nat) (ts : Int) : World :=
  let w := w.modUser user (fun u => { u with isSuperAdmin := 0 })
  w.modUser user (fun u => { u with timestamp := ts })

/-- In `do_nick`, nicks differ: the statements from `user->my_signon = time(NULL);`
up to the stamp of the old nickname's record.  `IsRecognized()` is called
without argument, which is `CheckSecure = false`. -/
def do_nick_stamp (w : World) (user : Nat) (u : User) : World :=
  let w := w.modUser user (fun u => { u with my_signon := w.now })
  match findnick w u.nick with
  | some a =>
    if some a.nc == u.Account || User.IsRecognized w u false then
      w.setAlias (ci_fold u.nick) { a with last_seen := w.now }
    else w
  | none => w

/-- In `do_nick`, nicks differ: the statements from `NickAlias *na = findnick(user->nick);`
to the end of `if (!na || na->nc != user->Account()) ... else ...`; `u` is the
object as it was before the rename, `nick` the new nickname. -/
def do_nick_recheck (env : Env) (w : World) (user : Nat) (u : User) (nick : String) : World :=
  match findnick w nick with
  | some na =>
    if !(some na.nc == u.Account) then
      let w := User.RemoveModeByName env w "NickServ" user .UMODE_REGISTERED
      let w := w.emit (.SendUnregisteredNick user)
      w.emit (.validate_user user)
    else
      let w := w.setAlias (ci_fold nick) { na with last_seen := w.now }
      let w := User.UpdateHost env w user
      let w := w.emit (.do_on_id user)
      w.emit (.SetAutoIdentificationToken user)
  | none =>
    let w := User.RemoveModeByName env w "NickServ" user .UMODE_REGISTERED
    let w := w.emit (.SendUnregisteredNick user)
    w.emit (.validate_user user)

/-- In `do_nick`, nicks differ: the statements after `user->SetNewNick(nick);`: the
module hook `OnUserNickChange`, `OnCancel` of the old record `old_na`, and the
check of the new nickname. -/
def do_nick_renamed (env : Env) (w : World) (user : Nat) (u : User) (nick : String)
    (old_na : Option NickAlias) : World :=
  let w := w.emit (.OnUserNickChange user u.nick)
  let w := match old_na with
    | some _ => w.emit (.OnCancel (ci_fold u.nick) user w.toState)
    | none => w
  do_nick_recheck env w user u nick

/-- In `do_nick`, nicks differ: the Q-line check and the `return`. -/
def do_nick_sqline (env : Env) (w : World) (user : Nat) :
    Except Exception (Option Nat) × World :=
  if env.sqline && !is_oper (w.users user) then
    let w := w.emit (.SQLineCheck user)
    if env.SQLine_Check w.toState user then (.ok none, w)
    else (.ok (some user), w)
  else (.ok (some user), w)

/-- The arm of `do_nick` for a non-empty `source`: an old user changes nick. -/
def do_nick_change (env : Env) (w : World) (source nick : String) (ts : Int) :
    Except Exception (Option Nat) × World :=
  match finduser env w source with
  | none => (.ok none, w)
  | some user =>
    match w.users user with
    | none => (.ok none, w)
    | some u =>
      let w := do_nick_begin w user ts
      if equals_ci u.nick nick then
        match User.SetNewNick env w user nick with
        | (.error e, w) => (.error e, w)
        | (.ok _, w) => (.ok (some user), w)
      else
        let old_na := findnick w u.nick
        let w := do_nick_stamp w user u
        match User.SetNewNick env w user nick with
        | (.error e, w) => (.error e, w)
        | (.ok _, w) => do_nick_sqline env (do_nick_renamed env w user u nick old_na) user

/-- Source `do_nick(source, nick, username, host, server, realname, ts, ip, vhost, uid)`. -/
def do_nick (env : Env) (w : World) (source nick username host server realname : String)
    (ts : Int) (ip : Nat) (vhost uid : String) : Except Exception (Option Nat) × World :=
  if source = "" then do_nick_new env w nick username host server realname ts ip vhost uid
  else do_nick_change env w source nick ts

/-! ## The bad-password guard (`src/actions.cpp`) -/

/-- Source `bad_password(u)`: the result is whether the user was killed.  The
declarations of `invalid_pw_count` and `BadPassLimit` are not among the
sources; both are natural numbers here. -/
def bad_password (env : Env) (w : World) (u : Option Nat) : Bool × World :=
  match u with
  | none => (false, w)
  | some p =>
    if env.BadPassLimit = 0 then (false, w)
    else
      match w.users p with
      | none => (false, w)
      | some u =>
        let u := if env.BadPassTimeout > 0 && u.invalid_pw_time > 0
            && u.invalid_pw_time < w.now - env.BadPassTimeout then
            { u with invalid_pw_count := 0 }
          else u
        let u := { u with invalid_pw_count := u.invalid_pw_count + 1 }
        let u := { u with invalid_pw_time := w.now }
        let w := w.setUser p u
        if u.invalid_pw_count ≥ env.BadPassLimit then
          (true, kill_user env w "" u.nick "Too many invalid passwords")
        else (false, w)

/-! ## Mode strings -/

/-- The loop of `User::SetModes` over the characters of `modebuf`: `add` is the
loop variable of that name (-1, 0 or 1), `toks` is what `sep` has left. -/
def User.SetModes_loop (env : Env) (bi : String) (p : Nat) :
    World → Int → List String → List Char → World
  | w, _, _, [] => w
  | w, add, toks, c :: cs =>
    if c = '+' then User.SetModes_loop env bi p w 1 toks cs
    else if c = '-' then User.SetModes_loop env bi p w 0 toks cs
    else if add = -1 then User.SetModes_loop env bi p w add toks cs
    else
      match FindUserModeByChar env c with
      | none => User.SetModes_loop env bi p w add toks cs
      | some um =>
        if add ≠ 0 then
          if um.Type_ = .MODE_PARAM then
            match toks with
            | sbuf :: toks =>
              User.SetModes_loop env bi p (User.SetMode w bi p (some um) sbuf) add toks cs
            | [] => User.SetModes_loop env bi p (User.SetMode w bi p (some um) "") add [] cs
          else User.SetModes_loop env bi p (User.SetMode w bi p (some um) "") add toks cs
        else User.SetModes_loop env bi p (User.RemoveMode w bi p (some um)) add toks cs

/-- Source `User::SetModes(bi, umodes, ...)`.  The formatting of the buffer and
`spacesepstream` are not among the sources: `tokens` are the tokens of the
formatted buffer in the order `sep.GetToken` hands them out. -/
def User.SetModes (env : Env) (w : World) (bi : String) (p : Nat) (tokens : List String) :
    World :=
  match tokens with
  | [] => w
  | modebuf :: toks => User.SetModes_loop env bi p w (-1) toks modebuf.data

/-- In `UserSetInternalModes`: the statement `switch (um->Name)`.  The call
`user->IsIdentified()` has no argument, which is `CheckNick = false`; the cases
`UMODE_CLOAK` and `UMODE_VHOST` fall through to `default`.  The statements
`++opcnt` and `--opcnt` act on an `int32`. -/
def UserSetInternalModes_switch (env : Env) (w : World) (user : Nat) (um : UserMode)
    (add : Int) : World :=
  match um.Name with
  | .UMODE_OPER =>
    if add ≠ 0 then
      let w := w.setOpcnt (int32_inc w.opcnt)
      if env.WallOper then
        match w.users user with
        | some u =>
          w.emit (.SendGlobops "OperServ" ("\x02" ++ u.nick ++ "\x02 is now an IRC operator."))
        | none => w
      else w
    else w.setOpcnt (int32_dec w.opcnt)
  | .UMODE_REGISTERED =>
    match w.users user with
    | none => w
    | some u =>
      if add ≠ 0 && !User.IsIdentified w u false then
        User.RemoveModeByName env w "NickServ" user .UMODE_REGISTERED
      else w
  | .UMODE_CLOAK | .UMODE_VHOST =>
    let w := w.modUser user
      (fun u => if add = 0 && !(u.vhost == "") then { u with vhost := "" } else u)
    User.UpdateHost env w user
  | _ => w

/-- In `UserSetInternalModes`: the statements between the two `switch`es, for a
mode `um` that was found.  The result carries the new value of `j`. -/
def UserSetInternalModes_apply (w : World) (user : Nat) (av : List String) (um : UserMode)
    (add : Int) (j : Nat) : World × Nat :=
  if um.Type_ = .MODE_REGULAR then
    (if add ≠ 0 then User.SetModeInternal w user (some um) ""
      else User.RemoveModeInternal w user (some um), j)
  else if j + 1 < av.length then
    (if add ≠ 0 then User.SetModeInternal w user (some um) (av.getD (j + 1) "")
      else User.RemoveModeInternal w user (some um), j + 1)
  else (w, j + 1)

/-- The loop of `UserSetInternalModes` over the characters of `av[0]`; `add` and
`j` are the loop variables of those names. -/
def UserSetInternalModes_loop (env : Env) (user : Nat) (av : List String) :
    World → Int → Nat → List Char → World
  | w, _, _, [] => w
  | w, add, j, c :: cs =>
    if c = '+' then UserSetInternalModes_loop env user av w 1 j cs
    else if c = '-' then UserSetInternalModes_loop env user av w 0 j cs
    else if add = -1 then UserSetInternalModes_loop env user av w add j cs
    else
      match FindUserModeByChar env c with
      | none => UserSetInternalModes_loop env user av w add j cs
      | some um =>
        let r := UserSetInternalModes_apply w user av um add j
        UserSetInternalModes_loop env user av
          (UserSetInternalModes_switch env r.1 user um add) add r.2 cs

/-- Source `UserSetInternalModes(user, ac, av)`; `ac` is the length of `av`, and
an empty `av` stands for `av[0]` being null. -/
def UserSetInternalModes (env : Env) (w : World) (user : Option Nat) (av : List String) :
    World :=
  match user, av with
  | some user, modes :: _ =>
    match w.users user with
    | none => w
    | some _ => UserSetInternalModes_loop env user av w (-1) 0 modes.data
  | _, _ => w

/-! ## Nickname collisions -/

/-- Source `na->SetFlag(f)`. -/
def NickAlias.SetFlag (na : NickAlias) (f : NickNameFlag) : NickAlias :=
  if na.HasFlag f then na else { na with flags := f :: na.flags }

/-- Modelled from the spec: `stringify` of a number ("configured prefix + random
numeric suffix"; the template is not among the sources): its decimal digits. -/
def stringify (n : Nat) : String := toString n

/-- In `User::Collide`: the loop
`do guestnick = prefix + stringify(getrandom16()); while (finduser(guestnick));`.
The random source is not among the sources: `rnd i` is what the call number `i`
of `getrandom16` returns.  The loop is run for at most `fuel` rounds; the
result is `none` when no round ended it. -/
def Collide_guestnick (env : Env) (w : World) (rnd : Nat → Nat) : Nat → Nat → Option String
  | _, 0 => none
  | i, fuel + 1 =>
    let guestnick := env.NSGuestNickPrefix ++ stringify (rnd i)
    if (finduser env w guestnick).isSome then Collide_guestnick env w rnd (i + 1) fuel
    else some guestnick

/-- In `User::Collide`: the statement `if (na) na->SetFlag(NS_COLLIDED);`; `na` is
the folded nickname the record is filed under. -/
def Collide_flag (w : World) (na : Option (List Char)) : World :=
  match na with
  | none => w
  | some k =>
    match w.aliases k with
    | none => w
    | some a => w.setAlias k (a.SetFlag .NS_COLLIDED)

/-- Source `User::Collide(na)`; `rnd` and `fuel` are those of `Collide_guestnick`. -/
def User.Collide (env : Env) (w : World) (p : Nat) (na : Option (List Char))
    (rnd : Nat → Nat) (fuel : Nat) : Option World :=
  match w.users p with
  | none => some w
  | some u =>
    let w := Collide_flag w na
    if env.svsnick then
      match Collide_guestnick env w rnd 0 fuel with
      | none => none
      | some guestnick =>
        let w := w.emit (.notice_lang env.s_NickServ p "FORCENICKCHANGE_CHANGING" guestnick)
        some (w.emit (.SendForceNickChange p guestnick w.now))
    else some (kill_user env w env.s_NickServ u.nick "Services nickname-enforcer kill")

/-! ## Vocabulary of the properties -/

/-- The statements of `User::~User()` one by one, for an object `u` at `p`. -/
def dtor_logoff (w : World) (p : Nat) : World := w.emit (.OnUserLogoff p w.toState)

/-- Statement `--usercnt;`. -/
def dtor_usercnt (w : World) : World := w.setUsercnt (uint32_dec w.usercnt)

/-- Statement `if (is_oper(this)) --opcnt;`. -/
def dtor_opcnt (w : World) (p : Nat) : World :=
  if is_oper (w.users p) then w.setOpcnt (int32_dec w.opcnt) else w

/-- Statement `if (Config->LimitSessions && !this->server->IsULined()) del_session(this->host);`. -/
def dtor_session (env : Env) (w : World) (u : User) : World :=
  if env.LimitSessions && !(match u.server with
      | some s => env.Server_IsULined s
      | none => false) then w.emit (.del_session u.host) else w

/-- Statement `UserListByNick.erase(this->nick);`. -/
def dtor_nick (w : World) (u : User) : World :=
  w.setUserListByNick (hmap_erase ci_fold w.UserListByNick u.nick)

/-- Statement `if (!this->uid.empty()) UserListByUID.erase(this->uid);`. -/
def dtor_uid (w : World) (u : User) : World :=
  if u.uid = "" then w else w.setUserListByUID (hmap_erase String.data w.UserListByUID u.uid)

/-- Statements `NickAlias *na = findnick(this->nick); if (na) na->OnCancel(this);`. -/
def dtor_cancel (w : World) (p : Nat) (u : User) : World :=
  match findnick w u.nick with
  | some _ => w.emit (.OnCancel (ci_fold u.nick) p w.toState)
  | none => w

/-- The core state after `User::Logout()` of the object `u` at `p`, written
out field by field (`Logout_eq`). -/
def afterLogout (w : World) (p : Nat) (u : User) : World :=
  { w with
    users := Function.update w.users p (some { u with nc := none }),
    cores := fun A =>
      if u.nc = some A then { w.cores A with Users := (w.cores A).Users.erase p }
      else w.cores A }

/-- The core state after the channel loop of the destructor (`leaveChannels_eq`). -/
def afterLeave (w : World) (p : Nat) (u : User) : World :=
  { w with
    users := Function.update w.users p (some { u with chans := [] }),
    channels := fun c =>
      if c ∈ u.chans then (w.channels c).filter (fun q => !(q == p)) else w.channels c }

/-- The registry operations: a session is created, renamed, destroyed. -/
inductive RegOp
  | create (nick uid : String)
  | rename (p : Nat) (newnick : String)
  | destroy (p : Nat)

def RegOp.apply (env : Env) (w : World) : RegOp → World
  | .create nick uid => (User.new w nick uid).2
  | .rename p newnick => (User.SetNewNick env w p newnick).2
  | .destroy p => User.delete env w p

def RegOp.run (env : Env) (w : World) (ops : List RegOp) : World :=
  ops.foldl (RegOp.apply env) w

/-- The two indices contain exactly the live sessions: every live session is
found under its nickname, and under its uid when it has one; every entry
leads to a live session whose stored nickname (uid) is the key of the entry. -/
structure IndicesExact (w : World) : Prop where
  nick_found : ∀ p u, w.users p = some u →
    hmap_find ci_fold w.UserListByNick u.nick = some (u.nick, p)
  uid_found : ∀ p u, w.users p = some u → u.uid ≠ "" →
    hmap_find String.data w.UserListByUID u.uid = some (u.uid, p)
  nick_entry : ∀ k p, (k, p) ∈ w.UserListByNick → ∃ u, w.users p = some u ∧ u.nick = k
  uid_entry : ∀ k p, (k, p) ∈ w.UserListByUID →
    ∃ u, w.users p = some u ∧ u.uid = k ∧ k ≠ ""

/-- Addresses from `nextUser` on hold no object. -/
def FreshAbove (w : World) : Prop := ∀ p, w.nextUser ≤ p → w.users p = none

/-- The caller has checked uniqueness: the nickname of a create or rename is
not held (case-insensitively) by another live session, and the uid of a
create is not held by a live session. -/
def RegOp.unique (w : World) : RegOp → Prop
  | .create nick uid =>
    (∀ q u, w.users q = some u → equals_ci u.nick nick = false) ∧
    (∀ q u, w.users q = some u → u.uid ≠ "" → u.uid ≠ uid)
  | .rename p newnick => ∀ q u, w.users q = some u → q ≠ p → equals_ci u.nick newnick = false
  | .destroy _ => True

/-- Every operation of the sequence meets `RegOp.unique` in the state it is
applied to. -/
def RegOp.uniqueSeq (env : Env) (w : World) : List RegOp → Prop
  | [] => True
  | op :: ops => op.unique w ∧ RegOp.uniqueSeq env (op.apply env w) ops

/-- A state with no sessions, empty indices and zero counters. -/
def World.init : World :=
  { users := fun _ => none, nextUser := 0, UserListByNick := [], UserListByUID := [],
    opcnt := 0, usercnt := 0, maxusercnt := 0, maxusertime := 0,
    cores := fun _ => { display := "", Users := [], access := [], flags := [] },
    aliases := fun _ => none, channels := fun _ => [], now := 0, log := [] }

/-- A protocol description for the examples: a TS6 network on which a kill
is not followed by a QUIT; the session is on an access list when its
`ident@host` is an entry of the list; a mask matches a text when it is "*"
or equal to the text up to case. -/
def Env.example : Env :=
  { ts6 := true, vhost := true, nickvhost := true, nickip := false, sqline := false,
    quitonkill := false, svsnick := true, LimitSessions := false, WallOper := false,
    BadPassLimit := 3, BadPassTimeout := 60, NSGuestNickPrefix := "Guest",
    s_NickServ := "NickServ", ServerName := "services.localhost.net",
    UserModes := [{ Name := .UMODE_OPER, ModeChar := 'o', Type_ := .MODE_REGULAR },
                  { Name := .UMODE_REGISTERED, ModeChar := 'r', Type_ := .MODE_REGULAR }],
    is_on_access := fun u nc => nc.access.contains (u.ident ++ "@" ++ u.host),
    Server_Find := fun _ => some 0,
    Server_IsULined := fun _ => false,
    ntoa := fun _ => "",
    OnPreUserConnect_stop := fun _ _ => false,
    SQLine_Check := fun _ _ => false,
    Match := fun str mask => mask == "*" || equals_ci str mask }

/-- The uniqueness pre-check of the caller, made on the indices. -/
def RegOp.check (w : World) : RegOp → Bool
  | .create nick uid =>
    (hmap_find ci_fold w.UserListByNick nick).isNone &&
      (uid == "" || (hmap_find String.data w.UserListByUID uid).isNone)
  | .rename p newnick =>
    match hmap_find ci_fold w.UserListByNick newnick with
    | none => true
    | some e => e.2 == p
  | .destroy _ => true

def RegOp.checkSeq (env : Env) (w : World) : List RegOp → Bool
  | [] => true
  | op :: ops => op.check w && RegOp.checkSeq env (op.apply env w) ops

/-- The account operations: a session logs in to an account, logs out, or is
destroyed. -/
inductive AcctOp
  | login (p core : Nat)
  | logout (p : Nat)
  | destroy (p : Nat)

def AcctOp.apply (env : Env) (w : World) : AcctOp → World
  | .login p core => User.Login env w p core
  | .logout p => User.Logout w p
  | .destroy p => User.delete env w p

def AcctOp.run (env : Env) (w : World) (ops : List AcctOp) : World :=
  ops.foldl (AcctOp.apply env) w

/-- The account reference of a session and the session lists of the accounts
agree: a session that refers to account `A` is in the list of `A` exactly
once, and whoever is in the list of `A` is a live session that refers to `A`. -/
structure AccountsConsistent (w : World) : Prop where
  listed : ∀ p u A, w.users p = some u → u.nc = some A → (w.cores A).Users.count p = 1
  refers : ∀ p A, p ∈ (w.cores A).Users → ∃ u, w.users p = some u ∧ u.nc = some A

/-- Every reference to the session `u` at `p` is one the session knows of:
index entries that lead to it carry its nickname and uid, it is in the list
of no account but its own (once), and in no channel but those of `chans`. -/
structure Linked (w : World) (p : Nat) (u : User) : Prop where
  byNick : ∀ k, (k, p) ∈ w.UserListByNick → ci_fold k = ci_fold u.nick
  byUID : ∀ k, (k, p) ∈ w.UserListByUID → k = u.uid ∧ u.uid ≠ ""
  account : ∀ A, p ∈ (w.cores A).Users → u.nc = some A ∧ (w.cores A).Users.count p = 1
  channel : ∀ c, p ∈ w.channels c → c ∈ u.chans

/-- No index entry, no account list and no channel leads to `p`. -/
structure Detached (s : State) (p : Nat) : Prop where
  byNick : ∀ k, (k, p) ∉ s.UserListByNick
  byUID : ∀ k, (k, p) ∉ s.UserListByUID
  account : ∀ A, p ∉ (s.cores A).Users
  channel : ∀ c, p ∉ s.channels c

/-- Is the event an invocation of `NickAlias::OnCancel`. -/
def Event.isCancel : Event → Bool
  | .OnCancel _ _ _ => true
  | _ => false

/-- The invocations of `NickAlias::OnCancel` that happened between `w` and `w1`. -/
def cancelsSince (w w1 : World) : List Event :=
  (w1.log.drop w.log.length).filter Event.isCancel

/-- Example session "bob": identified to account 7, recognized, in channel 3. -/
def User.bob : User :=
  { User.init "bob" "001AAAAAB" with
    ident := "bob", host := "example.org", server := some 0, nc := some 7, OnAccess := true,
    modes := fun m => m == .UMODE_REGISTERED, chans := [3] }

/-- Example session "amy": not logged in, on an unregistered nickname. -/
def User.amy : User :=
  { User.init "amy" "" with ident := "amy", host := "example.net", server := some 0,
                            chans := [3] }

/-- Example state: "bob" and "amy" are connected; the nicknames "bob" (account
7) and "carol" (account 8) are registered; the access lists of both accounts
hold the mask of the session "bob". -/
def World.demo : World :=
  { users := fun p => if p = 0 then some User.bob else if p = 1 then some User.amy else none,
    nextUser := 2,
    UserListByNick := [("bob", 0), ("amy", 1)],
    UserListByUID := [("001AAAAAB", 0)],
    opcnt := 0, usercnt := 2, maxusercnt := 2, maxusertime := 900,
    cores := fun A =>
      if A = 7 then { display := "bob", Users := [0], access := ["bob@example.org"], flags := [] }
      else if A = 8 then
        { display := "carol", Users := [], access := ["bob@example.org"], flags := [] }
      else { display := "", Users := [], access := [], flags := [] },
    aliases := fun k =>
      if k = ci_fold "bob" then
        some { nick := "bob", nc := 7, last_seen := 100, last_quit := "",
               last_usermask := "bob@example.org", last_realname := "", flags := [] }
      else if k = ci_fold "carol" then
        some { nick := "carol", nc := 8, last_seen := 50, last_quit := "",
               last_usermask := "", last_realname := "", flags := [] }
      else none,
    channels := fun c => if c = 3 then [0, 1] else [],
    now := 1000, log := [] }

/-- Example state: two sessions, nobody is logged in. -/
def World.lobby : World :=
  { World.init with
    users := fun p => if p = 0 then some (User.init "bob" "001AAAAAB")
      else if p = 1 then some (User.init "amy" "") else none,
    nextUser := 2,
    UserListByNick := [("bob", 0), ("amy", 1)],
    UserListByUID := [("001AAAAAB", 0)],
    usercnt := 2, maxusercnt := 2 }

/-- Between `w` and `w1` the hook `OnCancel` ran for the record of `nick` if
there is one, once, for the session `p` and in a state in which `p` is
detached; no other `OnCancel` ran. -/
def CancelRunsDetached (w w1 : World) (p : Nat) (nick : String) : Prop :=
  ∃ s, Detached s p ∧
    cancelsSince w w1 =
      if (findnick w nick).isSome then [Event.OnCancel (ci_fold nick) p s] else []

/-- Example state: as `World.demo`, after the mask of "bob" was deleted from
the access list of account 7. -/
def World.demoAccessDeleted : World :=
  World.demo.setCore 7 { display := "bob", Users := [0], access := [], flags := [] }

/-- Example state on a TS6 network: one session whose nickname is its uid, as
after a nick collision was resolved by the servers. -/
def World.uidNick : World := (User.new World.init "001AAAAAB" "001AAAAAB").2

/-- The calls `bad_password(u)` for the session at `p`, one at each time of the
list (the clock reads that time during the call); the results in the order of
the calls. -/
def bad_password_seq (env : Env) (p : Nat) : World → List Int → List Bool × World
  | w, [] => ([], w)
  | w, t :: ts =>
    let r := bad_password env (w.setNow t) (some p)
    let rs := bad_password_seq env p r.2 ts
    (r.1 :: rs.1, rs.2)

/-- The state in which the clock reads `now` and the session `u` at `p` has the
bad-password counter `c` and the last-attempt time `t0`. -/
def World.noted (w : World) (p : Nat) (u : User) (now : Int) (c : Nat) (t0 : Int) : World :=
  (w.setNow now).setUser p { u with invalid_pw_count := c, invalid_pw_time := t0 }

/-- The object after `SetModeInternal(um, Param)` for a mode of name `Name`. -/
def User.withMode (u : User) (Name : UserModeName) (Param : String) : User :=
  let u := { u with modes := Function.update u.modes Name true }
  if Param ≠ "" then
    match u.Params Name with
    | some _ => u
    | none => { u with Params := Function.update u.Params Name (some Param) }
  else u

/-- The object after `RemoveModeInternal(um)` for a mode of name `Name`. -/
def User.withoutMode (u : User) (Name : UserModeName) : User :=
  { u with modes := Function.update u.modes Name false,
           Params := Function.update u.Params Name none }

/-- A directive staged with the mode stacker. -/
structure Staged where
  u : Nat
  um : UserMode
  Set : Bool
  Param : String
deriving DecidableEq, Repr

/-- Modelled from the spec: the mode stacker (`ModeManager::StackerAdd` and the
flush are not among the sources).  The spec has it "stage a wire directive",
"batch multiple changes into one outgoing command", and "set-then-remove of
the same mode nets zero outgoing directives": a directive that undoes a
pending directive for the same session and mode takes that one back, any other
directive joins the pending ones. -/
def ModeStacker.stage (pending : List Staged) (d : Staged) : List Staged :=
  if pending.any (fun e => e.u == d.u && e.um.Name == d.um.Name && e.Set != d.Set) then
    pending.filter (fun e => !(e.u == d.u && e.um.Name == d.um.Name))
  else pending ++ [d]

/-- Modelled from the spec: the directives that the flush of the mode stacker
sends after the calls in `log`, see `ModeStacker.stage`. -/
def ModeStacker.pending (log : List Event) : List Staged :=
  log.foldl (fun acc e =>
    match e with
    | .StackerAdd _ u um s prm => ModeStacker.stage acc ⟨u, um, s, prm⟩
    | _ => acc) []

/-! The two loops over a mode string, round by round. -/

/-- What the loop of `User::SetModes` finds in `modebuf`: for each character
that names a mode, the descriptor, the value of `add`, and the parameter the
mode is set with (the next token for a parameter mode if there is one, else
the empty string). -/
def User.SetModes_scan (env : Env) : Int → List String → List Char →
    List (UserMode × Int × String)
  | _, _, [] => []
  | add, toks, c :: cs =>
    if c = '+' then User.SetModes_scan env 1 toks cs
    else if c = '-' then User.SetModes_scan env 0 toks cs
    else if add = -1 then User.SetModes_scan env add toks cs
    else
      match FindUserModeByChar env c with
      | none => User.SetModes_scan env add toks cs
      | some um =>
        if add ≠ 0 then
          if um.Type_ = .MODE_PARAM then
            match toks with
            | sbuf :: toks => (um, add, sbuf) :: User.SetModes_scan env add toks cs
            | [] => (um, add, "") :: User.SetModes_scan env add [] cs
          else (um, add, "") :: User.SetModes_scan env add toks cs
        else (um, add, "") :: User.SetModes_scan env add toks cs

/-- One round of the loop of `User::SetModes` for a mode that was found. -/
def User.SetModes_round (bi : String) (p : Nat) (w : World) (r : UserMode × Int × String) :
    World :=
  if r.2.1 ≠ 0 then User.SetMode w bi p (some r.1) r.2.2 else User.RemoveMode w bi p (some r.1)

/-- What the loop of `UserSetInternalModes` finds in `av[0]`: for each character
that names a mode, the descriptor and the values of `add` and `j` before the
round. -/
def UserSetInternalModes_scan (env : Env) : Int → Nat → List Char → List (UserMode × Int × Nat)
  | _, _, [] => []
  | add, j, c :: cs =>
    if c = '+' then UserSetInternalModes_scan env 1 j cs
    else if c = '-' then UserSetInternalModes_scan env 0 j cs
    else if add = -1 then UserSetInternalModes_scan env add j cs
    else
      match FindUserModeByChar env c with
      | none => UserSetInternalModes_scan env add j cs
      | some um =>
        (um, add, j) ::
          UserSetInternalModes_scan env add (if um.Type_ = .MODE_REGULAR then j else j + 1) cs

/-- One round of the loop of `UserSetInternalModes` for a mode that was found. -/
def UserSetInternalModes_round (env : Env) (user : Nat) (av : List String) (w : World)
    (r : UserMode × Int × Nat) : World :=
  UserSetInternalModes_switch env (UserSetInternalModes_apply w user av r.1 r.2.1 r.2.2).1
    user r.1 r.2.1

/-- The object after one round of `User::SetModes`. -/
def User.afterSet (u : User) (r : UserMode × Int × String) : User :=
  if r.2.1 ≠ 0 then (if u.HasMode r.1.Name then u else u.withMode r.1.Name r.2.2)
  else (if u.HasMode r.1.Name then u.withoutMode r.1.Name else u)

/-- The object after the statements between the two `switch`es of
`UserSetInternalModes`. -/
def User.afterApply (av : List String) (u : User) (r : UserMode × Int × Nat) : User :=
  if r.1.Type_ = .MODE_REGULAR then
    (if r.2.1 ≠ 0 then u.withMode r.1.Name "" else u.withoutMode r.1.Name)
  else if r.2.2 + 1 < av.length then
    (if r.2.1 ≠ 0 then u.withMode r.1.Name (av.getD (r.2.2 + 1) "")
      else u.withoutMode r.1.Name)
  else u

/-- The object after the statement `switch (um->Name)` of `UserSetInternalModes`,
but for `OnAccess`, which `User::UpdateHost` recomputes. -/
def User.afterSwitch (env : Env) (u : User) (r : UserMode × Int × Nat) : User :=
  match r.1.Name with
  | .UMODE_REGISTERED =>
    if r.2.1 ≠ 0 && !u.nc.isSome then
      match FindUserModeByName env .UMODE_REGISTERED with
      | some m => if u.HasMode m.Name then u.withoutMode m.Name else u
      | none => u
    else u
  | .UMODE_CLOAK | .UMODE_VHOST =>
    if r.2.1 = 0 && !(u.vhost == "") then { u with vhost := "" } else u
  | _ => u

/-- The object after one round of `UserSetInternalModes`, but for `OnAccess`. -/
def User.afterReq (env : Env) (av : List String) (u : User) (r : UserMode × Int × Nat) : User :=
  User.afterSwitch env (User.afterApply av u r) r

/-- A protocol description with a larger mode registry: operator ("o"),
registered ("r"), cloak ("x") and virtual-host ("t") mode without parameter,
and a mode "s" that takes a parameter. -/
def Env.modes : Env :=
  { Env.example with
    UserModes := [{ Name := .UMODE_OPER, ModeChar := 'o', Type_ := .MODE_REGULAR },
                  { Name := .UMODE_REGISTERED, ModeChar := 'r', Type_ := .MODE_REGULAR },
                  { Name := .UMODE_CLOAK, ModeChar := 'x', Type_ := .MODE_REGULAR },
                  { Name := .UMODE_VHOST, ModeChar := 't', Type_ := .MODE_REGULAR },
                  { Name := .UMODE_OTHER 0, ModeChar := 's', Type_ := .MODE_PARAM }] }

/-- Example session: "bob" with the cloak and the virtual-host mode set, a
cloaked host and a virtual host. -/
def User.bobCloaked : User :=
  { User.bob with
    vhost := "staff.example.org", chost := "cloak-1234.example.org",
    modes := fun m => m == .UMODE_REGISTERED || m == .UMODE_CLOAK || m == .UMODE_VHOST }

/-- Example state: as `World.demo`, with the session "bob" cloaked. -/
def World.cloaked : World := World.demo.setUser 0 User.bobCloaked

/-! The mode operations, and the operator counter. -/

/-- The mode operations on one session. -/
inductive ModeOp
  | SetMode (bi : String) (um : Option UserMode) (Param : String)
  | RemoveMode (bi : String) (um : Option UserMode)
  | SetModes (bi : String) (tokens : List String)
  | SetModeInternal (um : Option UserMode) (Param : String)
  | RemoveModeInternal (um : Option UserMode)
  | UserSetInternalModes (av : List String)

def ModeOp.apply (env : Env) (p : Nat) (w : World) : ModeOp → World
  | .SetMode bi um Param => User.SetMode w bi p um Param
  | .RemoveMode bi um => User.RemoveMode w bi p um
  | .SetModes bi tokens => User.SetModes env w bi p tokens
  | .SetModeInternal um Param => User.SetModeInternal w p um Param
  | .RemoveModeInternal um => User.RemoveModeInternal w p um
  | .UserSetInternalModes av => Anope.UserSetInternalModes env w (some p) av

def ModeOp.run (env : Env) (p : Nat) (w : World) (ops : List ModeOp) : World :=
  ops.foldl (ModeOp.apply env p) w

/-- What one round of `UserSetInternalModes` asks of the object: the mode it
sets with the parameter it hands to `SetModeInternal` (`some`), or the mode it
removes (`none`), if the round applies the mode at all; and the removal of the
mode "registered" that may follow its addition. -/
def UserSetInternalModes_asks (av : List String) (r : UserMode × Int × Nat) :
    List (UserModeName × Option String) :=
  (if r.1.Type_ = .MODE_REGULAR then [(r.1.Name, if r.2.1 ≠ 0 then some "" else none)]
    else if r.2.2 + 1 < av.length then
      [(r.1.Name, if r.2.1 ≠ 0 then some (av.getD (r.2.2 + 1) "") else none)]
    else [])
  ++ (if r.1.Name = .UMODE_REGISTERED ∧ r.2.1 ≠ 0 then [(.UMODE_REGISTERED, none)] else [])

/-- What a mode operation asks of the object: the modes it sets, each with
the parameter handed on (`some`), and the modes it removes (`none`). -/
def ModeOp.asks (env : Env) : ModeOp → List (UserModeName × Option String)
  | .SetMode _ (some m) Param => [(m.Name, some Param)]
  | .SetMode _ none _ => []
  | .RemoveMode _ (some m) => [(m.Name, none)]
  | .RemoveMode _ none => []
  | .SetModes _ [] => []
  | .SetModes _ (modebuf :: toks) =>
    (User.SetModes_scan env (-1) toks modebuf.data).map
      (fun r => (r.1.Name, if r.2.1 ≠ 0 then some r.2.2 else none))
  | .SetModeInternal (some m) Param => [(m.Name, some Param)]
  | .SetModeInternal none _ => []
  | .RemoveModeInternal (some m) => [(m.Name, none)]
  | .RemoveModeInternal none => []
  | .UserSetInternalModes [] => []
  | .UserSetInternalModes (modes :: rest) =>
    (UserSetInternalModes_scan env (-1) 0 modes.data).flatMap
      (UserSetInternalModes_asks (modes :: rest))

/-- The events that bear on the operator counter: a session connects (`do_nick`
with an empty source), a mode operation on a session, a session is destroyed
(`delete user`, as `do_quit`, `do_kill` and `kill_user` do). -/
inductive OperOp
  | connect (nick username host server realname : String) (ts : Int) (ip : Nat)
      (vhost uid : String)
  | mode (p : Nat) (op : ModeOp)
  | destroy (p : Nat)

def OperOp.apply (env : Env) (w : World) : OperOp → World
  | .connect nick username host server realname ts ip vhost uid =>
    (do_nick env w "" nick username host server realname ts ip vhost uid).2
  | .mode p op => op.apply env p w
  | .destroy p => User.delete env w p

def OperOp.run (env : Env) (w : World) (ops : List OperOp) : World :=
  ops.foldl (OperOp.apply env) w

/-- The number of live sessions that have the operator mode flag. -/
def operCount (w : World) : Nat :=
  (List.range w.nextUser).countP (fun q => is_oper (w.users q))

/-- The rounds of an inbound mode change that concern the operator mode are
changes of the flag: each of them is applied, an addition meets a session
without the flag and a removal a session with it.  `flag` is the flag of the
session before the rounds. -/
def operReal (av : List String) : Bool → List (UserMode × Int × Nat) → Prop
  | _, [] => True
  | flag, r :: rs =>
    if r.1.Name = .UMODE_OPER then
      (r.1.Type_ = .MODE_REGULAR ∨ r.2.2 + 1 < av.length) ∧ flag = decide (r.2.1 = 0) ∧
        operReal av (decide (r.2.1 ≠ 0)) rs
    else operReal av flag rs

/-- The operator mode changes with the network only: an inbound mode change
(`UserSetInternalModes`) makes changes of the flag (`operReal`), every other
mode operation asks nothing about the operator mode. -/
def OperOp.sound (env : Env) (w : World) : OperOp → Prop
  | .mode p (.UserSetInternalModes av) =>
    match w.users p, av with
    | some u, modes :: _ =>
      operReal av (u.HasMode .UMODE_OPER) (UserSetInternalModes_scan env (-1) 0 modes.data)
    | _, _ => True
  | .mode _ op => ∀ x ∈ op.asks env, x.1 ≠ .UMODE_OPER
  | _ => True

/-- Every event of the sequence meets `OperOp.sound` in the state it is
applied to. -/
def OperOp.soundSeq (env : Env) (w : World) : List OperOp → Prop
  | [] => True
  | op :: ops => op.sound env w ∧ OperOp.soundSeq env (op.apply env w) ops

/-- The operator counter, an `int32`, equals the number of operators among the
live sessions modulo `2 ^ 32`; the live sessions are all below `nextUser`. -/
def OperInv (w : World) : Prop :=
  FreshAbove w ∧ (w.opcnt - operCount w) % 4294967296 = 0 ∧
    -2147483648 ≤ w.opcnt ∧ w.opcnt ≤ 2147483647

/-- In `do_nick`, a new user is introduced: the statements from
`user->SetIdent(username);` to `user->my_signon = time(NULL);`. -/
def do_nick_new_fields (env : Env) (w : World) (user : Nat)
    (username host server realname : String) (ts : Int) : World :=
  let w := User.SetIdent env w user username
  let w := w.modUser user (fun u => { u with host := host })
  let w := w.modUser user (fun u => { u with server := env.Server_Find server })
  let w := w.modUser user (fun u => { u with realname := realname })
  let w := w.modUser user (fun u => { u with timestamp := ts })
  w.modUser user (fun u => { u with my_signon := w.now })

/-- In `do_nick`, a new user is introduced: the statements from
`user->SetVIdent(username);` to the `return`. -/
def do_nick_new_tail (env : Env) (w : World) (user : Nat) (nick username host server : String)
    (ipbuf : String) : Except Exception (Option Nat) × World :=
  let w := User.SetVIdent env w user username
  let w := w.modUser user (fun u => { u with hostip := if env.nickip then ipbuf else "" })
  let w := w.emit (.OnPreUserConnect user)
  if env.OnPreUserConnect_stop w.toState user then (.ok (finduser env w nick), w)
  else
    let ulined := match env.Server_Find server with
      | some s => env.Server_IsULined s
      | none => false
    let w := if env.LimitSessions && !ulined then w.emit (.add_session nick host ipbuf)
      else w
    let w := w.emit (.XLineCheckAll user)
    if (finduser env w nick).isNone then (.ok none, w)
    else (.ok (some user), w.emit (.OnUserConnect user))

/-- The sessions and their mode flags, the operator counter and the next free
address are the same in both states. -/
def SameModes (w w1 : World) : Prop :=
  w1.nextUser = w.nextUser ∧ w1.opcnt = w.opcnt ∧
    ∀ q, (w1.users q).map User.modes = (w.users q).map User.modes

/-! ## Masks: `match_usermask` and `create_mask`

The methods of `Anope::string` used here are those of `std::string` of the
same names; `none` stands for `npos`. -/

/-- The position of the first character of `l` that satisfies `p`. -/
def find_idx (p : Char → Bool) : List Char → Option Nat
  | [] => none
  | x :: l => if p x then some 0 else (find_idx p l).map (· + 1)

/-- Source `s.find(c, pos)`: the position of the first `c` at or after `pos`. -/
def str_find (s : String) (c : Char) (pos : Nat) : Option Nat :=
  (find_idx (· == c) (s.data.drop pos)).map (· + pos)

/-- Source `s.substr(pos, n)`: at most `n` characters from position `pos` on,
all of them for `n = npos`. -/
def str_substr (s : String) (pos : Nat) (n : Option Nat) : String :=
  match n with
  | some n => ⟨(s.data.drop pos).take n⟩
  | none => ⟨s.data.drop pos⟩

/-- Source `s.find_first_not_of(chars)`. -/
def str_find_first_not_of (s chars : String) : Option Nat :=
  find_idx (fun c => !chars.data.contains c) s.data

/-- Source `s[0]`; position 0 of an empty string holds NUL. -/
def str_front (s : String) : Char :=
  match s.data with
  | [] => Char.ofNat 0
  | c :: _ => c

/-- Source `match_usermask(mask, user)`. -/
def match_usermask (env : Env) (mask : String) (user : User) : Bool :=
  if mask = "" then false
  else
    let ex := str_find mask '!' 0
    let nick := match ex with
      | some ex => str_substr mask 0 (some ex)
      | none => ""
    let mask2 := match ex with
      | some ex => str_substr mask (ex + 1) none
      | none => mask
    let at_ := str_find mask2 '@' 0
    let username := match at_ with
      | some a => str_substr mask2 0 (some a)
      | none => ""
    let host := match at_ with
      | some a => str_substr mask2 (a + 1) none
      | none => ""
    if username = "" || host = "" then false
    else
      (if nick = "" then true else env.Match user.nick nick) &&
        env.Match user.GetIdent username &&
        (env.Match user.host host || env.Match (user.GetDisplayedHost env) host)

/-- In `create_mask`, the test for an IP address: only digits and dots, and
`find` locates a first, a second and a third dot but no fourth. -/
def create_mask_isip (mhost : String) : Bool :=
  (str_find_first_not_of mhost "0123456789.").isNone &&
    match str_find mhost '.' 0 with
    | none => false
    | some dot =>
      match str_find mhost '.' (dot + 1) with
      | none => false
      | some dot =>
        match str_find mhost '.' (dot + 1) with
        | none => false
        | some dot => (str_find mhost '.' (dot + 1)).isNone

/-- Source `create_mask(u)`. -/
def create_mask (env : Env) (u : User) : String :=
  let mident := u.GetIdent
  let mhost := u.GetDisplayedHost env
  let mask := if str_front mident = '~' then "*" ++ mident ++ "@" else mident ++ "@"
  if create_mask_isip mhost then
    mask ++ (str_substr mhost 0 (str_find mhost '.' 0) ++ ".*")
  else
    match str_find mhost '.' 0 with
    | some dot =>
      if (str_find mhost '.' (dot + 1)).isSome then mask ++ ("*" ++ str_substr mhost dot none)
      else mask ++ mhost
    | none => mask ++ mhost

/-! ## Vocabulary for the statements about the hooks, the checks and the masks -/

/-- The session that an invocation of `NickAlias::OnCancel` receives as its
argument. -/
def Event.cancelArg : Event → Option Nat
  | .OnCancel _ u _ => some u
  | _ => none

/-- The core state in which an invocation of the hook `OnUserLogoff` runs. -/
def Event.logoffState : Event → Option State
  | .OnUserLogoff _ s => some s
  | _ => none

/-- Example state: as `World.demo`, with the secure option of account 7 on. -/
def World.demoSecure : World :=
  World.demo.setCore 7
    { display := "bob", Users := [0], access := ["bob@example.org"], flags := [.NI_SECURE] }

/-- A dotted IPv4 address: only digits and dots, and exactly three dots. -/
def isDottedIPv4 (s : String) : Bool :=
  s.data.all (fun c => "0123456789.".data.contains c) && s.data.count '.' == 3

/-- The dot-separated parts of a host name. -/
def dotParts (s : String) : List (List Char) := s.data.splitOn '.'

/-- The host name with its leftmost dot-separated part replaced by "*". -/
def starLeftmost (s : String) : String :=
  ⟨['.'].intercalate (['*'] :: (dotParts s).tail)⟩

/-! ## The news list (`src/modules/core/os_news.cpp`) -/

/-- The values of the enumeration `NewsType` that the module names; the
declaration is not among the sources, `NEWS_OTHER n` stands for any other
value `n` of the type. -/
inductive NewsType
  | NEWS_LOGON
  | NEWS_RANDOM
  | NEWS_OPER
  | NEWS_OTHER (n : Nat)
deriving DecidableEq, Repr

/-- A news item; the declaration of `NewsItem` is not among the sources, the
fields are those the module reads and writes.  The number `num` is an
unsigned 32-bit value: the module compares it with an `unsigned` and the
reader of the database stores a `convertTo<unsigned>` in it. -/
structure NewsItem where
  type : NewsType
  num : Nat
  Text : String
  time : Int
  who : String
deriving DecidableEq, Repr

/-- What the news commands read from the configuration and from helpers that
are not among the sources. -/
structure NewsEnv where
  /-- Setting `Config->NewsCount`. -/
  NewsCount : Nat
  /-- The global `readonly`. -/
  readonly : Bool
  /-- Method `Anope::string::is_pos_number_only()`. -/
  is_pos_number_only : String → Bool
  /-- Template `convertTo<unsigned>(text)`. -/
  convertTo : String → Nat

/-- What a call of `DisplayNews` leaves behind: the items it sent to the user
with `notice_lang`, in the order of sending, and the value of the static
variable `current_news`. -/
structure NewsShown where
  sent : List NewsItem
  current_news : Nat
deriving DecidableEq, Repr

/-- In `DisplayNews`, the `for` loop from the test `i < end` on, with the values
of `i`, `displayed` and `NewsExists` and the items sent so far.  Each pass
through the body takes one unit of `fuel`; the result is `none` when the fuel
is used up before the function returns.  Where an item was sent `NewsExists`
has just been set, so the reset test after it is written without it. -/
def DisplayNews_loop (nenv : NewsEnv) (News : List NewsItem) (Type_ : NewsType)
    (current_news : Nat) :
    Nat → Nat → Nat → Bool → List NewsItem → Option NewsShown
  | 0, _, _, _, _ => none
  | fuel + 1, i, displayed, NewsExists, sent =>
    if h : i < News.length then
      if News[i].type = Type_ then
        if Type_ = .NEWS_RANDOM ∧ i = current_news then
          DisplayNews_loop nenv News Type_ current_news fuel (i + 1) displayed true sent
        else
          if Type_ = .NEWS_RANDOM then some ⟨sent ++ [News[i]], i⟩
          else if displayed + 1 ≥ nenv.NewsCount then some ⟨sent ++ [News[i]], current_news⟩
          else
            DisplayNews_loop nenv News Type_ current_news fuel
              ((if i + 1 = News.length ∧ Type_ = .NEWS_RANDOM then 0 else i) + 1)
              (displayed + 1) true (sent ++ [News[i]])
      else
        DisplayNews_loop nenv News Type_ current_news fuel
          ((if i + 1 = News.length ∧ Type_ = .NEWS_RANDOM ∧ NewsExists = true then 0 else i) + 1)
          displayed NewsExists sent
    else some ⟨sent, current_news⟩

/-- Source `DisplayNews(u, Type)`, for the list `News` and the value
`current_news` of its static variable; the user `u` is only the addressee of
the notices. -/
def DisplayNews (nenv : NewsEnv) (News : List NewsItem) (current_news : Nat) (Type_ : NewsType)
    (fuel : Nat) : Except Exception (Option NewsShown) :=
  match Type_ with
  | .NEWS_OTHER n =>
    .error (.CoreException ("news: Invalid type (" ++ stringify n ++ ") to display_news()"))
  | _ => .ok (DisplayNews_loop nenv News Type_ current_news fuel 0 0 false [])

/-- In `add_newsitem`, the loop `for (unsigned i = News.size(); i > 0; --i)`
from the value `i` on: the value of the local `int num` after it, which is the
number of the last item of the type below `i` read into an `int`, and 0 when
there is none. -/
def add_newsitem_loop (News : List NewsItem) (type : NewsType) : Nat → Int
  | 0 => 0
  | i + 1 =>
    match News[i]? with
    | some item =>
      if item.type = type then int32_of_uint32 item.num else add_newsitem_loop News type i
    | none => add_newsitem_loop News type i

/-- Source `add_newsitem(u, text, type)`: the `int` it returns and the list
after the call; `CurTime` is `Anope::CurTime`.  The sum `num + 1` is computed
on the `int`, where it wraps, and stored into the unsigned field of the new
item. -/
def add_newsitem (News : List NewsItem) (CurTime : Int) (u : User) (text : String)
    (type : NewsType) : Int × List NewsItem :=
  let num := add_newsitem_loop News type News.length
  let news : NewsItem :=
    { type := type, num := uint32_of_int32 (int32_inc num), Text := text, time := CurTime,
      who := u.nick }
  (int32_inc num, News ++ [news])

/-- In `del_newsitem`, the loop `for (unsigned i = News.size(); i > 0; --i)`
from the value `i` on, with the list and the count so far. -/
def del_newsitem_loop (num : Nat) (type : NewsType) :
    Nat → List NewsItem → Nat → Nat × List NewsItem
  | 0, News, count => (count, News)
  | i + 1, News, count =>
    match News[i]? with
    | some item =>
      if item.type = type ∧ (num = 0 ∨ item.num = num) then
        del_newsitem_loop num type i (News.eraseIdx i) (count + 1)
      else del_newsitem_loop num type i News count
    | none => del_newsitem_loop num type i News count

/-- Source `del_newsitem(num, type)`: the count it returns and the list after
the call. -/
def del_newsitem (News : List NewsItem) (num : Nat) (type : NewsType) : Nat × List NewsItem :=
  del_newsitem_loop num type News.length News 0

/-- The answers of `NewsBase::DoDel` to the user. -/
inductive NewsReply
  | OnSyntaxError (subcommand : String)
  | READ_ONLY_MODE
  | MSG_DELETED (num : Nat)
  | MSG_DEL_NOT_FOUND (num : Nat)
  | MSG_DELETED_ALL
  | MSG_DEL_NONE
deriving DecidableEq, Repr

/-- In `NewsBase::DoDel`, the loop that renumbers the items of the type whose
number is above `num`. -/
def DoDel_renumber (News : List NewsItem) (type : NewsType) (num : Nat) : List NewsItem :=
  News.map (fun item =>
    if item.type = type ∧ item.num > num then { item with num := item.num - 1 } else item)

/-- Source `NewsBase::DoDel(u, params, type, msgs)`: the answer sent to the
user and the list after the call. -/
def DoDel (nenv : NewsEnv) (News : List NewsItem) (params : List String) (type : NewsType) :
    NewsReply × List NewsItem :=
  let text := if params.length > 1 then params.getD 1 "" else ""
  if text = "" then (.OnSyntaxError "DEL", News)
  else if nenv.readonly then (.READ_ONLY_MODE, News)
  else if !equals_ci text "ALL" then
    let num := if nenv.is_pos_number_only text then nenv.convertTo text else 0
    if num > 0 then
      let r := del_newsitem News num type
      if r.1 ≠ 0 then (.MSG_DELETED num, DoDel_renumber r.2 type num)
      else (.MSG_DEL_NOT_FOUND num, r.2)
    else (.MSG_DEL_NOT_FOUND num, News)
  else
    let r := del_newsitem News 0 type
    if r.1 ≠ 0 then (.MSG_DELETED_ALL, r.2) else (.MSG_DEL_NONE, r.2)

/-! ## Vocabulary for the statements about the news list -/

/-- The numbers of the items of a type, in list order. -/
def newsNums (News : List NewsItem) (type : NewsType) : List Nat :=
  (News.filter (fun item => item.type == type)).map (fun item => item.num)

/-- For every news type the items of that type are numbered 1..k in list
order. -/
def Numbered (News : List NewsItem) : Prop :=
  ∀ type, newsNums News type = List.range' 1 (newsNums News type).length

/-- The items of the other types, in list order. -/
def otherNews (News : List NewsItem) (type : NewsType) : List NewsItem :=
  News.filter (fun item => !(item.type == type))

/-- Example configuration of the news commands: three items are shown at a
time, numbers are read in decimal. -/
def NewsEnv.example : NewsEnv :=
  { NewsCount := 3, readonly := false,
    is_pos_number_only := fun s => !(s == "") && s.data.all Char.isDigit,
    convertTo := fun s => s.data.foldl (fun n c => 10 * n + (c.toNat - 48)) 0 }

/-- Example list: what `RANDOMNEWS ADD` followed by `LOGONNEWS ADD` leave in an
empty list. -/
def News.twoItems : List NewsItem :=
  (add_newsitem (add_newsitem [] 1000 User.bob "Welcome" .NEWS_RANDOM).2 1001 User.bob
    "Maintenance tonight" .NEWS_LOGON).2

/-- Example list: three logon items with a random item between them. -/
def News.fourItems : List NewsItem :=
  [{ type := .NEWS_LOGON, num := 1, Text := "a", time := 1, who := "bob" },
   { type := .NEWS_RANDOM, num := 1, Text := "r", time := 2, who := "bob" },
   { type := .NEWS_LOGON, num := 2, Text := "b", time := 3, who := "bob" },
   { type := .NEWS_LOGON, num := 3, Text := "c", time := 4, who := "amy" }]

/-! # Theorems -/

/-! ## Reading a field after an assignment -/

@[simp]
theorem emit_users (w : World) (e : Event) :
    (w.emit e).users = w.users := rfl

@[simp]
theorem emit_nextUser (w : World) (e : Event) :
    (w.emit e).nextUser = w.nextUser := rfl

@[simp]
theorem emit_UserListByNick (w : World) (e : Event) :
    (w.emit e).UserListByNick = w.UserListByNick := rfl

@[simp]
theorem emit_UserListByUID (w : World) (e : Event) :
    (w.emit e).UserListByUID = w.UserListByUID := rfl

@[simp]
theorem emit_opcnt (w : World) (e : Event) :
    (w.emit e).opcnt = w.opcnt := rfl

@[simp]
theorem emit_usercnt (w : World) (e : Event) :
    (w.emit e).usercnt = w.usercnt := rfl

@[simp]
theorem emit_maxusercnt (w : World) (e : Event) :
    (w.emit e).maxusercnt = w.maxusercnt := rfl

@[simp]
theorem emit_maxusertime (w : World) (e : Event) :
    (w.emit e).maxusertime = w.maxusertime := rfl

@[simp]
theorem emit_cores (w : World) (e : Event) :
    (w.emit e).cores = w.cores := rfl

@[simp]
theorem emit_aliases (w : World) (e : Event) :
    (w.emit e).aliases = w.aliases := rfl

@[simp]
theorem emit_channels (w : World) (e : Event) :
    (w.emit e).channels = w.channels := rfl

@[simp]
theorem emit_now (w : World) (e : Event) :
    (w.emit e).now = w.now := rfl

@[simp]
theorem emit_log (w : World) (e : Event) :
    (w.emit e).log = w.log ++ [e] := rfl

@[simp]
theorem setUser_users (w : World) (p : Nat) (u : User) :
    (w.setUser p u).users = Function.update w.users p (some u) := rfl

@[simp]
theorem setUser_nextUser (w : World) (p : Nat) (u : User) :
    (w.setUser p u).nextUser = w.nextUser := rfl

@[simp]
theorem setUser_UserListByNick (w : World) (p : Nat) (u : User) :
    (w.setUser p u).UserListByNick = w.UserListByNick := rfl

@[simp]
theorem setUser_UserListByUID (w : World) (p : Nat) (u : User) :
    (w.setUser p u).UserListByUID = w.UserListByUID := rfl

@[simp]
theorem setUser_opcnt (w : World) (p : Nat) (u : User) :
    (w.setUser p u).opcnt = w.opcnt := rfl

@[simp]
theorem setUser_usercnt (w : World) (p : Nat) (u : User) :
    (w.setUser p u).usercnt = w.usercnt := rfl

@[simp]
theorem setUser_maxusercnt (w : World) (p : Nat) (u : User) :
    (w.setUser p u).maxusercnt = w.maxusercnt := rfl

@[simp]
theorem setUser_maxusertime (w : World) (p : Nat) (u : User) :
    (w.setUser p u).maxusertime = w.maxusertime := rfl

@[simp]
theorem setUser_cores (w : World) (p : Nat) (u : User) :
    (w.setUser p u).cores = w.cores := rfl

@[simp]
theorem setUser_aliases (w : World) (p : Nat) (u : User) :
    (w.setUser p u).aliases = w.aliases := rfl

@[simp]
theorem setUser_channels (w : World) (p : Nat) (u : User) :
    (w.setUser p u).channels = w.channels := rfl

@[simp]
theorem setUser_now (w : World) (p : Nat) (u : User) :
    (w.setUser p u).now = w.now := rfl

@[simp]
theorem setUser_log (w : World) (p : Nat) (u : User) :
    (w.setUser p u).log = w.log := rfl

@[simp]
theorem delUser_users (w : World) (p : Nat) :
    (w.delUser p).users = Function.update w.users p none := rfl

@[simp]
theorem delUser_nextUser (w : World) (p : Nat) :
    (w.delUser p).nextUser = w.nextUser := rfl

@[simp]
theorem delUser_UserListByNick (w : World) (p : Nat) :
    (w.delUser p).UserListByNick = w.UserListByNick := rfl

@[simp]
theorem delUser_UserListByUID (w : World) (p : Nat) :
    (w.delUser p).UserListByUID = w.UserListByUID := rfl

@[simp]
theorem delUser_opcnt (w : World) (p : Nat) :
    (w.delUser p).opcnt = w.opcnt := rfl

@[simp]
theorem delUser_usercnt (w : World) (p : Nat) :
    (w.delUser p).usercnt = w.usercnt := rfl

@[simp]
theorem delUser_maxusercnt (w : World) (p : Nat) :
    (w.delUser p).maxusercnt = w.maxusercnt := rfl

@[simp]
theorem delUser_maxusertime (w : World) (p : Nat) :
    (w.delUser p).maxusertime = w.maxusertime := rfl

@[simp]
theorem delUser_cores (w : World) (p : Nat) :
    (w.delUser p).cores = w.cores := rfl

@[simp]
theorem delUser_aliases (w : World) (p : Nat) :
    (w.delUser p).aliases = w.aliases := rfl

@[simp]
theorem delUser_channels (w : World) (p : Nat) :
    (w.delUser p).channels = w.channels := rfl

@[simp]
theorem delUser_now (w : World) (p : Nat) :
    (w.delUser p).now = w.now := rfl

@[simp]
theorem delUser_log (w : World) (p : Nat) :
    (w.delUser p).log = w.log := rfl

@[simp]
theorem setNextUser_users (w : World) (n : Nat) :
    (w.setNextUser n).users = w.users := rfl

@[simp]
theorem setNextUser_nextUser (w : World) (n : Nat) :
    (w.setNextUser n).nextUser = n := rfl

@[simp]
theorem setNextUser_UserListByNick (w : World) (n : Nat) :
    (w.setNextUser n).UserListByNick = w.UserListByNick := rfl

@[simp]
theorem setNextUser_UserListByUID (w : World) (n : Nat) :
    (w.setNextUser n).UserListByUID = w.UserListByUID := rfl

@[simp]
theorem setNextUser_opcnt (w : World) (n : Nat) :
    (w.setNextUser n).opcnt = w.opcnt := rfl

@[simp]
theorem setNextUser_usercnt (w : World) (n : Nat) :
    (w.setNextUser n).usercnt = w.usercnt := rfl

@[simp]
theorem setNextUser_maxusercnt (w : World) (n : Nat) :
    (w.setNextUser n).maxusercnt = w.maxusercnt := rfl

@[simp]
theorem setNextUser_maxusertime (w : World) (n : Nat) :
    (w.setNextUser n).maxusertime = w.maxusertime := rfl

@[simp]
theorem setNextUser_cores (w : World) (n : Nat) :
    (w.setNextUser n).cores = w.cores := rfl

@[simp]
theorem setNextUser_aliases (w : World) (n : Nat) :
    (w.setNextUser n).aliases = w.aliases := rfl

@[simp]
theorem setNextUser_channels (w : World) (n : Nat) :
    (w.setNextUser n).channels = w.channels := rfl

@[simp]
theorem setNextUser_now (w : World) (n : Nat) :
    (w.setNextUser n).now = w.now := rfl

@[simp]
theorem setNextUser_log (w : World) (n : Nat) :
    (w.setNextUser n).log = w.log := rfl

@[simp]
theorem setUserListByNick_users (w : World) (m : List (String × Nat)) :
    (w.setUserListByNick m).users = w.users := rfl

@[simp]
theorem setUserListByNick_nextUser (w : World) (m : List (String × Nat)) :
    (w.setUserListByNick m).nextUser = w.nextUser := rfl

@[simp]
theorem setUserListByNick_UserListByNick (w : World) (m : List (String × Nat)) :
    (w.setUserListByNick m).UserListByNick = m := rfl

@[simp]
theorem setUserListByNick_UserListByUID (w : World) (m : List (String × Nat)) :
    (w.setUserListByNick m).UserListByUID = w.UserListByUID := rfl

@[simp]
theorem setUserListByNick_opcnt (w : World) (m : List (String × Nat)) :
    (w.setUserListByNick m).opcnt = w.opcnt := rfl

@[simp]
theorem setUserListByNick_usercnt (w : World) (m : List (String × Nat)) :
    (w.setUserListByNick m).usercnt = w.usercnt := rfl

@[simp]
theorem setUserListByNick_maxusercnt (w : World) (m : List (String × Nat)) :
    (w.setUserListByNick m).maxusercnt = w.maxusercnt := rfl

@[simp]
theorem setUserListByNick_maxusertime (w : World) (m : List (String × Nat)) :
    (w.setUserListByNick m).maxusertime = w.maxusertime := rfl

@[simp]
theorem setUserListByNick_cores (w : World) (m : List (String × Nat)) :
    (w.setUserListByNick m).cores = w.cores := rfl

@[simp]
theorem setUserListByNick_aliases (w : World) (m : List (String × Nat)) :
    (w.setUserListByNick m).aliases = w.aliases := rfl

@[simp]
theorem setUserListByNick_channels (w : World) (m : List (String × Nat)) :
    (w.setUserListByNick m).channels = w.channels := rfl

@[simp]
theorem setUserListByNick_now (w : World) (m : List (String × Nat)) :
    (w.setUserListByNick m).now = w.now := rfl

@[simp]
theorem setUserListByNick_log (w : World) (m : List (String × Nat)) :
    (w.setUserListByNick m).log = w.log := rfl

@[simp]
theorem setUserListByUID_users (w : World) (m : List (String × Nat)) :
    (w.setUserListByUID m).users = w.users := rfl

@[simp]
theorem setUserListByUID_nextUser (w : World) (m : List (String × Nat)) :
    (w.setUserListByUID m).nextUser = w.nextUser := rfl

@[simp]
theorem setUserListByUID_UserListByNick (w : World) (m : List (String × Nat)) :
    (w.setUserListByUID m).UserListByNick = w.UserListByNick := rfl

@[simp]
theorem setUserListByUID_UserListByUID (w : World) (m : List (String × Nat)) :
    (w.setUserListByUID m).UserListByUID = m := rfl

@[simp]
theorem setUserListByUID_opcnt (w : World) (m : List (String × Nat)) :
    (w.setUserListByUID m).opcnt = w.opcnt := rfl

@[simp]
theorem setUserListByUID_usercnt (w : World) (m : List (String × Nat)) :
    (w.setUserListByUID m).usercnt = w.usercnt := rfl

@[simp]
theorem setUserListByUID_maxusercnt (w : World) (m : List (String × Nat)) :
    (w.setUserListByUID m).maxusercnt = w.maxusercnt := rfl

@[simp]
theorem setUserListByUID_maxusertime (w : World) (m : List (String × Nat)) :
    (w.setUserListByUID m).maxusertime = w.maxusertime := rfl

@[simp]
theorem setUserListByUID_cores (w : World) (m : List (String × Nat)) :
    (w.setUserListByUID m).cores = w.cores := rfl

@[simp]
theorem setUserListByUID_aliases (w : World) (m : List (String × Nat)) :
    (w.setUserListByUID m).aliases = w.aliases := rfl

@[simp]
theorem setUserListByUID_channels (w : World) (m : List (String × Nat)) :
    (w.setUserListByUID m).channels = w.channels := rfl

@[simp]
theorem setUserListByUID_now (w : World) (m : List (String × Nat)) :
    (w.setUserListByUID m).now = w.now := rfl

@[simp]
theorem setUserListByUID_log (w : World) (m : List (String × Nat)) :
    (w.setUserListByUID m).log = w.log := rfl

@[simp]
theorem setOpcnt_users (w : World) (n : Int) :
    (w.setOpcnt n).users = w.users := rfl

@[simp]
theorem setOpcnt_nextUser (w : World) (n : Int) :
    (w.setOpcnt n).nextUser = w.nextUser := rfl

@[simp]
theorem setOpcnt_UserListByNick (w : World) (n : Int) :
    (w.setOpcnt n).UserListByNick = w.UserListByNick := rfl

@[simp]
theorem setOpcnt_UserListByUID (w : World) (n : Int) :
    (w.setOpcnt n).UserListByUID = w.UserListByUID := rfl

@[simp]
theorem setOpcnt_opcnt (w : World) (n : Int) :
    (w.setOpcnt n).opcnt = n := rfl

@[simp]
theorem setOpcnt_usercnt (w : World) (n : Int) :
    (w.setOpcnt n).usercnt = w.usercnt := rfl

@[simp]
theorem setOpcnt_maxusercnt (w : World) (n : Int) :
    (w.setOpcnt n).maxusercnt = w.maxusercnt := rfl

@[simp]
theorem setOpcnt_maxusertime (w : World) (n : Int) :
    (w.setOpcnt n).maxusertime = w.maxusertime := rfl

@[simp]
theorem setOpcnt_cores (w : World) (n : Int) :
    (w.setOpcnt n).cores = w.cores := rfl

@[simp]
theorem setOpcnt_aliases (w : World) (n : Int) :
    (w.setOpcnt n).aliases = w.aliases := rfl

@[simp]
theorem setOpcnt_channels (w : World) (n : Int) :
    (w.setOpcnt n).channels = w.channels := rfl

@[simp]
theorem setOpcnt_now (w : World) (n : Int) :
    (w.setOpcnt n).now = w.now := rfl

@[simp]
theorem setOpcnt_log (w : World) (n : Int) :
    (w.setOpcnt n).log = w.log := rfl

@[simp]
theorem setUsercnt_users (w : World) (n : Nat) :
    (w.setUsercnt n).users = w.users := rfl

@[simp]
theorem setUsercnt_nextUser (w : World) (n : Nat) :
    (w.setUsercnt n).nextUser = w.nextUser := rfl

@[simp]
theorem setUsercnt_UserListByNick (w : World) (n : Nat) :
    (w.setUsercnt n).UserListByNick = w.UserListByNick := rfl

@[simp]
theorem setUsercnt_UserListByUID (w : World) (n : Nat) :
    (w.setUsercnt n).UserListByUID = w.UserListByUID := rfl

@[simp]
theorem setUsercnt_opcnt (w : World) (n : Nat) :
    (w.setUsercnt n).opcnt = w.opcnt := rfl

@[simp]
theorem setUsercnt_usercnt (w : World) (n : Nat) :
    (w.setUsercnt n).usercnt = n := rfl

@[simp]
theorem setUsercnt_maxusercnt (w : World) (n : Nat) :
    (w.setUsercnt n).maxusercnt = w.maxusercnt := rfl

@[simp]
theorem setUsercnt_maxusertime (w : World) (n : Nat) :
    (w.setUsercnt n).maxusertime = w.maxusertime := rfl

@[simp]
theorem setUsercnt_cores (w : World) (n : Nat) :
    (w.setUsercnt n).cores = w.cores := rfl

@[simp]
theorem setUsercnt_aliases (w : World) (n : Nat) :
    (w.setUsercnt n).aliases = w.aliases := rfl

@[simp]
theorem setUsercnt_channels (w : World) (n : Nat) :
    (w.setUsercnt n).channels = w.channels := rfl

@[simp]
theorem setUsercnt_now (w : World) (n : Nat) :
    (w.setUsercnt n).now = w.now := rfl

@[simp]
theorem setUsercnt_log (w : World) (n : Nat) :
    (w.setUsercnt n).log = w.log := rfl

@[simp]
theorem setMaxusers_users (w : World) (n : Nat) (t : Int) :
    (w.setMaxusers n t).users = w.users := rfl

@[simp]
theorem setMaxusers_nextUser (w : World) (n : Nat) (t : Int) :
    (w.setMaxusers n t).nextUser = w.nextUser := rfl

@[simp]
theorem setMaxusers_UserListByNick (w : World) (n : Nat) (t : Int) :
    (w.setMaxusers n t).UserListByNick = w.UserListByNick := rfl

@[simp]
theorem setMaxusers_UserListByUID (w : World) (n : Nat) (t : Int) :
    (w.setMaxusers n t).UserListByUID = w.UserListByUID := rfl

@[simp]
theorem setMaxusers_opcnt (w : World) (n : Nat) (t : Int) :
    (w.setMaxusers n t).opcnt = w.opcnt := rfl

@[simp]
theorem setMaxusers_usercnt (w : World) (n : Nat) (t : Int) :
    (w.setMaxusers n t).usercnt = w.usercnt := rfl

@[simp]
theorem setMaxusers_maxusercnt (w : World) (n : Nat) (t : Int) :
    (w.setMaxusers n t).maxusercnt = n := rfl

@[simp]
theorem setMaxusers_maxusertime (w : World) (n : Nat) (t : Int) :
    (w.setMaxusers n t).maxusertime = t := rfl

@[simp]
theorem setMaxusers_cores (w : World) (n : Nat) (t : Int) :
    (w.setMaxusers n t).cores = w.cores := rfl

@[simp]
theorem setMaxusers_aliases (w : World) (n : Nat) (t : Int) :
    (w.setMaxusers n t).aliases = w.aliases := rfl

@[simp]
theorem setMaxusers_channels (w : World) (n : Nat) (t : Int) :
    (w.setMaxusers n t).channels = w.channels := rfl

@[simp]
theorem setMaxusers_now (w : World) (n : Nat) (t : Int) :
    (w.setMaxusers n t).now = w.now := rfl

@[simp]
theorem setMaxusers_log (w : World) (n : Nat) (t : Int) :
    (w.setMaxusers n t).log = w.log := rfl

@[simp]
theorem setCore_users (w : World) (c : Nat) (nc : NickCore) :
    (w.setCore c nc).users = w.users := rfl

@[simp]
theorem setCore_nextUser (w : World) (c : Nat) (nc : NickCore) :
    (w.setCore c nc).nextUser = w.nextUser := rfl

@[simp]
theorem setCore_UserListByNick (w : World) (c : Nat) (nc : NickCore) :
    (w.setCore c nc).UserListByNick = w.UserListByNick := rfl

@[simp]
theorem setCore_UserListByUID (w : World) (c : Nat) (nc : NickCore) :
    (w.setCore c nc).UserListByUID = w.UserListByUID := rfl

@[simp]
theorem setCore_opcnt (w : World) (c : Nat) (nc : NickCore) :
    (w.setCore c nc).opcnt = w.opcnt := rfl

@[simp]
theorem setCore_usercnt (w : World) (c : Nat) (nc : NickCore) :
    (w.setCore c nc).usercnt = w.usercnt := rfl

@[simp]
theorem setCore_maxusercnt (w : World) (c : Nat) (nc : NickCore) :
    (w.setCore c nc).maxusercnt = w.maxusercnt := rfl

@[simp]
theorem setCore_maxusertime (w : World) (c : Nat) (nc : NickCore) :
    (w.setCore c nc).maxusertime = w.maxusertime := rfl

@[simp]
theorem setCore_cores (w : World) (c : Nat) (nc : NickCore) :
    (w.setCore c nc).cores = Function.update w.cores c nc := rfl

@[simp]
theorem setCore_aliases (w : World) (c : Nat) (nc : NickCore) :
    (w.setCore c nc).aliases = w.aliases := rfl

@[simp]
theorem setCore_channels (w : World) (c : Nat) (nc : NickCore) :
    (w.setCore c nc).channels = w.channels := rfl

@[simp]
theorem setCore_now (w : World) (c : Nat) (nc : NickCore) :
    (w.setCore c nc).now = w.now := rfl

@[simp]
theorem setCore_log (w : World) (c : Nat) (nc : NickCore) :
    (w.setCore c nc).log = w.log := rfl

@[simp]
theorem setAlias_users (w : World) (k : List Char) (na : NickAlias) :
    (w.setAlias k na).users = w.users := rfl

@[simp]
theorem setAlias_nextUser (w : World) (k : List Char) (na : NickAlias) :
    (w.setAlias k na).nextUser = w.nextUser := rfl

@[simp]
theorem setAlias_UserListByNick (w : World) (k : List Char) (na : NickAlias) :
    (w.setAlias k na).UserListByNick = w.UserListByNick := rfl

@[simp]
theorem setAlias_UserListByUID (w : World) (k : List Char) (na : NickAlias) :
    (w.setAlias k na).UserListByUID = w.UserListByUID := rfl

@[simp]
theorem setAlias_opcnt (w : World) (k : List Char) (na : NickAlias) :
    (w.setAlias k na).opcnt = w.opcnt := rfl

@[simp]
theorem setAlias_usercnt (w : World) (k : List Char) (na : NickAlias) :
    (w.setAlias k na).usercnt = w.usercnt := rfl

@[simp]
theorem setAlias_maxusercnt (w : World) (k : List Char) (na : NickAlias) :
    (w.setAlias k na).maxusercnt = w.maxusercnt := rfl

@[simp]
theorem setAlias_maxusertime (w : World) (k : List Char) (na : NickAlias) :
    (w.setAlias k na).maxusertime = w.maxusertime := rfl

@[simp]
theorem setAlias_cores (w : World) (k : List Char) (na : NickAlias) :
    (w.setAlias k na).cores = w.cores := rfl

@[simp]
theorem setAlias_aliases (w : World) (k : List Char) (na : NickAlias) :
    (w.setAlias k na).aliases = Function.update w.aliases k (some na) := rfl

@[simp]
theorem setAlias_channels (w : World) (k : List Char) (na : NickAlias) :
    (w.setAlias k na).channels = w.channels := rfl

@[simp]
theorem setAlias_now (w : World) (k : List Char) (na : NickAlias) :
    (w.setAlias k na).now = w.now := rfl

@[simp]
theorem setAlias_log (w : World) (k : List Char) (na : NickAlias) :
    (w.setAlias k na).log = w.log := rfl

@[simp]
theorem setChannel_users (w : World) (c : Nat) (l : List Nat) :
    (w.setChannel c l).users = w.users := rfl

@[simp]
theorem setChannel_nextUser (w : World) (c : Nat) (l : List Nat) :
    (w.setChannel c l).nextUser = w.nextUser := rfl

@[simp]
theorem setChannel_UserListByNick (w : World) (c : Nat) (l : List Nat) :
    (w.setChannel c l).UserListByNick = w.UserListByNick := rfl

@[simp]
theorem setChannel_UserListByUID (w : World) (c : Nat) (l : List Nat) :
    (w.setChannel c l).UserListByUID = w.UserListByUID := rfl

@[simp]
theorem setChannel_opcnt (w : World) (c : Nat) (l : List Nat) :
    (w.setChannel c l).opcnt = w.opcnt := rfl

@[simp]
theorem setChannel_usercnt (w : World) (c : Nat) (l : List Nat) :
    (w.setChannel c l).usercnt = w.usercnt := rfl

@[simp]
theorem setChannel_maxusercnt (w : World) (c : Nat) (l : List Nat) :
    (w.setChannel c l).maxusercnt = w.maxusercnt := rfl

@[simp]
theorem setChannel_maxusertime (w : World) (c : Nat) (l : List Nat) :
    (w.setChannel c l).maxusertime = w.maxusertime := rfl

@[simp]
theorem setChannel_cores (w : World) (c : Nat) (l : List Nat) :
    (w.setChannel c l).cores = w.cores := rfl

@[simp]
theorem setChannel_aliases (w : World) (c : Nat) (l : List Nat) :
    (w.setChannel c l).aliases = w.aliases := rfl

@[simp]
theorem setChannel_channels (w : World) (c : Nat) (l : List Nat) :
    (w.setChannel c l).channels = Function.update w.channels c l := rfl

@[simp]
theorem setChannel_now (w : World) (c : Nat) (l : List Nat) :
    (w.setChannel c l).now = w.now := rfl

@[simp]
theorem setChannel_log (w : World) (c : Nat) (l : List Nat) :
    (w.setChannel c l).log = w.log := rfl

@[simp]
theorem setNow_users (w : World) (t : Int) :
    (w.setNow t).users = w.users := rfl

@[simp]
theorem setNow_nextUser (w : World) (t : Int) :
    (w.setNow t).nextUser = w.nextUser := rfl

@[simp]
theorem setNow_UserListByNick (w : World) (t : Int) :
    (w.setNow t).UserListByNick = w.UserListByNick := rfl

@[simp]
theorem setNow_UserListByUID (w : World) (t : Int) :
    (w.setNow t).UserListByUID = w.UserListByUID := rfl

@[simp]
theorem setNow_opcnt (w : World) (t : Int) :
    (w.setNow t).opcnt = w.opcnt := rfl

@[simp]
theorem setNow_usercnt (w : World) (t : Int) :
    (w.setNow t).usercnt = w.usercnt := rfl

@[simp]
theorem setNow_maxusercnt (w : World) (t : Int) :
    (w.setNow t).maxusercnt = w.maxusercnt := rfl

@[simp]
theorem setNow_maxusertime (w : World) (t : Int) :
    (w.setNow t).maxusertime = w.maxusertime := rfl

@[simp]
theorem setNow_cores (w : World) (t : Int) :
    (w.setNow t).cores = w.cores := rfl

@[simp]
theorem setNow_aliases (w : World) (t : Int) :
    (w.setNow t).aliases = w.aliases := rfl

@[simp]
theorem setNow_channels (w : World) (t : Int) :
    (w.setNow t).channels = w.channels := rfl

@[simp]
theorem setNow_now (w : World) (t : Int) :
    (w.setNow t).now = t := rfl

@[simp]
theorem setNow_log (w : World) (t : Int) :
    (w.setNow t).log = w.log := rfl

/-! ## Machine integers and the hash maps -/

theorem uint32_inc_eq (n : Nat) (h : n < 4294967296) :
    uint32_inc n = (n + 1) % 4294967296 := by
  unfold uint32_inc
  split <;> omega

theorem uint32_dec_eq (n : Nat) (h : n < 4294967296) :
    uint32_dec n = (n + 4294967295) % 4294967296 := by
  unfold uint32_dec
  split <;> omega


theorem hmap_find_some {key : String → List Char} {m : List (String × Nat)} {k : String}
    {e : String × Nat} (h : hmap_find key m k = some e) : e ∈ m ∧ key e.1 = key k := by
  unfold hmap_find at h
  refine ⟨List.mem_of_find?_eq_some h, ?_⟩
  simpa using List.find?_some h

theorem hmap_find_none {key : String → List Char} {m : List (String × Nat)} {k : String} :
    hmap_find key m k = none ↔ ∀ e ∈ m, key e.1 ≠ key k := by
  unfold hmap_find
  simp [List.find?_eq_none]

theorem hmap_find_congr {key : String → List Char} (m : List (String × Nat)) {k k' : String}
    (h : key k = key k') : hmap_find key m k = hmap_find key m k' := by
  unfold hmap_find
  rw [h]

theorem mem_hmap_erase {key : String → List Char} {m : List (String × Nat)} {k : String}
    {e : String × Nat} : e ∈ hmap_erase key m k ↔ e ∈ m ∧ key e.1 ≠ key k := by
  unfold hmap_erase
  simp [List.mem_filter]

theorem hmap_find_erase_self {key : String → List Char} (m : List (String × Nat))
    {k k' : String} (h : key k' = key k) : hmap_find key (hmap_erase key m k) k' = none := by
  rw [hmap_find_none]
  intro e he
  rw [h]
  exact (mem_hmap_erase.1 he).2

theorem hmap_find_erase_ne {key : String → List Char} (m : List (String × Nat))
    {k k' : String} (h : key k' ≠ key k) :
    hmap_find key (hmap_erase key m k) k' = hmap_find key m k' := by
  unfold hmap_find hmap_erase
  induction m with
  | nil => rfl
  | cons e m ih =>
    cases h1 : (key e.1 == key k) with
    | true =>
      have h2 : (key e.1 == key k') = false := by
        apply beq_false_of_ne
        intro h3
        exact h (h3.symm.trans (beq_iff_eq.1 h1))
      rw [List.filter_cons, List.find?_cons, h1, h2]
      exact ih
    | false =>
      rw [List.filter_cons, h1]
      simp only [Bool.not_false, if_true, List.find?_cons]
      rw [ih]

theorem mem_hmap_set {key : String → List Char} {m : List (String × Nat)} {k : String}
    {v : Nat} {e : String × Nat} (h : e ∈ hmap_set key m k v) :
    (e ∈ m ∧ key e.1 ≠ key k) ∨
      (e.2 = v ∧ key e.1 = key k ∧ (hmap_find key m k = none → e.1 = k)) := by
  unfold hmap_set at h
  cases hf : hmap_find key m k with
  | none =>
    rw [hf] at h
    simp only [List.mem_append, List.mem_singleton] at h
    rcases h with h | h
    · exact Or.inl ⟨h, (hmap_find_none.1 hf) e h⟩
    · subst h
      exact Or.inr ⟨rfl, rfl, fun _ => rfl⟩
  | some e0 =>
    rw [hf] at h
    simp only [List.mem_map] at h
    obtain ⟨a, ha, rfl⟩ := h
    by_cases h1 : key a.1 = key k
    · right
      simp [h1]
    · left
      simp [h1, ha]

theorem hmap_find_set_ne {key : String → List Char} (m : List (String × Nat))
    {k k' : String} (v : Nat) (h : key k' ≠ key k) :
    hmap_find key (hmap_set key m k v) k' = hmap_find key m k' := by
  unfold hmap_set
  cases hf : hmap_find key m k with
  | none =>
    show hmap_find key (m ++ [(k, v)]) k' = _
    unfold hmap_find
    have h2 : (key k == key k') = false := beq_false_of_ne (fun h3 => h h3.symm)
    rw [List.find?_append]
    simp only [List.find?_cons, h2, List.find?_nil, Option.or_none]
  | some e0 =>
    show hmap_find key (m.map _) k' = _
    unfold hmap_find
    clear hf
    induction m with
    | nil => rfl
    | cons e m ih =>
      cases h1 : (key e.1 == key k) with
      | true =>
        have h2 : (key e.1 == key k') = false := by
          apply beq_false_of_ne
          intro h3
          exact h (h3.symm.trans (beq_iff_eq.1 h1))
        simp only [List.map_cons, List.find?_cons, h1, if_true, h2]
        exact ih
      | false =>
        simp only [List.map_cons, List.find?_cons, h1, Bool.false_eq_true, if_false]
        rw [ih]

theorem hmap_find_set_self {key : String → List Char} (m : List (String × Nat))
    {k k' : String} (v : Nat) (h : key k' = key k) :
    ∃ k0, hmap_find key (hmap_set key m k v) k' = some (k0, v) ∧ key k0 = key k ∧
      (hmap_find key m k = none → k0 = k) := by
  rw [hmap_find_congr _ h]
  cases hf : hmap_find key (hmap_set key m k v) k with
  | none =>
    exfalso
    rw [hmap_find_none] at hf
    unfold hmap_set at hf
    cases hf2 : hmap_find key m k with
    | none =>
      rw [hf2] at hf
      exact hf (k, v) (by simp) rfl
    | some e0 =>
      rw [hf2] at hf
      obtain ⟨hm, hk⟩ := hmap_find_some hf2
      exact hf (e0.1, v) (List.mem_map.2 ⟨e0, hm, by simp [hk]⟩) hk
  | some e =>
    obtain ⟨hm, hk⟩ := hmap_find_some hf
    rcases mem_hmap_set hm with ⟨_, h2⟩ | ⟨h1, h2, h3⟩
    · exact absurd hk h2
    · refine ⟨e.1, ?_, h2, h3⟩
      rw [← h1]


/-! ## What the steps of the destructor leave alone -/

@[simp]
theorem modUser_nextUser (w : World) (p : Nat) (f : User → User) :
    (w.modUser p f).nextUser = w.nextUser := by
  unfold World.modUser
  split <;> rfl

@[simp]
theorem modUser_UserListByNick (w : World) (p : Nat) (f : User → User) :
    (w.modUser p f).UserListByNick = w.UserListByNick := by
  unfold World.modUser
  split <;> rfl

@[simp]
theorem modUser_UserListByUID (w : World) (p : Nat) (f : User → User) :
    (w.modUser p f).UserListByUID = w.UserListByUID := by
  unfold World.modUser
  split <;> rfl

@[simp]
theorem modUser_opcnt (w : World) (p : Nat) (f : User → User) :
    (w.modUser p f).opcnt = w.opcnt := by
  unfold World.modUser
  split <;> rfl

@[simp]
theorem modUser_usercnt (w : World) (p : Nat) (f : User → User) :
    (w.modUser p f).usercnt = w.usercnt := by
  unfold World.modUser
  split <;> rfl

@[simp]
theorem modUser_maxusercnt (w : World) (p : Nat) (f : User → User) :
    (w.modUser p f).maxusercnt = w.maxusercnt := by
  unfold World.modUser
  split <;> rfl

@[simp]
theorem modUser_maxusertime (w : World) (p : Nat) (f : User → User) :
    (w.modUser p f).maxusertime = w.maxusertime := by
  unfold World.modUser
  split <;> rfl

@[simp]
theorem modUser_cores (w : World) (p : Nat) (f : User → User) :
    (w.modUser p f).cores = w.cores := by
  unfold World.modUser
  split <;> rfl

@[simp]
theorem modUser_aliases (w : World) (p : Nat) (f : User → User) :
    (w.modUser p f).aliases = w.aliases := by
  unfold World.modUser
  split <;> rfl

@[simp]
theorem modUser_channels (w : World) (p : Nat) (f : User → User) :
    (w.modUser p f).channels = w.channels := by
  unfold World.modUser
  split <;> rfl

@[simp]
theorem modUser_now (w : World) (p : Nat) (f : User → User) :
    (w.modUser p f).now = w.now := by
  unfold World.modUser
  split <;> rfl

@[simp]
theorem modUser_log (w : World) (p : Nat) (f : User → User) :
    (w.modUser p f).log = w.log := by
  unfold World.modUser
  split <;> rfl

@[simp]
theorem Logout_nextUser (w : World) (p : Nat) :
    (User.Logout w p).nextUser = w.nextUser := by
  unfold User.Logout
  repeat' split
  all_goals rfl

@[simp]
theorem Logout_UserListByNick (w : World) (p : Nat) :
    (User.Logout w p).UserListByNick = w.UserListByNick := by
  unfold User.Logout
  repeat' split
  all_goals rfl

@[simp]
theorem Logout_UserListByUID (w : World) (p : Nat) :
    (User.Logout w p).UserListByUID = w.UserListByUID := by
  unfold User.Logout
  repeat' split
  all_goals rfl

@[simp]
theorem Logout_opcnt (w : World) (p : Nat) :
    (User.Logout w p).opcnt = w.opcnt := by
  unfold User.Logout
  repeat' split
  all_goals rfl

@[simp]
theorem Logout_usercnt (w : World) (p : Nat) :
    (User.Logout w p).usercnt = w.usercnt := by
  unfold User.Logout
  repeat' split
  all_goals rfl

@[simp]
theorem Logout_maxusercnt (w : World) (p : Nat) :
    (User.Logout w p).maxusercnt = w.maxusercnt := by
  unfold User.Logout
  repeat' split
  all_goals rfl

@[simp]
theorem Logout_maxusertime (w : World) (p : Nat) :
    (User.Logout w p).maxusertime = w.maxusertime := by
  unfold User.Logout
  repeat' split
  all_goals rfl

@[simp]
theorem Logout_aliases (w : World) (p : Nat) :
    (User.Logout w p).aliases = w.aliases := by
  unfold User.Logout
  repeat' split
  all_goals rfl

@[simp]
theorem Logout_channels (w : World) (p : Nat) :
    (User.Logout w p).channels = w.channels := by
  unfold User.Logout
  repeat' split
  all_goals rfl

@[simp]
theorem Logout_now (w : World) (p : Nat) :
    (User.Logout w p).now = w.now := by
  unfold User.Logout
  repeat' split
  all_goals rfl

@[simp]
theorem Logout_log (w : World) (p : Nat) :
    (User.Logout w p).log = w.log := by
  unfold User.Logout
  repeat' split
  all_goals rfl

@[simp]
theorem DeleteUser_nextUser (w : World) (c p : Nat) :
    (Channel.DeleteUser w c p).nextUser = w.nextUser := by
  simp [Channel.DeleteUser]

@[simp]
theorem DeleteUser_UserListByNick (w : World) (c p : Nat) :
    (Channel.DeleteUser w c p).UserListByNick = w.UserListByNick := by
  simp [Channel.DeleteUser]

@[simp]
theorem DeleteUser_UserListByUID (w : World) (c p : Nat) :
    (Channel.DeleteUser w c p).UserListByUID = w.UserListByUID := by
  simp [Channel.DeleteUser]

@[simp]
theorem DeleteUser_opcnt (w : World) (c p : Nat) :
    (Channel.DeleteUser w c p).opcnt = w.opcnt := by
  simp [Channel.DeleteUser]

@[simp]
theorem DeleteUser_usercnt (w : World) (c p : Nat) :
    (Channel.DeleteUser w c p).usercnt = w.usercnt := by
  simp [Channel.DeleteUser]

@[simp]
theorem DeleteUser_maxusercnt (w : World) (c p : Nat) :
    (Channel.DeleteUser w c p).maxusercnt = w.maxusercnt := by
  simp [Channel.DeleteUser]

@[simp]
theorem DeleteUser_maxusertime (w : World) (c p : Nat) :
    (Channel.DeleteUser w c p).maxusertime = w.maxusertime := by
  simp [Channel.DeleteUser]

@[simp]
theorem DeleteUser_cores (w : World) (c p : Nat) :
    (Channel.DeleteUser w c p).cores = w.cores := by
  simp [Channel.DeleteUser]

@[simp]
theorem DeleteUser_aliases (w : World) (c p : Nat) :
    (Channel.DeleteUser w c p).aliases = w.aliases := by
  simp [Channel.DeleteUser]

@[simp]
theorem DeleteUser_now (w : World) (c p : Nat) :
    (Channel.DeleteUser w c p).now = w.now := by
  simp [Channel.DeleteUser]

@[simp]
theorem DeleteUser_log (w : World) (c p : Nat) :
    (Channel.DeleteUser w c p).log = w.log := by
  simp [Channel.DeleteUser]

@[simp]
theorem leaveChannels_nextUser (w : World) (p fuel : Nat) :
    (User.leaveChannels w p fuel).nextUser = w.nextUser := by
  induction fuel generalizing w with
  | zero => rfl
  | succ n ih =>
    unfold User.leaveChannels
    repeat' split
    all_goals simp [ih]

@[simp]
theorem leaveChannels_UserListByNick (w : World) (p fuel : Nat) :
    (User.leaveChannels w p fuel).UserListByNick = w.UserListByNick := by
  induction fuel generalizing w with
  | zero => rfl
  | succ n ih =>
    unfold User.leaveChannels
    repeat' split
    all_goals simp [ih]

@[simp]
theorem leaveChannels_UserListByUID (w : World) (p fuel : Nat) :
    (User.leaveChannels w p fuel).UserListByUID = w.UserListByUID := by
  induction fuel generalizing w with
  | zero => rfl
  | succ n ih =>
    unfold User.leaveChannels
    repeat' split
    all_goals simp [ih]

@[simp]
theorem leaveChannels_opcnt (w : World) (p fuel : Nat) :
    (User.leaveChannels w p fuel).opcnt = w.opcnt := by
  induction fuel generalizing w with
  | zero => rfl
  | succ n ih =>
    unfold User.leaveChannels
    repeat' split
    all_goals simp [ih]

@[simp]
theorem leaveChannels_usercnt (w : World) (p fuel : Nat) :
    (User.leaveChannels w p fuel).usercnt = w.usercnt := by
  induction fuel generalizing w with
  | zero => rfl
  | succ n ih =>
    unfold User.leaveChannels
    repeat' split
    all_goals simp [ih]

@[simp]
theorem leaveChannels_maxusercnt (w : World) (p fuel : Nat) :
    (User.leaveChannels w p fuel).maxusercnt = w.maxusercnt := by
  induction fuel generalizing w with
  | zero => rfl
  | succ n ih =>
    unfold User.leaveChannels
    repeat' split
    all_goals simp [ih]

@[simp]
theorem leaveChannels_maxusertime (w : World) (p fuel : Nat) :
    (User.leaveChannels w p fuel).maxusertime = w.maxusertime := by
  induction fuel generalizing w with
  | zero => rfl
  | succ n ih =>
    unfold User.leaveChannels
    repeat' split
    all_goals simp [ih]

@[simp]
theorem leaveChannels_cores (w : World) (p fuel : Nat) :
    (User.leaveChannels w p fuel).cores = w.cores := by
  induction fuel generalizing w with
  | zero => rfl
  | succ n ih =>
    unfold User.leaveChannels
    repeat' split
    all_goals simp [ih]

@[simp]
theorem leaveChannels_aliases (w : World) (p fuel : Nat) :
    (User.leaveChannels w p fuel).aliases = w.aliases := by
  induction fuel generalizing w with
  | zero => rfl
  | succ n ih =>
    unfold User.leaveChannels
    repeat' split
    all_goals simp [ih]

@[simp]
theorem leaveChannels_now (w : World) (p fuel : Nat) :
    (User.leaveChannels w p fuel).now = w.now := by
  induction fuel generalizing w with
  | zero => rfl
  | succ n ih =>
    unfold User.leaveChannels
    repeat' split
    all_goals simp [ih]

@[simp]
theorem leaveChannels_log (w : World) (p fuel : Nat) :
    (User.leaveChannels w p fuel).log = w.log := by
  induction fuel generalizing w with
  | zero => rfl
  | succ n ih =>
    unfold User.leaveChannels
    repeat' split
    all_goals simp [ih]

@[simp]
theorem dtor_logoff_users (w : World) (p : Nat) :
    (dtor_logoff w p).users = w.users := by
  rfl

@[simp]
theorem dtor_logoff_nextUser (w : World) (p : Nat) :
    (dtor_logoff w p).nextUser = w.nextUser := by
  rfl

@[simp]
theorem dtor_logoff_UserListByNick (w : World) (p : Nat) :
    (dtor_logoff w p).UserListByNick = w.UserListByNick := by
  rfl

@[simp]
theorem dtor_logoff_UserListByUID (w : World) (p : Nat) :
    (dtor_logoff w p).UserListByUID = w.UserListByUID := by
  rfl

@[simp]
theorem dtor_logoff_opcnt (w : World) (p : Nat) :
    (dtor_logoff w p).opcnt = w.opcnt := by
  rfl

@[simp]
theorem dtor_logoff_usercnt (w : World) (p : Nat) :
    (dtor_logoff w p).usercnt = w.usercnt := by
  rfl

@[simp]
theorem dtor_logoff_maxusercnt (w : World) (p : Nat) :
    (dtor_logoff w p).maxusercnt = w.maxusercnt := by
  rfl

@[simp]
theorem dtor_logoff_maxusertime (w : World) (p : Nat) :
    (dtor_logoff w p).maxusertime = w.maxusertime := by
  rfl

@[simp]
theorem dtor_logoff_cores (w : World) (p : Nat) :
    (dtor_logoff w p).cores = w.cores := by
  rfl

@[simp]
theorem dtor_logoff_aliases (w : World) (p : Nat) :
    (dtor_logoff w p).aliases = w.aliases := by
  rfl

@[simp]
theorem dtor_logoff_channels (w : World) (p : Nat) :
    (dtor_logoff w p).channels = w.channels := by
  rfl

@[simp]
theorem dtor_logoff_now (w : World) (p : Nat) :
    (dtor_logoff w p).now = w.now := by
  rfl

@[simp]
theorem dtor_usercnt_users (w : World) :
    (dtor_usercnt w).users = w.users := by
  rfl

@[simp]
theorem dtor_usercnt_nextUser (w : World) :
    (dtor_usercnt w).nextUser = w.nextUser := by
  rfl

@[simp]
theorem dtor_usercnt_UserListByNick (w : World) :
    (dtor_usercnt w).UserListByNick = w.UserListByNick := by
  rfl

@[simp]
theorem dtor_usercnt_UserListByUID (w : World) :
    (dtor_usercnt w).UserListByUID = w.UserListByUID := by
  rfl

@[simp]
theorem dtor_usercnt_opcnt (w : World) :
    (dtor_usercnt w).opcnt = w.opcnt := by
  rfl

@[simp]
theorem dtor_usercnt_maxusercnt (w : World) :
    (dtor_usercnt w).maxusercnt = w.maxusercnt := by
  rfl

@[simp]
theorem dtor_usercnt_maxusertime (w : World) :
    (dtor_usercnt w).maxusertime = w.maxusertime := by
  rfl

@[simp]
theorem dtor_usercnt_cores (w : World) :
    (dtor_usercnt w).cores = w.cores := by
  rfl

@[simp]
theorem dtor_usercnt_aliases (w : World) :
    (dtor_usercnt w).aliases = w.aliases := by
  rfl

@[simp]
theorem dtor_usercnt_channels (w : World) :
    (dtor_usercnt w).channels = w.channels := by
  rfl

@[simp]
theorem dtor_usercnt_now (w : World) :
    (dtor_usercnt w).now = w.now := by
  rfl

@[simp]
theorem dtor_usercnt_log (w : World) :
    (dtor_usercnt w).log = w.log := by
  rfl

@[simp]
theorem dtor_opcnt_users (w : World) (p : Nat) :
    (dtor_opcnt w p).users = w.users := by
  unfold dtor_opcnt
  split <;> rfl

@[simp]
theorem dtor_opcnt_nextUser (w : World) (p : Nat) :
    (dtor_opcnt w p).nextUser = w.nextUser := by
  unfold dtor_opcnt
  split <;> rfl

@[simp]
theorem dtor_opcnt_UserListByNick (w : World) (p : Nat) :
    (dtor_opcnt w p).UserListByNick = w.UserListByNick := by
  unfold dtor_opcnt
  split <;> rfl

@[simp]
theorem dtor_opcnt_UserListByUID (w : World) (p : Nat) :
    (dtor_opcnt w p).UserListByUID = w.UserListByUID := by
  unfold dtor_opcnt
  split <;> rfl

@[simp]
theorem dtor_opcnt_usercnt (w : World) (p : Nat) :
    (dtor_opcnt w p).usercnt = w.usercnt := by
  unfold dtor_opcnt
  split <;> rfl

@[simp]
theorem dtor_opcnt_maxusercnt (w : World) (p : Nat) :
    (dtor_opcnt w p).maxusercnt = w.maxusercnt := by
  unfold dtor_opcnt
  split <;> rfl

@[simp]
theorem dtor_opcnt_maxusertime (w : World) (p : Nat) :
    (dtor_opcnt w p).maxusertime = w.maxusertime := by
  unfold dtor_opcnt
  split <;> rfl

@[simp]
theorem dtor_opcnt_cores (w : World) (p : Nat) :
    (dtor_opcnt w p).cores = w.cores := by
  unfold dtor_opcnt
  split <;> rfl

@[simp]
theorem dtor_opcnt_aliases (w : World) (p : Nat) :
    (dtor_opcnt w p).aliases = w.aliases := by
  unfold dtor_opcnt
  split <;> rfl

@[simp]
theorem dtor_opcnt_channels (w : World) (p : Nat) :
    (dtor_opcnt w p).channels = w.channels := by
  unfold dtor_opcnt
  split <;> rfl

@[simp]
theorem dtor_opcnt_now (w : World) (p : Nat) :
    (dtor_opcnt w p).now = w.now := by
  unfold dtor_opcnt
  split <;> rfl

@[simp]
theorem dtor_opcnt_log (w : World) (p : Nat) :
    (dtor_opcnt w p).log = w.log := by
  unfold dtor_opcnt
  split <;> rfl

@[simp]
theorem dtor_session_users (env : Env) (w : World) (u : User) :
    (dtor_session env w u).users = w.users := by
  unfold dtor_session
  split <;> rfl

@[simp]
theorem dtor_session_nextUser (env : Env) (w : World) (u : User) :
    (dtor_session env w u).nextUser = w.nextUser := by
  unfold dtor_session
  split <;> rfl

@[simp]
theorem dtor_session_UserListByNick (env : Env) (w : World) (u : User) :
    (dtor_session env w u).UserListByNick = w.UserListByNick := by
  unfold dtor_session
  split <;> rfl

@[simp]
theorem dtor_session_UserListByUID (env : Env) (w : World) (u : User) :
    (dtor_session env w u).UserListByUID = w.UserListByUID := by
  unfold dtor_session
  split <;> rfl

@[simp]
theorem dtor_session_opcnt (env : Env) (w : World) (u : User) :
    (dtor_session env w u).opcnt = w.opcnt := by
  unfold dtor_session
  split <;> rfl

@[simp]
theorem dtor_session_usercnt (env : Env) (w : World) (u : User) :
    (dtor_session env w u).usercnt = w.usercnt := by
  unfold dtor_session
  split <;> rfl

@[simp]
theorem dtor_session_maxusercnt (env : Env) (w : World) (u : User) :
    (dtor_session env w u).maxusercnt = w.maxusercnt := by
  unfold dtor_session
  split <;> rfl

@[simp]
theorem dtor_session_maxusertime (env : Env) (w : World) (u : User) :
    (dtor_session env w u).maxusertime = w.maxusertime := by
  unfold dtor_session
  split <;> rfl

@[simp]
theorem dtor_session_cores (env : Env) (w : World) (u : User) :
    (dtor_session env w u).cores = w.cores := by
  unfold dtor_session
  split <;> rfl

@[simp]
theorem dtor_session_aliases (env : Env) (w : World) (u : User) :
    (dtor_session env w u).aliases = w.aliases := by
  unfold dtor_session
  split <;> rfl

@[simp]
theorem dtor_session_channels (env : Env) (w : World) (u : User) :
    (dtor_session env w u).channels = w.channels := by
  unfold dtor_session
  split <;> rfl

@[simp]
theorem dtor_session_now (env : Env) (w : World) (u : User) :
    (dtor_session env w u).now = w.now := by
  unfold dtor_session
  split <;> rfl

@[simp]
theorem dtor_nick_users (w : World) (u : User) :
    (dtor_nick w u).users = w.users := by
  rfl

@[simp]
theorem dtor_nick_nextUser (w : World) (u : User) :
    (dtor_nick w u).nextUser = w.nextUser := by
  rfl

@[simp]
theorem dtor_nick_UserListByUID (w : World) (u : User) :
    (dtor_nick w u).UserListByUID = w.UserListByUID := by
  rfl

@[simp]
theorem dtor_nick_opcnt (w : World) (u : User) :
    (dtor_nick w u).opcnt = w.opcnt := by
  rfl

@[simp]
theorem dtor_nick_usercnt (w : World) (u : User) :
    (dtor_nick w u).usercnt = w.usercnt := by
  rfl

@[simp]
theorem dtor_nick_maxusercnt (w : World) (u : User) :
    (dtor_nick w u).maxusercnt = w.maxusercnt := by
  rfl

@[simp]
theorem dtor_nick_maxusertime (w : World) (u : User) :
    (dtor_nick w u).maxusertime = w.maxusertime := by
  rfl

@[simp]
theorem dtor_nick_cores (w : World) (u : User) :
    (dtor_nick w u).cores = w.cores := by
  rfl

@[simp]
theorem dtor_nick_aliases (w : World) (u : User) :
    (dtor_nick w u).aliases = w.aliases := by
  rfl

@[simp]
theorem dtor_nick_channels (w : World) (u : User) :
    (dtor_nick w u).channels = w.channels := by
  rfl

@[simp]
theorem dtor_nick_now (w : World) (u : User) :
    (dtor_nick w u).now = w.now := by
  rfl

@[simp]
theorem dtor_nick_log (w : World) (u : User) :
    (dtor_nick w u).log = w.log := by
  rfl

@[simp]
theorem dtor_uid_users (w : World) (u : User) :
    (dtor_uid w u).users = w.users := by
  unfold dtor_uid
  split <;> rfl

@[simp]
theorem dtor_uid_nextUser (w : World) (u : User) :
    (dtor_uid w u).nextUser = w.nextUser := by
  unfold dtor_uid
  split <;> rfl

@[simp]
theorem dtor_uid_UserListByNick (w : World) (u : User) :
    (dtor_uid w u).UserListByNick = w.UserListByNick := by
  unfold dtor_uid
  split <;> rfl

@[simp]
theorem dtor_uid_opcnt (w : World) (u : User) :
    (dtor_uid w u).opcnt = w.opcnt := by
  unfold dtor_uid
  split <;> rfl

@[simp]
theorem dtor_uid_usercnt (w : World) (u : User) :
    (dtor_uid w u).usercnt = w.usercnt := by
  unfold dtor_uid
  split <;> rfl

@[simp]
theorem dtor_uid_maxusercnt (w : World) (u : User) :
    (dtor_uid w u).maxusercnt = w.maxusercnt := by
  unfold dtor_uid
  split <;> rfl

@[simp]
theorem dtor_uid_maxusertime (w : World) (u : User) :
    (dtor_uid w u).maxusertime = w.maxusertime := by
  unfold dtor_uid
  split <;> rfl

@[simp]
theorem dtor_uid_cores (w : World) (u : User) :
    (dtor_uid w u).cores = w.cores := by
  unfold dtor_uid
  split <;> rfl

@[simp]
theorem dtor_uid_aliases (w : World) (u : User) :
    (dtor_uid w u).aliases = w.aliases := by
  unfold dtor_uid
  split <;> rfl

@[simp]
theorem dtor_uid_channels (w : World) (u : User) :
    (dtor_uid w u).channels = w.channels := by
  unfold dtor_uid
  split <;> rfl

@[simp]
theorem dtor_uid_now (w : World) (u : User) :
    (dtor_uid w u).now = w.now := by
  unfold dtor_uid
  split <;> rfl

@[simp]
theorem dtor_uid_log (w : World) (u : User) :
    (dtor_uid w u).log = w.log := by
  unfold dtor_uid
  split <;> rfl

@[simp]
theorem dtor_cancel_users (w : World) (p : Nat) (u : User) :
    (dtor_cancel w p u).users = w.users := by
  unfold dtor_cancel
  split <;> rfl

@[simp]
theorem dtor_cancel_nextUser (w : World) (p : Nat) (u : User) :
    (dtor_cancel w p u).nextUser = w.nextUser := by
  unfold dtor_cancel
  split <;> rfl

@[simp]
theorem dtor_cancel_UserListByNick (w : World) (p : Nat) (u : User) :
    (dtor_cancel w p u).UserListByNick = w.UserListByNick := by
  unfold dtor_cancel
  split <;> rfl

@[simp]
theorem dtor_cancel_UserListByUID (w : World) (p : Nat) (u : User) :
    (dtor_cancel w p u).UserListByUID = w.UserListByUID := by
  unfold dtor_cancel
  split <;> rfl

@[simp]
theorem dtor_cancel_opcnt (w : World) (p : Nat) (u : User) :
    (dtor_cancel w p u).opcnt = w.opcnt := by
  unfold dtor_cancel
  split <;> rfl

@[simp]
theorem dtor_cancel_usercnt (w : World) (p : Nat) (u : User) :
    (dtor_cancel w p u).usercnt = w.usercnt := by
  unfold dtor_cancel
  split <;> rfl

@[simp]
theorem dtor_cancel_maxusercnt (w : World) (p : Nat) (u : User) :
    (dtor_cancel w p u).maxusercnt = w.maxusercnt := by
  unfold dtor_cancel
  split <;> rfl

@[simp]
theorem dtor_cancel_maxusertime (w : World) (p : Nat) (u : User) :
    (dtor_cancel w p u).maxusertime = w.maxusertime := by
  unfold dtor_cancel
  split <;> rfl

@[simp]
theorem dtor_cancel_cores (w : World) (p : Nat) (u : User) :
    (dtor_cancel w p u).cores = w.cores := by
  unfold dtor_cancel
  split <;> rfl

@[simp]
theorem dtor_cancel_aliases (w : World) (p : Nat) (u : User) :
    (dtor_cancel w p u).aliases = w.aliases := by
  unfold dtor_cancel
  split <;> rfl

@[simp]
theorem dtor_cancel_channels (w : World) (p : Nat) (u : User) :
    (dtor_cancel w p u).channels = w.channels := by
  unfold dtor_cancel
  split <;> rfl

@[simp]
theorem dtor_cancel_now (w : World) (p : Nat) (u : User) :
    (dtor_cancel w p u).now = w.now := by
  unfold dtor_cancel
  split <;> rfl

/-! ## The destructor, step by step -/

theorem Logout_eq (w : World) (p : Nat) (u : User) (hu : w.users p = some u) :
    User.Logout w p = afterLogout w p u := by
  unfold User.Logout afterLogout
  simp only [hu]
  cases hnc : u.nc with
  | none =>
    have h1 : Function.update w.users p (some { u with nc := none }) = w.users := by
      rw [← hnc, ← hu]
      exact Function.update_eq_self p w.users
    simp only [h1]
    simp
  | some c =>
    apply World.ext <;> simp
    funext A
    by_cases hA : A = c
    · subst hA
      simp
    · have : ¬ c = A := fun h => hA h.symm
      simp [Function.update_noteq hA, this]

theorem modUser_eq (w : World) (p : Nat) (f : User → User) (u : User)
    (hu : w.users p = some u) : w.modUser p f = w.setUser p (f u) := by
  simp [World.modUser, hu]

theorem leaveChannels_eq (fuel : Nat) (w : World) (p : Nat) (u : User)
    (hu : w.users p = some u) (hf : u.chans.length ≤ fuel) :
    User.leaveChannels w p fuel = afterLeave w p u := by
  induction fuel generalizing w u with
  | zero =>
    have h0 : u.chans = [] := List.length_eq_zero.1 (Nat.le_zero.1 hf)
    have h1 : Function.update w.users p (some { u with chans := [] }) = w.users := by
      rw [← h0, ← hu]
      exact Function.update_eq_self p w.users
    unfold afterLeave
    simp [User.leaveChannels, h1, h0]
  | succ n ih =>
    unfold User.leaveChannels
    simp only [hu]
    cases hc : u.chans with
    | nil =>
      have h1 : Function.update w.users p (some { u with chans := [] }) = w.users := by
        rw [← hc, ← hu]
        exact Function.update_eq_self p w.users
      unfold afterLeave
      simp [h1, hc]
    | cons c rest =>
      simp only []
      have hu0 : (w.setChannel c ((w.channels c).filter (fun q => !(q == p)))).users p
          = some u := by simpa using hu
      have hu1 : (Channel.DeleteUser w c p).users p = some { u with chans := rest } := by
        simp [Channel.DeleteUser, modUser_eq _ _ _ _ hu0, hc]
      have hlen : ({ u with chans := rest } : User).chans.length ≤ n := by
        rw [hc] at hf
        simpa using hf
      rw [ih _ _ hu1 hlen]
      unfold afterLeave
      apply World.ext <;> simp [Channel.DeleteUser, modUser_eq _ _ _ _ hu0, hc]
      funext c'
      by_cases h1 : c' = c
      · subst h1
        by_cases h2 : c' ∈ rest
        · simp [h2, List.filter_filter]
        · simp [h2]
      · by_cases h2 : c' ∈ rest
        · simp [h1, h2, Function.update_noteq h1]
        · simp [h1, h2, Function.update_noteq h1]

/-- The channel loop of the destructor ends with an empty `chans` when it is
given one round per entry. -/
theorem leaveChannels_chans (w : World) (p : Nat) (u : User) (hu : w.users p = some u) :
    ((User.leaveChannels w p u.chans.length).users p).map (fun v => v.chans) = some [] := by
  rw [leaveChannels_eq _ w p u hu (le_refl _)]
  simp [afterLeave]

theorem dtor_eq (env : Env) (w : World) (p : Nat) (u : User) (hu : w.users p = some u) :
    User.dtor env w p =
      dtor_cancel (dtor_uid (dtor_nick (dtor_session env
        (User.leaveChannels (dtor_opcnt (dtor_usercnt (dtor_logoff (User.Logout w p) p)) p)
          p u.chans.length) u) u) u) p u := by
  unfold User.dtor
  split
  · rename_i h
    rw [hu] at h
    cases h
  · rename_i u1 h
    rw [hu] at h
    cases h
    rfl

theorem dtor_dead (env : Env) (w : World) (p : Nat) (hu : w.users p = none) :
    User.dtor env w p = w := by
  unfold User.dtor
  split
  · rfl
  · rename_i u1 h
    rw [hu] at h
    cases h

theorem dtor_UserListByNick (env : Env) (w : World) (p : Nat) (u : User)
    (hu : w.users p = some u) :
    (User.dtor env w p).UserListByNick = hmap_erase ci_fold w.UserListByNick u.nick := by
  rw [dtor_eq env w p u hu]
  simp [dtor_nick]

theorem dtor_UserListByUID (env : Env) (w : World) (p : Nat) (u : User)
    (hu : w.users p = some u) :
    (User.dtor env w p).UserListByUID =
      if u.uid = "" then w.UserListByUID else hmap_erase String.data w.UserListByUID u.uid := by
  rw [dtor_eq env w p u hu]
  simp only [dtor_cancel_UserListByUID]
  unfold dtor_uid
  split <;> simp

theorem dtor_nextUser (env : Env) (w : World) (p : Nat) :
    (User.dtor env w p).nextUser = w.nextUser := by
  cases hu : w.users p with
  | none => rw [dtor_dead env w p hu]
  | some u =>
    rw [dtor_eq env w p u hu]
    simp

theorem dtor_aliases (env : Env) (w : World) (p : Nat) :
    (User.dtor env w p).aliases = w.aliases := by
  cases hu : w.users p with
  | none => rw [dtor_dead env w p hu]
  | some u =>
    rw [dtor_eq env w p u hu]
    simp

theorem Logout_users (w : World) (p : Nat) (u : User) (hu : w.users p = some u) :
    (User.Logout w p).users = Function.update w.users p (some { u with nc := none }) := by
  rw [Logout_eq w p u hu]
  rfl

theorem Logout_cores (w : World) (p : Nat) (u : User) (hu : w.users p = some u) :
    (User.Logout w p).cores = fun A =>
      if u.nc = some A then { w.cores A with Users := (w.cores A).Users.erase p }
      else w.cores A := by
  rw [Logout_eq w p u hu]
  rfl

theorem dtor_users (env : Env) (w : World) (p : Nat) (u : User) (hu : w.users p = some u) :
    (User.dtor env w p).users =
      Function.update w.users p (some { u with nc := none, chans := [] }) := by
  rw [dtor_eq env w p u hu]
  simp only [dtor_cancel_users, dtor_uid_users, dtor_nick_users, dtor_session_users]
  have h1 : (dtor_opcnt (dtor_usercnt (dtor_logoff (User.Logout w p) p)) p).users p
      = some { u with nc := none } := by
    simp [Logout_users w p u hu]
  rw [leaveChannels_eq _ _ p _ h1 (le_refl _)]
  simp [afterLeave, Logout_users w p u hu]

theorem dtor_cores (env : Env) (w : World) (p : Nat) (u : User) (hu : w.users p = some u) :
    (User.dtor env w p).cores = fun A =>
      if u.nc = some A then { w.cores A with Users := (w.cores A).Users.erase p }
      else w.cores A := by
  rw [dtor_eq env w p u hu]
  simp [Logout_cores w p u hu]

theorem dtor_channels (env : Env) (w : World) (p : Nat) (u : User) (hu : w.users p = some u) :
    (User.dtor env w p).channels = fun c =>
      if c ∈ u.chans then (w.channels c).filter (fun q => !(q == p)) else w.channels c := by
  rw [dtor_eq env w p u hu]
  simp only [dtor_cancel_channels, dtor_uid_channels, dtor_nick_channels,
    dtor_session_channels]
  have h1 : (dtor_opcnt (dtor_usercnt (dtor_logoff (User.Logout w p) p)) p).users p
      = some { u with nc := none } := by
    simp [Logout_users w p u hu]
  rw [leaveChannels_eq _ _ p _ h1 (le_refl _)]
  simp [afterLeave]

theorem dtor_cancel_toState (w : World) (p : Nat) (u : User) :
    (dtor_cancel w p u).toState = w.toState := by
  unfold dtor_cancel
  split <;> rfl

theorem dtor_log (env : Env) (w : World) (p : Nat) (u : User) (hu : w.users p = some u) :
    (User.dtor env w p).log =
      w.log ++ [Event.OnUserLogoff p (User.Logout w p).toState]
        ++ (if env.LimitSessions && !(match u.server with
              | some s => env.Server_IsULined s
              | none => false) then [Event.del_session u.host] else [])
        ++ (match findnick w u.nick with
            | some _ => [Event.OnCancel (ci_fold u.nick) p (User.dtor env w p).toState]
            | none => []) := by
  have hfn : ∀ w1 : World, w1.aliases = w.aliases → findnick w1 u.nick = findnick w u.nick := by
    intro w1 h
    simp [findnick, h]
  rw [dtor_eq env w p u hu]
  rw [dtor_cancel_toState]
  generalize hW : dtor_uid (dtor_nick (dtor_session env
        (User.leaveChannels (dtor_opcnt (dtor_usercnt (dtor_logoff (User.Logout w p) p)) p)
          p u.chans.length) u) u) u = W
  have hal : W.aliases = w.aliases := by
    rw [← hW]
    simp
  have hlog : W.log = w.log ++ [Event.OnUserLogoff p (User.Logout w p).toState]
        ++ (if env.LimitSessions && !(match u.server with
              | some s => env.Server_IsULined s
              | none => false) then [Event.del_session u.host] else []) := by
    rw [← hW]
    simp only [dtor_uid_log, dtor_nick_log]
    unfold dtor_session
    split <;> simp [dtor_logoff]
  unfold dtor_cancel
  rw [hfn W hal]
  cases findnick w u.nick <;> simp [hlog]

/-! ## Constructor and rename, field by field -/

theorem equals_ci_false {a b : String} : equals_ci a b = false ↔ ci_fold a ≠ ci_fold b := by
  unfold equals_ci
  simp

theorem equals_ci_true {a b : String} : equals_ci a b = true ↔ ci_fold a = ci_fold b := by
  unfold equals_ci
  simp

theorem data_ne {a b : String} (h : a ≠ b) : a.data ≠ b.data := by
  intro h1
  exact h (String.ext h1)

theorem new_empty (w : World) (suid : String) :
    User.new w "" suid =
      (.error (.CoreException "what the craq, empty nick passed to constructor"), w) := by
  simp [User.new]

theorem new_users (w : World) (snick suid : String) (h : snick ≠ "") :
    (User.new w snick suid).2.users =
      Function.update w.users w.nextUser (some (User.init snick suid)) := by
  unfold User.new
  rw [if_neg h]
  simp only []
  repeat' split
  all_goals simp

theorem new_nextUser (w : World) (snick suid : String) (h : snick ≠ "") :
    (User.new w snick suid).2.nextUser = w.nextUser + 1 := by
  unfold User.new
  rw [if_neg h]
  simp only []
  repeat' split
  all_goals simp

theorem new_UserListByNick (w : World) (snick suid : String) (h : snick ≠ "") :
    (User.new w snick suid).2.UserListByNick =
      hmap_set ci_fold w.UserListByNick snick w.nextUser := by
  unfold User.new
  rw [if_neg h]
  simp only []
  repeat' split
  all_goals simp

theorem new_UserListByUID (w : World) (snick suid : String) (h : snick ≠ "") :
    (User.new w snick suid).2.UserListByUID =
      if suid = "" then w.UserListByUID
      else hmap_set String.data w.UserListByUID suid w.nextUser := by
  unfold User.new
  rw [if_neg h]
  simp only []
  repeat' split
  all_goals simp_all

/-- The object that `User::SetNewNick(newnick)` leaves at `p`. -/
theorem SetNewNick_users (env : Env) (w : World) (p : Nat) (newnick : String) (u : User)
    (h : newnick ≠ "") (hu : w.users p = some u) :
    (User.SetNewNick env w p newnick).2.users =
      Function.update w.users p (some { u with
        nick := newnick,
        OnAccess := match findnick w newnick with
          | some na => env.is_on_access { u with nick := newnick, OnAccess := false }
              (w.cores na.nc)
          | none => false }) := by
  unfold User.SetNewNick
  rw [if_neg h]
  simp only [hu]
  have h1 : ∀ w1 : World, w1.aliases = w.aliases → findnick w1 newnick = findnick w newnick := by
    intro w1 h1
    simp [findnick, h1]
  rw [h1 _ (by simp)]
  cases findnick w newnick <;> simp [World.modUser]

theorem SetNewNick_UserListByNick (env : Env) (w : World) (p : Nat) (newnick : String)
    (u : User) (h : newnick ≠ "") (hu : w.users p = some u) :
    (User.SetNewNick env w p newnick).2.UserListByNick =
      hmap_set ci_fold (hmap_erase ci_fold w.UserListByNick u.nick) newnick p := by
  unfold User.SetNewNick
  rw [if_neg h]
  simp only [hu]
  split <;> simp

theorem SetNewNick_dead (env : Env) (w : World) (p : Nat) (newnick : String)
    (hu : w.users p = none) : (User.SetNewNick env w p newnick).2 = w := by
  unfold User.SetNewNick
  split
  · rfl
  · simp [hu]

theorem SetNewNick_empty (env : Env) (w : World) (p : Nat) :
    User.SetNewNick env w p "" =
      (.error (.CoreException "User::SetNewNick() got a bad argument"), w) := by
  simp [User.SetNewNick]

@[simp]
theorem SetNewNick_nextUser (env : Env) (w : World) (p : Nat) (newnick : String) :
    (User.SetNewNick env w p newnick).2.nextUser = w.nextUser := by
  unfold User.SetNewNick
  split
  · rfl
  · split
    · rfl
    · simp only []
      split <;> simp

@[simp]
theorem SetNewNick_UserListByUID (env : Env) (w : World) (p : Nat) (newnick : String) :
    (User.SetNewNick env w p newnick).2.UserListByUID = w.UserListByUID := by
  unfold User.SetNewNick
  split
  · rfl
  · split
    · rfl
    · simp only []
      split <;> simp

@[simp]
theorem SetNewNick_opcnt (env : Env) (w : World) (p : Nat) (newnick : String) :
    (User.SetNewNick env w p newnick).2.opcnt = w.opcnt := by
  unfold User.SetNewNick
  split
  · rfl
  · split
    · rfl
    · simp only []
      split <;> simp

@[simp]
theorem SetNewNick_usercnt (env : Env) (w : World) (p : Nat) (newnick : String) :
    (User.SetNewNick env w p newnick).2.usercnt = w.usercnt := by
  unfold User.SetNewNick
  split
  · rfl
  · split
    · rfl
    · simp only []
      split <;> simp

@[simp]
theorem SetNewNick_maxusercnt (env : Env) (w : World) (p : Nat) (newnick : String) :
    (User.SetNewNick env w p newnick).2.maxusercnt = w.maxusercnt := by
  unfold User.SetNewNick
  split
  · rfl
  · split
    · rfl
    · simp only []
      split <;> simp

@[simp]
theorem SetNewNick_maxusertime (env : Env) (w : World) (p : Nat) (newnick : String) :
    (User.SetNewNick env w p newnick).2.maxusertime = w.maxusertime := by
  unfold User.SetNewNick
  split
  · rfl
  · split
    · rfl
    · simp only []
      split <;> simp

@[simp]
theorem SetNewNick_cores (env : Env) (w : World) (p : Nat) (newnick : String) :
    (User.SetNewNick env w p newnick).2.cores = w.cores := by
  unfold User.SetNewNick
  split
  · rfl
  · split
    · rfl
    · simp only []
      split <;> simp

@[simp]
theorem SetNewNick_aliases (env : Env) (w : World) (p : Nat) (newnick : String) :
    (User.SetNewNick env w p newnick).2.aliases = w.aliases := by
  unfold User.SetNewNick
  split
  · rfl
  · split
    · rfl
    · simp only []
      split <;> simp

@[simp]
theorem SetNewNick_channels (env : Env) (w : World) (p : Nat) (newnick : String) :
    (User.SetNewNick env w p newnick).2.channels = w.channels := by
  unfold User.SetNewNick
  split
  · rfl
  · split
    · rfl
    · simp only []
      split <;> simp

@[simp]
theorem SetNewNick_now (env : Env) (w : World) (p : Nat) (newnick : String) :
    (User.SetNewNick env w p newnick).2.now = w.now := by
  unfold User.SetNewNick
  split
  · rfl
  · split
    · rfl
    · simp only []
      split <;> simp

@[simp]
theorem SetNewNick_log (env : Env) (w : World) (p : Nat) (newnick : String) :
    (User.SetNewNick env w p newnick).2.log = w.log := by
  unfold User.SetNewNick
  split
  · rfl
  · split
    · rfl
    · simp only []
      split <;> simp

/-! ## The indices stay exact -/

theorem delete_users (env : Env) (w : World) (p : Nat) :
    (User.delete env w p).users = Function.update w.users p none := by
  unfold User.delete
  cases hu : w.users p with
  | none => rw [dtor_dead env w p hu, delUser_users]
  | some u => rw [delUser_users, dtor_users env w p u hu, Function.update_idem]

theorem delete_nextUser (env : Env) (w : World) (p : Nat) :
    (User.delete env w p).nextUser = w.nextUser := by
  unfold User.delete
  rw [delUser_nextUser, dtor_nextUser]

theorem delete_dead (env : Env) (w : World) (p : Nat) (hu : w.users p = none) :
    User.delete env w p = w := by
  unfold User.delete
  rw [dtor_dead env w p hu]
  apply World.ext <;> simp [hu]

theorem IndicesExact.nick_unique {w : World} (h : IndicesExact w) {p q : Nat} {u v : User}
    (hp : w.users p = some u) (hq : w.users q = some v)
    (hk : ci_fold v.nick = ci_fold u.nick) : q = p := by
  have h1 := h.nick_found p u hp
  have h2 := h.nick_found q v hq
  rw [hmap_find_congr _ hk, h1] at h2
  simp only [Option.some.injEq, Prod.mk.injEq] at h2
  exact h2.2.symm

theorem IndicesExact.uid_unique {w : World} (h : IndicesExact w) {p q : Nat} {u v : User}
    (hp : w.users p = some u) (hq : w.users q = some v) (hne : u.uid ≠ "")
    (hk : v.uid = u.uid) : q = p := by
  have h1 := h.uid_found p u hp hne
  have h2 := h.uid_found q v hq (hk ▸ hne)
  rw [hk, h1] at h2
  simp only [Option.some.injEq, Prod.mk.injEq] at h2
  exact h2.2.symm

theorem create_exact (w : World) (nick uid : String) (h : IndicesExact w)
    (hf : FreshAbove w) (hu : (RegOp.create nick uid).unique w) :
    IndicesExact (User.new w nick uid).2 ∧ FreshAbove (User.new w nick uid).2 := by
  by_cases hn : nick = ""
  · subst hn
    rw [new_empty]
    exact ⟨h, hf⟩
  obtain ⟨hun, huu⟩ := hu
  have hp0 : w.users w.nextUser = none := hf _ (le_refl _)
  have hnone : hmap_find ci_fold w.UserListByNick nick = none := by
    rw [hmap_find_none]
    intro e he
    obtain ⟨u, hlive, hk⟩ := h.nick_entry e.1 e.2 he
    rw [← hk]
    exact equals_ci_false.1 (hun _ _ hlive)
  have hunone : uid ≠ "" → hmap_find String.data w.UserListByUID uid = none := by
    intro hne
    rw [hmap_find_none]
    intro e he
    obtain ⟨u, hlive, hk, hk2⟩ := h.uid_entry e.1 e.2 he
    rw [← hk]
    exact data_ne (huu _ _ hlive (hk ▸ hk2))
  refine ⟨⟨?_, ?_, ?_, ?_⟩, ?_⟩
  · intro q v hq
    rw [new_users w nick uid hn] at hq
    rw [new_UserListByNick w nick uid hn]
    by_cases hqp : q = w.nextUser
    · subst hqp
      simp only [Function.update_same, Option.some.injEq] at hq
      subst hq
      obtain ⟨k0, h1, _, h3⟩ := hmap_find_set_self w.UserListByNick w.nextUser
        (rfl : ci_fold nick = ci_fold nick)
      rw [h3 hnone] at h1
      exact h1
    · rw [Function.update_noteq hqp] at hq
      rw [hmap_find_set_ne _ _ (equals_ci_false.1 (hun _ _ hq))]
      exact h.nick_found q v hq
  · intro q v hq hne
    rw [new_users w nick uid hn] at hq
    rw [new_UserListByUID w nick uid hn]
    by_cases hqp : q = w.nextUser
    · subst hqp
      simp only [Function.update_same, Option.some.injEq] at hq
      subst hq
      have hne2 : uid ≠ "" := hne
      rw [if_neg hne2]
      obtain ⟨k0, h1, _, h3⟩ := hmap_find_set_self w.UserListByUID w.nextUser
        (rfl : String.data uid = String.data uid)
      rw [h3 (hunone hne2)] at h1
      exact h1
    · rw [Function.update_noteq hqp] at hq
      split
      · exact h.uid_found q v hq hne
      · rw [hmap_find_set_ne _ _ (data_ne (huu _ _ hq hne))]
        exact h.uid_found q v hq hne
  · intro k q hm
    rw [new_UserListByNick w nick uid hn] at hm
    rw [new_users w nick uid hn]
    rcases mem_hmap_set hm with ⟨h1, _⟩ | ⟨h1, _, h3⟩
    · obtain ⟨u, hlive, hk⟩ := h.nick_entry k q h1
      have hqp : q ≠ w.nextUser := by
        intro h4
        rw [h4, hp0] at hlive
        cases hlive
      exact ⟨u, by rw [Function.update_noteq hqp]; exact hlive, hk⟩
    · simp only at h1 h3
      subst h1
      exact ⟨User.init nick uid, Function.update_same _ _ _, (h3 hnone).symm⟩
  · intro k q hm
    rw [new_UserListByUID w nick uid hn] at hm
    rw [new_users w nick uid hn]
    have hold : (k, q) ∈ w.UserListByUID → ∃ u,
        Function.update w.users w.nextUser (some (User.init nick uid)) q = some u ∧
          u.uid = k ∧ k ≠ "" := by
      intro h1
      obtain ⟨u, hlive, hk⟩ := h.uid_entry k q h1
      have hqp : q ≠ w.nextUser := by
        intro h4
        rw [h4, hp0] at hlive
        cases hlive
      exact ⟨u, by rw [Function.update_noteq hqp]; exact hlive, hk⟩
    by_cases hne : uid = ""
    · rw [if_pos hne] at hm
      exact hold hm
    · rw [if_neg hne] at hm
      rcases mem_hmap_set hm with ⟨h1, _⟩ | ⟨h1, _, h3⟩
      · exact hold h1
      · simp only at h1 h3
        subst h1
        have hk : k = uid := h3 (hunone hne)
        exact ⟨User.init nick uid, Function.update_same _ _ _, hk.symm, hk ▸ hne⟩
  · intro q hq
    rw [new_nextUser w nick uid hn] at hq
    rw [new_users w nick uid hn]
    have hqp : q ≠ w.nextUser := by omega
    rw [Function.update_noteq hqp]
    exact hf q (by omega)

theorem rename_exact (env : Env) (w : World) (p : Nat) (n : String) (h : IndicesExact w)
    (hf : FreshAbove w) (hu : (RegOp.rename p n).unique w) :
    IndicesExact (User.SetNewNick env w p n).2 ∧ FreshAbove (User.SetNewNick env w p n).2 := by
  by_cases hn : n = ""
  · subst hn
    rw [SetNewNick_empty]
    exact ⟨h, hf⟩
  cases hp : w.users p with
  | none =>
    rw [SetNewNick_dead env w p n hp]
    exact ⟨h, hf⟩
  | some u =>
    have hun : ∀ q v, w.users q = some v → q ≠ p → ci_fold v.nick ≠ ci_fold n :=
      fun q v hq hqp => equals_ci_false.1 (hu q v hq hqp)
    have hnone : hmap_find ci_fold (hmap_erase ci_fold w.UserListByNick u.nick) n = none := by
      rw [hmap_find_none]
      intro e he
      obtain ⟨he1, he2⟩ := mem_hmap_erase.1 he
      obtain ⟨v, hlive, hk⟩ := h.nick_entry e.1 e.2 he1
      have hqp : e.2 ≠ p := by
        intro h4
        rw [h4, hp] at hlive
        cases hlive
        exact he2 (by rw [hk])
      rw [← hk]
      exact hun _ _ hlive hqp
    refine ⟨⟨?_, ?_, ?_, ?_⟩, ?_⟩
    · intro q v hq
      rw [SetNewNick_users env w p n u hn hp] at hq
      rw [SetNewNick_UserListByNick env w p n u hn hp]
      by_cases hqp : q = p
      · subst hqp
        simp only [Function.update_same, Option.some.injEq] at hq
        subst hq
        obtain ⟨k0, h1, _, h3⟩ := hmap_find_set_self
          (hmap_erase ci_fold w.UserListByNick u.nick) q (rfl : ci_fold n = ci_fold n)
        rw [h3 hnone] at h1
        exact h1
      · rw [Function.update_noteq hqp] at hq
        have h1 : ci_fold v.nick ≠ ci_fold u.nick := fun h2 => hqp (h.nick_unique hp hq h2)
        rw [hmap_find_set_ne _ _ (hun q v hq hqp), hmap_find_erase_ne _ h1]
        exact h.nick_found q v hq
    · intro q v hq hne
      rw [SetNewNick_users env w p n u hn hp] at hq
      rw [SetNewNick_UserListByUID]
      by_cases hqp : q = p
      · subst hqp
        simp only [Function.update_same, Option.some.injEq] at hq
        subst hq
        exact h.uid_found q u hp hne
      · rw [Function.update_noteq hqp] at hq
        exact h.uid_found q v hq hne
    · intro k q hm
      rw [SetNewNick_UserListByNick env w p n u hn hp] at hm
      rw [SetNewNick_users env w p n u hn hp]
      rcases mem_hmap_set hm with ⟨h1, _⟩ | ⟨h1, _, h3⟩
      · obtain ⟨he1, he2⟩ := mem_hmap_erase.1 h1
        obtain ⟨v, hlive, hk⟩ := h.nick_entry k q he1
        have hqp : q ≠ p := by
          intro h4
          rw [h4, hp] at hlive
          cases hlive
          exact he2 (by rw [hk])
        exact ⟨v, by rw [Function.update_noteq hqp]; exact hlive, hk⟩
      · simp only at h1 h3
        subst h1
        exact ⟨_, Function.update_same _ _ _, (h3 hnone).symm⟩
    · intro k q hm
      rw [SetNewNick_UserListByUID] at hm
      rw [SetNewNick_users env w p n u hn hp]
      obtain ⟨v, hlive, hk⟩ := h.uid_entry k q hm
      by_cases hqp : q = p
      · subst hqp
        rw [hp] at hlive
        cases hlive
        exact ⟨_, Function.update_same _ _ _, hk⟩
      · exact ⟨v, by rw [Function.update_noteq hqp]; exact hlive, hk⟩
    · intro q hq
      rw [SetNewNick_nextUser] at hq
      rw [SetNewNick_users env w p n u hn hp]
      have hqp : q ≠ p := by
        intro h4
        have h5 := hf q hq
        rw [h4, hp] at h5
        cases h5
      rw [Function.update_noteq hqp]
      exact hf q hq

theorem destroy_exact (env : Env) (w : World) (p : Nat) (h : IndicesExact w)
    (hf : FreshAbove w) :
    IndicesExact (User.delete env w p) ∧ FreshAbove (User.delete env w p) := by
  cases hp : w.users p with
  | none =>
    rw [delete_dead env w p hp]
    exact ⟨h, hf⟩
  | some u =>
    have hnick : (User.delete env w p).UserListByNick
        = hmap_erase ci_fold w.UserListByNick u.nick := by
      unfold User.delete
      rw [delUser_UserListByNick, dtor_UserListByNick env w p u hp]
    have huid : (User.delete env w p).UserListByUID =
        if u.uid = "" then w.UserListByUID
        else hmap_erase String.data w.UserListByUID u.uid := by
      unfold User.delete
      rw [delUser_UserListByUID, dtor_UserListByUID env w p u hp]
    have hlive : ∀ q v, (User.delete env w p).users q = some v → q ≠ p ∧ w.users q = some v := by
      intro q v hq
      rw [delete_users] at hq
      by_cases hqp : q = p
      · subst hqp
        simp at hq
      · rw [Function.update_noteq hqp] at hq
        exact ⟨hqp, hq⟩
    have hkeep : ∀ q v, q ≠ p → w.users q = some v → (User.delete env w p).users q = some v := by
      intro q v hqp hq
      rw [delete_users, Function.update_noteq hqp]
      exact hq
    refine ⟨⟨?_, ?_, ?_, ?_⟩, ?_⟩
    · intro q v hq
      obtain ⟨hqp, hq⟩ := hlive q v hq
      have h1 : ci_fold v.nick ≠ ci_fold u.nick := fun h2 => hqp (h.nick_unique hp hq h2)
      rw [hnick, hmap_find_erase_ne _ h1]
      exact h.nick_found q v hq
    · intro q v hq hne
      obtain ⟨hqp, hq⟩ := hlive q v hq
      rw [huid]
      split
      · exact h.uid_found q v hq hne
      · rename_i hune
        have h1 : v.uid ≠ u.uid := fun h2 => hqp (h.uid_unique hp hq hune h2)
        rw [hmap_find_erase_ne _ (data_ne h1)]
        exact h.uid_found q v hq hne
    · intro k q hm
      rw [hnick] at hm
      obtain ⟨he1, he2⟩ := mem_hmap_erase.1 hm
      obtain ⟨v, hl, hk⟩ := h.nick_entry k q he1
      have hqp : q ≠ p := by
        intro h4
        rw [h4, hp] at hl
        cases hl
        exact he2 (by rw [hk])
      exact ⟨v, hkeep q v hqp hl, hk⟩
    · intro k q hm
      rw [huid] at hm
      by_cases hune : u.uid = ""
      · rw [if_pos hune] at hm
        obtain ⟨v, hl, hk, hk2⟩ := h.uid_entry k q hm
        have hqp : q ≠ p := by
          intro h4
          rw [h4, hp] at hl
          cases hl
          exact hk2 (hk ▸ hune)
        exact ⟨v, hkeep q v hqp hl, hk, hk2⟩
      · rw [if_neg hune] at hm
        obtain ⟨he1, he2⟩ := mem_hmap_erase.1 hm
        obtain ⟨v, hl, hk, hk2⟩ := h.uid_entry k q he1
        have hqp : q ≠ p := by
          intro h4
          rw [h4, hp] at hl
          cases hl
          exact he2 (by rw [hk])
        exact ⟨v, hkeep q v hqp hl, hk, hk2⟩
    · intro q hq
      rw [delete_nextUser] at hq
      rw [delete_users]
      by_cases hqp : q = p
      · subst hqp
        simp
      · rw [Function.update_noteq hqp]
        exact hf q hq

theorem run_exact (env : Env) (ops : List RegOp) (w : World) (h : IndicesExact w)
    (hf : FreshAbove w) (hu : RegOp.uniqueSeq env w ops) :
    IndicesExact (RegOp.run env w ops) ∧ FreshAbove (RegOp.run env w ops) := by
  induction ops generalizing w with
  | nil => exact ⟨h, hf⟩
  | cons op ops ih =>
    obtain ⟨hu1, hu2⟩ := hu
    have hstep : IndicesExact (op.apply env w) ∧ FreshAbove (op.apply env w) := by
      cases op with
      | create nick uid => exact create_exact w nick uid h hf hu1
      | rename p n => exact rename_exact env w p n h hf hu1
      | destroy p => exact destroy_exact env w p h hf
    exact ih (op.apply env w) hstep.1 hstep.2 hu2

theorem unique_of_check (w : World) (op : RegOp) (h : IndicesExact w)
    (hc : op.check w = true) : op.unique w := by
  cases op with
  | create nick uid =>
    simp only [RegOp.check, Bool.and_eq_true, Bool.or_eq_true, Option.isNone_iff_eq_none,
      beq_iff_eq] at hc
    obtain ⟨h1, h2⟩ := hc
    constructor
    · intro q u hq
      rw [equals_ci_false]
      intro hk
      have h3 := h.nick_found q u hq
      rw [hmap_find_congr _ hk, h1] at h3
      cases h3
    · intro q u hq hne hk
      have h3 := h.uid_found q u hq hne
      rcases h2 with h2 | h2
      · exact hne (hk.trans h2)
      · rw [hk, h2] at h3
        cases h3
  | rename p n =>
    intro q u hq hqp
    rw [equals_ci_false]
    intro hk
    have h3 := h.nick_found q u hq
    rw [hmap_find_congr _ hk] at h3
    simp only [RegOp.check, h3, beq_iff_eq] at hc
    exact hqp hc
  | destroy p => trivial

theorem uniqueSeq_of_checkSeq (env : Env) (ops : List RegOp) (w : World)
    (h : IndicesExact w) (hf : FreshAbove w) (hc : RegOp.checkSeq env w ops = true) :
    RegOp.uniqueSeq env w ops := by
  induction ops generalizing w with
  | nil => trivial
  | cons op ops ih =>
    simp only [RegOp.checkSeq, Bool.and_eq_true] at hc
    have hu1 := unique_of_check w op h hc.1
    have hstep := run_exact env [op] w h hf ⟨hu1, trivial⟩
    exact ⟨hu1, ih _ hstep.1 hstep.2 hc.2⟩

theorem exact_of_empty (w : World) (hlive : ∀ p, w.users p = none)
    (hn : w.UserListByNick = []) (hi : w.UserListByUID = []) :
    IndicesExact w ∧ FreshAbove w := by
  refine ⟨⟨?_, ?_, ?_, ?_⟩, fun p _ => hlive p⟩
  · intro p u hp
    rw [hlive p] at hp
    cases hp
  · intro p u hp
    rw [hlive p] at hp
    cases hp
  · intro k p hm
    rw [hn] at hm
    cases hm
  · intro k p hm
    rw [hi] at hm
    cases hm

/-- C1 as stated fails: "bob" and "amy" are connected, then "amy" is renamed to
"Bob".  Both sessions are live, but the nickname index has one entry left; it
leads to the renamed session under the key "bob", so the session "bob" is not
found under its nickname and the key differs from the stored nickname "Bob". -/
theorem C1_rename_to_held_name_hides_live_session :
    ((RegOp.run Env.example World.init
        [.create "bob" "", .create "amy" "", .rename 1 "Bob"]).users 0).map
        (fun u => u.nick) = some "bob" ∧
    ((RegOp.run Env.example World.init
        [.create "bob" "", .create "amy" "", .rename 1 "Bob"]).users 1).map
        (fun u => u.nick) = some "Bob" ∧
    (RegOp.run Env.example World.init
        [.create "bob" "", .create "amy" "", .rename 1 "Bob"]).UserListByNick = [("bob", 1)] ∧
    ¬ IndicesExact (RegOp.run Env.example World.init
        [.create "bob" "", .create "amy" "", .rename 1 "Bob"]) := by
  refine ⟨by decide, by decide, by decide, ?_⟩
  intro h
  have h1 := h.nick_found 0 (User.init "bob" "") rfl
  revert h1
  decide

/-- C1 (amended): starting from empty indices and no sessions, every sequence
of create, rename and destroy operations in which the nickname of each create
and rename is not held by another live session, and the uid of each create is
not held by a live session, leaves the two indices exact: every live session
is found under its nickname and under its non-empty uid, and every entry leads
to a live session whose stored nickname (uid) equals the key. -/
theorem C1_indices_exact (env : Env) (w0 : World) (ops : List RegOp)
    (hlive : ∀ p, w0.users p = none) (hn : w0.UserListByNick = [])
    (hi : w0.UserListByUID = []) (hu : RegOp.uniqueSeq env w0 ops) :
    IndicesExact (RegOp.run env w0 ops) :=
  (run_exact env ops w0 (exact_of_empty w0 hlive hn hi).1 (exact_of_empty w0 hlive hn hi).2
    hu).1

theorem C1_indices_exact_witness :
    IndicesExact (RegOp.run Env.example World.init
      [.create "bob" "001AAAAAB", .create "amy" "", .rename 0 "Robert", .rename 1 "AMY",
        .destroy 1, .create "amy" "001AAAAAC", .rename 0 "bob", .destroy 0]) :=
  C1_indices_exact Env.example World.init _ (fun _ => rfl) rfl rfl
    (uniqueSeq_of_checkSeq Env.example _ World.init
      (exact_of_empty World.init (fun _ => rfl) rfl rfl).1
      (exact_of_empty World.init (fun _ => rfl) rfl rfl).2 (by decide))

/-! ## `UpdateHost` and `Login` -/

@[simp]
theorem UpdateHost_nextUser (env : Env) (w : World) (p : Nat) :
    (User.UpdateHost env w p).nextUser = w.nextUser := by
  unfold User.UpdateHost
  split
  · rfl
  · split
    · rfl
    · simp only []
      repeat' split
      all_goals simp

@[simp]
theorem UpdateHost_UserListByNick (env : Env) (w : World) (p : Nat) :
    (User.UpdateHost env w p).UserListByNick = w.UserListByNick := by
  unfold User.UpdateHost
  split
  · rfl
  · split
    · rfl
    · simp only []
      repeat' split
      all_goals simp

@[simp]
theorem UpdateHost_UserListByUID (env : Env) (w : World) (p : Nat) :
    (User.UpdateHost env w p).UserListByUID = w.UserListByUID := by
  unfold User.UpdateHost
  split
  · rfl
  · split
    · rfl
    · simp only []
      repeat' split
      all_goals simp

@[simp]
theorem UpdateHost_opcnt (env : Env) (w : World) (p : Nat) :
    (User.UpdateHost env w p).opcnt = w.opcnt := by
  unfold User.UpdateHost
  split
  · rfl
  · split
    · rfl
    · simp only []
      repeat' split
      all_goals simp

@[simp]
theorem UpdateHost_usercnt (env : Env) (w : World) (p : Nat) :
    (User.UpdateHost env w p).usercnt = w.usercnt := by
  unfold User.UpdateHost
  split
  · rfl
  · split
    · rfl
    · simp only []
      repeat' split
      all_goals simp

@[simp]
theorem UpdateHost_maxusercnt (env : Env) (w : World) (p : Nat) :
    (User.UpdateHost env w p).maxusercnt = w.maxusercnt := by
  unfold User.UpdateHost
  split
  · rfl
  · split
    · rfl
    · simp only []
      repeat' split
      all_goals simp

@[simp]
theorem UpdateHost_maxusertime (env : Env) (w : World) (p : Nat) :
    (User.UpdateHost env w p).maxusertime = w.maxusertime := by
  unfold User.UpdateHost
  split
  · rfl
  · split
    · rfl
    · simp only []
      repeat' split
      all_goals simp

@[simp]
theorem UpdateHost_cores (env : Env) (w : World) (p : Nat) :
    (User.UpdateHost env w p).cores = w.cores := by
  unfold User.UpdateHost
  split
  · rfl
  · split
    · rfl
    · simp only []
      repeat' split
      all_goals simp

@[simp]
theorem UpdateHost_channels (env : Env) (w : World) (p : Nat) :
    (User.UpdateHost env w p).channels = w.channels := by
  unfold User.UpdateHost
  split
  · rfl
  · split
    · rfl
    · simp only []
      repeat' split
      all_goals simp

@[simp]
theorem UpdateHost_now (env : Env) (w : World) (p : Nat) :
    (User.UpdateHost env w p).now = w.now := by
  unfold User.UpdateHost
  split
  · rfl
  · split
    · rfl
    · simp only []
      repeat' split
      all_goals simp

@[simp]
theorem UpdateHost_log (env : Env) (w : World) (p : Nat) :
    (User.UpdateHost env w p).log = w.log := by
  unfold User.UpdateHost
  split
  · rfl
  · split
    · rfl
    · simp only []
      repeat' split
      all_goals simp

/-- The method `User::UpdateHost()` changes nothing of the object but its
recognition state. -/
theorem UpdateHost_users (env : Env) (w : World) (p : Nat) (u : User)
    (hu : w.users p = some u) :
    ∃ b, (User.UpdateHost env w p).users =
      Function.update w.users p (some { u with OnAccess := b }) := by
  unfold User.UpdateHost
  simp only [hu]
  have hself : w.users = Function.update w.users p (some { u with OnAccess := u.OnAccess }) := by
    have : ({ u with OnAccess := u.OnAccess } : User) = u := rfl
    rw [this, ← hu]
    exact (Function.update_eq_self p w.users).symm
  split
  · exact ⟨u.OnAccess, hself⟩
  · cases hna : findnick w u.nick with
    | none => exact ⟨false, rfl⟩
    | some a =>
      refine ⟨env.is_on_access { u with OnAccess := false } (w.cores a.nc), ?_⟩
      simp only []
      split <;> rfl

theorem Login_dead (env : Env) (w : World) (p core : Nat) (hu : w.users p = none) :
    User.Login env w p core = w := by
  unfold User.Login
  simp [hu]

theorem Logout_dead (w : World) (p : Nat) (hu : w.users p = none) :
    User.Logout w p = w := by
  unfold User.Logout
  simp [hu]

theorem Login_users (env : Env) (w : World) (p core : Nat) (u : User)
    (hu : w.users p = some u) :
    ∃ b, (User.Login env w p core).users =
      Function.update w.users p (some { u with nc := some core, OnAccess := b }) := by
  unfold User.Login
  simp only [hu]
  have h1 : (User.Logout w p).users p = some { u with nc := none } := by
    simp [Logout_users w p u hu]
  simp only [h1]
  have h2 : (((User.Logout w p).setUser p { u with nc := some core }).setCore core
      { ((User.Logout w p).setUser p { u with nc := some core }).cores core with
        Users := (((User.Logout w p).setUser p { u with nc := some core }).cores core).Users
          ++ [p] }).users p = some { u with nc := some core } := by
    simp
  obtain ⟨b, hb⟩ := UpdateHost_users env _ p _ h2
  refine ⟨b, ?_⟩
  simp only [emit_users]
  rw [hb]
  simp [Logout_users w p u hu]

theorem Login_cores (env : Env) (w : World) (p core : Nat) (u : User)
    (hu : w.users p = some u) (A : Nat) :
    ((User.Login env w p core).cores A).Users =
      (if u.nc = some A then (w.cores A).Users.erase p else (w.cores A).Users)
        ++ (if A = core then [p] else []) := by
  unfold User.Login
  simp only [hu]
  have h1 : (User.Logout w p).users p = some { u with nc := none } := by
    simp [Logout_users w p u hu]
  simp only [h1, emit_cores, UpdateHost_cores, setCore_cores, setUser_cores,
    Logout_cores w p u hu]
  by_cases hA : A = core
  · subst hA
    simp only [Function.update_same, if_true]
    split <;> rfl
  · rw [Function.update_noteq hA]
    simp only [hA, if_false, List.append_nil]
    split <;> rfl

/-! ## Account reference and session lists stay consistent -/

theorem AccountsConsistent.gone {w : World} (h : AccountsConsistent w) {p : Nat} {u : User}
    (hu : w.users p = some u) (A : Nat) :
    (if u.nc = some A then (w.cores A).Users.erase p else (w.cores A).Users).count p = 0 := by
  split
  · rename_i hA
    rw [List.count_erase_self, h.listed p u A hu hA]
  · rename_i hA
    rw [List.count_eq_zero]
    intro hm
    obtain ⟨v, hv, hvA⟩ := h.refers p A hm
    rw [hu] at hv
    cases hv
    exact hA hvA

theorem count_logout_other (l : List Nat) (c : Prop) [Decidable c] {p q : Nat} (hqp : q ≠ p) :
    (if c then l.erase p else l).count q = l.count q := by
  split
  · exact List.count_erase_of_ne hqp l
  · rfl

theorem login_consistent (env : Env) (w : World) (p core : Nat) (h : AccountsConsistent w) :
    AccountsConsistent (User.Login env w p core) := by
  cases hu : w.users p with
  | none =>
    rw [Login_dead env w p core hu]
    exact h
  | some u =>
    obtain ⟨b, hb⟩ := Login_users env w p core u hu
    constructor
    · intro q v A hq hA
      rw [hb] at hq
      rw [Login_cores env w p core u hu A, List.count_append]
      by_cases hqp : q = p
      · subst hqp
        simp only [Function.update_same, Option.some.injEq] at hq
        subst hq
        simp only [Option.some.injEq] at hA
        subst hA
        rw [h.gone hu]
        simp
      · rw [Function.update_noteq hqp] at hq
        rw [count_logout_other _ _ hqp, h.listed q v A hq hA]
        split <;> simp [hqp]
    · intro q A hm
      rw [Login_cores env w p core u hu A, List.mem_append] at hm
      rw [hb]
      by_cases hqp : q = p
      · subst hqp
        rcases hm with hm | hm
        · have h0 := h.gone hu A
          rw [List.count_eq_zero] at h0
          exact absurd hm h0
        · by_cases hA : A = core
          · subst hA
            exact ⟨_, Function.update_same _ _ _, rfl⟩
          · simp [hA] at hm
      · rw [Function.update_noteq hqp]
        rcases hm with hm | hm
        · have h1 : 0 < (w.cores A).Users.count q := by
            rw [← count_logout_other (w.cores A).Users (u.nc = some A) hqp]
            exact List.count_pos_iff.2 hm
          exact h.refers q A (List.count_pos_iff.1 h1)
        · split at hm
          · simp only [List.mem_singleton] at hm
            exact absurd hm hqp
          · cases hm

theorem logout_consistent (w : World) (p : Nat) (h : AccountsConsistent w) :
    AccountsConsistent (User.Logout w p) := by
  cases hu : w.users p with
  | none =>
    rw [Logout_dead w p hu]
    exact h
  | some u =>
    constructor
    · intro q v A hq hA
      rw [Logout_users w p u hu] at hq
      rw [Logout_cores w p u hu]
      by_cases hqp : q = p
      · subst hqp
        simp only [Function.update_same, Option.some.injEq] at hq
        subst hq
        cases hA
      · rw [Function.update_noteq hqp] at hq
        have h1 := h.listed q v A hq hA
        simp only []
        split
        · simpa [List.count_erase_of_ne hqp] using h1
        · exact h1
    · intro q A hm
      rw [Logout_cores w p u hu] at hm
      rw [Logout_users w p u hu]
      have hm2 : q ∈ (if u.nc = some A then (w.cores A).Users.erase p else (w.cores A).Users) := by
        simp only [] at hm
        split at hm
        · rename_i hA
          simpa [hA] using hm
        · rename_i hA
          simpa [hA] using hm
      by_cases hqp : q = p
      · subst hqp
        have h0 := h.gone hu A
        rw [List.count_eq_zero] at h0
        exact absurd hm2 h0
      · rw [Function.update_noteq hqp]
        have h1 : 0 < (w.cores A).Users.count q := by
          rw [← count_logout_other (w.cores A).Users (u.nc = some A) hqp]
          exact List.count_pos_iff.2 hm2
        exact h.refers q A (List.count_pos_iff.1 h1)

theorem delete_cores (env : Env) (w : World) (p : Nat) :
    (User.delete env w p).cores = (User.Logout w p).cores := by
  unfold User.delete
  rw [delUser_cores]
  cases hu : w.users p with
  | none => rw [dtor_dead env w p hu, Logout_dead w p hu]
  | some u => rw [dtor_cores env w p u hu, Logout_cores w p u hu]

theorem destroy_consistent (env : Env) (w : World) (p : Nat) (h : AccountsConsistent w) :
    AccountsConsistent (User.delete env w p) := by
  have h1 := logout_consistent w p h
  constructor
  · intro q v A hq hA
    rw [delete_users] at hq
    rw [delete_cores]
    by_cases hqp : q = p
    · subst hqp
      simp at hq
    · rw [Function.update_noteq hqp] at hq
      refine h1.listed q v A ?_ hA
      cases hu : w.users p with
      | none =>
        rw [Logout_dead w p hu]
        exact hq
      | some u =>
        rw [Logout_users w p u hu, Function.update_noteq hqp]
        exact hq
  · intro q A hm
    rw [delete_cores] at hm
    rw [delete_users]
    obtain ⟨v, hv, hvA⟩ := h1.refers q A hm
    cases hu : w.users p with
    | none =>
      rw [Logout_dead w p hu] at hv
      have hqp : q ≠ p := by
        intro h2
        rw [h2, hu] at hv
        cases hv
      exact ⟨v, by rw [Function.update_noteq hqp]; exact hv, hvA⟩
    | some u =>
      rw [Logout_users w p u hu] at hv
      have hqp : q ≠ p := by
        intro h2
        subst h2
        simp only [Function.update_same, Option.some.injEq] at hv
        subst hv
        cases hvA
      rw [Function.update_noteq hqp] at hv
      exact ⟨v, by rw [Function.update_noteq hqp]; exact hv, hvA⟩

theorem run_consistent (env : Env) (ops : List AcctOp) (w : World)
    (h : AccountsConsistent w) : AccountsConsistent (AcctOp.run env w ops) := by
  induction ops generalizing w with
  | nil => exact h
  | cons op ops ih =>
    apply ih
    cases op with
    | login p core => exact login_consistent env w p core h
    | logout p => exact logout_consistent w p h
    | destroy p => exact destroy_consistent env w p h

theorem consistent_of_nobody (w : World) (h0 : ∀ p u, w.users p = some u → u.nc = none)
    (h1 : ∀ A, (w.cores A).Users = []) : AccountsConsistent w := by
  constructor
  · intro p u A hp hA
    rw [h0 p u hp] at hA
    cases hA
  · intro p A hm
    rw [h1 A] at hm
    cases hm

/-- C4: starting from a state in which no session is logged in, after every
sequence of Login, Logout and destroy operations a live session refers to
account `A` if and only if it is in the session list of `A`; whoever is in
the session list of `A` is in it exactly once and is a live session. -/
theorem C4_account_link_consistent (env : Env) (w0 : World) (ops : List AcctOp)
    (h0 : ∀ p u, w0.users p = some u → u.nc = none)
    (h1 : ∀ A, (w0.cores A).Users = []) :
    (∀ p u A, (AcctOp.run env w0 ops).users p = some u →
      (u.nc = some A ↔ p ∈ ((AcctOp.run env w0 ops).cores A).Users)) ∧
    (∀ p A, p ∈ ((AcctOp.run env w0 ops).cores A).Users →
      ((AcctOp.run env w0 ops).cores A).Users.count p = 1 ∧
        ((AcctOp.run env w0 ops).users p).isSome = true) := by
  have h := run_consistent env ops w0 (consistent_of_nobody w0 h0 h1)
  constructor
  · intro p u A hp
    constructor
    · intro hA
      have h2 := h.listed p u A hp hA
      exact List.count_pos_iff.1 (by omega)
    · intro hm
      obtain ⟨v, hv, hvA⟩ := h.refers p A hm
      rw [hp] at hv
      cases hv
      exact hvA
  · intro p A hm
    obtain ⟨v, hv, hvA⟩ := h.refers p A hm
    exact ⟨h.listed p v A hv hvA, by rw [hv]; rfl⟩

theorem C4_account_link_consistent_witness :
    (({ User.init "amy" "" with nc := some 8 } : User).nc = some 8 ↔
        1 ∈ ((AcctOp.run Env.example World.lobby
          [.login 0 7, .login 1 7, .login 0 8, .logout 1, .login 1 8, .destroy 0]).cores 8).Users)
      ∧ ((AcctOp.run Env.example World.lobby
          [.login 0 7, .login 1 7, .login 0 8, .logout 1, .login 1 8,
            .destroy 0]).cores 8).Users.count 1 = 1 :=
  have h := C4_account_link_consistent Env.example World.lobby
    [.login 0 7, .login 1 7, .login 0 8, .logout 1, .login 1 8, .destroy 0]
    (by
      intro p u h
      simp only [World.lobby] at h
      split_ifs at h <;> cases h <;> rfl)
    (fun _ => rfl)
  ⟨h.1 1 { User.init "amy" "" with nc := some 8 } 8 rfl, (h.2 1 8 (by decide)).1⟩

/-! ## The paths that destroy a session -/

@[simp]
theorem note_last_quit_users (w : World) (p : Nat) (reason : String) :
    (note_last_quit w p reason).users = w.users := by
  unfold note_last_quit
  repeat' split
  all_goals rfl

@[simp]
theorem note_last_quit_nextUser (w : World) (p : Nat) (reason : String) :
    (note_last_quit w p reason).nextUser = w.nextUser := by
  unfold note_last_quit
  repeat' split
  all_goals rfl

@[simp]
theorem note_last_quit_UserListByNick (w : World) (p : Nat) (reason : String) :
    (note_last_quit w p reason).UserListByNick = w.UserListByNick := by
  unfold note_last_quit
  repeat' split
  all_goals rfl

@[simp]
theorem note_last_quit_UserListByUID (w : World) (p : Nat) (reason : String) :
    (note_last_quit w p reason).UserListByUID = w.UserListByUID := by
  unfold note_last_quit
  repeat' split
  all_goals rfl

@[simp]
theorem note_last_quit_opcnt (w : World) (p : Nat) (reason : String) :
    (note_last_quit w p reason).opcnt = w.opcnt := by
  unfold note_last_quit
  repeat' split
  all_goals rfl

@[simp]
theorem note_last_quit_usercnt (w : World) (p : Nat) (reason : String) :
    (note_last_quit w p reason).usercnt = w.usercnt := by
  unfold note_last_quit
  repeat' split
  all_goals rfl

@[simp]
theorem note_last_quit_maxusercnt (w : World) (p : Nat) (reason : String) :
    (note_last_quit w p reason).maxusercnt = w.maxusercnt := by
  unfold note_last_quit
  repeat' split
  all_goals rfl

@[simp]
theorem note_last_quit_maxusertime (w : World) (p : Nat) (reason : String) :
    (note_last_quit w p reason).maxusertime = w.maxusertime := by
  unfold note_last_quit
  repeat' split
  all_goals rfl

@[simp]
theorem note_last_quit_cores (w : World) (p : Nat) (reason : String) :
    (note_last_quit w p reason).cores = w.cores := by
  unfold note_last_quit
  repeat' split
  all_goals rfl

@[simp]
theorem note_last_quit_channels (w : World) (p : Nat) (reason : String) :
    (note_last_quit w p reason).channels = w.channels := by
  unfold note_last_quit
  repeat' split
  all_goals rfl

@[simp]
theorem note_last_quit_now (w : World) (p : Nat) (reason : String) :
    (note_last_quit w p reason).now = w.now := by
  unfold note_last_quit
  repeat' split
  all_goals rfl

@[simp]
theorem note_last_quit_log (w : World) (p : Nat) (reason : String) :
    (note_last_quit w p reason).log = w.log := by
  unfold note_last_quit
  repeat' split
  all_goals rfl

theorem note_last_quit_isSome (w : World) (p : Nat) (reason nick : String) :
    (findnick (note_last_quit w p reason) nick).isSome = (findnick w nick).isSome := by
  unfold note_last_quit
  split
  · rfl
  · rename_i u hu
    cases hna : findnick w u.nick with
    | none => rfl
    | some na =>
      simp only []
      split
      · unfold findnick at hna ⊢
        simp only [setAlias_aliases]
        by_cases hk : ci_fold nick = ci_fold u.nick
        · rw [hk, Function.update_same, hna]
          rfl
        · rw [Function.update_noteq hk]
      · rfl

theorem finduser_congr (env : Env) (w w1 : World) (h1 : w1.UserListByNick = w.UserListByNick)
    (h2 : w1.UserListByUID = w.UserListByUID) (nick : String) :
    finduser env w1 nick = finduser env w nick := by
  unfold finduser
  rw [h1, h2]

theorem delete_log (env : Env) (w : World) (p : Nat) :
    (User.delete env w p).log = (User.dtor env w p).log := rfl

theorem cancelsSince_append (w w1 : World) (l : List Event) (h : w1.log = w.log ++ l) :
    cancelsSince w w1 = l.filter Event.isCancel := by
  unfold cancelsSince
  rw [h, List.drop_left]

/-- The destructor calls `OnCancel` for the record of the nickname, if there
is one, as its last step: the state in which the destructor ends is the
state in which the hook runs. -/
theorem delete_cancels (env : Env) (w : World) (p : Nat) (u : User)
    (hu : w.users p = some u) :
    cancelsSince w (User.delete env w p) =
      if (findnick w u.nick).isSome then
        [Event.OnCancel (ci_fold u.nick) p (User.dtor env w p).toState]
      else [] := by
  have h := dtor_log env w p u hu
  rw [← delete_log] at h
  rw [List.append_assoc, List.append_assoc] at h
  rw [cancelsSince_append w _ _ h]
  cases findnick w u.nick <;> simp only [List.filter_append] <;> split <;>
    simp [List.filter, Event.isCancel]

theorem dtor_detached (env : Env) (w : World) (p : Nat) (u : User)
    (hu : w.users p = some u) (hl : Linked w p u) :
    Detached (User.dtor env w p).toState p := by
  constructor
  · intro k hm
    have hm1 : (k, p) ∈ (User.dtor env w p).UserListByNick := hm
    rw [dtor_UserListByNick env w p u hu] at hm1
    obtain ⟨h1, h2⟩ := mem_hmap_erase.1 hm1
    exact h2 (hl.byNick k h1)
  · intro k hm
    have hm1 : (k, p) ∈ (User.dtor env w p).UserListByUID := hm
    rw [dtor_UserListByUID env w p u hu] at hm1
    split at hm1
    · rename_i hune
      exact (hl.byUID k hm1).2 hune
    · obtain ⟨h1, h2⟩ := mem_hmap_erase.1 hm1
      exact h2 (by rw [(hl.byUID k h1).1])
  · intro A hm
    have hm1 : p ∈ ((User.dtor env w p).cores A).Users := hm
    rw [dtor_cores env w p u hu] at hm1
    simp only [] at hm1
    split at hm1
    · rename_i hA
      have h1 : p ∈ (w.cores A).Users := List.mem_of_mem_erase hm1
      have h2 := (hl.account A h1).2
      have h3 : ((w.cores A).Users.erase p).count p = 0 := by
        rw [List.count_erase_self, h2]
      rw [List.count_eq_zero] at h3
      exact h3 hm1
    · rename_i hA
      exact hA (hl.account A hm1).1
  · intro c hm
    have hm1 : p ∈ (User.dtor env w p).channels c := hm
    rw [dtor_channels env w p u hu] at hm1
    simp only [] at hm1
    split at hm1
    · simp at hm1
    · rename_i hc
      exact hc (hl.channel c hm1)

theorem delete_cancel_detached (env : Env) (w : World) (p : Nat) (u : User)
    (hu : w.users p = some u) (hl : Linked w p u) :
    CancelRunsDetached w (User.delete env w p) p u.nick :=
  ⟨_, dtor_detached env w p u hu hl, delete_cancels env w p u hu⟩

/-- A destruction that follows steps which touch neither the session nor the
registry and call no `OnCancel`. -/
theorem path_cancel_detached (env : Env) (w w1 : World) (p : Nat) (u : User)
    (pre : List Event) (hlog : w1.log = w.log ++ pre)
    (hpre : pre.filter Event.isCancel = []) (husers : w1.users = w.users)
    (hn : w1.UserListByNick = w.UserListByNick) (hi : w1.UserListByUID = w.UserListByUID)
    (hc : w1.cores = w.cores) (hch : w1.channels = w.channels)
    (hal : (findnick w1 u.nick).isSome = (findnick w u.nick).isSome)
    (hu : w.users p = some u) (hl : Linked w p u) :
    CancelRunsDetached w (User.delete env w1 p) p u.nick := by
  have hu1 : w1.users p = some u := by rw [husers]; exact hu
  have hl1 : Linked w1 p u := by
    constructor
    · intro k hm
      rw [hn] at hm
      exact hl.byNick k hm
    · intro k hm
      rw [hi] at hm
      exact hl.byUID k hm
    · intro A hm
      rw [hc] at hm ⊢
      exact hl.account A hm
    · intro c hm
      rw [hch] at hm
      exact hl.channel c hm
  obtain ⟨s, hs, hcs⟩ := delete_cancel_detached env w1 p u hu1 hl1
  refine ⟨s, hs, ?_⟩
  rw [← hal, ← hcs]
  have h2 := dtor_log env w1 p u hu1
  rw [← delete_log, List.append_assoc, List.append_assoc] at h2
  rw [cancelsSince_append w1 _ _ h2]
  rw [hlog, List.append_assoc] at h2
  rw [cancelsSince_append w _ _ h2, List.filter_append, hpre, List.nil_append]

theorem do_kill_cancel_detached (env : Env) (w : World) (nick msg : String) (p : Nat)
    (u : User) (hf : finduser env w nick = some p) (hu : w.users p = some u)
    (hl : Linked w p u) : CancelRunsDetached w (do_kill env w nick msg) p u.nick := by
  unfold do_kill
  simp only [hf]
  exact path_cancel_detached env w _ p u [] (by simp) rfl (by simp) (by simp) (by simp)
    (by simp) (by simp) (note_last_quit_isSome w p msg u.nick) hu hl

theorem do_quit_cancel_detached (env : Env) (w : World) (source reason : String) (p : Nat)
    (u : User) (hf : finduser env w source = some p) (hu : w.users p = some u)
    (hl : Linked w p u) : CancelRunsDetached w (do_quit env w source reason) p u.nick := by
  unfold do_quit
  simp only [hf]
  exact path_cancel_detached env w _ p u [Event.OnUserQuit p reason] (by simp) rfl
    (by simp) (by simp) (by simp) (by simp) (by simp)
    (note_last_quit_isSome w p reason u.nick) hu hl

theorem kill_user_cancel_detached (env : Env) (w : World) (source user reason : String)
    (p : Nat) (u : User) (hq : env.quitonkill = false) (hne : user ≠ "")
    (hf : finduser env w user = some p) (hu : w.users p = some u) (hl : Linked w p u) :
    CancelRunsDetached w (kill_user env w source user reason) p u.nick := by
  unfold kill_user
  rw [if_neg hne]
  simp only [hq, hf, Bool.not_false, Option.isSome_some, Bool.and_self, if_true]
  unfold do_kill
  have hf1 : ∀ e, finduser env (w.emit e) user = some p := by
    intro e
    rw [finduser_congr env w (w.emit e) rfl rfl]
    exact hf
  simp only [hf1]
  refine path_cancel_detached env w _ p u
    [Event.SendSVSKill source (some p)
      ((if source = "" then env.ServerName else source) ++ " (" ++ reason ++ ")")]
    (by simp) rfl (by simp) (by simp) (by simp) (by simp) (by simp) ?_ hu hl
  rw [note_last_quit_isSome]
  rfl

/-- C3: on each destruction path (`do_quit`, `do_kill`, and `kill_user` on a
network without quit-on-kill) the only `OnCancel` that runs is the one of the
session's nickname record, and at the moment it runs no index entry, no
account session list and no channel leads to the session any more. -/
theorem C3_detached_when_cancel_runs (env : Env) (w : World) (p : Nat) (u : User)
    (hu : w.users p = some u) (hl : Linked w p u) :
    (∀ source reason, finduser env w source = some p →
      CancelRunsDetached w (do_quit env w source reason) p u.nick) ∧
    (∀ nick msg, finduser env w nick = some p →
      CancelRunsDetached w (do_kill env w nick msg) p u.nick) ∧
    (∀ source user reason, env.quitonkill = false → user ≠ "" →
      finduser env w user = some p →
      CancelRunsDetached w (kill_user env w source user reason) p u.nick) :=
  ⟨fun source reason hf => do_quit_cancel_detached env w source reason p u hf hu hl,
   fun nick msg hf => do_kill_cancel_detached env w nick msg p u hf hu hl,
   fun source user reason hq hne hf =>
     kill_user_cancel_detached env w source user reason p u hq hne hf hu hl⟩

theorem demo_bob_linked : Linked World.demo 0 User.bob := by
  constructor
  · intro k hm
    simp [World.demo] at hm
    rw [hm]
    rfl
  · intro k hm
    simp [World.demo] at hm
    rw [hm]
    exact ⟨rfl, by decide⟩
  · intro A hm
    by_cases h7 : A = 7
    · subst h7
      exact ⟨rfl, by decide⟩
    · by_cases h8 : A = 8
      · subst h8
        simp [World.demo] at hm
      · simp [World.demo, h7, h8] at hm
  · intro c hm
    by_cases h3 : c = 3
    · subst h3
      decide
    · simp [World.demo, h3] at hm

theorem C3_detached_when_cancel_runs_witness :
    CancelRunsDetached World.demo (do_quit Env.example World.demo "bob" "bye") 0 "bob" ∧
    CancelRunsDetached World.demo (do_kill Env.example World.demo "BOB" "bye") 0 "bob" ∧
    CancelRunsDetached World.demo
      (kill_user Env.example World.demo "NickServ" "001AAAAAB" "enforcer") 0 "bob" :=
  have h := C3_detached_when_cancel_runs Env.example World.demo 0 User.bob rfl demo_bob_linked
  ⟨h.1 "bob" "bye" (by decide), h.2.1 "BOB" "bye" (by decide),
   h.2.2 "NickServ" "001AAAAAB" "enforcer" rfl (by decide) (by decide)⟩

theorem linked_of_consistent (w : World) (p : Nat) (u : User) (hu : w.users p = some u)
    (h1 : IndicesExact w) (h2 : AccountsConsistent w)
    (h3 : ∀ c, p ∈ w.channels c → c ∈ u.chans) : Linked w p u := by
  constructor
  · intro k hm
    obtain ⟨v, hv, hk⟩ := h1.nick_entry k p hm
    rw [hu] at hv
    cases hv
    rw [hk]
  · intro k hm
    obtain ⟨v, hv, hk, hk2⟩ := h1.uid_entry k p hm
    rw [hu] at hv
    cases hv
    exact ⟨hk.symm, hk ▸ hk2⟩
  · intro A hm
    obtain ⟨v, hv, hA⟩ := h2.refers p A hm
    rw [hu] at hv
    cases hv
    exact ⟨hA, h2.listed p _ A hu hA⟩
  · exact h3

/-- C2: after a live session is destroyed, a lookup of its former nickname in
the nickname index and a lookup of its former uid in the id index return
nothing, the session is no longer in the session list of its account, and
`OnCancel` of the registered record of that nickname has been invoked exactly
once (a nickname without a registered record has no hook, and none runs). -/
theorem C2_destroy_detaches (env : Env) (w : World) (p : Nat) (u : User)
    (hu : w.users p = some u)
    (hacc : ∀ A, u.nc = some A → (w.cores A).Users.count p ≤ 1) :
    hmap_find ci_fold (User.delete env w p).UserListByNick u.nick = none ∧
    (u.uid ≠ "" → hmap_find String.data (User.delete env w p).UserListByUID u.uid = none) ∧
    (∀ A, u.nc = some A → p ∉ ((User.delete env w p).cores A).Users) ∧
    cancelsSince w (User.delete env w p) =
      if (findnick w u.nick).isSome then
        [Event.OnCancel (ci_fold u.nick) p (User.dtor env w p).toState]
      else [] := by
  refine ⟨?_, ?_, ?_, delete_cancels env w p u hu⟩
  · unfold User.delete
    rw [delUser_UserListByNick, dtor_UserListByNick env w p u hu]
    exact hmap_find_erase_self _ rfl
  · intro hne
    unfold User.delete
    rw [delUser_UserListByUID, dtor_UserListByUID env w p u hu, if_neg hne]
    exact hmap_find_erase_self _ rfl
  · intro A hA
    rw [delete_cores, Logout_cores w p u hu]
    simp only [hA, if_true]
    rw [← List.count_eq_zero, List.count_erase_self]
    have := hacc A hA
    omega

/-- After the destructor `finduser` does not find the former nickname either,
for a nickname that `finduser` looks up in the nickname index. -/
theorem delete_finduser_nick (env : Env) (w : World) (p : Nat) (u : User)
    (hu : w.users p = some u) (hd : (isdigit0 u.nick && env.ts6) = false) :
    finduser env (User.delete env w p) u.nick = none := by
  unfold finduser
  rw [hd]
  unfold User.delete
  rw [delUser_UserListByNick, dtor_UserListByNick env w p u hu,
    hmap_find_erase_self _ rfl]
  rfl

theorem C2_destroy_detaches_witness :
    hmap_find ci_fold (User.delete Env.example World.demo 0).UserListByNick "bob" = none ∧
    ("001AAAAAB" ≠ "" →
      hmap_find String.data (User.delete Env.example World.demo 0).UserListByUID "001AAAAAB"
        = none) ∧
    (∀ A, some 7 = some A → 0 ∉ ((User.delete Env.example World.demo 0).cores A).Users) ∧
    cancelsSince World.demo (User.delete Env.example World.demo 0) =
      if (findnick World.demo "bob").isSome then
        [Event.OnCancel (ci_fold "bob") 0 (User.dtor Env.example World.demo 0).toState]
      else [] :=
  C2_destroy_detaches Env.example World.demo 0 User.bob rfl
    (by
      intro A hA
      cases hA
      decide)

/-! ## Rename -/

/-- C5 as stated fails for the lookup `finduser`: on a TS6 network a name that
starts with a digit is looked up in the id index.  The session whose nickname
was its uid is still found under the old nickname after it was renamed to
"bob"; and a session renamed to "1bob" is not found under "1bob". -/
theorem C5_finduser_digit_names :
    (World.uidNick.users 0).map (fun u => u.nick) = some "001AAAAAB" ∧
    equals_ci "001AAAAAB" "bob" = false ∧
    finduser Env.example (User.SetNewNick Env.example World.uidNick 0 "bob").2 "001AAAAAB"
      = some 0 ∧
    finduser Env.example (User.SetNewNick Env.example World.uidNick 0 "1bob").2 "1bob"
      = none := by
  decide

/-- C5 (amended): for a live session `s` and a non-empty new name `n`, after
`User::SetNewNick(n)` the nickname index maps `n` to `s`, the stored nickname
of `s` is `n`, the id index is unchanged, and, when `n` is not
case-insensitively equal to the old nickname, the nickname index has no entry
for the old nickname.  The lookup `finduser` agrees with the nickname index
for every name that does not start with a digit, and on every network that is
not TS6. -/
theorem C5_rename_moves_index_entry (env : Env) (w : World) (s : Nat) (u : User) (n : String)
    (hn : n ≠ "") (hu : w.users s = some u) :
    (∃ k, hmap_find ci_fold (User.SetNewNick env w s n).2.UserListByNick n = some (k, s)) ∧
    ((User.SetNewNick env w s n).2.users s).map (fun v => v.nick) = some n ∧
    (User.SetNewNick env w s n).2.UserListByUID = w.UserListByUID ∧
    (equals_ci u.nick n = false →
      hmap_find ci_fold (User.SetNewNick env w s n).2.UserListByNick u.nick = none) ∧
    ((isdigit0 n && env.ts6) = false →
      finduser env (User.SetNewNick env w s n).2 n = some s) ∧
    (equals_ci u.nick n = false → (isdigit0 u.nick && env.ts6) = false →
      finduser env (User.SetNewNick env w s n).2 u.nick = none) := by
  have hidx := SetNewNick_UserListByNick env w s n u hn hu
  obtain ⟨k0, hk0, _, _⟩ := hmap_find_set_self
    (hmap_erase ci_fold w.UserListByNick u.nick) s (rfl : ci_fold n = ci_fold n)
  have hold : equals_ci u.nick n = false →
      hmap_find ci_fold (User.SetNewNick env w s n).2.UserListByNick u.nick = none := by
    intro hne
    rw [hidx, hmap_find_set_ne _ _ (equals_ci_false.1 hne)]
    exact hmap_find_erase_self _ rfl
  refine ⟨⟨k0, by rw [hidx]; exact hk0⟩, ?_, SetNewNick_UserListByUID env w s n, hold, ?_, ?_⟩
  · rw [SetNewNick_users env w s n u hn hu]
    simp
  · intro hd
    unfold finduser
    rw [hd, hidx, hk0]
    rfl
  · intro hne hd
    unfold finduser
    rw [hd, hold hne]
    rfl

theorem C5_rename_moves_index_entry_witness :
    (∃ k, hmap_find ci_fold (User.SetNewNick Env.example World.demo 0 "Robert").2.UserListByNick
      "Robert" = some (k, 0)) ∧
    ((User.SetNewNick Env.example World.demo 0 "Robert").2.users 0).map (fun v => v.nick)
      = some "Robert" ∧
    (User.SetNewNick Env.example World.demo 0 "Robert").2.UserListByUID
      = World.demo.UserListByUID ∧
    (equals_ci "bob" "Robert" = false →
      hmap_find ci_fold (User.SetNewNick Env.example World.demo 0 "Robert").2.UserListByNick
        "bob" = none) ∧
    ((isdigit0 "Robert" && Env.example.ts6) = false →
      finduser Env.example (User.SetNewNick Env.example World.demo 0 "Robert").2 "Robert"
        = some 0) ∧
    (equals_ci "bob" "Robert" = false → (isdigit0 "bob" && Env.example.ts6) = false →
      finduser Env.example (User.SetNewNick Env.example World.demo 0 "Robert").2 "bob"
        = none) :=
  C5_rename_moves_index_entry Env.example World.demo 0 User.bob "Robert" (by decide) rfl

/-! ## Empty arguments -/

theorem SetDisplayedHost_empty (env : Env) (w : World) (p : Nat) :
    User.SetDisplayedHost env w p "" =
      (.error (.CoreException
        "empty host? in MY services? it seems it's more likely than I thought."), w) := by
  simp [User.SetDisplayedHost]

theorem SetCloakedHost_empty (env : Env) (w : World) (p : Nat) :
    User.SetCloakedHost env w p "" =
      (.error (.CString "empty host in User::SetCloakedHost"), w) := by
  simp [User.SetCloakedHost]

/-- C6: creating a session with an empty nickname, `User::SetNewNick` with an
empty name, and `User::SetDisplayedHost` / `User::SetCloakedHost` with an
empty host each fail with an error, and the world at the failure (indices,
counters, every session) is the world before the call. -/
theorem C6_empty_argument_fails (env : Env) (w : World) (p : Nat) (suid : String) :
    (∃ e, User.new w "" suid = (.error e, w)) ∧
    (∃ e, User.SetNewNick env w p "" = (.error e, w)) ∧
    (∃ e, User.SetDisplayedHost env w p "" = (.error e, w)) ∧
    (∃ e, User.SetCloakedHost env w p "" = (.error e, w)) :=
  ⟨⟨_, new_empty w suid⟩, ⟨_, SetNewNick_empty env w p⟩,
   ⟨_, SetDisplayedHost_empty env w p⟩, ⟨_, SetCloakedHost_empty env w p⟩⟩

/-! ## `do_nick`: a user changes nick -/

@[simp]
theorem do_nick_begin_nextUser (w : World) (p : Nat) (ts : Int) :
    (do_nick_begin w p ts).nextUser = w.nextUser := by
  simp [do_nick_begin]

@[simp]
theorem do_nick_begin_UserListByNick (w : World) (p : Nat) (ts : Int) :
    (do_nick_begin w p ts).UserListByNick = w.UserListByNick := by
  simp [do_nick_begin]

@[simp]
theorem do_nick_begin_UserListByUID (w : World) (p : Nat) (ts : Int) :
    (do_nick_begin w p ts).UserListByUID = w.UserListByUID := by
  simp [do_nick_begin]

@[simp]
theorem do_nick_begin_opcnt (w : World) (p : Nat) (ts : Int) :
    (do_nick_begin w p ts).opcnt = w.opcnt := by
  simp [do_nick_begin]

@[simp]
theorem do_nick_begin_usercnt (w : World) (p : Nat) (ts : Int) :
    (do_nick_begin w p ts).usercnt = w.usercnt := by
  simp [do_nick_begin]

@[simp]
theorem do_nick_begin_maxusercnt (w : World) (p : Nat) (ts : Int) :
    (do_nick_begin w p ts).maxusercnt = w.maxusercnt := by
  simp [do_nick_begin]

@[simp]
theorem do_nick_begin_maxusertime (w : World) (p : Nat) (ts : Int) :
    (do_nick_begin w p ts).maxusertime = w.maxusertime := by
  simp [do_nick_begin]

@[simp]
theorem do_nick_begin_cores (w : World) (p : Nat) (ts : Int) :
    (do_nick_begin w p ts).cores = w.cores := by
  simp [do_nick_begin]

@[simp]
theorem do_nick_begin_aliases (w : World) (p : Nat) (ts : Int) :
    (do_nick_begin w p ts).aliases = w.aliases := by
  simp [do_nick_begin]

@[simp]
theorem do_nick_begin_channels (w : World) (p : Nat) (ts : Int) :
    (do_nick_begin w p ts).channels = w.channels := by
  simp [do_nick_begin]

@[simp]
theorem do_nick_begin_now (w : World) (p : Nat) (ts : Int) :
    (do_nick_begin w p ts).now = w.now := by
  simp [do_nick_begin]

@[simp]
theorem do_nick_begin_log (w : World) (p : Nat) (ts : Int) :
    (do_nick_begin w p ts).log = w.log := by
  simp [do_nick_begin]

theorem modUser_users (w : World) (p : Nat) (f : User → User) (u : User)
    (hu : w.users p = some u) :
    (w.modUser p f).users = Function.update w.users p (some (f u)) := by
  rw [modUser_eq w p f u hu]
  rfl

theorem SetNewNick_pair (env : Env) (w : World) (p : Nat) (n : String) (hn : n ≠ "") :
    User.SetNewNick env w p n = (.ok (), (User.SetNewNick env w p n).2) := by
  unfold User.SetNewNick
  rw [if_neg hn]
  cases w.users p <;> rfl

/-- The object at `user` when `do_nick` reaches the comparison of the nicks. -/
theorem do_nick_begin_users (w : World) (p : Nat) (u : User) (ts : Int)
    (hu : w.users p = some u) :
    (do_nick_begin w p ts).users p = some { u with isSuperAdmin := 0, timestamp := ts } := by
  unfold do_nick_begin
  have h1 : (w.modUser p (fun u => { u with isSuperAdmin := 0 })).users p
      = some { u with isSuperAdmin := 0 } := by
    rw [modUser_users w p _ u hu, Function.update_same]
  simp only []
  rw [modUser_users _ p _ _ h1, Function.update_same]

theorem do_nick_case_only (env : Env) (w : World)
    (source nick username host server realname : String) (ts : Int) (ip : Nat)
    (vhost uid : String) (p : Nat) (u : User) (hsrc : source ≠ "")
    (hf : finduser env w source = some p) (hu : w.users p = some u)
    (hci : equals_ci u.nick nick = true) (hn : nick ≠ "") :
    do_nick env w source nick username host server realname ts ip vhost uid =
      (.ok (some p), (User.SetNewNick env (do_nick_begin w p ts) p nick).2) := by
  unfold do_nick
  rw [if_neg hsrc]
  unfold do_nick_change
  simp only [hf, hu, hci, if_true]
  rw [SetNewNick_pair env _ p nick hn]

theorem do_nick_differ (env : Env) (w : World)
    (source nick username host server realname : String) (ts : Int) (ip : Nat)
    (vhost uid : String) (p : Nat) (u : User) (hsrc : source ≠ "")
    (hf : finduser env w source = some p) (hu : w.users p = some u)
    (hci : equals_ci u.nick nick = false) (hn : nick ≠ "") :
    do_nick env w source nick username host server realname ts ip vhost uid =
      do_nick_sqline env (do_nick_renamed env
        (User.SetNewNick env (do_nick_stamp (do_nick_begin w p ts) p u) p nick).2 p u nick
        (findnick (do_nick_begin w p ts) u.nick)) p := by
  unfold do_nick
  rw [if_neg hsrc]
  unfold do_nick_change
  simp only [hf, hu, hci, Bool.false_eq_true, if_false]
  rw [SetNewNick_pair env _ p nick hn]

/-- C7 as stated fails: "bob" is recognized (`OnAccess`), his mask has since
been deleted from the access list of the account; the case-only nick change
to "Bob" recomputes the recognition state, which becomes false. -/
theorem C7_case_only_rename_recomputes_recognition :
    finduser Env.example World.demoAccessDeleted "bob" = some 0 ∧
    (World.demoAccessDeleted.users 0).map (fun u => (u.nick, u.OnAccess)) = some ("bob", true) ∧
    equals_ci "bob" "Bob" = true ∧
    ((do_nick Env.example World.demoAccessDeleted "bob" "Bob" "" "" "" "" 1000 0 "" "").2.users
      0).map (fun u => (u.nick, u.OnAccess)) = some ("Bob", false) := by
  decide

/-- C7 (amended): a nick change to a name that is case-insensitively equal to
the current nickname leaves the account link of the session as it was, and
recomputes its recognition state: `OnAccess` becomes true exactly when the
nickname has a registered record and the session is on the access list of
the account that owns it. -/
theorem C7_case_only_rename (env : Env) (w : World)
    (source nick username host server realname : String) (ts : Int) (ip : Nat)
    (vhost uid : String) (p : Nat) (u : User) (hsrc : source ≠ "")
    (hf : finduser env w source = some p) (hu : w.users p = some u)
    (hci : equals_ci u.nick nick = true) (hn : nick ≠ "") :
    ∃ v, (do_nick env w source nick username host server realname ts ip vhost uid).2.users p
        = some v ∧
      v.nc = u.nc ∧
      v.OnAccess = match findnick w nick with
        | some na => env.is_on_access { v with OnAccess := false } (w.cores na.nc)
        | none => false := by
  rw [do_nick_case_only env w source nick username host server realname ts ip vhost uid p u
    hsrc hf hu hci hn]
  simp only []
  rw [SetNewNick_users env _ p nick _ hn (do_nick_begin_users w p u ts hu)]
  refine ⟨_, Function.update_same _ _ _, rfl, ?_⟩
  have h1 : findnick (do_nick_begin w p ts) nick = findnick w nick := by
    simp [findnick]
  rw [h1]
  cases findnick w nick <;> simp

theorem C7_case_only_rename_witness :
    ∃ v, (do_nick Env.example World.demo "bob" "BOB" "" "" "" "" 1000 0 "" "").2.users 0
        = some v ∧
      v.nc = User.bob.nc ∧
      v.OnAccess = match findnick World.demo "BOB" with
        | some na => Env.example.is_on_access { v with OnAccess := false }
            (World.demo.cores na.nc)
        | none => false :=
  C7_case_only_rename Env.example World.demo "bob" "BOB" "" "" "" "" 1000 0 "" "" 0 User.bob
    (by decide) (by decide) rfl (by decide) (by decide)

/-! ## What the steps of `do_nick` leave alone -/

@[simp]
theorem RemoveModeInternal_nextUser (w : World) (p : Nat) (um : Option UserMode) :
    (User.RemoveModeInternal w p um).nextUser = w.nextUser := by
  unfold User.RemoveModeInternal
  repeat' split
  all_goals rfl

@[simp]
theorem RemoveModeInternal_UserListByNick (w : World) (p : Nat) (um : Option UserMode) :
    (User.RemoveModeInternal w p um).UserListByNick = w.UserListByNick := by
  unfold User.RemoveModeInternal
  repeat' split
  all_goals rfl

@[simp]
theorem RemoveModeInternal_UserListByUID (w : World) (p : Nat) (um : Option UserMode) :
    (User.RemoveModeInternal w p um).UserListByUID = w.UserListByUID := by
  unfold User.RemoveModeInternal
  repeat' split
  all_goals rfl

@[simp]
theorem RemoveModeInternal_opcnt (w : World) (p : Nat) (um : Option UserMode) :
    (User.RemoveModeInternal w p um).opcnt = w.opcnt := by
  unfold User.RemoveModeInternal
  repeat' split
  all_goals rfl

@[simp]
theorem RemoveModeInternal_usercnt (w : World) (p : Nat) (um : Option UserMode) :
    (User.RemoveModeInternal w p um).usercnt = w.usercnt := by
  unfold User.RemoveModeInternal
  repeat' split
  all_goals rfl

@[simp]
theorem RemoveModeInternal_maxusercnt (w : World) (p : Nat) (um : Option UserMode) :
    (User.RemoveModeInternal w p um).maxusercnt = w.maxusercnt := by
  unfold User.RemoveModeInternal
  repeat' split
  all_goals rfl

@[simp]
theorem RemoveModeInternal_maxusertime (w : World) (p : Nat) (um : Option UserMode) :
    (User.RemoveModeInternal w p um).maxusertime = w.maxusertime := by
  unfold User.RemoveModeInternal
  repeat' split
  all_goals rfl

@[simp]
theorem RemoveModeInternal_cores (w : World) (p : Nat) (um : Option UserMode) :
    (User.RemoveModeInternal w p um).cores = w.cores := by
  unfold User.RemoveModeInternal
  repeat' split
  all_goals rfl

@[simp]
theorem RemoveModeInternal_aliases (w : World) (p : Nat) (um : Option UserMode) :
    (User.RemoveModeInternal w p um).aliases = w.aliases := by
  unfold User.RemoveModeInternal
  repeat' split
  all_goals rfl

@[simp]
theorem RemoveModeInternal_channels (w : World) (p : Nat) (um : Option UserMode) :
    (User.RemoveModeInternal w p um).channels = w.channels := by
  unfold User.RemoveModeInternal
  repeat' split
  all_goals rfl

@[simp]
theorem RemoveModeInternal_now (w : World) (p : Nat) (um : Option UserMode) :
    (User.RemoveModeInternal w p um).now = w.now := by
  unfold User.RemoveModeInternal
  repeat' split
  all_goals rfl

@[simp]
theorem RemoveMode_nextUser (w : World) (bi : String) (p : Nat) (um : Option UserMode) :
    (User.RemoveMode w bi p um).nextUser = w.nextUser := by
  unfold User.RemoveMode
  repeat' split
  all_goals simp

@[simp]
theorem RemoveMode_UserListByNick (w : World) (bi : String) (p : Nat) (um : Option UserMode) :
    (User.RemoveMode w bi p um).UserListByNick = w.UserListByNick := by
  unfold User.RemoveMode
  repeat' split
  all_goals simp

@[simp]
theorem RemoveMode_UserListByUID (w : World) (bi : String) (p : Nat) (um : Option UserMode) :
    (User.RemoveMode w bi p um).UserListByUID = w.UserListByUID := by
  unfold User.RemoveMode
  repeat' split
  all_goals simp

@[simp]
theorem RemoveMode_opcnt (w : World) (bi : String) (p : Nat) (um : Option UserMode) :
    (User.RemoveMode w bi p um).opcnt = w.opcnt := by
  unfold User.RemoveMode
  repeat' split
  all_goals simp

@[simp]
theorem RemoveMode_usercnt (w : World) (bi : String) (p : Nat) (um : Option UserMode) :
    (User.RemoveMode w bi p um).usercnt = w.usercnt := by
  unfold User.RemoveMode
  repeat' split
  all_goals simp

@[simp]
theorem RemoveMode_maxusercnt (w : World) (bi : String) (p : Nat) (um : Option UserMode) :
    (User.RemoveMode w bi p um).maxusercnt = w.maxusercnt := by
  unfold User.RemoveMode
  repeat' split
  all_goals simp

@[simp]
theorem RemoveMode_maxusertime (w : World) (bi : String) (p : Nat) (um : Option UserMode) :
    (User.RemoveMode w bi p um).maxusertime = w.maxusertime := by
  unfold User.RemoveMode
  repeat' split
  all_goals simp

@[simp]
theorem RemoveMode_cores (w : World) (bi : String) (p : Nat) (um : Option UserMode) :
    (User.RemoveMode w bi p um).cores = w.cores := by
  unfold User.RemoveMode
  repeat' split
  all_goals simp

@[simp]
theorem RemoveMode_aliases (w : World) (bi : String) (p : Nat) (um : Option UserMode) :
    (User.RemoveMode w bi p um).aliases = w.aliases := by
  unfold User.RemoveMode
  repeat' split
  all_goals simp

@[simp]
theorem RemoveMode_channels (w : World) (bi : String) (p : Nat) (um : Option UserMode) :
    (User.RemoveMode w bi p um).channels = w.channels := by
  unfold User.RemoveMode
  repeat' split
  all_goals simp

@[simp]
theorem RemoveMode_now (w : World) (bi : String) (p : Nat) (um : Option UserMode) :
    (User.RemoveMode w bi p um).now = w.now := by
  unfold User.RemoveMode
  repeat' split
  all_goals simp

@[simp]
theorem RemoveModeByName_nextUser (env : Env) (w : World) (bi : String) (p : Nat) (Name : UserModeName) :
    (User.RemoveModeByName env w bi p Name).nextUser = w.nextUser := by
  simp [User.RemoveModeByName]

@[simp]
theorem RemoveModeByName_UserListByNick (env : Env) (w : World) (bi : String) (p : Nat) (Name : UserModeName) :
    (User.RemoveModeByName env w bi p Name).UserListByNick = w.UserListByNick := by
  simp [User.RemoveModeByName]

@[simp]
theorem RemoveModeByName_UserListByUID (env : Env) (w : World) (bi : String) (p : Nat) (Name : UserModeName) :
    (User.RemoveModeByName env w bi p Name).UserListByUID = w.UserListByUID := by
  simp [User.RemoveModeByName]

@[simp]
theorem RemoveModeByName_opcnt (env : Env) (w : World) (bi : String) (p : Nat) (Name : UserModeName) :
    (User.RemoveModeByName env w bi p Name).opcnt = w.opcnt := by
  simp [User.RemoveModeByName]

@[simp]
theorem RemoveModeByName_usercnt (env : Env) (w : World) (bi : String) (p : Nat) (Name : UserModeName) :
    (User.RemoveModeByName env w bi p Name).usercnt = w.usercnt := by
  simp [User.RemoveModeByName]

@[simp]
theorem RemoveModeByName_maxusercnt (env : Env) (w : World) (bi : String) (p : Nat) (Name : UserModeName) :
    (User.RemoveModeByName env w bi p Name).maxusercnt = w.maxusercnt := by
  simp [User.RemoveModeByName]

@[simp]
theorem RemoveModeByName_maxusertime (env : Env) (w : World) (bi : String) (p : Nat) (Name : UserModeName) :
    (User.RemoveModeByName env w bi p Name).maxusertime = w.maxusertime := by
  simp [User.RemoveModeByName]

@[simp]
theorem RemoveModeByName_cores (env : Env) (w : World) (bi : String) (p : Nat) (Name : UserModeName) :
    (User.RemoveModeByName env w bi p Name).cores = w.cores := by
  simp [User.RemoveModeByName]

@[simp]
theorem RemoveModeByName_aliases (env : Env) (w : World) (bi : String) (p : Nat) (Name : UserModeName) :
    (User.RemoveModeByName env w bi p Name).aliases = w.aliases := by
  simp [User.RemoveModeByName]

@[simp]
theorem RemoveModeByName_channels (env : Env) (w : World) (bi : String) (p : Nat) (Name : UserModeName) :
    (User.RemoveModeByName env w bi p Name).channels = w.channels := by
  simp [User.RemoveModeByName]

@[simp]
theorem RemoveModeByName_now (env : Env) (w : World) (bi : String) (p : Nat) (Name : UserModeName) :
    (User.RemoveModeByName env w bi p Name).now = w.now := by
  simp [User.RemoveModeByName]

@[simp]
theorem do_nick_stamp_nextUser (w : World) (p : Nat) (u : User) :
    (do_nick_stamp w p u).nextUser = w.nextUser := by
  unfold do_nick_stamp
  simp only []
  repeat' split
  all_goals simp

@[simp]
theorem do_nick_stamp_UserListByNick (w : World) (p : Nat) (u : User) :
    (do_nick_stamp w p u).UserListByNick = w.UserListByNick := by
  unfold do_nick_stamp
  simp only []
  repeat' split
  all_goals simp

@[simp]
theorem do_nick_stamp_UserListByUID (w : World) (p : Nat) (u : User) :
    (do_nick_stamp w p u).UserListByUID = w.UserListByUID := by
  unfold do_nick_stamp
  simp only []
  repeat' split
  all_goals simp

@[simp]
theorem do_nick_stamp_opcnt (w : World) (p : Nat) (u : User) :
    (do_nick_stamp w p u).opcnt = w.opcnt := by
  unfold do_nick_stamp
  simp only []
  repeat' split
  all_goals simp

@[simp]
theorem do_nick_stamp_usercnt (w : World) (p : Nat) (u : User) :
    (do_nick_stamp w p u).usercnt = w.usercnt := by
  unfold do_nick_stamp
  simp only []
  repeat' split
  all_goals simp

@[simp]
theorem do_nick_stamp_maxusercnt (w : World) (p : Nat) (u : User) :
    (do_nick_stamp w p u).maxusercnt = w.maxusercnt := by
  unfold do_nick_stamp
  simp only []
  repeat' split
  all_goals simp

@[simp]
theorem do_nick_stamp_maxusertime (w : World) (p : Nat) (u : User) :
    (do_nick_stamp w p u).maxusertime = w.maxusertime := by
  unfold do_nick_stamp
  simp only []
  repeat' split
  all_goals simp

@[simp]
theorem do_nick_stamp_cores (w : World) (p : Nat) (u : User) :
    (do_nick_stamp w p u).cores = w.cores := by
  unfold do_nick_stamp
  simp only []
  repeat' split
  all_goals simp

@[simp]
theorem do_nick_stamp_channels (w : World) (p : Nat) (u : User) :
    (do_nick_stamp w p u).channels = w.channels := by
  unfold do_nick_stamp
  simp only []
  repeat' split
  all_goals simp

@[simp]
theorem do_nick_stamp_now (w : World) (p : Nat) (u : User) :
    (do_nick_stamp w p u).now = w.now := by
  unfold do_nick_stamp
  simp only []
  repeat' split
  all_goals simp

@[simp]
theorem do_nick_stamp_log (w : World) (p : Nat) (u : User) :
    (do_nick_stamp w p u).log = w.log := by
  unfold do_nick_stamp
  simp only []
  repeat' split
  all_goals simp

@[simp]
theorem do_nick_recheck_nextUser (env : Env) (w : World) (p : Nat) (u : User) (nick : String) :
    (do_nick_recheck env w p u nick).nextUser = w.nextUser := by
  unfold do_nick_recheck
  simp only []
  repeat' split
  all_goals simp

@[simp]
theorem do_nick_recheck_UserListByNick (env : Env) (w : World) (p : Nat) (u : User) (nick : String) :
    (do_nick_recheck env w p u nick).UserListByNick = w.UserListByNick := by
  unfold do_nick_recheck
  simp only []
  repeat' split
  all_goals simp

@[simp]
theorem do_nick_recheck_UserListByUID (env : Env) (w : World) (p : Nat) (u : User) (nick : String) :
    (do_nick_recheck env w p u nick).UserListByUID = w.UserListByUID := by
  unfold do_nick_recheck
  simp only []
  repeat' split
  all_goals simp

@[simp]
theorem do_nick_recheck_opcnt (env : Env) (w : World) (p : Nat) (u : User) (nick : String) :
    (do_nick_recheck env w p u nick).opcnt = w.opcnt := by
  unfold do_nick_recheck
  simp only []
  repeat' split
  all_goals simp

@[simp]
theorem do_nick_recheck_usercnt (env : Env) (w : World) (p : Nat) (u : User) (nick : String) :
    (do_nick_recheck env w p u nick).usercnt = w.usercnt := by
  unfold do_nick_recheck
  simp only []
  repeat' split
  all_goals simp

@[simp]
theorem do_nick_recheck_maxusercnt (env : Env) (w : World) (p : Nat) (u : User) (nick : String) :
    (do_nick_recheck env w p u nick).maxusercnt = w.maxusercnt := by
  unfold do_nick_recheck
  simp only []
  repeat' split
  all_goals simp

@[simp]
theorem do_nick_recheck_maxusertime (env : Env) (w : World) (p : Nat) (u : User) (nick : String) :
    (do_nick_recheck env w p u nick).maxusertime = w.maxusertime := by
  unfold do_nick_recheck
  simp only []
  repeat' split
  all_goals simp

@[simp]
theorem do_nick_recheck_cores (env : Env) (w : World) (p : Nat) (u : User) (nick : String) :
    (do_nick_recheck env w p u nick).cores = w.cores := by
  unfold do_nick_recheck
  simp only []
  repeat' split
  all_goals simp

@[simp]
theorem do_nick_recheck_channels (env : Env) (w : World) (p : Nat) (u : User) (nick : String) :
    (do_nick_recheck env w p u nick).channels = w.channels := by
  unfold do_nick_recheck
  simp only []
  repeat' split
  all_goals simp

@[simp]
theorem do_nick_recheck_now (env : Env) (w : World) (p : Nat) (u : User) (nick : String) :
    (do_nick_recheck env w p u nick).now = w.now := by
  unfold do_nick_recheck
  simp only []
  repeat' split
  all_goals simp

@[simp]
theorem do_nick_renamed_nextUser (env : Env) (w : World) (p : Nat) (u : User) (nick : String) (old_na : Option NickAlias) :
    (do_nick_renamed env w p u nick old_na).nextUser = w.nextUser := by
  unfold do_nick_renamed
  simp only []
  cases old_na <;> simp

@[simp]
theorem do_nick_renamed_UserListByNick (env : Env) (w : World) (p : Nat) (u : User) (nick : String) (old_na : Option NickAlias) :
    (do_nick_renamed env w p u nick old_na).UserListByNick = w.UserListByNick := by
  unfold do_nick_renamed
  simp only []
  cases old_na <;> simp

@[simp]
theorem do_nick_renamed_UserListByUID (env : Env) (w : World) (p : Nat) (u : User) (nick : String) (old_na : Option NickAlias) :
    (do_nick_renamed env w p u nick old_na).UserListByUID = w.UserListByUID := by
  unfold do_nick_renamed
  simp only []
  cases old_na <;> simp

@[simp]
theorem do_nick_renamed_opcnt (env : Env) (w : World) (p : Nat) (u : User) (nick : String) (old_na : Option NickAlias) :
    (do_nick_renamed env w p u nick old_na).opcnt = w.opcnt := by
  unfold do_nick_renamed
  simp only []
  cases old_na <;> simp

@[simp]
theorem do_nick_renamed_usercnt (env : Env) (w : World) (p : Nat) (u : User) (nick : String) (old_na : Option NickAlias) :
    (do_nick_renamed env w p u nick old_na).usercnt = w.usercnt := by
  unfold do_nick_renamed
  simp only []
  cases old_na <;> simp

@[simp]
theorem do_nick_renamed_maxusercnt (env : Env) (w : World) (p : Nat) (u : User) (nick : String) (old_na : Option NickAlias) :
    (do_nick_renamed env w p u nick old_na).maxusercnt = w.maxusercnt := by
  unfold do_nick_renamed
  simp only []
  cases old_na <;> simp

@[simp]
theorem do_nick_renamed_maxusertime (env : Env) (w : World) (p : Nat) (u : User) (nick : String) (old_na : Option NickAlias) :
    (do_nick_renamed env w p u nick old_na).maxusertime = w.maxusertime := by
  unfold do_nick_renamed
  simp only []
  cases old_na <;> simp

@[simp]
theorem do_nick_renamed_cores (env : Env) (w : World) (p : Nat) (u : User) (nick : String) (old_na : Option NickAlias) :
    (do_nick_renamed env w p u nick old_na).cores = w.cores := by
  unfold do_nick_renamed
  simp only []
  cases old_na <;> simp

@[simp]
theorem do_nick_renamed_channels (env : Env) (w : World) (p : Nat) (u : User) (nick : String) (old_na : Option NickAlias) :
    (do_nick_renamed env w p u nick old_na).channels = w.channels := by
  unfold do_nick_renamed
  simp only []
  cases old_na <;> simp

@[simp]
theorem do_nick_renamed_now (env : Env) (w : World) (p : Nat) (u : User) (nick : String) (old_na : Option NickAlias) :
    (do_nick_renamed env w p u nick old_na).now = w.now := by
  unfold do_nick_renamed
  simp only []
  cases old_na <;> simp

@[simp]
theorem do_nick_sqline_users (env : Env) (w : World) (p : Nat) :
    ((do_nick_sqline env w p).2).users = w.users := by
  unfold do_nick_sqline
  simp only []
  repeat' split
  all_goals rfl

@[simp]
theorem do_nick_sqline_nextUser (env : Env) (w : World) (p : Nat) :
    ((do_nick_sqline env w p).2).nextUser = w.nextUser := by
  unfold do_nick_sqline
  simp only []
  repeat' split
  all_goals rfl

@[simp]
theorem do_nick_sqline_UserListByNick (env : Env) (w : World) (p : Nat) :
    ((do_nick_sqline env w p).2).UserListByNick = w.UserListByNick := by
  unfold do_nick_sqline
  simp only []
  repeat' split
  all_goals rfl

@[simp]
theorem do_nick_sqline_UserListByUID (env : Env) (w : World) (p : Nat) :
    ((do_nick_sqline env w p).2).UserListByUID = w.UserListByUID := by
  unfold do_nick_sqline
  simp only []
  repeat' split
  all_goals rfl

@[simp]
theorem do_nick_sqline_opcnt (env : Env) (w : World) (p : Nat) :
    ((do_nick_sqline env w p).2).opcnt = w.opcnt := by
  unfold do_nick_sqline
  simp only []
  repeat' split
  all_goals rfl

@[simp]
theorem do_nick_sqline_usercnt (env : Env) (w : World) (p : Nat) :
    ((do_nick_sqline env w p).2).usercnt = w.usercnt := by
  unfold do_nick_sqline
  simp only []
  repeat' split
  all_goals rfl

@[simp]
theorem do_nick_sqline_maxusercnt (env : Env) (w : World) (p : Nat) :
    ((do_nick_sqline env w p).2).maxusercnt = w.maxusercnt := by
  unfold do_nick_sqline
  simp only []
  repeat' split
  all_goals rfl

@[simp]
theorem do_nick_sqline_maxusertime (env : Env) (w : World) (p : Nat) :
    ((do_nick_sqline env w p).2).maxusertime = w.maxusertime := by
  unfold do_nick_sqline
  simp only []
  repeat' split
  all_goals rfl

@[simp]
theorem do_nick_sqline_cores (env : Env) (w : World) (p : Nat) :
    ((do_nick_sqline env w p).2).cores = w.cores := by
  unfold do_nick_sqline
  simp only []
  repeat' split
  all_goals rfl

@[simp]
theorem do_nick_sqline_aliases (env : Env) (w : World) (p : Nat) :
    ((do_nick_sqline env w p).2).aliases = w.aliases := by
  unfold do_nick_sqline
  simp only []
  repeat' split
  all_goals rfl

@[simp]
theorem do_nick_sqline_channels (env : Env) (w : World) (p : Nat) :
    ((do_nick_sqline env w p).2).channels = w.channels := by
  unfold do_nick_sqline
  simp only []
  repeat' split
  all_goals rfl

@[simp]
theorem do_nick_sqline_now (env : Env) (w : World) (p : Nat) :
    ((do_nick_sqline env w p).2).now = w.now := by
  unfold do_nick_sqline
  simp only []
  repeat' split
  all_goals rfl

/-! ## `do_nick`: the nicks differ -/

theorem do_nick_stamp_users (w : World) (p : Nat) (u v : User) (hv : w.users p = some v) :
    (do_nick_stamp w p u).users = Function.update w.users p (some { v with my_signon := w.now }) := by
  unfold do_nick_stamp
  simp only []
  repeat' split
  all_goals simp [modUser_users w p _ v hv]

/-- The stamp of `do_nick` on the record of the old nickname: `last_seen`
becomes the current time when the session is logged in to the owning account
or is recognized; no other record changes. -/
theorem do_nick_stamp_aliases (w : World) (p : Nat) (u : User) (k : List Char) :
    (do_nick_stamp w p u).aliases k =
      if k = ci_fold u.nick then
        (w.aliases k).map (fun na =>
          if some na.nc == u.nc || u.OnAccess then { na with last_seen := w.now } else na)
      else w.aliases k := by
  unfold do_nick_stamp
  simp only [findnick, modUser_aliases, modUser_now, User.Account, User.IsRecognized,
    Bool.false_and, Bool.false_eq_true, if_false]
  by_cases hk : k = ci_fold u.nick
  · subst hk
    simp only [if_true]
    cases hna : w.aliases (ci_fold u.nick) with
    | none => simp [hna]
    | some a =>
      simp only [Option.map_some']
      split <;> simp [hna]
  · simp only [hk, if_false]
    cases hna : w.aliases (ci_fold u.nick) with
    | none => simp
    | some a =>
      simp only []
      split
      · simp [Function.update_noteq hk]
      · simp

theorem RemoveMode_spec (w : World) (bi : String) (p : Nat) (um : Option UserMode) (u : User)
    (hu : w.users p = some u) :
    ∃ v l, (User.RemoveMode w bi p um).users = Function.update w.users p (some v) ∧
      (User.RemoveMode w bi p um).log = w.log ++ l ∧ l.filter Event.isCancel = [] ∧
      v.nc = u.nc ∧ v.OnAccess = u.OnAccess ∧ v.nick = u.nick ∧
      (∀ m, um = some m → v.modes m.Name = false) ∧
      (um = none → v.modes = u.modes) := by
  have hself : w.users = Function.update w.users p (some u) := by
    rw [← hu]
    exact (Function.update_eq_self p w.users).symm
  cases um with
  | none =>
    refine ⟨u, [], ?_, ?_, rfl, rfl, rfl, rfl, ?_, fun _ => rfl⟩
    · simpa [User.RemoveMode] using hself
    · simp [User.RemoveMode]
    · intro m hm
      cases hm
  | some m =>
    by_cases hm : u.HasMode m.Name = true
    · refine ⟨{ u with modes := Function.update u.modes m.Name false,
                       Params := Function.update u.Params m.Name none },
        [Event.StackerAdd bi p m false "", Event.OnUserModeUnset p m.Name], ?_, ?_, rfl,
        rfl, rfl, rfl, ?_, ?_⟩
      · simp [User.RemoveMode, hu, hm, User.RemoveModeInternal]
      · simp [User.RemoveMode, hu, hm, User.RemoveModeInternal]
      · intro m1 h1
        cases h1
        simp
      · intro h1
        cases h1
    · refine ⟨u, [], ?_, ?_, rfl, rfl, rfl, rfl, ?_, ?_⟩
      · simp [User.RemoveMode, hu, hm]
      · simp [User.RemoveMode, hu, hm]
      · intro m1 h1
        cases h1
        simpa [User.HasMode] using hm
      · intro h1
        cases h1

theorem FindUserModeByName_Name (env : Env) (Name : UserModeName) (m : UserMode)
    (h : FindUserModeByName env Name = some m) : m.Name = Name := by
  unfold FindUserModeByName at h
  simpa using List.find?_some h

theorem UpdateHost_aliases_other (env : Env) (w : World) (p : Nat) (u : User)
    (hu : w.users p = some u) (k : List Char) (hk : k ≠ ci_fold u.nick) :
    (User.UpdateHost env w p).aliases k = w.aliases k := by
  unfold User.UpdateHost
  simp only [hu]
  split
  · rfl
  · cases findnick w u.nick with
    | none => rfl
    | some a =>
      simp only []
      split
      · simp [Function.update_noteq hk]
      · rfl

theorem UpdateHost_modes (env : Env) (w : World) (p : Nat) (u : User)
    (hu : w.users p = some u) :
    ∃ v, (User.UpdateHost env w p).users p = some v ∧ v.modes = u.modes ∧ v.nc = u.nc := by
  obtain ⟨b, hb⟩ := UpdateHost_users env w p u hu
  exact ⟨{ u with OnAccess := b }, by rw [hb, Function.update_same], rfl, rfl⟩

/-- The check of the new nickname in `do_nick` calls no `OnCancel`. -/
theorem do_nick_recheck_log (env : Env) (w : World) (p : Nat) (u v : User) (nick : String)
    (hv : w.users p = some v) :
    ∃ l, (do_nick_recheck env w p u nick).log = w.log ++ l ∧
      l.filter Event.isCancel = [] := by
  have hrm : ∃ l, (((User.RemoveModeByName env w "NickServ" p .UMODE_REGISTERED).emit
      (Event.SendUnregisteredNick p)).emit (Event.validate_user p)).log = w.log ++ l ∧
        l.filter Event.isCancel = [] := by
    obtain ⟨v1, l, _, hl, hl0, _⟩ := RemoveMode_spec w "NickServ" p
      (FindUserModeByName env .UMODE_REGISTERED) v hv
    refine ⟨l ++ [Event.SendUnregisteredNick p, Event.validate_user p], ?_, ?_⟩
    · simp only [emit_log, User.RemoveModeByName, hl]
      simp
    · rw [List.filter_append, hl0]
      rfl
  unfold do_nick_recheck
  cases hna : findnick w nick with
  | none => exact hrm
  | some na =>
    simp only []
    split
    · exact hrm
    · refine ⟨[Event.do_on_id p, Event.SetAutoIdentificationToken p], ?_, rfl⟩
      simp only [emit_log, UpdateHost_log, setAlias_log]
      simp

/-- The log of the statements of `do_nick` after the rename: the module hook,
then `OnCancel` of the old record (if there is one) in the state the rename
left, then calls that are not `OnCancel`. -/
theorem do_nick_renamed_log (env : Env) (w : World) (p : Nat) (u v : User) (nick : String)
    (old_na : Option NickAlias) (hv : w.users p = some v) :
    ∃ l, (do_nick_renamed env w p u nick old_na).log =
        w.log ++ ([Event.OnUserNickChange p u.nick] ++
          (if old_na.isSome then [Event.OnCancel (ci_fold u.nick) p w.toState] else []) ++ l) ∧
      l.filter Event.isCancel = [] := by
  unfold do_nick_renamed
  cases old_na with
  | none =>
    obtain ⟨l, hl, hl0⟩ := do_nick_recheck_log env (w.emit (Event.OnUserNickChange p u.nick))
      p u v nick hv
    refine ⟨l, ?_, hl0⟩
    simp only [hl, emit_log]
    simp
  | some a =>
    obtain ⟨l, hl, hl0⟩ := do_nick_recheck_log env
      ((w.emit (Event.OnUserNickChange p u.nick)).emit
        (Event.OnCancel (ci_fold u.nick) p (w.emit (Event.OnUserNickChange p u.nick)).toState))
      p u v nick hv
    refine ⟨l, ?_, hl0⟩
    simp only [hl, emit_log]
    simp [World.emit]

theorem do_nick_sqline_log (env : Env) (w : World) (p : Nat) :
    ∃ l, (do_nick_sqline env w p).2.log = w.log ++ l ∧ l.filter Event.isCancel = [] := by
  unfold do_nick_sqline
  simp only []
  split
  · split
    · exact ⟨[Event.SQLineCheck p], rfl, rfl⟩
    · exact ⟨[Event.SQLineCheck p], rfl, rfl⟩
  · exact ⟨[], by simp, rfl⟩

theorem do_nick_differ_empty (env : Env) (w : World)
    (source username host server realname : String) (ts : Int) (ip : Nat)
    (vhost uid : String) (p : Nat) (u : User) (hsrc : source ≠ "")
    (hf : finduser env w source = some p) (hu : w.users p = some u)
    (hci : equals_ci u.nick "" = false) :
    (do_nick env w source "" username host server realname ts ip vhost uid).2 =
      do_nick_stamp (do_nick_begin w p ts) p u := by
  unfold do_nick
  rw [if_neg hsrc]
  unfold do_nick_change
  simp only [hf, hu, hci, Bool.false_eq_true, if_false]
  rw [SetNewNick_empty]

theorem do_nick_recheck_aliases_other (env : Env) (w : World) (p : Nat) (u v : User)
    (nick : String) (hv : w.users p = some v) (hvn : v.nick = nick) (k : List Char)
    (hk : k ≠ ci_fold nick) :
    (do_nick_recheck env w p u nick).aliases k = w.aliases k := by
  unfold do_nick_recheck
  cases findnick w nick with
  | none => simp
  | some na =>
    simp only []
    split
    · simp
    · simp only [emit_aliases]
      have hv1 : (w.setAlias (ci_fold nick) { na with last_seen := w.now }).users p = some v := by
        simpa using hv
      rw [UpdateHost_aliases_other env _ p v hv1 k (by rw [hvn]; exact hk)]
      simp [Function.update_noteq hk]

theorem do_nick_renamed_aliases_other (env : Env) (w : World) (p : Nat) (u v : User)
    (nick : String) (old_na : Option NickAlias) (hv : w.users p = some v)
    (hvn : v.nick = nick) (k : List Char) (hk : k ≠ ci_fold nick) :
    (do_nick_renamed env w p u nick old_na).aliases k = w.aliases k := by
  unfold do_nick_renamed
  cases old_na with
  | none =>
    simp only []
    rw [do_nick_recheck_aliases_other env _ p u v nick (by simpa using hv) hvn k hk]
    rfl
  | some a =>
    simp only []
    rw [do_nick_recheck_aliases_other env _ p u v nick (by simpa using hv) hvn k hk]
    rfl

/-- The object at `user` when `do_nick` calls `SetNewNick` for a different nick. -/
theorem do_nick_stamp_obj (w : World) (p : Nat) (u : User) (ts : Int)
    (hu : w.users p = some u) :
    (do_nick_stamp (do_nick_begin w p ts) p u).users p
      = some { u with isSuperAdmin := 0, timestamp := ts, my_signon := w.now } := by
  rw [do_nick_stamp_users _ p u _ (do_nick_begin_users w p u ts hu), Function.update_same]
  simp


/-- The check of the new nickname in `do_nick`, when the nickname is
unregistered or registered to another account: the "registered" mode is
removed, nothing else of the object that matters here changes. -/
theorem do_nick_recheck_unowned (env : Env) (w : World) (p : Nat) (u v : User)
    (nick : String) (hv : w.users p = some v)
    (hown : ∀ na, findnick w nick = some na → (some na.nc == u.Account) = false) :
    ∃ v1, (do_nick_recheck env w p u nick).users p = some v1 ∧
      v1.OnAccess = v.OnAccess ∧ v1.nc = v.nc ∧ v1.nick = v.nick ∧
      ((FindUserModeByName env .UMODE_REGISTERED).isSome → v1.modes .UMODE_REGISTERED = false) ∧
      (FindUserModeByName env .UMODE_REGISTERED = none → v1.modes = v.modes) := by
  have hrm : ∃ v1, (((User.RemoveModeByName env w "NickServ" p .UMODE_REGISTERED).emit
      (Event.SendUnregisteredNick p)).emit (Event.validate_user p)).users p = some v1 ∧
      v1.OnAccess = v.OnAccess ∧ v1.nc = v.nc ∧ v1.nick = v.nick ∧
      ((FindUserModeByName env .UMODE_REGISTERED).isSome →
        v1.modes .UMODE_REGISTERED = false) ∧
      (FindUserModeByName env .UMODE_REGISTERED = none → v1.modes = v.modes) := by
    obtain ⟨v1, l, h1, _, _, h4, h5, h6, h7, h8⟩ := RemoveMode_spec w "NickServ" p
      (FindUserModeByName env .UMODE_REGISTERED) v hv
    refine ⟨v1, ?_, h5, h4, h6, ?_, h8⟩
    · simp only [emit_users, User.RemoveModeByName, h1, Function.update_same]
    · intro hs
      obtain ⟨m, hm⟩ := Option.isSome_iff_exists.1 hs
      have := h7 m hm
      rw [FindUserModeByName_Name env _ m hm] at this
      exact this
  unfold do_nick_recheck
  cases hna : findnick w nick with
  | none => exact hrm
  | some na =>
    simp only [hown na hna, Bool.not_false, if_true]
    exact hrm

/-- C8 as stated fails: "bob" (account 7) changes nick to "carol", a nickname
registered to account 8; the access list of account 8 holds the mask of the
session, so after the rename the "registered" mode is gone but the
recognition state is true. -/
theorem C8_rename_to_foreign_nick_recognized :
    finduser Env.example World.demo "bob" = some 0 ∧
    (World.demo.users 0).map (fun u => (u.nick, u.nc)) = some ("bob", some 7) ∧
    equals_ci "bob" "carol" = false ∧
    (findnick World.demo "carol").map (fun na => na.nc) = some 8 ∧
    ((do_nick Env.example World.demo "bob" "carol" "" "" "" "" 1000 0 "" "").2.users 0).map
      (fun u => (u.nick, u.modes .UMODE_REGISTERED, u.OnAccess)) = some ("carol", false, true) := by
  decide

/-- C8 (amended): after a nick change to a case-insensitively different
nickname that is unregistered, or registered to an account other than the
one the session is logged in to, the session does not have the "registered"
mode; its recognition state is false when the new nickname is unregistered,
and otherwise tells whether the session is on the access list of the account
that owns the new nickname. -/
theorem C8_rename_to_unowned_nick (env : Env) (w : World)
    (source nick username host server realname : String) (ts : Int) (ip : Nat)
    (vhost uid : String) (p : Nat) (u : User) (hsrc : source ≠ "")
    (hf : finduser env w source = some p) (hu : w.users p = some u)
    (hci : equals_ci u.nick nick = false) (hn : nick ≠ "")
    (hown : ∀ na, findnick w nick = some na → some na.nc ≠ u.nc)
    (hreg : u.modes .UMODE_REGISTERED = true →
      (FindUserModeByName env .UMODE_REGISTERED).isSome) :
    ∃ v, (do_nick env w source nick username host server realname ts ip vhost uid).2.users p
        = some v ∧
      v.modes .UMODE_REGISTERED = false ∧
      v.OnAccess = match findnick w nick with
        | some na => env.is_on_access
            { u with nick := nick, isSuperAdmin := 0, timestamp := ts, my_signon := w.now,
                     OnAccess := false } (w.cores na.nc)
        | none => false := by
  rw [do_nick_differ env w source nick username host server realname ts ip vhost uid p u
    hsrc hf hu hci hn]
  have hobj := do_nick_stamp_obj w p u ts hu
  have hv := SetNewNick_users env _ p nick _ hn hobj
  have hk : ci_fold nick ≠ ci_fold u.nick := fun h => equals_ci_false.1 hci h.symm
  have hfn : findnick (do_nick_stamp (do_nick_begin w p ts) p u) nick = findnick w nick := by
    unfold findnick
    rw [do_nick_stamp_aliases, if_neg hk]
    simp
  rw [hfn] at hv
  have hcores : (do_nick_stamp (do_nick_begin w p ts) p u).cores = w.cores := by simp
  rw [hcores] at hv
  rw [do_nick_sqline_users]
  unfold do_nick_renamed
  have hown2 : ∀ (W : World), W.aliases
      = (User.SetNewNick env (do_nick_stamp (do_nick_begin w p ts) p u) p nick).2.aliases →
      ∀ na, findnick W nick = some na → (some na.nc == u.Account) = false := by
    intro W hW na hna
    have h1 : findnick W nick = findnick w nick := by
      unfold findnick
      rw [hW, SetNewNick_aliases]
      exact hfn
    rw [h1] at hna
    simpa [User.Account] using hown na hna
  have hfinal : ∀ (W : World), W.aliases
      = (User.SetNewNick env (do_nick_stamp (do_nick_begin w p ts) p u) p nick).2.aliases →
      W.users = (User.SetNewNick env (do_nick_stamp (do_nick_begin w p ts) p u) p nick).2.users →
      ∃ v, (do_nick_recheck env W p u nick).users p = some v ∧
        v.modes .UMODE_REGISTERED = false ∧
        v.OnAccess = match findnick w nick with
          | some na => env.is_on_access
              { u with nick := nick, isSuperAdmin := 0, timestamp := ts, my_signon := w.now,
                       OnAccess := false } (w.cores na.nc)
          | none => false := by
    intro W hW hWu
    obtain ⟨v1, h1, h2, _, _, h5, h6⟩ := do_nick_recheck_unowned env W p u _ nick
      (by rw [hWu, hv, Function.update_same]) (hown2 W hW)
    refine ⟨v1, h1, ?_, ?_⟩
    · cases hm : FindUserModeByName env .UMODE_REGISTERED with
      | some m => exact h5 (by rw [hm]; rfl)
      | none =>
        rw [h6 hm]
        cases hb : u.modes .UMODE_REGISTERED with
        | false => rfl
        | true =>
          have := hreg hb
          rw [hm] at this
          cases this
    · rw [h2]
  cases findnick (do_nick_begin w p ts) u.nick with
  | none => exact hfinal _ rfl rfl
  | some a => exact hfinal _ rfl rfl

theorem C8_rename_to_unowned_nick_witness :
    ∃ v, (do_nick Env.example World.demo "bob" "bobby" "" "" "" "" 1000 0 "" "").2.users 0
        = some v ∧
      v.modes .UMODE_REGISTERED = false ∧
      v.OnAccess = match findnick World.demo "bobby" with
        | some na => Env.example.is_on_access
            { User.bob with nick := "bobby", isSuperAdmin := 0, timestamp := 1000,
                            my_signon := World.demo.now, OnAccess := false }
            (World.demo.cores na.nc)
        | none => false :=
  C8_rename_to_unowned_nick Env.example World.demo "bob" "bobby" "" "" "" "" 1000 0 "" "" 0
    User.bob (by decide) (by decide) rfl (by decide) (by decide)
    (by
      intro na hna
      have h : findnick World.demo "bobby" = none := by decide
      rw [h] at hna
      cases hna)
    (fun _ => by decide)

/-- C9: when a nick change to a case-insensitively different nickname is
processed, the registered record of the old nickname (if there is one) has
its last-seen time set to the current time if the session is logged in to
the account that owns the record or is recognized, and is unchanged
otherwise; without a record there is none afterwards either. -/
theorem C9_old_record_last_seen (env : Env) (w : World)
    (source nick username host server realname : String) (ts : Int) (ip : Nat)
    (vhost uid : String) (p : Nat) (u : User) (hsrc : source ≠ "")
    (hf : finduser env w source = some p) (hu : w.users p = some u)
    (hci : equals_ci u.nick nick = false) :
    findnick (do_nick env w source nick username host server realname ts ip vhost uid).2 u.nick
      = (findnick w u.nick).map (fun na =>
          if some na.nc == u.nc || u.OnAccess then { na with last_seen := w.now } else na) := by
  have hstamp : (do_nick_stamp (do_nick_begin w p ts) p u).aliases (ci_fold u.nick)
        = (findnick w u.nick).map (fun na =>
          if some na.nc == u.nc || u.OnAccess then { na with last_seen := w.now } else na) := by
    rw [do_nick_stamp_aliases]
    simp [findnick]
  by_cases hn : nick = ""
  · subst hn
    rw [do_nick_differ_empty env w source username host server realname ts ip vhost uid p u
      hsrc hf hu hci]
    exact hstamp
  · rw [do_nick_differ env w source nick username host server realname ts ip vhost uid p u
      hsrc hf hu hci hn]
    show (do_nick_sqline env _ p).2.aliases (ci_fold u.nick) = _
    rw [do_nick_sqline_aliases]
    have hobj := do_nick_stamp_obj w p u ts hu
    have hv := SetNewNick_users env _ p nick _ hn hobj
    rw [do_nick_renamed_aliases_other env _ p u _ nick _
      (by rw [hv, Function.update_same]) rfl (ci_fold u.nick) (equals_ci_false.1 hci)]
    rw [SetNewNick_aliases]
    exact hstamp

theorem C9_old_record_last_seen_witness :
    findnick (do_nick Env.example World.demo "bob" "bobby" "" "" "" "" 1000 0 "" "").2 "bob"
      = (findnick World.demo "bob").map (fun na =>
          if some na.nc == User.bob.nc || User.bob.OnAccess then
            { na with last_seen := World.demo.now }
          else na) :=
  C9_old_record_last_seen Env.example World.demo "bob" "bobby" "" "" "" "" 1000 0 "" "" 0
    User.bob (by decide) (by decide) rfl (by decide)


/-- C10: when a nick change to a case-insensitively different nickname is
processed and the old nickname has a registered record, `OnCancel` of that
record is invoked exactly once (and no other `OnCancel`), and in the state in
which it is invoked the nickname index maps the new nickname to the session
and has no entry for the old nickname. -/
theorem C10_cancel_after_registry_update (env : Env) (w : World)
    (source nick username host server realname : String) (ts : Int) (ip : Nat)
    (vhost uid : String) (p : Nat) (u : User) (na : NickAlias) (hsrc : source ≠ "")
    (hf : finduser env w source = some p) (hu : w.users p = some u)
    (hci : equals_ci u.nick nick = false) (hn : nick ≠ "")
    (hna : findnick w u.nick = some na) :
    ∃ s, cancelsSince w
          (do_nick env w source nick username host server realname ts ip vhost uid).2
        = [Event.OnCancel (ci_fold u.nick) p s] ∧
      (∃ k, hmap_find ci_fold s.UserListByNick nick = some (k, p)) ∧
      hmap_find ci_fold s.UserListByNick u.nick = none := by
  rw [do_nick_differ env w source nick username host server realname ts ip vhost uid p u
    hsrc hf hu hci hn]
  have hobj := do_nick_stamp_obj w p u ts hu
  have hv := SetNewNick_users env _ p nick _ hn hobj
  have hold : findnick (do_nick_begin w p ts) u.nick = some na := by
    rw [← hna]
    simp [findnick]
  rw [hold]
  obtain ⟨l, hl, hl0⟩ := do_nick_renamed_log env
    (User.SetNewNick env (do_nick_stamp (do_nick_begin w p ts) p u) p nick).2 p u _ nick
    (some na) (by rw [hv, Function.update_same])
  obtain ⟨l2, hl2, hl20⟩ := do_nick_sqline_log env (do_nick_renamed env
    (User.SetNewNick env (do_nick_stamp (do_nick_begin w p ts) p u) p nick).2 p u nick
    (some na)) p
  have hlog0 : (User.SetNewNick env (do_nick_stamp (do_nick_begin w p ts) p u) p nick).2.log
      = w.log := by simp
  refine ⟨(User.SetNewNick env (do_nick_stamp (do_nick_begin w p ts) p u) p nick).2.toState,
    ?_, ?_, ?_⟩
  · rw [hl, hlog0, List.append_assoc] at hl2
    rw [cancelsSince_append w _ _ hl2]
    simp only [Option.isSome_some, if_true, List.filter_append, hl0, hl20, List.append_nil]
    rfl
  · have hidx := SetNewNick_UserListByNick env (do_nick_stamp (do_nick_begin w p ts) p u) p
      nick _ hn hobj
    obtain ⟨k0, hk0, _, _⟩ := hmap_find_set_self
      (hmap_erase ci_fold (do_nick_stamp (do_nick_begin w p ts) p u).UserListByNick u.nick) p
      (rfl : ci_fold nick = ci_fold nick)
    exact ⟨k0, by
      show hmap_find ci_fold
        (User.SetNewNick env (do_nick_stamp (do_nick_begin w p ts) p u) p nick).2.UserListByNick
        nick = _
      rw [hidx]
      exact hk0⟩
  · have hidx := SetNewNick_UserListByNick env (do_nick_stamp (do_nick_begin w p ts) p u) p
      nick _ hn hobj
    show hmap_find ci_fold
      (User.SetNewNick env (do_nick_stamp (do_nick_begin w p ts) p u) p nick).2.UserListByNick
      u.nick = _
    rw [hidx, hmap_find_set_ne _ _ (equals_ci_false.1 hci)]
    exact hmap_find_erase_self _ rfl

theorem C10_cancel_after_registry_update_witness :
    ∃ s, cancelsSince World.demo
          (do_nick Env.example World.demo "bob" "bobby" "" "" "" "" 1000 0 "" "").2
        = [Event.OnCancel (ci_fold "bob") 0 s] ∧
      (∃ k, hmap_find ci_fold s.UserListByNick "bobby" = some (k, 0)) ∧
      hmap_find ci_fold s.UserListByNick "bob" = none :=
  C10_cancel_after_registry_update Env.example World.demo "bob" "bobby" "" "" "" "" 1000 0
    "" "" 0 User.bob
    { nick := "bob", nc := 7, last_seen := 100, last_quit := "",
      last_usermask := "bob@example.org", last_realname := "", flags := [] }
    (by decide) (by decide) rfl (by decide) (by decide) (by decide)

/-! ## C11: `User::Login` -/

/-- C11: after `User::Login(A)` the session refers to the account `A`, it is the
last element of the session list of `A`, and it is no longer in the session
list of another account it was logged in to before (in which it was listed at
most once, the invariant of the account link). -/
theorem C11_login_attaches (env : Env) (w : World) (p A : Nat) (u : User)
    (hu : w.users p = some u) :
    (∃ u1, (User.Login env w p A).users p = some u1 ∧ u1.nc = some A) ∧
    ((User.Login env w p A).cores A).Users.getLast? = some p ∧
    ∀ B, B ≠ A → u.nc = some B → (w.cores B).Users.count p ≤ 1 →
      p ∉ ((User.Login env w p A).cores B).Users := by
  refine ⟨?_, ?_, ?_⟩
  · obtain ⟨b, hb⟩ := Login_users env w p A u hu
    exact ⟨_, by rw [hb, Function.update_same], rfl⟩
  · rw [Login_cores env w p A u hu A]
    simp
  · intro B hBA hB hcount
    rw [Login_cores env w p A u hu B]
    simp only [hB, if_true, if_neg hBA, List.append_nil]
    rw [← List.count_eq_zero, List.count_erase_self]
    omega

theorem C11_login_attaches_witness :
    (∃ u1, (User.Login Env.example World.demo 0 8).users 0 = some u1 ∧ u1.nc = some 8) ∧
    ((User.Login Env.example World.demo 0 8).cores 8).Users.getLast? = some 0 ∧
    ∀ B, B ≠ 8 → User.bob.nc = some B → (World.demo.cores B).Users.count 0 ≤ 1 →
      0 ∉ ((User.Login Env.example World.demo 0 8).cores B).Users :=
  C11_login_attaches Env.example World.demo 0 8 User.bob rfl

/-! ## C12, C13: the bad-password guard -/

/-- What `bad_password` does for a live session when the limit is not zero:
the counter and the time are noted, then the limit is tested. -/
theorem bad_password_eq (env : Env) (w : World) (p : Nat) (u : User)
    (hu : w.users p = some u) (hL : env.BadPassLimit ≠ 0) :
    bad_password env w (some p) =
      if env.BadPassLimit ≤
          (if 0 < env.BadPassTimeout ∧ 0 < u.invalid_pw_time
              ∧ env.BadPassTimeout < w.now - u.invalid_pw_time then 0
            else u.invalid_pw_count) + 1 then
        (true, kill_user env (w.noted p u w.now
          ((if 0 < env.BadPassTimeout ∧ 0 < u.invalid_pw_time
              ∧ env.BadPassTimeout < w.now - u.invalid_pw_time then 0
            else u.invalid_pw_count) + 1) w.now) "" u.nick "Too many invalid passwords")
      else
        (false, w.noted p u w.now
          ((if 0 < env.BadPassTimeout ∧ 0 < u.invalid_pw_time
              ∧ env.BadPassTimeout < w.now - u.invalid_pw_time then 0
            else u.invalid_pw_count) + 1) w.now) := by
  have hnow : w.setNow w.now = w := rfl
  unfold bad_password World.noted
  simp only [hu, if_neg hL, hnow]
  by_cases hc : 0 < env.BadPassTimeout ∧ 0 < u.invalid_pw_time
      ∧ env.BadPassTimeout < w.now - u.invalid_pw_time
  · have hb : (decide (env.BadPassTimeout > 0) && decide (u.invalid_pw_time > 0)
        && decide (u.invalid_pw_time < w.now - env.BadPassTimeout)) = true := by
      obtain ⟨h1, h2, h3⟩ := hc
      simp only [Bool.and_eq_true, decide_eq_true_eq]
      exact ⟨⟨h1, h2⟩, by omega⟩
    simp only [hb, if_true, if_pos hc]
  · have hb : (decide (env.BadPassTimeout > 0) && decide (u.invalid_pw_time > 0)
        && decide (u.invalid_pw_time < w.now - env.BadPassTimeout)) = false := by
      rw [Bool.eq_false_iff]
      intro h
      simp only [Bool.and_eq_true, decide_eq_true_eq] at h
      exact hc ⟨h.1.1, h.1.2, by omega⟩
    simp only [hb, if_neg hc]
    rfl

theorem noted_self (w : World) (p : Nat) (u : User) (hu : w.users p = some u) :
    w.noted p u w.now u.invalid_pw_count u.invalid_pw_time = w := by
  have h : Function.update w.users p (some u) = w.users := by
    rw [← hu]
    exact Function.update_eq_self p w.users
  unfold World.noted
  apply World.ext
  case users => exact h
  all_goals rfl

theorem noted_users (w : World) (p : Nat) (u : User) (n : Int) (c : Nat) (t0 : Int) :
    (w.noted p u n c t0).users p
      = some { u with invalid_pw_count := c, invalid_pw_time := t0 } := by
  simp [World.noted]

theorem noted_log (w : World) (p : Nat) (u : User) (n : Int) (c : Nat) (t0 : Int) :
    (w.noted p u n c t0).log = w.log := rfl

theorem noted_setNow_noted (w : World) (p : Nat) (u : User) (n t t1 : Int) (c c1 : Nat)
    (t0 : Int) :
    ((w.noted p u n c t0).setNow t).noted p
        { u with invalid_pw_count := c, invalid_pw_time := t0 } t c1 t1
      = w.noted p u t c1 t1 := by
  unfold World.noted
  apply World.ext <;> simp

/-- Attempts that stay below the limit and follow each other within the
timeout: every call returns false, and only the counter, the last-attempt time
and the clock have changed. -/
theorem bad_password_seq_below (env : Env) (p : Nat) :
    ∀ (ts : List Int) (w : World) (u : User) (n : Int) (c : Nat) (t0 : Int),
      c + ts.length < env.BadPassLimit →
      (c = 0 ∨ List.Chain (fun a b => b - a ≤ env.BadPassTimeout) t0 ts) →
      List.Chain' (fun a b => b - a ≤ env.BadPassTimeout) ts →
      bad_password_seq env p (w.noted p u n c t0) ts =
        (List.replicate ts.length false,
          w.noted p u (ts.getLast?.getD n) (c + ts.length) (ts.getLast?.getD t0)) := by
  intro ts
  induction ts with
  | nil =>
    intro w u n c t0 _ _ _
    rfl
  | cons t ts ih =>
    intro w u n c t0 hlen hfirst hchain
    have hL : env.BadPassLimit ≠ 0 := by omega
    have hlen1 : c + 1 + ts.length < env.BadPassLimit := by
      simp only [List.length_cons] at hlen
      omega
    have hstep : bad_password env ((w.noted p u n c t0).setNow t) (some p)
        = (false, w.noted p u t (c + 1) t) := by
      rw [bad_password_eq env _ p { u with invalid_pw_count := c, invalid_pw_time := t0 }
        (by simp [World.noted]) hL]
      simp only [setNow_now, noted_setNow_noted]
      have hc : (if 0 < env.BadPassTimeout ∧ 0 < t0 ∧ env.BadPassTimeout < t - t0 then 0
          else c) = c := by
        split
        · rename_i h
          rcases hfirst with h0 | h1
          · exact h0.symm
          · have := List.rel_of_chain_cons h1
            omega
        · rfl
      simp only [hc]
      rw [if_neg (by omega)]
    have hrest := ih w u t (c + 1) t hlen1
      (Or.inr (by simpa [List.Chain'] using hchain)) hchain.tail
    simp only [bad_password_seq, hstep, hrest, List.length_cons, List.replicate_succ,
      List.getLast?_cons]
    have e1 : c + 1 + ts.length = c + (ts.length + 1) := by omega
    simp only [Option.getD_some, e1]

theorem dtor_log_grows (env : Env) (w : World) (p : Nat) :
    ∃ rest, (User.dtor env w p).log = w.log ++ rest := by
  cases hu : w.users p with
  | none => exact ⟨[], by simp [User.dtor, hu]⟩
  | some u =>
    rw [dtor_log env w p u hu]
    exact ⟨_, by rw [List.append_assoc, List.append_assoc]⟩

theorem do_kill_log_grows (env : Env) (w : World) (nick msg : String) :
    ∃ rest, (do_kill env w nick msg).log = w.log ++ rest := by
  unfold do_kill
  split
  · exact ⟨[], by simp⟩
  · obtain ⟨rest, hr⟩ := dtor_log_grows env (note_last_quit w ‹Nat› msg) ‹Nat›
    exact ⟨rest, by rw [delete_log, hr, note_last_quit_log]⟩

/-- The directive of `kill_user`: for a non-empty target the kill goes out
first, with the reason in parentheses after the source. -/
theorem kill_user_log (env : Env) (w : World) (source user reason : String)
    (hne : user ≠ "") :
    ∃ rest, (kill_user env w source user reason).log =
      w.log ++ Event.SendSVSKill source (finduser env w user)
        ((if source = "" then env.ServerName else source) ++ " (" ++ reason ++ ")") :: rest := by
  unfold kill_user
  simp only [if_neg hne]
  generalize (if source = "" then env.ServerName else source) ++ " (" ++ reason ++ ")" = buf
  split
  · obtain ⟨rest, hr⟩ := do_kill_log_grows env
      (w.emit (Event.SendSVSKill source (finduser env w user) buf)) user buf
    exact ⟨rest, by rw [hr]; simp [World.emit]⟩
  · exact ⟨[], by simp [World.emit]⟩

/-- C12: with limit `L ≥ 1` and timeout `T > 0`, for a session whose counter
is 0, `L` calls of `bad_password` of which each is made within `T` seconds of
the one before: the first `L - 1` calls return false and issue nothing, the
call number `L` returns true and calls `kill_user` with the reason "Too many
invalid passwords", which sends the kill for the nickname of the session. -/
theorem C12_limit_reached_on_last_call (env : Env) (w : World) (p : Nat) (u : User)
    (ts : List Int) (t : Int)
    (hu : w.users p = some u) (hc : u.invalid_pw_count = 0) (hnick : u.nick ≠ "")
    (hT : 0 < env.BadPassTimeout) (hL : ts.length + 1 = env.BadPassLimit)
    (hgap : List.Chain' (fun a b => b - a ≤ env.BadPassTimeout) (ts ++ [t])) :
    (bad_password_seq env p w ts).1 = List.replicate ts.length false ∧
    (bad_password_seq env p w ts).2.log = w.log ∧
    (bad_password env ((bad_password_seq env p w ts).2.setNow t) (some p)).1 = true ∧
    ∃ w1 rest,
      w1.users p = some { u with invalid_pw_count := env.BadPassLimit, invalid_pw_time := t } ∧
      (bad_password env ((bad_password_seq env p w ts).2.setNow t) (some p)).2
        = kill_user env w1 "" u.nick "Too many invalid passwords" ∧
      (bad_password env ((bad_password_seq env p w ts).2.setNow t) (some p)).2.log
        = w.log ++ Event.SendSVSKill "" (finduser env w u.nick)
            (env.ServerName ++ " (" ++ "Too many invalid passwords" ++ ")") :: rest := by
  have _ := hT
  have hchain := List.chain'_append.1 hgap
  have hseq := bad_password_seq_below env p ts w u w.now 0 u.invalid_pw_time
    (by omega) (Or.inl rfl) hchain.1
  rw [← hc, noted_self w p u hu, hc, Nat.zero_add] at hseq
  have hlast : bad_password env
      ((w.noted p u (ts.getLast?.getD w.now) ts.length
        (ts.getLast?.getD u.invalid_pw_time)).setNow t) (some p)
      = (true, kill_user env (w.noted p u t env.BadPassLimit t) "" u.nick
          "Too many invalid passwords") := by
    rw [bad_password_eq env _ p
      { u with invalid_pw_count := ts.length,
               invalid_pw_time := ts.getLast?.getD u.invalid_pw_time }
      (by simp [World.noted]) (by omega)]
    simp only [setNow_now, noted_setNow_noted]
    have hcnt : (if 0 < env.BadPassTimeout ∧ 0 < ts.getLast?.getD u.invalid_pw_time
          ∧ env.BadPassTimeout < t - ts.getLast?.getD u.invalid_pw_time then 0
        else ts.length) + 1 = env.BadPassLimit := by
      split
      · rename_i h
        cases hl : ts.getLast? with
        | none =>
          have : ts = [] := List.getLast?_eq_none_iff.1 hl
          subst this
          exact hL
        | some x =>
          have := hchain.2.2 x (by simp [hl]) t (by simp)
          rw [hl] at h
          simp only [Option.getD_some] at h
          omega
      · exact hL
    simp only [hcnt]
    rw [if_pos (le_refl _)]
  rw [hseq]
  refine ⟨rfl, rfl, ?_, ?_⟩
  · rw [hlast]
  · obtain ⟨rest, hr⟩ := kill_user_log env (w.noted p u t env.BadPassLimit t) "" u.nick
      "Too many invalid passwords" hnick
    refine ⟨w.noted p u t env.BadPassLimit t, rest, noted_users _ _ _ _ _ _, ?_, ?_⟩
    · rw [hlast]
    · rw [hlast, hr, noted_log, finduser_congr env (w.noted p u t env.BadPassLimit t) w rfl rfl]
      simp

theorem C12_limit_reached_on_last_call_witness :
    (bad_password_seq Env.example 0 World.lobby [100, 160]).1 = List.replicate 2 false ∧
    (bad_password_seq Env.example 0 World.lobby [100, 160]).2.log = World.lobby.log ∧
    (bad_password Env.example ((bad_password_seq Env.example 0 World.lobby [100, 160]).2.setNow
      220) (some 0)).1 = true ∧
    ∃ w1 rest,
      w1.users 0 = some { User.init "bob" "001AAAAAB" with
        invalid_pw_count := Env.example.BadPassLimit, invalid_pw_time := 220 } ∧
      (bad_password Env.example ((bad_password_seq Env.example 0 World.lobby [100, 160]).2.setNow
        220) (some 0)).2
        = kill_user Env.example w1 "" (User.init "bob" "001AAAAAB").nick
            "Too many invalid passwords" ∧
      (bad_password Env.example ((bad_password_seq Env.example 0 World.lobby [100, 160]).2.setNow
        220) (some 0)).2.log
        = World.lobby.log ++ Event.SendSVSKill "" (finduser Env.example World.lobby
              (User.init "bob" "001AAAAAB").nick)
            (Env.example.ServerName ++ " (" ++ "Too many invalid passwords" ++ ")") :: rest :=
  C12_limit_reached_on_last_call Env.example World.lobby 0 (User.init "bob" "001AAAAAB")
    [100, 160] 220 rfl rfl (by decide) (by decide) rfl (by simp [Env.example])

/-- C13 fails as stated when the limit is 0, which switches the guard off: a
session with two attempts on record, the last at time 100, calls `bad_password`
at time 1000 with a timeout of 60; the counter stays 2 and the last-attempt
time stays 100.  With the guard on, a last-attempt time of 0 stands for "no
attempt on record": a call at time 100 then counts on, from 1 to 2. -/
theorem C13_no_limit_nothing_recorded :
    (60 < (1000 : Int) - 100 ∧
      ((bad_password { Env.example with BadPassLimit := 0 }
          (World.lobby.noted 0 (User.init "bob" "001AAAAAB") 1000 2 100) (some 0)).2.users 0).map
        (fun u => (u.invalid_pw_count, u.invalid_pw_time)) = some (2, 100)) ∧
    (60 < (100 : Int) - 0 ∧
      ((bad_password Env.example
          (World.lobby.noted 0 (User.init "bob" "001AAAAAB") 100 1 0) (some 0)).2.users 0).map
        (fun u => (u.invalid_pw_count, u.invalid_pw_time)) = some (2, 100)) := by
  refine ⟨⟨by decide, ?_⟩, by decide, ?_⟩
  · rfl
  · rfl

/-- C13 (amended): with a limit that is not 0 and a timeout `T > 0`, a call of
`bad_password` at time `t` for a session whose last attempt is on record at
time `t0` sets the counter to 1 when `t0 > 0` and `t - t0 > T`, whatever it
was, and to its value plus 1 otherwise; the last-attempt time becomes `t`.
These are the values at the test of the limit: the call returns false when
the counter is below the limit, and otherwise calls `kill_user` and returns
true. -/
theorem C13_counter_after_attempt (env : Env) (w : World) (p : Nat) (u : User)
    (hu : w.users p = some u) (hL : env.BadPassLimit ≠ 0) (hT : 0 < env.BadPassTimeout) :
    ∃ w1,
      w1.users p = some { u with
        invalid_pw_count :=
          if 0 < u.invalid_pw_time ∧ env.BadPassTimeout < w.now - u.invalid_pw_time then 1
          else u.invalid_pw_count + 1,
        invalid_pw_time := w.now } ∧
      bad_password env w (some p) =
        if env.BadPassLimit ≤
            (if 0 < u.invalid_pw_time ∧ env.BadPassTimeout < w.now - u.invalid_pw_time then 1
              else u.invalid_pw_count + 1) then
          (true, kill_user env w1 "" u.nick "Too many invalid passwords")
        else (false, w1) := by
  have hcnt : (if 0 < env.BadPassTimeout ∧ 0 < u.invalid_pw_time
        ∧ env.BadPassTimeout < w.now - u.invalid_pw_time then 0 else u.invalid_pw_count) + 1
      = if 0 < u.invalid_pw_time ∧ env.BadPassTimeout < w.now - u.invalid_pw_time then 1
        else u.invalid_pw_count + 1 := by
    by_cases h : 0 < u.invalid_pw_time ∧ env.BadPassTimeout < w.now - u.invalid_pw_time
    · rw [if_pos h, if_pos ⟨hT, h⟩]
    · rw [if_neg h, if_neg (fun h1 => h h1.2)]
  refine ⟨w.noted p u w.now (if 0 < u.invalid_pw_time
      ∧ env.BadPassTimeout < w.now - u.invalid_pw_time then 1 else u.invalid_pw_count + 1) w.now,
    noted_users _ _ _ _ _ _, ?_⟩
  rw [bad_password_eq env w p u hu hL, hcnt]

theorem C13_counter_after_attempt_witness :
    ∃ w1,
      w1.users 0 = some { User.init "bob" "001AAAAAB" with
        invalid_pw_count :=
          if 0 < (100 : Int) ∧ Env.example.BadPassTimeout < (1000 : Int) - 100 then 1
          else 2 + 1,
        invalid_pw_time := 1000 } ∧
      bad_password Env.example (World.lobby.noted 0 (User.init "bob" "001AAAAAB") 1000 2 100)
          (some 0) =
        if Env.example.BadPassLimit ≤
            (if 0 < (100 : Int) ∧ Env.example.BadPassTimeout < (1000 : Int) - 100 then 1
              else 2 + 1) then
          (true, kill_user Env.example w1 "" "bob" "Too many invalid passwords")
        else (false, w1) :=
  C13_counter_after_attempt Env.example
    (World.lobby.noted 0 (User.init "bob" "001AAAAAB") 1000 2 100) 0
    { User.init "bob" "001AAAAAB" with invalid_pw_count := 2, invalid_pw_time := 100 }
    (by simp [World.noted]) (by decide) (by decide)

/-! ## C14, C15: `User::SetMode` and `User::RemoveMode` -/

theorem SetModeInternal_eq (w : World) (p : Nat) (m : UserMode) (Param : String) (u : User)
    (hu : w.users p = some u) :
    User.SetModeInternal w p (some m) Param =
      (w.setUser p (u.withMode m.Name Param)).emit (.OnUserModeSet p m.Name) := by
  unfold User.SetModeInternal User.withMode
  simp only [hu]

theorem RemoveModeInternal_eq (w : World) (p : Nat) (m : UserMode) (u : User)
    (hu : w.users p = some u) :
    User.RemoveModeInternal w p (some m) =
      (w.setUser p (u.withoutMode m.Name)).emit (.OnUserModeUnset p m.Name) := by
  unfold User.RemoveModeInternal User.withoutMode
  simp only [hu]

theorem SetMode_eq (w : World) (bi : String) (p : Nat) (m : UserMode) (Param : String)
    (u : User) (hu : w.users p = some u) :
    User.SetMode w bi p (some m) Param =
      if u.HasMode m.Name then w
      else (((w.emit (.StackerAdd bi p m true Param)).setUser p
        (u.withMode m.Name Param)).emit (.OnUserModeSet p m.Name)) := by
  unfold User.SetMode
  simp only [hu]
  split
  · rfl
  · rw [SetModeInternal_eq _ p m Param u (by simpa using hu)]

theorem RemoveMode_eq (w : World) (bi : String) (p : Nat) (m : UserMode) (u : User)
    (hu : w.users p = some u) :
    User.RemoveMode w bi p (some m) =
      if u.HasMode m.Name then
        (((w.emit (.StackerAdd bi p m false "")).setUser p
          (u.withoutMode m.Name)).emit (.OnUserModeUnset p m.Name))
      else w := by
  unfold User.RemoveMode
  simp only [hu]
  cases h : u.HasMode m.Name
  · simp
  · simp only [Bool.not_true, if_true]
    rw [RemoveModeInternal_eq _ p m u (by simpa using hu)]
    simp

@[simp]
theorem withMode_modes (u : User) (Name : UserModeName) (Param : String) :
    (u.withMode Name Param).modes = Function.update u.modes Name true := by
  unfold User.withMode
  simp only []
  repeat' split
  all_goals rfl

@[simp]
theorem withoutMode_modes (u : User) (Name : UserModeName) :
    (u.withoutMode Name).modes = Function.update u.modes Name false := rfl

@[simp]
theorem withoutMode_Params (u : User) (Name : UserModeName) :
    (u.withoutMode Name).Params = Function.update u.Params Name none := rfl

/-- C14: `User::SetMode` on a session that has the mode and `User::RemoveMode`
on a session that does not have it change nothing (flags, parameter map, and
the calls to the mode stacker included); otherwise exactly one directive is
staged with the mode stacker, and `HasMode` is true after `SetMode` and false
after `RemoveMode`. -/
theorem C14_set_remove_idempotent (w : World) (bi : String) (p : Nat) (u : User)
    (m : UserMode) (Param : String) (hu : w.users p = some u) :
    (u.HasMode m.Name = true → User.SetMode w bi p (some m) Param = w) ∧
    (u.HasMode m.Name = false → User.RemoveMode w bi p (some m) = w) ∧
    (u.HasMode m.Name = false →
      (User.SetMode w bi p (some m) Param).log
        = w.log ++ [Event.StackerAdd bi p m true Param, Event.OnUserModeSet p m.Name] ∧
      ∃ u1, (User.SetMode w bi p (some m) Param).users p = some u1 ∧
        u1.HasMode m.Name = true) ∧
    (u.HasMode m.Name = true →
      (User.RemoveMode w bi p (some m)).log
        = w.log ++ [Event.StackerAdd bi p m false "", Event.OnUserModeUnset p m.Name] ∧
      ∃ u1, (User.RemoveMode w bi p (some m)).users p = some u1 ∧
        u1.HasMode m.Name = false) := by
  refine ⟨?_, ?_, ?_, ?_⟩
  · intro h
    rw [SetMode_eq w bi p m Param u hu, if_pos h]
  · intro h
    rw [RemoveMode_eq w bi p m u hu, h]
    rfl
  · intro h
    rw [SetMode_eq w bi p m Param u hu, h]
    exact ⟨by simp [World.emit], u.withMode m.Name Param, by simp, by simp [User.HasMode]⟩
  · intro h
    rw [RemoveMode_eq w bi p m u hu, if_pos h]
    exact ⟨by simp [World.emit], u.withoutMode m.Name, by simp, by simp [User.HasMode]⟩

theorem C14_set_remove_idempotent_witness :
    (User.bob.HasMode .UMODE_REGISTERED = true →
      User.SetMode World.demo "NickServ" 0
        (some { Name := .UMODE_REGISTERED, ModeChar := 'r', Type_ := .MODE_REGULAR }) ""
        = World.demo) ∧
    (User.bob.HasMode .UMODE_REGISTERED = true →
      (User.RemoveMode World.demo "NickServ" 0
        (some { Name := .UMODE_REGISTERED, ModeChar := 'r', Type_ := .MODE_REGULAR })).log
        = World.demo.log ++
          [Event.StackerAdd "NickServ" 0
            { Name := .UMODE_REGISTERED, ModeChar := 'r', Type_ := .MODE_REGULAR } false "",
           Event.OnUserModeUnset 0 .UMODE_REGISTERED] ∧
      ∃ u1, (User.RemoveMode World.demo "NickServ" 0
          (some { Name := .UMODE_REGISTERED, ModeChar := 'r', Type_ := .MODE_REGULAR })).users 0
            = some u1 ∧
        u1.HasMode .UMODE_REGISTERED = false) :=
  have h := C14_set_remove_idempotent World.demo "NickServ" 0 User.bob
    { Name := .UMODE_REGISTERED, ModeChar := 'r', Type_ := .MODE_REGULAR } "" rfl
  ⟨h.1, h.2.2.2⟩

theorem withMode_withoutMode (u : User) (Name : UserModeName) (Param : String)
    (hm : u.modes Name = false) (hp : u.Params Name = none) :
    (u.withMode Name Param).withoutMode Name = u := by
  have h1 : Function.update (Function.update u.modes Name true) Name false = u.modes := by
    rw [Function.update_idem, ← hm]
    exact Function.update_eq_self Name u.modes
  have h2 : Function.update u.Params Name none = u.Params := by
    rw [← hp]
    exact Function.update_eq_self Name u.Params
  have h3 : ∀ s, Function.update (Function.update u.Params Name (some s)) Name none
      = u.Params := by
    intro s
    rw [Function.update_idem, h2]
  cases u
  simp only [User.withMode, User.withoutMode] at *
  split
  · simp only [hp]
    simp only [h1, h3]
  · simp only [h1, h2]

/-- C15: for a session without the mode `m` (and, as for every mode that is not
set, without a parameter entry for it), `User::SetMode` followed by
`User::RemoveMode` restores the object, flags and parameter map included; the
two directives staged with the mode stacker are the setting and the removal
of `m`, which the stacker nets to nothing; `opcnt` is the same, whatever the
mode is. -/
theorem C15_set_then_remove (w : World) (bi bi2 : String) (p : Nat) (u : User) (m : UserMode)
    (Param : String) (hu : w.users p = some u)
    (hm : u.HasMode m.Name = false) (hp : u.Params m.Name = none) :
    (User.RemoveMode (User.SetMode w bi p (some m) Param) bi2 p (some m)).users p = some u ∧
    (User.RemoveMode (User.SetMode w bi p (some m) Param) bi2 p (some m)).log
      = w.log ++ [Event.StackerAdd bi p m true Param, Event.OnUserModeSet p m.Name,
                  Event.StackerAdd bi2 p m false "", Event.OnUserModeUnset p m.Name] ∧
    ModeStacker.pending
      ((User.RemoveMode (User.SetMode w bi p (some m) Param) bi2 p (some m)).log.drop
        w.log.length) = [] ∧
    (User.RemoveMode (User.SetMode w bi p (some m) Param) bi2 p (some m)).opcnt = w.opcnt := by
  have h1 : User.SetMode w bi p (some m) Param
      = (((w.emit (.StackerAdd bi p m true Param)).setUser p
          (u.withMode m.Name Param)).emit (.OnUserModeSet p m.Name)) := by
    rw [SetMode_eq w bi p m Param u hu, hm]
    rfl
  have h2 : User.RemoveMode (User.SetMode w bi p (some m) Param) bi2 p (some m)
      = ((((User.SetMode w bi p (some m) Param).emit (.StackerAdd bi2 p m false "")).setUser p
          ((u.withMode m.Name Param).withoutMode m.Name)).emit (.OnUserModeUnset p m.Name)) := by
    rw [RemoveMode_eq _ bi2 p m (u.withMode m.Name Param) (by rw [h1]; simp)]
    rw [if_pos (by simp [User.HasMode])]
  have hlog : (User.RemoveMode (User.SetMode w bi p (some m) Param) bi2 p (some m)).log
      = w.log ++ [Event.StackerAdd bi p m true Param, Event.OnUserModeSet p m.Name,
                  Event.StackerAdd bi2 p m false "", Event.OnUserModeUnset p m.Name] := by
    rw [h2, h1]
    simp [World.emit]
  refine ⟨?_, hlog, ?_, ?_⟩
  · rw [h2, withMode_withoutMode u m.Name Param hm hp]
    simp
  · rw [hlog, List.drop_left]
    simp [ModeStacker.pending, ModeStacker.stage]
  · rw [h2, h1]
    simp

theorem C15_set_then_remove_witness :
    (User.RemoveMode (User.SetMode World.lobby "OperServ" 0
        (some { Name := .UMODE_OPER, ModeChar := 'o', Type_ := .MODE_REGULAR }) "")
      "OperServ" 0 (some { Name := .UMODE_OPER, ModeChar := 'o', Type_ := .MODE_REGULAR })).users 0
      = some (User.init "bob" "001AAAAAB") ∧
    (User.RemoveMode (User.SetMode World.lobby "OperServ" 0
        (some { Name := .UMODE_OPER, ModeChar := 'o', Type_ := .MODE_REGULAR }) "")
      "OperServ" 0 (some { Name := .UMODE_OPER, ModeChar := 'o', Type_ := .MODE_REGULAR })).log
      = World.lobby.log ++
        [Event.StackerAdd "OperServ" 0
          { Name := .UMODE_OPER, ModeChar := 'o', Type_ := .MODE_REGULAR } true "",
         Event.OnUserModeSet 0 .UMODE_OPER,
         Event.StackerAdd "OperServ" 0
          { Name := .UMODE_OPER, ModeChar := 'o', Type_ := .MODE_REGULAR } false "",
         Event.OnUserModeUnset 0 .UMODE_OPER] ∧
    ModeStacker.pending
      ((User.RemoveMode (User.SetMode World.lobby "OperServ" 0
          (some { Name := .UMODE_OPER, ModeChar := 'o', Type_ := .MODE_REGULAR }) "")
        "OperServ" 0
        (some { Name := .UMODE_OPER, ModeChar := 'o', Type_ := .MODE_REGULAR })).log.drop
        World.lobby.log.length) = [] ∧
    (User.RemoveMode (User.SetMode World.lobby "OperServ" 0
        (some { Name := .UMODE_OPER, ModeChar := 'o', Type_ := .MODE_REGULAR }) "")
      "OperServ" 0 (some { Name := .UMODE_OPER, ModeChar := 'o', Type_ := .MODE_REGULAR })).opcnt
      = World.lobby.opcnt :=
  C15_set_then_remove World.lobby "OperServ" "OperServ" 0 (User.init "bob" "001AAAAAB")
    { Name := .UMODE_OPER, ModeChar := 'o', Type_ := .MODE_REGULAR } "" rfl rfl rfl

/-! ## The loops over a mode string -/

theorem SetModes_loop_eq (env : Env) (bi : String) (p : Nat) :
    ∀ (cs : List Char) (w : World) (add : Int) (toks : List String),
      User.SetModes_loop env bi p w add toks cs
        = (User.SetModes_scan env add toks cs).foldl (User.SetModes_round bi p) w := by
  intro cs
  induction cs with
  | nil =>
    intro w add toks
    rfl
  | cons c cs ih =>
    intro w add toks
    unfold User.SetModes_loop User.SetModes_scan
    split
    · exact ih _ _ _
    · split
      · exact ih _ _ _
      · split
        · exact ih _ _ _
        · split
          · exact ih _ _ _
          · rename_i hadd um hum
            split
            · rename_i hne
              split
              · split
                · rw [ih, List.foldl_cons]
                  simp only [User.SetModes_round, if_pos hne]
                · rw [ih, List.foldl_cons]
                  simp only [User.SetModes_round, if_pos hne]
              · rw [ih, List.foldl_cons]
                simp only [User.SetModes_round, if_pos hne]
            · rename_i hne
              rw [ih, List.foldl_cons]
              simp only [User.SetModes_round, if_neg hne]

theorem UserSetInternalModes_apply_snd (w : World) (user : Nat) (av : List String)
    (um : UserMode) (add : Int) (j : Nat) :
    (UserSetInternalModes_apply w user av um add j).2
      = if um.Type_ = .MODE_REGULAR then j else j + 1 := by
  unfold UserSetInternalModes_apply
  repeat' split
  all_goals rfl

theorem UserSetInternalModes_loop_eq (env : Env) (user : Nat) (av : List String) :
    ∀ (cs : List Char) (w : World) (add : Int) (j : Nat),
      UserSetInternalModes_loop env user av w add j cs
        = (UserSetInternalModes_scan env add j cs).foldl
            (UserSetInternalModes_round env user av) w := by
  intro cs
  induction cs with
  | nil =>
    intro w add j
    rfl
  | cons c cs ih =>
    intro w add j
    unfold UserSetInternalModes_loop UserSetInternalModes_scan
    split
    · exact ih _ _ _
    · split
      · exact ih _ _ _
      · split
        · exact ih _ _ _
        · split
          · exact ih _ _ _
          · simp only [ih, List.foldl_cons, UserSetInternalModes_apply_snd]
            rfl

/-! ## What the mode functions leave alone -/

@[simp]
theorem SetModeInternal_nextUser (w : World) (p : Nat) (um : Option UserMode) (Param : String) :
    (User.SetModeInternal w p um Param).nextUser = w.nextUser := by
  unfold User.SetModeInternal
  repeat' split
  all_goals simp

@[simp]
theorem SetModeInternal_UserListByNick (w : World) (p : Nat) (um : Option UserMode) (Param : String) :
    (User.SetModeInternal w p um Param).UserListByNick = w.UserListByNick := by
  unfold User.SetModeInternal
  repeat' split
  all_goals simp

@[simp]
theorem SetModeInternal_UserListByUID (w : World) (p : Nat) (um : Option UserMode) (Param : String) :
    (User.SetModeInternal w p um Param).UserListByUID = w.UserListByUID := by
  unfold User.SetModeInternal
  repeat' split
  all_goals simp

@[simp]
theorem SetModeInternal_opcnt (w : World) (p : Nat) (um : Option UserMode) (Param : String) :
    (User.SetModeInternal w p um Param).opcnt = w.opcnt := by
  unfold User.SetModeInternal
  repeat' split
  all_goals simp

@[simp]
theorem SetModeInternal_usercnt (w : World) (p : Nat) (um : Option UserMode) (Param : String) :
    (User.SetModeInternal w p um Param).usercnt = w.usercnt := by
  unfold User.SetModeInternal
  repeat' split
  all_goals simp

@[simp]
theorem SetModeInternal_maxusercnt (w : World) (p : Nat) (um : Option UserMode) (Param : String) :
    (User.SetModeInternal w p um Param).maxusercnt = w.maxusercnt := by
  unfold User.SetModeInternal
  repeat' split
  all_goals simp

@[simp]
theorem SetModeInternal_maxusertime (w : World) (p : Nat) (um : Option UserMode) (Param : String) :
    (User.SetModeInternal w p um Param).maxusertime = w.maxusertime := by
  unfold User.SetModeInternal
  repeat' split
  all_goals simp

@[simp]
theorem SetModeInternal_cores (w : World) (p : Nat) (um : Option UserMode) (Param : String) :
    (User.SetModeInternal w p um Param).cores = w.cores := by
  unfold User.SetModeInternal
  repeat' split
  all_goals simp

@[simp]
theorem SetModeInternal_aliases (w : World) (p : Nat) (um : Option UserMode) (Param : String) :
    (User.SetModeInternal w p um Param).aliases = w.aliases := by
  unfold User.SetModeInternal
  repeat' split
  all_goals simp

@[simp]
theorem SetModeInternal_channels (w : World) (p : Nat) (um : Option UserMode) (Param : String) :
    (User.SetModeInternal w p um Param).channels = w.channels := by
  unfold User.SetModeInternal
  repeat' split
  all_goals simp

@[simp]
theorem SetModeInternal_now (w : World) (p : Nat) (um : Option UserMode) (Param : String) :
    (User.SetModeInternal w p um Param).now = w.now := by
  unfold User.SetModeInternal
  repeat' split
  all_goals simp

@[simp]
theorem SetMode_nextUser (w : World) (bi : String) (p : Nat) (um : Option UserMode) (Param : String) :
    (User.SetMode w bi p um Param).nextUser = w.nextUser := by
  unfold User.SetMode
  repeat' split
  all_goals simp

@[simp]
theorem SetMode_UserListByNick (w : World) (bi : String) (p : Nat) (um : Option UserMode) (Param : String) :
    (User.SetMode w bi p um Param).UserListByNick = w.UserListByNick := by
  unfold User.SetMode
  repeat' split
  all_goals simp

@[simp]
theorem SetMode_UserListByUID (w : World) (bi : String) (p : Nat) (um : Option UserMode) (Param : String) :
    (User.SetMode w bi p um Param).UserListByUID = w.UserListByUID := by
  unfold User.SetMode
  repeat' split
  all_goals simp

@[simp]
theorem SetMode_opcnt (w : World) (bi : String) (p : Nat) (um : Option UserMode) (Param : String) :
    (User.SetMode w bi p um Param).opcnt = w.opcnt := by
  unfold User.SetMode
  repeat' split
  all_goals simp

@[simp]
theorem SetMode_usercnt (w : World) (bi : String) (p : Nat) (um : Option UserMode) (Param : String) :
    (User.SetMode w bi p um Param).usercnt = w.usercnt := by
  unfold User.SetMode
  repeat' split
  all_goals simp

@[simp]
theorem SetMode_maxusercnt (w : World) (bi : String) (p : Nat) (um : Option UserMode) (Param : String) :
    (User.SetMode w bi p um Param).maxusercnt = w.maxusercnt := by
  unfold User.SetMode
  repeat' split
  all_goals simp

@[simp]
theorem SetMode_maxusertime (w : World) (bi : String) (p : Nat) (um : Option UserMode) (Param : String) :
    (User.SetMode w bi p um Param).maxusertime = w.maxusertime := by
  unfold User.SetMode
  repeat' split
  all_goals simp

@[simp]
theorem SetMode_cores (w : World) (bi : String) (p : Nat) (um : Option UserMode) (Param : String) :
    (User.SetMode w bi p um Param).cores = w.cores := by
  unfold User.SetMode
  repeat' split
  all_goals simp

@[simp]
theorem SetMode_aliases (w : World) (bi : String) (p : Nat) (um : Option UserMode) (Param : String) :
    (User.SetMode w bi p um Param).aliases = w.aliases := by
  unfold User.SetMode
  repeat' split
  all_goals simp

@[simp]
theorem SetMode_channels (w : World) (bi : String) (p : Nat) (um : Option UserMode) (Param : String) :
    (User.SetMode w bi p um Param).channels = w.channels := by
  unfold User.SetMode
  repeat' split
  all_goals simp

@[simp]
theorem SetMode_now (w : World) (bi : String) (p : Nat) (um : Option UserMode) (Param : String) :
    (User.SetMode w bi p um Param).now = w.now := by
  unfold User.SetMode
  repeat' split
  all_goals simp

@[simp]
theorem SetModes_round_nextUser (bi : String) (p : Nat) (w : World) (r : UserMode × Int × String) :
    (User.SetModes_round bi p w r).nextUser = w.nextUser := by
  unfold User.SetModes_round
  split <;> simp

@[simp]
theorem SetModes_round_UserListByNick (bi : String) (p : Nat) (w : World) (r : UserMode × Int × String) :
    (User.SetModes_round bi p w r).UserListByNick = w.UserListByNick := by
  unfold User.SetModes_round
  split <;> simp

@[simp]
theorem SetModes_round_UserListByUID (bi : String) (p : Nat) (w : World) (r : UserMode × Int × String) :
    (User.SetModes_round bi p w r).UserListByUID = w.UserListByUID := by
  unfold User.SetModes_round
  split <;> simp

@[simp]
theorem SetModes_round_opcnt (bi : String) (p : Nat) (w : World) (r : UserMode × Int × String) :
    (User.SetModes_round bi p w r).opcnt = w.opcnt := by
  unfold User.SetModes_round
  split <;> simp

@[simp]
theorem SetModes_round_usercnt (bi : String) (p : Nat) (w : World) (r : UserMode × Int × String) :
    (User.SetModes_round bi p w r).usercnt = w.usercnt := by
  unfold User.SetModes_round
  split <;> simp

@[simp]
theorem SetModes_round_maxusercnt (bi : String) (p : Nat) (w : World) (r : UserMode × Int × String) :
    (User.SetModes_round bi p w r).maxusercnt = w.maxusercnt := by
  unfold User.SetModes_round
  split <;> simp

@[simp]
theorem SetModes_round_maxusertime (bi : String) (p : Nat) (w : World) (r : UserMode × Int × String) :
    (User.SetModes_round bi p w r).maxusertime = w.maxusertime := by
  unfold User.SetModes_round
  split <;> simp

@[simp]
theorem SetModes_round_cores (bi : String) (p : Nat) (w : World) (r : UserMode × Int × String) :
    (User.SetModes_round bi p w r).cores = w.cores := by
  unfold User.SetModes_round
  split <;> simp

@[simp]
theorem SetModes_round_aliases (bi : String) (p : Nat) (w : World) (r : UserMode × Int × String) :
    (User.SetModes_round bi p w r).aliases = w.aliases := by
  unfold User.SetModes_round
  split <;> simp

@[simp]
theorem SetModes_round_channels (bi : String) (p : Nat) (w : World) (r : UserMode × Int × String) :
    (User.SetModes_round bi p w r).channels = w.channels := by
  unfold User.SetModes_round
  split <;> simp

@[simp]
theorem SetModes_round_now (bi : String) (p : Nat) (w : World) (r : UserMode × Int × String) :
    (User.SetModes_round bi p w r).now = w.now := by
  unfold User.SetModes_round
  split <;> simp

@[simp]
theorem UserSetInternalModes_apply_nextUser (w : World) (user : Nat) (av : List String) (um : UserMode) (add : Int) (j : Nat) :
    ((UserSetInternalModes_apply w user av um add j).1).nextUser = w.nextUser := by
  unfold UserSetInternalModes_apply
  repeat' split
  all_goals simp

@[simp]
theorem UserSetInternalModes_apply_UserListByNick (w : World) (user : Nat) (av : List String) (um : UserMode) (add : Int) (j : Nat) :
    ((UserSetInternalModes_apply w user av um add j).1).UserListByNick = w.UserListByNick := by
  unfold UserSetInternalModes_apply
  repeat' split
  all_goals simp

@[simp]
theorem UserSetInternalModes_apply_UserListByUID (w : World) (user : Nat) (av : List String) (um : UserMode) (add : Int) (j : Nat) :
    ((UserSetInternalModes_apply w user av um add j).1).UserListByUID = w.UserListByUID := by
  unfold UserSetInternalModes_apply
  repeat' split
  all_goals simp

@[simp]
theorem UserSetInternalModes_apply_opcnt (w : World) (user : Nat) (av : List String) (um : UserMode) (add : Int) (j : Nat) :
    ((UserSetInternalModes_apply w user av um add j).1).opcnt = w.opcnt := by
  unfold UserSetInternalModes_apply
  repeat' split
  all_goals simp

@[simp]
theorem UserSetInternalModes_apply_usercnt (w : World) (user : Nat) (av : List String) (um : UserMode) (add : Int) (j : Nat) :
    ((UserSetInternalModes_apply w user av um add j).1).usercnt = w.usercnt := by
  unfold UserSetInternalModes_apply
  repeat' split
  all_goals simp

@[simp]
theorem UserSetInternalModes_apply_maxusercnt (w : World) (user : Nat) (av : List String) (um : UserMode) (add : Int) (j : Nat) :
    ((UserSetInternalModes_apply w user av um add j).1).maxusercnt = w.maxusercnt := by
  unfold UserSetInternalModes_apply
  repeat' split
  all_goals simp

@[simp]
theorem UserSetInternalModes_apply_maxusertime (w : World) (user : Nat) (av : List String) (um : UserMode) (add : Int) (j : Nat) :
    ((UserSetInternalModes_apply w user av um add j).1).maxusertime = w.maxusertime := by
  unfold UserSetInternalModes_apply
  repeat' split
  all_goals simp

@[simp]
theorem UserSetInternalModes_apply_cores (w : World) (user : Nat) (av : List String) (um : UserMode) (add : Int) (j : Nat) :
    ((UserSetInternalModes_apply w user av um add j).1).cores = w.cores := by
  unfold UserSetInternalModes_apply
  repeat' split
  all_goals simp

@[simp]
theorem UserSetInternalModes_apply_aliases (w : World) (user : Nat) (av : List String) (um : UserMode) (add : Int) (j : Nat) :
    ((UserSetInternalModes_apply w user av um add j).1).aliases = w.aliases := by
  unfold UserSetInternalModes_apply
  repeat' split
  all_goals simp

@[simp]
theorem UserSetInternalModes_apply_channels (w : World) (user : Nat) (av : List String) (um : UserMode) (add : Int) (j : Nat) :
    ((UserSetInternalModes_apply w user av um add j).1).channels = w.channels := by
  unfold UserSetInternalModes_apply
  repeat' split
  all_goals simp

@[simp]
theorem UserSetInternalModes_apply_now (w : World) (user : Nat) (av : List String) (um : UserMode) (add : Int) (j : Nat) :
    ((UserSetInternalModes_apply w user av um add j).1).now = w.now := by
  unfold UserSetInternalModes_apply
  repeat' split
  all_goals simp

@[simp]
theorem UserSetInternalModes_switch_nextUser (env : Env) (w : World) (user : Nat) (um : UserMode) (add : Int) :
    (UserSetInternalModes_switch env w user um add).nextUser = w.nextUser := by
  unfold UserSetInternalModes_switch
  repeat' split
  all_goals (try simp)
  all_goals (split <;> simp)

@[simp]
theorem UserSetInternalModes_switch_UserListByNick (env : Env) (w : World) (user : Nat) (um : UserMode) (add : Int) :
    (UserSetInternalModes_switch env w user um add).UserListByNick = w.UserListByNick := by
  unfold UserSetInternalModes_switch
  repeat' split
  all_goals (try simp)
  all_goals (split <;> simp)

@[simp]
theorem UserSetInternalModes_switch_UserListByUID (env : Env) (w : World) (user : Nat) (um : UserMode) (add : Int) :
    (UserSetInternalModes_switch env w user um add).UserListByUID = w.UserListByUID := by
  unfold UserSetInternalModes_switch
  repeat' split
  all_goals (try simp)
  all_goals (split <;> simp)

@[simp]
theorem UserSetInternalModes_switch_usercnt (env : Env) (w : World) (user : Nat) (um : UserMode) (add : Int) :
    (UserSetInternalModes_switch env w user um add).usercnt = w.usercnt := by
  unfold UserSetInternalModes_switch
  repeat' split
  all_goals (try simp)
  all_goals (split <;> simp)

@[simp]
theorem UserSetInternalModes_switch_maxusercnt (env : Env) (w : World) (user : Nat) (um : UserMode) (add : Int) :
    (UserSetInternalModes_switch env w user um add).maxusercnt = w.maxusercnt := by
  unfold UserSetInternalModes_switch
  repeat' split
  all_goals (try simp)
  all_goals (split <;> simp)

@[simp]
theorem UserSetInternalModes_switch_maxusertime (env : Env) (w : World) (user : Nat) (um : UserMode) (add : Int) :
    (UserSetInternalModes_switch env w user um add).maxusertime = w.maxusertime := by
  unfold UserSetInternalModes_switch
  repeat' split
  all_goals (try simp)
  all_goals (split <;> simp)

@[simp]
theorem UserSetInternalModes_switch_cores (env : Env) (w : World) (user : Nat) (um : UserMode) (add : Int) :
    (UserSetInternalModes_switch env w user um add).cores = w.cores := by
  unfold UserSetInternalModes_switch
  repeat' split
  all_goals (try simp)
  all_goals (split <;> simp)

@[simp]
theorem UserSetInternalModes_switch_channels (env : Env) (w : World) (user : Nat) (um : UserMode) (add : Int) :
    (UserSetInternalModes_switch env w user um add).channels = w.channels := by
  unfold UserSetInternalModes_switch
  repeat' split
  all_goals (try simp)
  all_goals (split <;> simp)

@[simp]
theorem UserSetInternalModes_switch_now (env : Env) (w : World) (user : Nat) (um : UserMode) (add : Int) :
    (UserSetInternalModes_switch env w user um add).now = w.now := by
  unfold UserSetInternalModes_switch
  repeat' split
  all_goals (try simp)
  all_goals (split <;> simp)

@[simp]
theorem UserSetInternalModes_round_nextUser (env : Env) (user : Nat) (av : List String) (w : World) (r : UserMode × Int × Nat) :
    (UserSetInternalModes_round env user av w r).nextUser = w.nextUser := by
  unfold UserSetInternalModes_round
  simp

@[simp]
theorem UserSetInternalModes_round_UserListByNick (env : Env) (user : Nat) (av : List String) (w : World) (r : UserMode × Int × Nat) :
    (UserSetInternalModes_round env user av w r).UserListByNick = w.UserListByNick := by
  unfold UserSetInternalModes_round
  simp

@[simp]
theorem UserSetInternalModes_round_UserListByUID (env : Env) (user : Nat) (av : List String) (w : World) (r : UserMode × Int × Nat) :
    (UserSetInternalModes_round env user av w r).UserListByUID = w.UserListByUID := by
  unfold UserSetInternalModes_round
  simp

@[simp]
theorem UserSetInternalModes_round_usercnt (env : Env) (user : Nat) (av : List String) (w : World) (r : UserMode × Int × Nat) :
    (UserSetInternalModes_round env user av w r).usercnt = w.usercnt := by
  unfold UserSetInternalModes_round
  simp

@[simp]
theorem UserSetInternalModes_round_maxusercnt (env : Env) (user : Nat) (av : List String) (w : World) (r : UserMode × Int × Nat) :
    (UserSetInternalModes_round env user av w r).maxusercnt = w.maxusercnt := by
  unfold UserSetInternalModes_round
  simp

@[simp]
theorem UserSetInternalModes_round_maxusertime (env : Env) (user : Nat) (av : List String) (w : World) (r : UserMode × Int × Nat) :
    (UserSetInternalModes_round env user av w r).maxusertime = w.maxusertime := by
  unfold UserSetInternalModes_round
  simp

@[simp]
theorem UserSetInternalModes_round_cores (env : Env) (user : Nat) (av : List String) (w : World) (r : UserMode × Int × Nat) :
    (UserSetInternalModes_round env user av w r).cores = w.cores := by
  unfold UserSetInternalModes_round
  simp

@[simp]
theorem UserSetInternalModes_round_channels (env : Env) (user : Nat) (av : List String) (w : World) (r : UserMode × Int × Nat) :
    (UserSetInternalModes_round env user av w r).channels = w.channels := by
  unfold UserSetInternalModes_round
  simp

@[simp]
theorem UserSetInternalModes_round_now (env : Env) (user : Nat) (av : List String) (w : World) (r : UserMode × Int × Nat) :
    (UserSetInternalModes_round env user av w r).now = w.now := by
  unfold UserSetInternalModes_round
  simp

/-! ## One round of a mode loop, on the object -/

theorem update_self_some (w : World) (p : Nat) (u : User) (hu : w.users p = some u) :
    Function.update w.users p (some u) = w.users := by
  rw [← hu]
  exact Function.update_eq_self p w.users

theorem SetModes_round_users (bi : String) (p : Nat) (w : World) (r : UserMode × Int × String)
    (u : User) (hu : w.users p = some u) :
    (User.SetModes_round bi p w r).users = Function.update w.users p (some (u.afterSet r)) := by
  unfold User.SetModes_round User.afterSet
  split
  · rw [SetMode_eq w bi p r.1 r.2.2 u hu]
    split
    · exact (update_self_some w p u hu).symm
    · simp
  · rw [RemoveMode_eq w bi p r.1 u hu]
    split
    · simp
    · exact (update_self_some w p u hu).symm

theorem UserSetInternalModes_apply_users (w : World) (user : Nat) (av : List String)
    (r : UserMode × Int × Nat) (u : User) (hu : w.users user = some u) :
    (UserSetInternalModes_apply w user av r.1 r.2.1 r.2.2).1.users
      = Function.update w.users user (some (u.afterApply av r)) := by
  unfold UserSetInternalModes_apply User.afterApply
  split
  · split
    · rw [SetModeInternal_eq w user r.1 "" u hu]
      simp
    · rw [RemoveModeInternal_eq w user r.1 u hu]
      simp
  · split
    · split
      · rw [SetModeInternal_eq w user r.1 _ u hu]
        simp
      · rw [RemoveModeInternal_eq w user r.1 u hu]
        simp
    · exact (update_self_some w user u hu).symm

theorem IsIdentified_false (w : World) (u : User) :
    User.IsIdentified w u false = u.nc.isSome := by
  unfold User.IsIdentified
  rfl

theorem UserSetInternalModes_switch_users (env : Env) (w : World) (user : Nat)
    (r : UserMode × Int × Nat) (u : User) (hu : w.users user = some u) :
    ∃ b, (UserSetInternalModes_switch env w user r.1 r.2.1).users
      = Function.update w.users user (some { u.afterSwitch env r with OnAccess := b }) := by
  have hself : w.users = Function.update w.users user (some { u with OnAccess := u.OnAccess }) :=
    (update_self_some w user u hu).symm
  have hhost : ∃ b, (User.UpdateHost env (w.modUser user
        (fun u => if r.2.1 = 0 && !(u.vhost == "") then { u with vhost := "" } else u))
        user).users
      = Function.update w.users user (some { (if r.2.1 = 0 && !(u.vhost == "") then
          { u with vhost := "" } else u) with OnAccess := b }) := by
    rw [modUser_eq w user _ u hu]
    obtain ⟨b, hb⟩ := UpdateHost_users env
      (w.setUser user (if r.2.1 = 0 && !(u.vhost == "") then { u with vhost := "" } else u)) user
      (if r.2.1 = 0 && !(u.vhost == "") then { u with vhost := "" } else u)
      (by rw [setUser_users, Function.update_same])
    exact ⟨b, by rw [hb]; simp only [setUser_users, Function.update_idem]⟩
  unfold UserSetInternalModes_switch User.afterSwitch
  cases hN : r.1.Name with
  | UMODE_OPER =>
    refine ⟨u.OnAccess, ?_⟩
    simp only []
    split
    · split
      · split <;> simpa using hself
      · simpa using hself
    · simpa using hself
  | UMODE_REGISTERED =>
    refine ⟨u.OnAccess, ?_⟩
    simp only [hu, IsIdentified_false]
    split
    · unfold User.RemoveModeByName
      cases hf : FindUserModeByName env .UMODE_REGISTERED with
      | none => simpa [User.RemoveMode] using hself
      | some m =>
        rw [RemoveMode_eq w "NickServ" user m u hu]
        simp only []
        split
        · simp only [emit_users, setUser_users]
          rfl
        · exact hself
    · exact hself
  | UMODE_CLOAK => exact hhost
  | UMODE_VHOST => exact hhost
  | UMODE_PROTECTED => exact ⟨u.OnAccess, hself⟩
  | UMODE_GOD => exact ⟨u.OnAccess, hself⟩
  | UMODE_OTHER n => exact ⟨u.OnAccess, hself⟩

theorem UserSetInternalModes_round_users (env : Env) (user : Nat) (av : List String)
    (w : World) (r : UserMode × Int × Nat) (u : User) (hu : w.users user = some u) :
    ∃ b, (UserSetInternalModes_round env user av w r).users
      = Function.update w.users user (some { u.afterReq env av r with OnAccess := b }) := by
  unfold UserSetInternalModes_round User.afterReq
  obtain ⟨b, hb⟩ := UserSetInternalModes_switch_users env
    (UserSetInternalModes_apply w user av r.1 r.2.1 r.2.2).1 user r (u.afterApply av r)
    (by rw [UserSetInternalModes_apply_users w user av r u hu]; simp)
  refine ⟨b, ?_⟩
  rw [hb, UserSetInternalModes_apply_users w user av r u hu, Function.update_idem]

theorem UserSetInternalModes_round_opcnt (env : Env) (user : Nat) (av : List String)
    (w : World) (r : UserMode × Int × Nat) :
    (UserSetInternalModes_round env user av w r).opcnt
      = if r.1.Name = .UMODE_OPER then
          (if r.2.1 ≠ 0 then int32_inc w.opcnt else int32_dec w.opcnt)
        else w.opcnt := by
  unfold UserSetInternalModes_round UserSetInternalModes_switch
  cases hN : r.1.Name with
  | UMODE_OPER =>
    simp only [if_true]
    split
    · split
      · split <;> simp
      · simp
    · simp
  | UMODE_REGISTERED =>
    simp only []
    split
    · simp
    · split <;> simp
  | UMODE_CLOAK => simp
  | UMODE_VHOST => simp
  | UMODE_PROTECTED => simp
  | UMODE_GOD => simp
  | UMODE_OTHER n => simp

/-! ## A whole mode string -/

theorem foldl_frame {α β : Type} (f : World → α → World) (g : World → β)
    (h : ∀ w a, g (f w a) = g w) : ∀ (l : List α) (w : World), g (l.foldl f w) = g w := by
  intro l
  induction l with
  | nil =>
    intro w
    rfl
  | cons a l ih =>
    intro w
    rw [List.foldl_cons, ih, h]

/-- The rounds of `User::SetModes` change the object at `p` as `User.afterSet`
says, round by round, and no other object. -/
theorem SetModes_rounds_users (bi : String) (p : Nat) :
    ∀ (reqs : List (UserMode × Int × String)) (w : World) (u : User),
      w.users p = some u →
      (reqs.foldl (User.SetModes_round bi p) w).users
        = Function.update w.users p (some (reqs.foldl User.afterSet u)) := by
  intro reqs
  induction reqs with
  | nil =>
    intro w u hu
    exact (update_self_some w p u hu).symm
  | cons r rs ih =>
    intro w u hu
    have h1 := SetModes_round_users bi p w r u hu
    rw [List.foldl_cons, List.foldl_cons,
      ih (User.SetModes_round bi p w r) (u.afterSet r) (by rw [h1, Function.update_same]),
      h1, Function.update_idem]

/-- The rounds of `UserSetInternalModes` change no object but the one at `user`;
what holds of that object is carried from round to round. -/
theorem UserSetInternalModes_rounds_users (env : Env) (user : Nat) (av : List String)
    (I : User → List (UserMode × Int × Nat) → Prop)
    (hstep : ∀ u r rs b, I u (r :: rs) →
      I { User.afterReq env av u r with OnAccess := b } rs) :
    ∀ (reqs : List (UserMode × Int × Nat)) (w : World) (u : User),
      w.users user = some u → I u reqs →
      ∃ v, (reqs.foldl (UserSetInternalModes_round env user av) w).users
          = Function.update w.users user (some v) ∧ I v [] := by
  intro reqs
  induction reqs with
  | nil =>
    intro w u hu hI
    exact ⟨u, (update_self_some w user u hu).symm, hI⟩
  | cons r rs ih =>
    intro w u hu hI
    obtain ⟨b, hb⟩ := UserSetInternalModes_round_users env user av w r u hu
    obtain ⟨v, hv, hIv⟩ := ih (UserSetInternalModes_round env user av w r)
      { User.afterReq env av u r with OnAccess := b } (by rw [hb, Function.update_same])
      (hstep u r rs b hI)
    refine ⟨v, ?_, hIv⟩
    rw [List.foldl_cons, hv, hb, Function.update_idem]

theorem int32_inc_mod (n : Int) (h1 : -2147483648 ≤ n) (h2 : n ≤ 2147483647) :
    (int32_inc n - (n + 1)) % 4294967296 = 0 ∧
      -2147483648 ≤ int32_inc n ∧ int32_inc n ≤ 2147483647 := by
  unfold int32_inc
  split <;> omega

theorem int32_dec_mod (n : Int) (h1 : -2147483648 ≤ n) (h2 : n ≤ 2147483647) :
    (int32_dec n - (n - 1)) % 4294967296 = 0 ∧
      -2147483648 ≤ int32_dec n ∧ int32_dec n ≤ 2147483647 := by
  unfold int32_dec
  split <;> omega

/-- One round moves `opcnt`, an `int32`, by one for the operator mode, up to
the wraparound, and keeps it in the range of the type. -/
theorem UserSetInternalModes_round_opcnt_mod (env : Env) (user : Nat) (av : List String)
    (w : World) (r : UserMode × Int × Nat)
    (h1 : -2147483648 ≤ w.opcnt) (h2 : w.opcnt ≤ 2147483647) :
    ((UserSetInternalModes_round env user av w r).opcnt
        - (w.opcnt + (if r.1.Name = .UMODE_OPER then (if r.2.1 ≠ 0 then (1 : Int) else -1)
            else 0))) % 4294967296 = 0 ∧
      -2147483648 ≤ (UserSetInternalModes_round env user av w r).opcnt ∧
      (UserSetInternalModes_round env user av w r).opcnt ≤ 2147483647 := by
  rw [UserSetInternalModes_round_opcnt]
  have hi := int32_inc_mod w.opcnt h1 h2
  have hd := int32_dec_mod w.opcnt h1 h2
  by_cases hN : r.1.Name = .UMODE_OPER
  · by_cases ha : r.2.1 ≠ 0
    · rw [if_pos hN, if_pos hN, if_pos ha, if_pos ha]
      exact hi
    · rw [if_pos hN, if_pos hN, if_neg ha, if_neg ha]
      refine ⟨?_, hd.2⟩
      have := hd.1
      omega
  · simp only [hN, if_false]
    omega

theorem UserSetInternalModes_rounds_opcnt (env : Env) (user : Nat) (av : List String) :
    ∀ (reqs : List (UserMode × Int × Nat)) (w : World),
      -2147483648 ≤ w.opcnt → w.opcnt ≤ 2147483647 →
      ((reqs.foldl (UserSetInternalModes_round env user av) w).opcnt
        - (w.opcnt + (reqs.map (fun r => if r.1.Name = .UMODE_OPER then
            (if r.2.1 ≠ 0 then (1 : Int) else -1) else 0)).sum)) % 4294967296 = 0 ∧
      -2147483648 ≤ (reqs.foldl (UserSetInternalModes_round env user av) w).opcnt ∧
      (reqs.foldl (UserSetInternalModes_round env user av) w).opcnt ≤ 2147483647 := by
  intro reqs
  induction reqs with
  | nil =>
    intro w h1 h2
    simp only [List.foldl_nil, List.map_nil, List.sum_nil]
    omega
  | cons r rs ih =>
    intro w h1 h2
    obtain ⟨hr, hr1, hr2⟩ := UserSetInternalModes_round_opcnt_mod env user av w r h1 h2
    obtain ⟨hs, hs1, hs2⟩ := ih (UserSetInternalModes_round env user av w r) hr1 hr2
    rw [List.foldl_cons, List.map_cons, List.sum_cons]
    refine ⟨?_, hs1, hs2⟩
    omega

/-- The call `UserSetInternalModes(user, ac, av)` for a live session is the
rounds for the modes found in `av[0]`. -/
theorem UserSetInternalModes_eq (env : Env) (w : World) (user : Nat) (modes : String)
    (rest : List String) (u : User) (hu : w.users user = some u) :
    UserSetInternalModes env w (some user) (modes :: rest)
      = (UserSetInternalModes_scan env (-1) 0 modes.data).foldl
          (UserSetInternalModes_round env user (modes :: rest)) w := by
  unfold UserSetInternalModes
  simp only [hu]
  exact UserSetInternalModes_loop_eq env user (modes :: rest) modes.data w (-1) 0

theorem SetModes_eq (env : Env) (w : World) (bi : String) (p : Nat) (modebuf : String)
    (toks : List String) :
    User.SetModes env w bi p (modebuf :: toks)
      = (User.SetModes_scan env (-1) toks modebuf.data).foldl (User.SetModes_round bi p) w := by
  unfold User.SetModes
  exact SetModes_loop_eq env bi p modebuf.data w (-1) toks

theorem SetModes_scan_mem (env : Env) :
    ∀ (cs : List Char) (add : Int) (toks : List String) (r : UserMode × Int × String),
      r ∈ User.SetModes_scan env add toks cs → r.1 ∈ env.UserModes ∧ r.2.1 ≠ -1 := by
  intro cs
  induction cs with
  | nil =>
    intro add toks r hr
    simp [User.SetModes_scan] at hr
  | cons c cs ih =>
    intro add toks r hr
    unfold User.SetModes_scan at hr
    split at hr
    · exact ih _ _ r hr
    · split at hr
      · exact ih _ _ r hr
      · split at hr
        · exact ih _ _ r hr
        · rename_i hadd
          split at hr
          · exact ih _ _ r hr
          · rename_i um hum
            have hmem : um ∈ env.UserModes := List.mem_of_find?_eq_some hum
            split at hr
            · split at hr
              · split at hr
                all_goals
                  rcases List.mem_cons.1 hr with h | h
                  · subst h
                    exact ⟨hmem, hadd⟩
                  · exact ih _ _ r h
              · rcases List.mem_cons.1 hr with h | h
                · subst h
                  exact ⟨hmem, hadd⟩
                · exact ih _ _ r h
            · rcases List.mem_cons.1 hr with h | h
              · subst h
                exact ⟨hmem, hadd⟩
              · exact ih _ _ r h

theorem UserSetInternalModes_scan_mem (env : Env) :
    ∀ (cs : List Char) (add : Int) (j : Nat) (r : UserMode × Int × Nat),
      r ∈ UserSetInternalModes_scan env add j cs → r.1 ∈ env.UserModes ∧ r.2.1 ≠ -1 := by
  intro cs
  induction cs with
  | nil =>
    intro add j r hr
    simp [UserSetInternalModes_scan] at hr
  | cons c cs ih =>
    intro add j r hr
    unfold UserSetInternalModes_scan at hr
    split at hr
    · exact ih _ _ r hr
    · split at hr
      · exact ih _ _ r hr
      · split at hr
        · exact ih _ _ r hr
        · rename_i hadd
          split at hr
          · exact ih _ _ r hr
          · rename_i um hum
            rcases List.mem_cons.1 hr with h | h
            · subst h
              exact ⟨List.mem_of_find?_eq_some hum, hadd⟩
            · exact ih _ _ r h

/-! ## One round, field by field -/

theorem withMode_eq (u : User) (Name : UserModeName) (Param : String) :
    u.withMode Name Param =
      { u with
        modes := Function.update u.modes Name true,
        Params := if Param ≠ "" then
            (match u.Params Name with
              | some _ => u.Params
              | none => Function.update u.Params Name (some Param))
          else u.Params } := by
  unfold User.withMode
  simp only []
  split
  · split
    · rename_i h
      simp only [h]
    · rename_i h
      simp only [h]
  · rfl

@[simp] theorem withMode_nc (u : User) (n : UserModeName) (s : String) :
    (u.withMode n s).nc = u.nc := by rw [withMode_eq]

@[simp] theorem withMode_vhost (u : User) (n : UserModeName) (s : String) :
    (u.withMode n s).vhost = u.vhost := by rw [withMode_eq]

@[simp] theorem withMode_host (u : User) (n : UserModeName) (s : String) :
    (u.withMode n s).host = u.host := by rw [withMode_eq]

@[simp] theorem withMode_chost (u : User) (n : UserModeName) (s : String) :
    (u.withMode n s).chost = u.chost := by rw [withMode_eq]

@[simp] theorem withMode_nick (u : User) (n : UserModeName) (s : String) :
    (u.withMode n s).nick = u.nick := by rw [withMode_eq]

theorem withMode_Params (u : User) (n : UserModeName) (s : String) :
    (u.withMode n s).Params = if s ≠ "" then
        (match u.Params n with
          | some _ => u.Params
          | none => Function.update u.Params n (some s))
      else u.Params := by rw [withMode_eq]

@[simp] theorem withoutMode_nc (u : User) (n : UserModeName) :
    (u.withoutMode n).nc = u.nc := rfl

@[simp] theorem withoutMode_vhost (u : User) (n : UserModeName) :
    (u.withoutMode n).vhost = u.vhost := rfl

@[simp] theorem withoutMode_host (u : User) (n : UserModeName) :
    (u.withoutMode n).host = u.host := rfl

@[simp] theorem withoutMode_chost (u : User) (n : UserModeName) :
    (u.withoutMode n).chost = u.chost := rfl

@[simp] theorem withoutMode_nick (u : User) (n : UserModeName) :
    (u.withoutMode n).nick = u.nick := rfl

theorem withMode_Params_ne (u : User) (n k : UserModeName) (s : String) (h : n ≠ k) :
    (u.withMode n s).Params k = u.Params k := by
  rw [withMode_Params]
  split
  · split
    · rfl
    · exact Function.update_noteq (Ne.symm h) _ _
  · rfl

theorem afterApply_nc (av : List String) (u : User) (r : UserMode × Int × Nat) :
    (u.afterApply av r).nc = u.nc := by
  unfold User.afterApply
  repeat' split
  all_goals simp

theorem afterApply_vhost (av : List String) (u : User) (r : UserMode × Int × Nat) :
    (u.afterApply av r).vhost = u.vhost := by
  unfold User.afterApply
  repeat' split
  all_goals simp

theorem afterApply_host (av : List String) (u : User) (r : UserMode × Int × Nat) :
    (u.afterApply av r).host = u.host := by
  unfold User.afterApply
  repeat' split
  all_goals simp

theorem afterApply_chost (av : List String) (u : User) (r : UserMode × Int × Nat) :
    (u.afterApply av r).chost = u.chost := by
  unfold User.afterApply
  repeat' split
  all_goals simp

theorem afterApply_modes_ne (av : List String) (u : User) (r : UserMode × Int × Nat)
    (n : UserModeName) (h : r.1.Name ≠ n) : (u.afterApply av r).modes n = u.modes n := by
  unfold User.afterApply
  repeat' split
  all_goals simp [Function.update_noteq (Ne.symm h)]

theorem afterApply_Params_ne (av : List String) (u : User) (r : UserMode × Int × Nat)
    (n : UserModeName) (h : r.1.Name ≠ n) : (u.afterApply av r).Params n = u.Params n := by
  unfold User.afterApply
  repeat' split
  all_goals
    first
    | rfl
    | exact withMode_Params_ne u _ _ _ h
    | simp [Function.update_noteq (Ne.symm h)]

/-- The lookup by name finds a mode of that name, when the registry has one. -/
theorem FindUserModeByName_of_mem (env : Env) (m : UserMode) (hm : m ∈ env.UserModes) :
    ∃ m1, FindUserModeByName env m.Name = some m1 ∧ m1.Name = m.Name := by
  unfold FindUserModeByName
  cases hf : env.UserModes.find? (fun um => um.Name == m.Name) with
  | none =>
    have := List.find?_eq_none.1 hf m hm
    simp at this
  | some m1 =>
    have := List.find?_some hf
    exact ⟨m1, rfl, by simpa using this⟩

theorem afterSwitch_nc (env : Env) (u : User) (r : UserMode × Int × Nat) :
    (u.afterSwitch env r).nc = u.nc := by
  unfold User.afterSwitch
  repeat' split
  all_goals rfl

theorem afterSwitch_host (env : Env) (u : User) (r : UserMode × Int × Nat) :
    (u.afterSwitch env r).host = u.host := by
  unfold User.afterSwitch
  repeat' split
  all_goals rfl

theorem afterSwitch_chost (env : Env) (u : User) (r : UserMode × Int × Nat) :
    (u.afterSwitch env r).chost = u.chost := by
  unfold User.afterSwitch
  repeat' split
  all_goals rfl

theorem afterSwitch_vhost (env : Env) (u : User) (r : UserMode × Int × Nat) :
    (u.afterSwitch env r).vhost =
      if (r.1.Name = .UMODE_CLOAK ∨ r.1.Name = .UMODE_VHOST) ∧ r.2.1 = 0 then "" else u.vhost := by
  unfold User.afterSwitch
  cases hN : r.1.Name with
  | UMODE_REGISTERED =>
    simp only [false_or, false_and, if_false, reduceCtorEq]
    repeat' split
    all_goals rfl
  | UMODE_CLOAK =>
    by_cases h0 : r.2.1 = 0
    · by_cases hv : u.vhost = "" <;> simp [h0, hv]
    · simp [h0]
  | UMODE_VHOST =>
    by_cases h0 : r.2.1 = 0
    · by_cases hv : u.vhost = "" <;> simp [h0, hv]
    · simp [h0]
  | UMODE_OPER => simp
  | UMODE_PROTECTED => simp
  | UMODE_GOD => simp
  | UMODE_OTHER n => simp

theorem afterSwitch_modes_ne (env : Env) (u : User) (r : UserMode × Int × Nat)
    (n : UserModeName) (h : r.1.Name ≠ n) : (u.afterSwitch env r).modes n = u.modes n := by
  unfold User.afterSwitch
  cases hN : r.1.Name with
  | UMODE_REGISTERED =>
    simp only []
    split
    · cases hf : FindUserModeByName env .UMODE_REGISTERED with
      | none => rfl
      | some m =>
        have hm : m.Name = .UMODE_REGISTERED := by
          have := List.find?_some hf
          simpa using this
        simp only []
        split
        · rw [withoutMode_modes, hm, Function.update_noteq]
          rw [hN] at h
          exact Ne.symm h
        · rfl
    · rfl
  | UMODE_CLOAK =>
    simp only []
    split <;> rfl
  | UMODE_VHOST =>
    simp only []
    split <;> rfl
  | UMODE_OPER => rfl
  | UMODE_PROTECTED => rfl
  | UMODE_GOD => rfl
  | UMODE_OTHER k => rfl

theorem afterSwitch_Params_ne (env : Env) (u : User) (r : UserMode × Int × Nat)
    (n : UserModeName) (h : r.1.Name ≠ n) : (u.afterSwitch env r).Params n = u.Params n := by
  unfold User.afterSwitch
  cases hN : r.1.Name with
  | UMODE_REGISTERED =>
    simp only []
    split
    · cases hf : FindUserModeByName env .UMODE_REGISTERED with
      | none => rfl
      | some m =>
        have hm : m.Name = .UMODE_REGISTERED := by
          have := List.find?_some hf
          simpa using this
        simp only []
        split
        · rw [withoutMode_Params, hm, Function.update_noteq]
          rw [hN] at h
          exact Ne.symm h
        · rfl
    · rfl
  | UMODE_CLOAK =>
    simp only []
    split <;> rfl
  | UMODE_VHOST =>
    simp only []
    split <;> rfl
  | UMODE_OPER => rfl
  | UMODE_PROTECTED => rfl
  | UMODE_GOD => rfl
  | UMODE_OTHER k => rfl

theorem afterReq_nc (env : Env) (av : List String) (u : User) (r : UserMode × Int × Nat) :
    (u.afterReq env av r).nc = u.nc := by
  unfold User.afterReq
  rw [afterSwitch_nc, afterApply_nc]

theorem afterReq_host (env : Env) (av : List String) (u : User) (r : UserMode × Int × Nat) :
    (u.afterReq env av r).host = u.host := by
  unfold User.afterReq
  rw [afterSwitch_host, afterApply_host]

theorem afterReq_chost (env : Env) (av : List String) (u : User) (r : UserMode × Int × Nat) :
    (u.afterReq env av r).chost = u.chost := by
  unfold User.afterReq
  rw [afterSwitch_chost, afterApply_chost]

theorem afterReq_vhost (env : Env) (av : List String) (u : User) (r : UserMode × Int × Nat) :
    (u.afterReq env av r).vhost =
      if (r.1.Name = .UMODE_CLOAK ∨ r.1.Name = .UMODE_VHOST) ∧ r.2.1 = 0 then "" else u.vhost := by
  unfold User.afterReq
  rw [afterSwitch_vhost, afterApply_vhost]

theorem afterReq_modes_ne (env : Env) (av : List String) (u : User) (r : UserMode × Int × Nat)
    (n : UserModeName) (h : r.1.Name ≠ n) : (u.afterReq env av r).modes n = u.modes n := by
  unfold User.afterReq
  rw [afterSwitch_modes_ne env _ r n h, afterApply_modes_ne av u r n h]

theorem afterReq_Params_ne (env : Env) (av : List String) (u : User) (r : UserMode × Int × Nat)
    (n : UserModeName) (h : r.1.Name ≠ n) : (u.afterReq env av r).Params n = u.Params n := by
  unfold User.afterReq
  rw [afterSwitch_Params_ne env _ r n h, afterApply_Params_ne av u r n h]

/-! ## C18: the mode "registered" needs an account -/

theorem afterSwitch_registered (env : Env) (u : User) (r : UserMode × Int × Nat)
    (hN : r.1.Name = .UMODE_REGISTERED) :
    u.afterSwitch env r =
      if r.2.1 ≠ 0 && !u.nc.isSome then
        match FindUserModeByName env .UMODE_REGISTERED with
        | some m => if u.HasMode m.Name then u.withoutMode m.Name else u
        | none => u
      else u := by
  unfold User.afterSwitch
  simp only [hN]

theorem afterApply_add (av : List String) (u : User) (r : UserMode × Int × Nat)
    (hadd : r.2.1 ≠ 0) (happ : r.1.Type_ = .MODE_REGULAR ∨ r.2.2 + 1 < av.length) :
    (u.afterApply av r).modes r.1.Name = true := by
  unfold User.afterApply
  split
  · simp [hadd]
  · rcases happ with h | h
    · contradiction
    · simp [h, hadd]

theorem afterApply_remove (av : List String) (u : User) (r : UserMode × Int × Nat)
    (hadd : r.2.1 = 0) (hm : u.modes r.1.Name = false) :
    (u.afterApply av r).modes r.1.Name = false := by
  unfold User.afterApply
  split
  · simp [hadd]
  · split
    · simp [hadd]
    · exact hm

/-- A round for the mode "registered" leaves a session without account
without the flag, when it adds the mode and when the flag was not set. -/
theorem afterReq_registered_anonymous (env : Env) (av : List String) (u : User)
    (r : UserMode × Int × Nat) (hN : r.1.Name = .UMODE_REGISTERED) (hnc : u.nc = none)
    (hmem : r.1 ∈ env.UserModes)
    (h : r.2.1 ≠ 0 ∨ u.modes .UMODE_REGISTERED = false) :
    (u.afterReq env av r).modes .UMODE_REGISTERED = false := by
  obtain ⟨m, hf, hm⟩ := FindUserModeByName_of_mem env r.1 hmem
  rw [hN] at hf hm
  unfold User.afterReq
  rw [afterSwitch_registered env _ r hN, afterApply_nc, hnc, hf]
  by_cases hadd : r.2.1 = 0
  · have h0 : u.modes r.1.Name = false := by
      rcases h with h | h
      · exact absurd hadd h
      · rw [hN]
        exact h
    have := afterApply_remove av u r hadd h0
    rw [hN] at this
    simp [hadd, this]
  · simp only [ne_eq, hadd, not_false_eq_true, decide_True, Option.isSome_none, Bool.not_false,
      Bool.and_self, if_true]
    split
    · rw [withoutMode_modes, hm, Function.update_same]
    · rename_i hh
      rw [hm] at hh
      simpa [User.HasMode] using hh

/-- A round that adds the mode "registered" to a session with an account sets
the flag. -/
theorem afterReq_registered_identified (env : Env) (av : List String) (u : User)
    (r : UserMode × Int × Nat) (hN : r.1.Name = .UMODE_REGISTERED) (hnc : u.nc ≠ none)
    (hadd : r.2.1 ≠ 0) (happ : r.1.Type_ = .MODE_REGULAR ∨ r.2.2 + 1 < av.length) :
    (u.afterReq env av r).modes .UMODE_REGISTERED = true := by
  unfold User.afterReq
  rw [afterSwitch_registered env _ r hN, afterApply_nc]
  have hs : u.nc.isSome = true := by
    cases h : u.nc with
    | none => exact absurd h hnc
    | some _ => rfl
  have := afterApply_add av u r hadd happ
  rw [hN] at this
  simp [hs, this]

/-- C18: an inbound mode change (`UserSetInternalModes`) that adds the mode
"registered" leaves a session that has no account without the flag of that
mode; the function has no failing path and returns the state.  For a session
with an account the flag is set, when the addition is the last the mode string
says about that mode and the mode is applied (it is a mode without parameter,
or its argument is there). -/
theorem C18_registered_needs_account (env : Env) (w : World) (user : Nat) (modes : String)
    (rest : List String) (u : User) (hu : w.users user = some u) :
    (u.nc = none →
      (∃ r ∈ UserSetInternalModes_scan env (-1) 0 modes.data,
        r.1.Name = .UMODE_REGISTERED ∧ r.2.1 ≠ 0) →
      ∃ v, (UserSetInternalModes env w (some user) (modes :: rest)).users user = some v ∧
        v.nc = none ∧ v.HasMode .UMODE_REGISTERED = false) ∧
    (u.nc ≠ none →
      ∀ pre r post, UserSetInternalModes_scan env (-1) 0 modes.data = pre ++ r :: post →
        r.1.Name = .UMODE_REGISTERED → r.2.1 ≠ 0 →
        (r.1.Type_ = .MODE_REGULAR ∨ r.2.2 + 1 < (modes :: rest).length) →
        (∀ r1 ∈ post, r1.1.Name ≠ .UMODE_REGISTERED) →
      ∃ v, (UserSetInternalModes env w (some user) (modes :: rest)).users user = some v ∧
        v.nc = u.nc ∧ v.HasMode .UMODE_REGISTERED = true) := by
  rw [UserSetInternalModes_eq env w user modes rest u hu]
  constructor
  · intro hnc hreq
    obtain ⟨v, hv, hI⟩ := UserSetInternalModes_rounds_users env user (modes :: rest)
      (fun v rs => v.nc = none ∧ (∀ r ∈ rs, r.1 ∈ env.UserModes) ∧
        (v.modes .UMODE_REGISTERED = false ∨
          ∃ r ∈ rs, r.1.Name = .UMODE_REGISTERED ∧ r.2.1 ≠ 0))
      (by
        intro v r rs b ⟨h1, h2, h3⟩
        refine ⟨by simpa [afterReq_nc] using h1,
          fun r1 hr1 => h2 r1 (List.mem_cons_of_mem _ hr1), ?_⟩
        by_cases hN : r.1.Name = .UMODE_REGISTERED
        · have hflag : (r.2.1 ≠ 0 ∨ v.modes .UMODE_REGISTERED = false) →
              (v.afterReq env (modes :: rest) r).modes .UMODE_REGISTERED = false :=
            afterReq_registered_anonymous env _ v r hN h1 (h2 r (List.mem_cons_self _ _))
          rcases h3 with h3 | ⟨r1, hr1, hn1, ha1⟩
          · exact Or.inl (hflag (Or.inr h3))
          · rcases List.mem_cons.1 hr1 with h | h
            · subst h
              exact Or.inl (hflag (Or.inl ha1))
            · exact Or.inr ⟨r1, h, hn1, ha1⟩
        · rcases h3 with h3 | ⟨r1, hr1, hn1, ha1⟩
          · left
            show (v.afterReq env (modes :: rest) r).modes .UMODE_REGISTERED = false
            rw [afterReq_modes_ne env _ v r _ hN]
            exact h3
          · right
            rcases List.mem_cons.1 hr1 with h | h
            · subst h
              exact absurd hn1 hN
            · exact ⟨r1, h, hn1, ha1⟩)
      (UserSetInternalModes_scan env (-1) 0 modes.data) w u hu
      ⟨hnc, fun r hr => (UserSetInternalModes_scan_mem env _ _ _ r hr).1, Or.inr hreq⟩
    refine ⟨v, by rw [hv, Function.update_same], hI.1, ?_⟩
    rcases hI.2.2 with h | ⟨r, hr, _⟩
    · exact h
    · cases hr
  · intro hnc pre r post hscan hN hadd happ hpost
    obtain ⟨v, hv, hI⟩ := UserSetInternalModes_rounds_users env user (modes :: rest)
      (fun v rs => v.nc = u.nc ∧
        ((∃ pre1, rs = pre1 ++ r :: post) ∨
          (v.modes .UMODE_REGISTERED = true ∧ ∀ r1 ∈ rs, r1.1.Name ≠ .UMODE_REGISTERED)))
      (by
        intro v r0 rs b ⟨h1, h2⟩
        refine ⟨by simpa [afterReq_nc] using h1, ?_⟩
        rcases h2 with ⟨pre1, hpre⟩ | ⟨hflag, hno⟩
        · cases pre1 with
          | nil =>
            simp only [List.nil_append, List.cons.injEq] at hpre
            obtain ⟨h0, hrs⟩ := hpre
            subst h0
            subst hrs
            right
            refine ⟨?_, hpost⟩
            show (v.afterReq env (modes :: rest) r0).modes .UMODE_REGISTERED = true
            exact afterReq_registered_identified env _ v r0 hN (by rw [h1]; exact hnc) hadd happ
          | cons p0 pre2 =>
            simp only [List.cons_append, List.cons.injEq] at hpre
            exact Or.inl ⟨pre2, hpre.2⟩
        · right
          refine ⟨?_, fun r1 hr1 => hno r1 (List.mem_cons_of_mem _ hr1)⟩
          show (v.afterReq env (modes :: rest) r0).modes .UMODE_REGISTERED = true
          rw [afterReq_modes_ne env _ v r0 _ (hno r0 (List.mem_cons_self _ _))]
          exact hflag)
      (UserSetInternalModes_scan env (-1) 0 modes.data) w u hu
      ⟨rfl, Or.inl ⟨pre, hscan⟩⟩
    refine ⟨v, by rw [hv, Function.update_same], hI.1, ?_⟩
    rcases hI.2 with ⟨pre1, hpre⟩ | ⟨hflag, _⟩
    · cases pre1 <;> simp at hpre
    · exact hflag

theorem C18_registered_needs_account_witness :
    (∃ v, (UserSetInternalModes Env.example World.demo (some 1) ["+r"]).users 1 = some v ∧
      v.nc = none ∧ v.HasMode .UMODE_REGISTERED = false) ∧
    (∃ v, (UserSetInternalModes Env.example World.demo (some 0) ["+r"]).users 0 = some v ∧
      v.nc = User.bob.nc ∧ v.HasMode .UMODE_REGISTERED = true) :=
  ⟨(C18_registered_needs_account Env.example World.demo 1 "+r" [] User.amy rfl).1 rfl
      ⟨({ Name := .UMODE_REGISTERED, ModeChar := 'r', Type_ := .MODE_REGULAR }, 1, 0),
        by decide, rfl, by decide⟩,
    (C18_registered_needs_account Env.example World.demo 0 "+r" [] User.bob rfl).2 (by decide)
      [] ({ Name := .UMODE_REGISTERED, ModeChar := 'r', Type_ := .MODE_REGULAR }, 1, 0) []
      (by decide) rfl (by decide) (Or.inl rfl) (by simp)⟩

/-! ## C19: removing the cloak or the virtual-host mode -/

/-- C19: after an inbound mode change (`UserSetInternalModes`) that removes the
cloak mode or the virtual-host mode, the stored virtual host of the session is
empty, and `User::GetDisplayedHost` gives the cloaked host if the cloak mode is
still set and a cloaked host is stored, and the real host otherwise (neither
of the two has changed). -/
theorem C19_cloak_removed_clears_vhost (env : Env) (w : World) (user : Nat) (modes : String)
    (rest : List String) (u : User) (hu : w.users user = some u)
    (hreq : ∃ r ∈ UserSetInternalModes_scan env (-1) 0 modes.data,
      (r.1.Name = .UMODE_CLOAK ∨ r.1.Name = .UMODE_VHOST) ∧ r.2.1 = 0) :
    ∃ v, (UserSetInternalModes env w (some user) (modes :: rest)).users user = some v ∧
      v.vhost = "" ∧ v.host = u.host ∧ v.chost = u.chost ∧
      v.GetDisplayedHost env =
        if v.HasMode .UMODE_CLOAK && !(u.chost == "") then u.chost else u.host := by
  rw [UserSetInternalModes_eq env w user modes rest u hu]
  obtain ⟨v, hv, h1, h2, h3⟩ := UserSetInternalModes_rounds_users env user (modes :: rest)
    (fun v rs => v.host = u.host ∧ v.chost = u.chost ∧
      (v.vhost = "" ∨
        ∃ r ∈ rs, (r.1.Name = .UMODE_CLOAK ∨ r.1.Name = .UMODE_VHOST) ∧ r.2.1 = 0))
    (by
      intro v r rs b ⟨h1, h2, h3⟩
      refine ⟨by simpa [afterReq_host] using h1, by simpa [afterReq_chost] using h2, ?_⟩
      show (v.afterReq env (modes :: rest) r).vhost = "" ∨ _
      rw [afterReq_vhost]
      by_cases hc : (r.1.Name = .UMODE_CLOAK ∨ r.1.Name = .UMODE_VHOST) ∧ r.2.1 = 0
      · exact Or.inl (if_pos hc)
      · rw [if_neg hc]
        rcases h3 with h3 | ⟨r1, hr1, hc1⟩
        · exact Or.inl h3
        · rcases List.mem_cons.1 hr1 with h | h
          · subst h
            exact absurd hc1 hc
          · exact Or.inr ⟨r1, h, hc1⟩)
    (UserSetInternalModes_scan env (-1) 0 modes.data) w u hu ⟨rfl, rfl, Or.inr hreq⟩
  have hvhost : v.vhost = "" := by
    rcases h3 with h | ⟨r, hr, _⟩
    · exact h
    · cases hr
  refine ⟨v, by rw [hv, Function.update_same], hvhost, h1, h2, ?_⟩
  unfold User.GetDisplayedHost User.GetCloakedHost
  rw [hvhost, h1, h2]
  simp

theorem C19_cloak_removed_clears_vhost_witness :
    ∃ v, (UserSetInternalModes Env.modes World.cloaked (some 0) ["-t"]).users 0 = some v ∧
      v.vhost = "" ∧ v.host = User.bobCloaked.host ∧ v.chost = User.bobCloaked.chost ∧
      v.GetDisplayedHost Env.modes =
        if v.HasMode .UMODE_CLOAK && !(User.bobCloaked.chost == "") then User.bobCloaked.chost
        else User.bobCloaked.host :=
  C19_cloak_removed_clears_vhost Env.modes World.cloaked 0 "-t" [] User.bobCloaked rfl
    ⟨({ Name := .UMODE_VHOST, ModeChar := 't', Type_ := .MODE_REGULAR }, 0, 0),
      by decide, Or.inr rfl, rfl⟩

/-! ## What every mode operation keeps -/

theorem afterSet_keeps (Q : User → Prop) (S : UserModeName × Option String → Prop)
    (hset : ∀ u n P, S (n, some P) → Q u → Q (u.withMode n P))
    (hunset : ∀ u n, S (n, none) → Q u → Q (u.withoutMode n))
    (u : User) (r : UserMode × Int × String)
    (hS : S (r.1.Name, if r.2.1 ≠ 0 then some r.2.2 else none)) (hQ : Q u) :
    Q (u.afterSet r) := by
  unfold User.afterSet
  split
  · rename_i h
    rw [if_pos h] at hS
    split
    · exact hQ
    · exact hset u _ _ hS hQ
  · rename_i h
    rw [if_neg h] at hS
    split
    · exact hunset u _ hS hQ
    · exact hQ

theorem afterSet_foldl_keeps (Q : User → Prop) (S : UserModeName × Option String → Prop)
    (hset : ∀ u n P, S (n, some P) → Q u → Q (u.withMode n P))
    (hunset : ∀ u n, S (n, none) → Q u → Q (u.withoutMode n)) :
    ∀ (reqs : List (UserMode × Int × String)) (u : User),
      (∀ r ∈ reqs, S (r.1.Name, if r.2.1 ≠ 0 then some r.2.2 else none)) → Q u →
      Q (reqs.foldl User.afterSet u) := by
  intro reqs
  induction reqs with
  | nil =>
    intro u _ hQ
    exact hQ
  | cons r rs ih =>
    intro u hS hQ
    rw [List.foldl_cons]
    exact ih _ (fun r1 h1 => hS r1 (List.mem_cons_of_mem _ h1))
      (afterSet_keeps Q S hset hunset u r (hS r (List.mem_cons_self _ _)) hQ)

theorem afterApply_keeps (Q : User → Prop) (S : UserModeName × Option String → Prop)
    (hset : ∀ u n P, S (n, some P) → Q u → Q (u.withMode n P))
    (hunset : ∀ u n, S (n, none) → Q u → Q (u.withoutMode n))
    (av : List String) (u : User) (r : UserMode × Int × Nat)
    (hS : ∀ x ∈ UserSetInternalModes_asks av r, S x) (hQ : Q u) :
    Q (u.afterApply av r) := by
  unfold User.afterApply
  unfold UserSetInternalModes_asks at hS
  split
  · rename_i ht
    rw [if_pos ht] at hS
    have h1 := hS _ (List.mem_append_left _ (List.mem_singleton_self _))
    split
    · rename_i ha
      rw [if_pos ha] at h1
      exact hset u _ _ h1 hQ
    · rename_i ha
      rw [if_neg ha] at h1
      exact hunset u _ h1 hQ
  · rename_i ht
    rw [if_neg ht] at hS
    split
    · rename_i hj
      rw [if_pos hj] at hS
      have h1 := hS _ (List.mem_append_left _ (List.mem_singleton_self _))
      split
      · rename_i ha
        rw [if_pos ha] at h1
        exact hset u _ _ h1 hQ
      · rename_i ha
        rw [if_neg ha] at h1
        exact hunset u _ h1 hQ
    · exact hQ

theorem afterSwitch_keeps (env : Env) (Q : User → Prop)
    (S : UserModeName × Option String → Prop)
    (hunset : ∀ u n, S (n, none) → Q u → Q (u.withoutMode n))
    (hvhost : ∀ u, Q u → Q { u with vhost := "" })
    (av : List String) (u : User) (r : UserMode × Int × Nat)
    (hS : ∀ x ∈ UserSetInternalModes_asks av r, S x) (hQ : Q u) :
    Q (u.afterSwitch env r) := by
  unfold User.afterSwitch
  cases hN : r.1.Name with
  | UMODE_REGISTERED =>
    simp only []
    split
    · rename_i hc
      cases hf : FindUserModeByName env .UMODE_REGISTERED with
      | none => exact hQ
      | some m =>
        have hm : m.Name = .UMODE_REGISTERED := by
          have := List.find?_some hf
          simpa using this
        simp only []
        split
        · rw [hm]
          apply hunset u _ _ hQ
          apply hS
          unfold UserSetInternalModes_asks
          apply List.mem_append_right
          have hadd : r.2.1 ≠ 0 := by
            simp only [Bool.and_eq_true, decide_eq_true_eq] at hc
            exact hc.1
          rw [if_pos ⟨hN, hadd⟩]
          exact List.mem_singleton_self _
        · exact hQ
    · exact hQ
  | UMODE_CLOAK =>
    simp only []
    split
    · exact hvhost u hQ
    · exact hQ
  | UMODE_VHOST =>
    simp only []
    split
    · exact hvhost u hQ
    · exact hQ
  | UMODE_OPER => exact hQ
  | UMODE_PROTECTED => exact hQ
  | UMODE_GOD => exact hQ
  | UMODE_OTHER k => exact hQ

/-- What holds of the object of a session and is kept by every single
assignment a mode operation can make, is kept by the operation; no other
object changes. -/
theorem ModeOp_keeps (env : Env) (p : Nat) (Q : User → Prop)
    (S : UserModeName × Option String → Prop)
    (hset : ∀ u n P, S (n, some P) → Q u → Q (u.withMode n P))
    (hunset : ∀ u n, S (n, none) → Q u → Q (u.withoutMode n))
    (hacc : ∀ u b, Q u → Q { u with OnAccess := b })
    (hvhost : ∀ u, Q u → Q { u with vhost := "" })
    (op : ModeOp) (hS : ∀ x ∈ op.asks env, S x)
    (w : World) (u : User) (hu : w.users p = some u) (hQ : Q u) :
    ∃ v, (op.apply env p w).users = Function.update w.users p (some v) ∧ Q v := by
  have hsame : ∃ v, w.users = Function.update w.users p (some v) ∧ Q v :=
    ⟨u, (update_self_some w p u hu).symm, hQ⟩
  cases op with
  | SetMode bi um Param =>
    cases um with
    | none => exact hsame
    | some m =>
      simp only [ModeOp.apply]
      rw [SetMode_eq w bi p m Param u hu]
      split
      · exact hsame
      · exact ⟨u.withMode m.Name Param, by simp,
          hset u m.Name Param (hS _ (by simp [ModeOp.asks])) hQ⟩
  | RemoveMode bi um =>
    cases um with
    | none => exact hsame
    | some m =>
      simp only [ModeOp.apply]
      rw [RemoveMode_eq w bi p m u hu]
      split
      · exact ⟨u.withoutMode m.Name, by simp,
          hunset u m.Name (hS _ (by simp [ModeOp.asks])) hQ⟩
      · exact hsame
  | SetModes bi tokens =>
    cases tokens with
    | nil => exact hsame
    | cons modebuf toks =>
      simp only [ModeOp.apply]
      rw [SetModes_eq, SetModes_rounds_users bi p _ w u hu]
      refine ⟨_, rfl, afterSet_foldl_keeps Q S hset hunset _ u ?_ hQ⟩
      intro r hr
      apply hS
      simp only [ModeOp.asks, List.mem_map]
      exact ⟨r, hr, rfl⟩
  | SetModeInternal um Param =>
    cases um with
    | none => exact hsame
    | some m =>
      simp only [ModeOp.apply]
      rw [SetModeInternal_eq w p m Param u hu]
      exact ⟨u.withMode m.Name Param, by simp,
        hset u m.Name Param (hS _ (by simp [ModeOp.asks])) hQ⟩
  | RemoveModeInternal um =>
    cases um with
    | none => exact hsame
    | some m =>
      simp only [ModeOp.apply]
      rw [RemoveModeInternal_eq w p m u hu]
      exact ⟨u.withoutMode m.Name, by simp,
        hunset u m.Name (hS _ (by simp [ModeOp.asks])) hQ⟩
  | UserSetInternalModes av =>
    cases av with
    | nil => exact ⟨u, by simpa [ModeOp.apply, UserSetInternalModes] using
        (update_self_some w p u hu).symm, hQ⟩
    | cons modes rest =>
      simp only [ModeOp.apply]
      rw [UserSetInternalModes_eq env w p modes rest u hu]
      obtain ⟨v, hv, hI⟩ := UserSetInternalModes_rounds_users env p (modes :: rest)
        (fun v rs => Q v ∧ ∀ r ∈ rs, ∀ x ∈ UserSetInternalModes_asks (modes :: rest) r, S x)
        (by
          intro v r rs b ⟨h1, h2⟩
          refine ⟨?_, fun r1 hr1 => h2 r1 (List.mem_cons_of_mem _ hr1)⟩
          apply hacc
          unfold User.afterReq
          exact afterSwitch_keeps env Q S hunset hvhost (modes :: rest) _ r
            (h2 r (List.mem_cons_self _ _))
            (afterApply_keeps Q S hset hunset (modes :: rest) v r
              (h2 r (List.mem_cons_self _ _)) h1))
        (UserSetInternalModes_scan env (-1) 0 modes.data) w u hu
        ⟨hQ, by
          intro r hr x hx
          apply hS
          simp only [ModeOp.asks, List.mem_flatMap]
          exact ⟨r, hr, hx⟩⟩
      exact ⟨v, hv, hI.1⟩

/-! ## C17: mode flags and the parameter map -/

theorem ModeOp_run_keeps (env : Env) (p : Nat) (Q : User → Prop)
    (S : UserModeName × Option String → Prop)
    (hset : ∀ u n P, S (n, some P) → Q u → Q (u.withMode n P))
    (hunset : ∀ u n, S (n, none) → Q u → Q (u.withoutMode n))
    (hacc : ∀ u b, Q u → Q { u with OnAccess := b })
    (hvhost : ∀ u, Q u → Q { u with vhost := "" }) :
    ∀ (ops : List ModeOp) (w : World) (u : User),
      (∀ op ∈ ops, ∀ x ∈ op.asks env, S x) → w.users p = some u → Q u →
      ∃ v, (ModeOp.run env p w ops).users = Function.update w.users p (some v) ∧ Q v := by
  intro ops
  induction ops with
  | nil =>
    intro w u _ hu hQ
    exact ⟨u, (update_self_some w p u hu).symm, hQ⟩
  | cons op ops ih =>
    intro w u hS hu hQ
    obtain ⟨v, hv, hQv⟩ := ModeOp_keeps env p Q S hset hunset hacc hvhost op
      (hS op (List.mem_cons_self _ _)) w u hu hQ
    obtain ⟨v1, hv1, hQ1⟩ := ih (op.apply env p w) v
      (fun o ho => hS o (List.mem_cons_of_mem _ ho)) (by rw [hv, Function.update_same]) hQv
    refine ⟨v1, ?_, hQ1⟩
    unfold ModeOp.run at hv1 ⊢
    rw [List.foldl_cons, hv1, hv, Function.update_idem]

/-- C17 fails as stated: `User::SetModes` with the mode string "+s" and no
further token sets the flag of the parameter mode "s" and enters no parameter
for it. -/
theorem C17_param_mode_without_entry :
    FindUserModeByChar Env.modes 's'
      = some { Name := .UMODE_OTHER 0, ModeChar := 's', Type_ := .MODE_PARAM } ∧
    World.lobby.users 0 = some (User.init "bob" "001AAAAAB") ∧
    ((ModeOp.run Env.modes 0 World.lobby [.SetModes "OperServ" ["+s"]]).users 0).map
      (fun u => (u.HasMode (.UMODE_OTHER 0), u.Params (.UMODE_OTHER 0))) = some (true, none) := by
  refine ⟨by decide, rfl, ?_⟩
  rfl

/-- C17 (amended): after every sequence of mode operations (`User::SetMode`,
`User::RemoveMode`, `User::SetModes`, `User::SetModeInternal`,
`User::RemoveModeInternal`, `UserSetInternalModes`) on a session that starts
without the mode `n`, a parameter entry for `n` comes with the flag of `n`; and
the flag is set if and only if there is an entry, provided no operation of the
sequence sets `n` with an empty parameter. -/
theorem C17_param_entry_and_flag (env : Env) (p : Nat) (w : World) (u : User)
    (ops : List ModeOp) (n : UserModeName)
    (hu : w.users p = some u) (hm : u.modes n = false) (hp : u.Params n = none) :
    ∃ v, (ModeOp.run env p w ops).users p = some v ∧
      ((v.Params n).isSome → v.HasMode n = true) ∧
      ((∀ op ∈ ops, ∀ x ∈ op.asks env, x.1 = n → x.2 ≠ some "") →
        (v.HasMode n = true ↔ (v.Params n).isSome)) := by
  obtain ⟨v, hv, hA⟩ := ModeOp_run_keeps env p
    (fun v => (v.Params n).isSome → v.modes n = true) (fun _ => True)
    (by
      intro v k P _ hQ
      by_cases hk : k = n
      · subst hk
        intro _
        simp
      · rw [withMode_Params_ne v k n P hk, withMode_modes, Function.update_noteq (Ne.symm hk)]
        exact hQ)
    (by
      intro v k _ hQ
      by_cases hk : k = n
      · subst hk
        simp
      · rw [withoutMode_Params, withoutMode_modes, Function.update_noteq (Ne.symm hk),
          Function.update_noteq (Ne.symm hk)]
        exact hQ)
    (fun _ _ h => h) (fun _ h => h) ops w u (fun _ _ _ _ => trivial) hu
    (by simp [hp])
  have hvp : (ModeOp.run env p w ops).users p = some v := by rw [hv, Function.update_same]
  refine ⟨v, hvp, hA, ?_⟩
  intro hS
  obtain ⟨v1, hv1, hB⟩ := ModeOp_run_keeps env p
    (fun v => v.modes n = true ↔ (v.Params n).isSome) (fun x => x.1 = n → x.2 ≠ some "")
    (by
      intro v k P hkP hQ
      by_cases hk : k = n
      · subst hk
        have hP : P ≠ "" := fun h => hkP rfl (by rw [h])
        rw [withMode_Params, withMode_modes, if_pos hP]
        cases h : v.Params k <;> simp [h]
      · rw [withMode_Params_ne v k n P hk, withMode_modes, Function.update_noteq (Ne.symm hk)]
        exact hQ)
    (by
      intro v k _ hQ
      by_cases hk : k = n
      · subst hk
        simp
      · rw [withoutMode_Params, withoutMode_modes, Function.update_noteq (Ne.symm hk),
          Function.update_noteq (Ne.symm hk)]
        exact hQ)
    (fun _ _ h => h) (fun _ h => h) ops w u hS hu
    (by simp [hm, hp])
  have : v1 = v := by
    have h1 : (ModeOp.run env p w ops).users p = some v1 := by rw [hv1, Function.update_same]
    rw [hvp] at h1
    exact (Option.some.inj h1).symm
  subst this
  exact hB

theorem C17_param_entry_and_flag_witness :
    ∃ v, (ModeOp.run Env.modes 0 World.lobby
        [.SetModes "OperServ" ["+s", "abc"], .UserSetInternalModes ["+o-s"],
         .SetMode "OperServ" (FindUserModeByChar Env.modes 's') "xyz"]).users 0 = some v ∧
      ((v.Params (.UMODE_OTHER 0)).isSome → v.HasMode (.UMODE_OTHER 0) = true) ∧
      (v.HasMode (.UMODE_OTHER 0) = true ↔ (v.Params (.UMODE_OTHER 0)).isSome) := by
  obtain ⟨v, h1, h2, h3⟩ := C17_param_entry_and_flag Env.modes 0 World.lobby
    (User.init "bob" "001AAAAAB")
    [.SetModes "OperServ" ["+s", "abc"], .UserSetInternalModes ["+o-s"],
     .SetMode "OperServ" (FindUserModeByChar Env.modes 's') "xyz"]
    (.UMODE_OTHER 0) rfl rfl rfl
  exact ⟨v, h1, h2, h3 (by decide)⟩

/-! ## C16: the operator counter -/

theorem countP_range_congr (f g : Nat → Bool) (n : Nat) (h : ∀ q, q < n → g q = f q) :
    (List.range n).countP g = (List.range n).countP f := by
  apply List.countP_congr
  intro q hq
  rw [h q (List.mem_range.1 hq)]

theorem countP_range_update (f : Nat → Bool) (p : Nat) (b : Bool) :
    ∀ n, p < n →
      (List.range n).countP (Function.update f p b) + (if f p then 1 else 0)
        = (List.range n).countP f + (if b then 1 else 0) := by
  intro n
  induction n with
  | zero =>
    intro h
    omega
  | succ n ih =>
    intro h
    rw [List.range_succ, List.countP_append, List.countP_append]
    by_cases hp : p = n
    · subst hp
      have h1 : (List.range p).countP (Function.update f p b) = (List.range p).countP f := by
        apply countP_range_congr
        intro q hq
        exact Function.update_noteq (by omega) _ _
      rw [h1]
      simp only [List.countP_cons, List.countP_nil, Function.update_same, Nat.zero_add]
      omega
    · have h1 := ih (by omega)
      have h2 : Function.update f p b n = f n := Function.update_noteq (Ne.symm hp) _ _
      simp only [List.countP_cons, List.countP_nil, h2, Nat.zero_add]
      omega

/-- The count of operators after the object at a live address was replaced. -/
theorem operCount_update (w w1 : World) (p : Nat) (x : Option User) (hp : p < w.nextUser)
    (hn : w1.nextUser = w.nextUser) (hu : w1.users = Function.update w.users p x) :
    (operCount w1 : Int) + (if is_oper (w.users p) then 1 else 0)
      = operCount w + (if is_oper x then 1 else 0) := by
  unfold operCount
  rw [hn, hu]
  have h1 : (fun q => is_oper (Function.update w.users p x q))
      = Function.update (fun q => is_oper (w.users q)) p (is_oper x) := by
    funext q
    by_cases hq : q = p
    · subst hq
      simp
    · simp [Function.update_noteq hq]
  rw [h1]
  have h2 := countP_range_update (fun q => is_oper (w.users q)) p (is_oper x) w.nextUser hp
  simp only [] at h2
  cases h3 : is_oper (w.users p) <;> cases h4 : is_oper x <;> simp [h3, h4] at h2 ⊢ <;> omega

theorem is_oper_some (u : User) : is_oper (some u) = u.modes .UMODE_OPER := rfl

/-! What a whole mode string leaves alone. -/

@[simp]
theorem SetModes_nextUser (env : Env) (w : World) (bi : String) (p : Nat) (tokens : List String) :
    (User.SetModes env w bi p tokens).nextUser = w.nextUser := by
  cases tokens with
  | nil => rfl
  | cons modebuf toks =>
    rw [SetModes_eq]
    exact foldl_frame (User.SetModes_round bi p) (fun w => w.nextUser)
      (fun w r => SetModes_round_nextUser bi p w r) _ w

@[simp]
theorem SetModes_UserListByNick (env : Env) (w : World) (bi : String) (p : Nat) (tokens : List String) :
    (User.SetModes env w bi p tokens).UserListByNick = w.UserListByNick := by
  cases tokens with
  | nil => rfl
  | cons modebuf toks =>
    rw [SetModes_eq]
    exact foldl_frame (User.SetModes_round bi p) (fun w => w.UserListByNick)
      (fun w r => SetModes_round_UserListByNick bi p w r) _ w

@[simp]
theorem SetModes_UserListByUID (env : Env) (w : World) (bi : String) (p : Nat) (tokens : List String) :
    (User.SetModes env w bi p tokens).UserListByUID = w.UserListByUID := by
  cases tokens with
  | nil => rfl
  | cons modebuf toks =>
    rw [SetModes_eq]
    exact foldl_frame (User.SetModes_round bi p) (fun w => w.UserListByUID)
      (fun w r => SetModes_round_UserListByUID bi p w r) _ w

@[simp]
theorem SetModes_opcnt (env : Env) (w : World) (bi : String) (p : Nat) (tokens : List String) :
    (User.SetModes env w bi p tokens).opcnt = w.opcnt := by
  cases tokens with
  | nil => rfl
  | cons modebuf toks =>
    rw [SetModes_eq]
    exact foldl_frame (User.SetModes_round bi p) (fun w => w.opcnt)
      (fun w r => SetModes_round_opcnt bi p w r) _ w

@[simp]
theorem SetModes_usercnt (env : Env) (w : World) (bi : String) (p : Nat) (tokens : List String) :
    (User.SetModes env w bi p tokens).usercnt = w.usercnt := by
  cases tokens with
  | nil => rfl
  | cons modebuf toks =>
    rw [SetModes_eq]
    exact foldl_frame (User.SetModes_round bi p) (fun w => w.usercnt)
      (fun w r => SetModes_round_usercnt bi p w r) _ w

@[simp]
theorem SetModes_maxusercnt (env : Env) (w : World) (bi : String) (p : Nat) (tokens : List String) :
    (User.SetModes env w bi p tokens).maxusercnt = w.maxusercnt := by
  cases tokens with
  | nil => rfl
  | cons modebuf toks =>
    rw [SetModes_eq]
    exact foldl_frame (User.SetModes_round bi p) (fun w => w.maxusercnt)
      (fun w r => SetModes_round_maxusercnt bi p w r) _ w

@[simp]
theorem SetModes_maxusertime (env : Env) (w : World) (bi : String) (p : Nat) (tokens : List String) :
    (User.SetModes env w bi p tokens).maxusertime = w.maxusertime := by
  cases tokens with
  | nil => rfl
  | cons modebuf toks =>
    rw [SetModes_eq]
    exact foldl_frame (User.SetModes_round bi p) (fun w => w.maxusertime)
      (fun w r => SetModes_round_maxusertime bi p w r) _ w

@[simp]
theorem SetModes_cores (env : Env) (w : World) (bi : String) (p : Nat) (tokens : List String) :
    (User.SetModes env w bi p tokens).cores = w.cores := by
  cases tokens with
  | nil => rfl
  | cons modebuf toks =>
    rw [SetModes_eq]
    exact foldl_frame (User.SetModes_round bi p) (fun w => w.cores)
      (fun w r => SetModes_round_cores bi p w r) _ w

@[simp]
theorem SetModes_aliases (env : Env) (w : World) (bi : String) (p : Nat) (tokens : List String) :
    (User.SetModes env w bi p tokens).aliases = w.aliases := by
  cases tokens with
  | nil => rfl
  | cons modebuf toks =>
    rw [SetModes_eq]
    exact foldl_frame (User.SetModes_round bi p) (fun w => w.aliases)
      (fun w r => SetModes_round_aliases bi p w r) _ w

@[simp]
theorem SetModes_channels (env : Env) (w : World) (bi : String) (p : Nat) (tokens : List String) :
    (User.SetModes env w bi p tokens).channels = w.channels := by
  cases tokens with
  | nil => rfl
  | cons modebuf toks =>
    rw [SetModes_eq]
    exact foldl_frame (User.SetModes_round bi p) (fun w => w.channels)
      (fun w r => SetModes_round_channels bi p w r) _ w

@[simp]
theorem SetModes_now (env : Env) (w : World) (bi : String) (p : Nat) (tokens : List String) :
    (User.SetModes env w bi p tokens).now = w.now := by
  cases tokens with
  | nil => rfl
  | cons modebuf toks =>
    rw [SetModes_eq]
    exact foldl_frame (User.SetModes_round bi p) (fun w => w.now)
      (fun w r => SetModes_round_now bi p w r) _ w

@[simp]
theorem UserSetInternalModes_nextUser (env : Env) (w : World) (user : Option Nat)
    (av : List String) : (UserSetInternalModes env w user av).nextUser = w.nextUser := by
  cases user with
  | none => rfl
  | some user =>
    cases av with
    | nil => rfl
    | cons modes rest =>
      cases hu : w.users user with
      | none => simp [UserSetInternalModes, hu]
      | some u =>
        rw [UserSetInternalModes_eq env w user modes rest u hu]
        exact foldl_frame (UserSetInternalModes_round env user (modes :: rest)) (fun w => w.nextUser)
          (fun w r => UserSetInternalModes_round_nextUser env user (modes :: rest) w r) _ w

@[simp]
theorem UserSetInternalModes_UserListByNick (env : Env) (w : World) (user : Option Nat)
    (av : List String) : (UserSetInternalModes env w user av).UserListByNick = w.UserListByNick := by
  cases user with
  | none => rfl
  | some user =>
    cases av with
    | nil => rfl
    | cons modes rest =>
      cases hu : w.users user with
      | none => simp [UserSetInternalModes, hu]
      | some u =>
        rw [UserSetInternalModes_eq env w user modes rest u hu]
        exact foldl_frame (UserSetInternalModes_round env user (modes :: rest)) (fun w => w.UserListByNick)
          (fun w r => UserSetInternalModes_round_UserListByNick env user (modes :: rest) w r) _ w

@[simp]
theorem UserSetInternalModes_UserListByUID (env : Env) (w : World) (user : Option Nat)
    (av : List String) : (UserSetInternalModes env w user av).UserListByUID = w.UserListByUID := by
  cases user with
  | none => rfl
  | some user =>
    cases av with
    | nil => rfl
    | cons modes rest =>
      cases hu : w.users user with
      | none => simp [UserSetInternalModes, hu]
      | some u =>
        rw [UserSetInternalModes_eq env w user modes rest u hu]
        exact foldl_frame (UserSetInternalModes_round env user (modes :: rest)) (fun w => w.UserListByUID)
          (fun w r => UserSetInternalModes_round_UserListByUID env user (modes :: rest) w r) _ w

@[simp]
theorem UserSetInternalModes_usercnt (env : Env) (w : World) (user : Option Nat)
    (av : List String) : (UserSetInternalModes env w user av).usercnt = w.usercnt := by
  cases user with
  | none => rfl
  | some user =>
    cases av with
    | nil => rfl
    | cons modes rest =>
      cases hu : w.users user with
      | none => simp [UserSetInternalModes, hu]
      | some u =>
        rw [UserSetInternalModes_eq env w user modes rest u hu]
        exact foldl_frame (UserSetInternalModes_round env user (modes :: rest)) (fun w => w.usercnt)
          (fun w r => UserSetInternalModes_round_usercnt env user (modes :: rest) w r) _ w

@[simp]
theorem UserSetInternalModes_maxusercnt (env : Env) (w : World) (user : Option Nat)
    (av : List String) : (UserSetInternalModes env w user av).maxusercnt = w.maxusercnt := by
  cases user with
  | none => rfl
  | some user =>
    cases av with
    | nil => rfl
    | cons modes rest =>
      cases hu : w.users user with
      | none => simp [UserSetInternalModes, hu]
      | some u =>
        rw [UserSetInternalModes_eq env w user modes rest u hu]
        exact foldl_frame (UserSetInternalModes_round env user (modes :: rest)) (fun w => w.maxusercnt)
          (fun w r => UserSetInternalModes_round_maxusercnt env user (modes :: rest) w r) _ w

@[simp]
theorem UserSetInternalModes_maxusertime (env : Env) (w : World) (user : Option Nat)
    (av : List String) : (UserSetInternalModes env w user av).maxusertime = w.maxusertime := by
  cases user with
  | none => rfl
  | some user =>
    cases av with
    | nil => rfl
    | cons modes rest =>
      cases hu : w.users user with
      | none => simp [UserSetInternalModes, hu]
      | some u =>
        rw [UserSetInternalModes_eq env w user modes rest u hu]
        exact foldl_frame (UserSetInternalModes_round env user (modes :: rest)) (fun w => w.maxusertime)
          (fun w r => UserSetInternalModes_round_maxusertime env user (modes :: rest) w r) _ w

@[simp]
theorem UserSetInternalModes_cores (env : Env) (w : World) (user : Option Nat)
    (av : List String) : (UserSetInternalModes env w user av).cores = w.cores := by
  cases user with
  | none => rfl
  | some user =>
    cases av with
    | nil => rfl
    | cons modes rest =>
      cases hu : w.users user with
      | none => simp [UserSetInternalModes, hu]
      | some u =>
        rw [UserSetInternalModes_eq env w user modes rest u hu]
        exact foldl_frame (UserSetInternalModes_round env user (modes :: rest)) (fun w => w.cores)
          (fun w r => UserSetInternalModes_round_cores env user (modes :: rest) w r) _ w

@[simp]
theorem UserSetInternalModes_channels (env : Env) (w : World) (user : Option Nat)
    (av : List String) : (UserSetInternalModes env w user av).channels = w.channels := by
  cases user with
  | none => rfl
  | some user =>
    cases av with
    | nil => rfl
    | cons modes rest =>
      cases hu : w.users user with
      | none => simp [UserSetInternalModes, hu]
      | some u =>
        rw [UserSetInternalModes_eq env w user modes rest u hu]
        exact foldl_frame (UserSetInternalModes_round env user (modes :: rest)) (fun w => w.channels)
          (fun w r => UserSetInternalModes_round_channels env user (modes :: rest) w r) _ w

@[simp]
theorem UserSetInternalModes_now (env : Env) (w : World) (user : Option Nat)
    (av : List String) : (UserSetInternalModes env w user av).now = w.now := by
  cases user with
  | none => rfl
  | some user =>
    cases av with
    | nil => rfl
    | cons modes rest =>
      cases hu : w.users user with
      | none => simp [UserSetInternalModes, hu]
      | some u =>
        rw [UserSetInternalModes_eq env w user modes rest u hu]
        exact foldl_frame (UserSetInternalModes_round env user (modes :: rest)) (fun w => w.now)
          (fun w r => UserSetInternalModes_round_now env user (modes :: rest) w r) _ w

theorem ModeOp_nextUser (env : Env) (p : Nat) (w : World) (op : ModeOp) :
    (op.apply env p w).nextUser = w.nextUser := by
  cases op <;> simp [ModeOp.apply]

theorem ModeOp_opcnt (env : Env) (p : Nat) (w : World) (op : ModeOp)
    (h : ∀ av, op ≠ .UserSetInternalModes av) : (op.apply env p w).opcnt = w.opcnt := by
  cases op with
  | UserSetInternalModes av => exact absurd rfl (h av)
  | _ => simp [ModeOp.apply]

theorem SetModes_round_dead (bi : String) (p : Nat) (w : World) (r : UserMode × Int × String)
    (hu : w.users p = none) : User.SetModes_round bi p w r = w := by
  unfold User.SetModes_round User.SetMode User.RemoveMode
  simp [hu]

theorem SetModes_dead (env : Env) (w : World) (bi : String) (p : Nat) (tokens : List String)
    (hu : w.users p = none) : User.SetModes env w bi p tokens = w := by
  cases tokens with
  | nil => rfl
  | cons modebuf toks =>
    rw [SetModes_eq]
    generalize User.SetModes_scan env (-1) toks modebuf.data = reqs
    induction reqs with
    | nil => rfl
    | cons r rs ih => rw [List.foldl_cons, SetModes_round_dead bi p w r hu, ih]

/-- A mode operation on an address that holds no object changes nothing. -/
theorem ModeOp_dead (env : Env) (p : Nat) (w : World) (op : ModeOp) (hu : w.users p = none) :
    op.apply env p w = w := by
  cases op with
  | SetMode bi um Param => cases um <;> simp [ModeOp.apply, User.SetMode, hu]
  | RemoveMode bi um => cases um <;> simp [ModeOp.apply, User.RemoveMode, hu]
  | SetModes bi tokens => exact SetModes_dead env w bi p tokens hu
  | SetModeInternal um Param => cases um <;> simp [ModeOp.apply, User.SetModeInternal, hu]
  | RemoveModeInternal um => cases um <;> simp [ModeOp.apply, User.RemoveModeInternal, hu]
  | UserSetInternalModes av => cases av <;> simp [ModeOp.apply, UserSetInternalModes, hu]

theorem afterSwitch_oper (env : Env) (u : User) (r : UserMode × Int × Nat)
    (hN : r.1.Name = .UMODE_OPER) : u.afterSwitch env r = u := by
  unfold User.afterSwitch
  simp only [hN]

theorem afterApply_applied (av : List String) (u : User) (r : UserMode × Int × Nat)
    (happ : r.1.Type_ = .MODE_REGULAR ∨ r.2.2 + 1 < av.length) :
    (u.afterApply av r).modes r.1.Name = decide (r.2.1 ≠ 0) := by
  by_cases hadd : r.2.1 = 0
  · unfold User.afterApply
    split
    · simp [hadd]
    · rcases happ with h | h
      · contradiction
      · simp [h, hadd]
  · rw [afterApply_add av u r hadd happ]
    simp [hadd]

/-- The change of `opcnt` that the rounds of `UserSetInternalModes` make. -/
theorem operDelta_cons (r : UserMode × Int × Nat) (rs : List (UserMode × Int × Nat)) :
    ((r :: rs).map (fun r => if r.1.Name = .UMODE_OPER then
        (if r.2.1 ≠ 0 then (1 : Int) else -1) else 0)).sum
      = (if r.1.Name = .UMODE_OPER then (if r.2.1 ≠ 0 then (1 : Int) else -1) else 0)
        + (rs.map (fun r => if r.1.Name = .UMODE_OPER then
            (if r.2.1 ≠ 0 then (1 : Int) else -1) else 0)).sum := by
  rw [List.map_cons, List.sum_cons]

/-- An inbound mode change whose rounds on the operator mode are changes of
the flag moves `opcnt` as it moves the flag. -/
theorem UserSetInternalModes_oper (env : Env) (w : World) (user : Nat) (modes : String)
    (rest : List String) (u : User) (hu : w.users user = some u)
    (hreal : operReal (modes :: rest) (u.HasMode .UMODE_OPER)
      (UserSetInternalModes_scan env (-1) 0 modes.data))
    (hr1 : -2147483648 ≤ w.opcnt) (hr2 : w.opcnt ≤ 2147483647) :
    ∃ v, (UserSetInternalModes env w (some user) (modes :: rest)).users
        = Function.update w.users user (some v) ∧
      ((UserSetInternalModes env w (some user) (modes :: rest)).opcnt
          + (if u.modes .UMODE_OPER then 1 else 0)
        - (w.opcnt + (if v.modes .UMODE_OPER then 1 else 0))) % 4294967296 = 0 ∧
      -2147483648 ≤ (UserSetInternalModes env w (some user) (modes :: rest)).opcnt ∧
      (UserSetInternalModes env w (some user) (modes :: rest)).opcnt ≤ 2147483647 := by
  rw [UserSetInternalModes_eq env w user modes rest u hu]
  generalize UserSetInternalModes_scan env (-1) 0 modes.data = reqs at hreal ⊢
  obtain ⟨hm, hm1, hm2⟩ := UserSetInternalModes_rounds_opcnt env user (modes :: rest) reqs w
    hr1 hr2
  obtain ⟨v, hv, _, hI⟩ := UserSetInternalModes_rounds_users env user (modes :: rest)
    (fun v rs => operReal (modes :: rest) (v.modes .UMODE_OPER) rs ∧
      (if v.modes .UMODE_OPER then (1 : Int) else 0)
        + (rs.map (fun r => if r.1.Name = .UMODE_OPER then
            (if r.2.1 ≠ 0 then (1 : Int) else -1) else 0)).sum
        = (if u.modes .UMODE_OPER then (1 : Int) else 0)
          + (reqs.map (fun r => if r.1.Name = .UMODE_OPER then
              (if r.2.1 ≠ 0 then (1 : Int) else -1) else 0)).sum)
    (by
      intro v r rs b ⟨h1, h2⟩
      rw [operDelta_cons] at h2
      show operReal (modes :: rest) ((v.afterReq env (modes :: rest) r).modes .UMODE_OPER) rs ∧
        (if (v.afterReq env (modes :: rest) r).modes .UMODE_OPER then (1 : Int) else 0) + _ = _
      unfold operReal at h1
      by_cases hN : r.1.Name = .UMODE_OPER
      · rw [if_pos hN] at h1 h2
        obtain ⟨happ, hflag, hrest⟩ := h1
        have hnew : (v.afterReq env (modes :: rest) r).modes .UMODE_OPER
            = decide (r.2.1 ≠ 0) := by
          unfold User.afterReq
          rw [afterSwitch_oper env _ r hN, ← hN]
          exact afterApply_applied _ v r happ
        rw [hnew]
        refine ⟨hrest, ?_⟩
        rw [hflag] at h2
        by_cases hadd : r.2.1 = 0
        · simp only [hadd, ne_eq, not_true_eq_false, decide_False, decide_True, if_true,
            if_false] at h2 ⊢
          simp only [Bool.false_eq_true, if_false]
          omega
        · simp only [hadd, ne_eq, not_false_eq_true, decide_False, decide_True, if_true,
            if_false] at h2 ⊢
          simp only [Bool.false_eq_true, if_false] at h2
          omega
      · rw [if_neg hN] at h1 h2
        rw [afterReq_modes_ne env _ v r _ hN]
        exact ⟨h1, by omega⟩)
    reqs w u hu ⟨hreal, rfl⟩
  refine ⟨v, hv, ?_, hm1, hm2⟩
  simp only [List.map_nil, List.sum_nil, add_zero] at hI
  omega

/-! ## A new client -/

theorem do_nick_new_eq (env : Env) (w : World) (nick username host server realname : String)
    (ts : Int) (ip : Nat) (vhost uid : String) :
    do_nick_new env w nick username host server realname ts ip vhost uid =
      match User.new w nick (if !(uid == "") then uid else "") with
      | (.error e, w) => (.error e, w)
      | (.ok user, w) =>
        match (if !((if env.nickvhost && !(vhost == "") && vhost == "*" then "" else vhost) == "")
            then User.SetCloakedHost env
              (do_nick_new_fields env w user username host server realname ts) user
              (if env.nickvhost && !(vhost == "") && vhost == "*" then "" else vhost)
            else (.ok (), do_nick_new_fields env w user username host server realname ts)) with
        | (.error e, w) => (.error e, w)
        | (.ok _, w) =>
          do_nick_new_tail env w user nick username host server
            (if env.nickip then env.ntoa ip else "") := by
  rfl

theorem same_refl (w : World) : SameModes w w := ⟨rfl, rfl, fun _ => rfl⟩

theorem step_emit {a b : World} (e : Event) (h : SameModes a b) : SameModes a (b.emit e) := h

theorem step_setUser {a b : World} (p : Nat) (u v : User) (hu : b.users p = some u)
    (hv : v.modes = u.modes) (h : SameModes a b) : SameModes a (b.setUser p v) := by
  refine ⟨h.1, h.2.1, fun q => ?_⟩
  rw [← h.2.2 q, setUser_users]
  by_cases hq : q = p
  · subst hq
    simp [hu, hv]
  · rw [Function.update_noteq hq]

theorem step_modUser {a b : World} (p : Nat) (f : User → User) (hf : ∀ u, (f u).modes = u.modes)
    (h : SameModes a b) : SameModes a (b.modUser p f) := by
  unfold World.modUser
  split
  · exact h
  · rename_i u hu
    exact step_setUser p u (f u) hu (hf u) h

theorem step_UpdateHost {a b : World} (env : Env) (p : Nat) (h : SameModes a b) :
    SameModes a (User.UpdateHost env b p) := by
  cases hu : b.users p with
  | none =>
    have : User.UpdateHost env b p = b := by simp [User.UpdateHost, hu]
    rw [this]
    exact h
  | some u =>
    obtain ⟨x, hx⟩ := UpdateHost_users env b p u hu
    refine ⟨by rw [UpdateHost_nextUser]; exact h.1, by rw [UpdateHost_opcnt]; exact h.2.1,
      fun q => ?_⟩
    rw [← h.2.2 q, hx]
    by_cases hq : q = p
    · subst hq
      simp [hu]
    · rw [Function.update_noteq hq]

theorem step_SetIdent {a b : World} (env : Env) (p : Nat) (s : String) (h : SameModes a b) :
    SameModes a (User.SetIdent env b p s) := by
  unfold User.SetIdent
  split
  · exact h
  · rename_i u hu
    exact step_UpdateHost env p (step_setUser p u _ hu rfl h)

theorem step_SetVIdent {a b : World} (env : Env) (p : Nat) (s : String) (h : SameModes a b) :
    SameModes a (User.SetVIdent env b p s) := by
  unfold User.SetVIdent
  split
  · exact h
  · rename_i u hu
    exact step_UpdateHost env p (step_setUser p u _ hu rfl h)

theorem step_SetCloakedHost {a b : World} (env : Env) (p : Nat) (s : String)
    (h : SameModes a b) : SameModes a (User.SetCloakedHost env b p s).2 := by
  unfold User.SetCloakedHost
  split
  · exact h
  · split
    · exact h
    · rename_i u hu
      exact step_UpdateHost env p (step_setUser p u _ hu rfl h)

theorem step_fields {a b : World} (env : Env) (user : Nat)
    (username host server realname : String) (ts : Int) (h : SameModes a b) :
    SameModes a (do_nick_new_fields env b user username host server realname ts) :=
  step_modUser _ _ (fun _ => rfl) (step_modUser _ _ (fun _ => rfl)
    (step_modUser _ _ (fun _ => rfl) (step_modUser _ _ (fun _ => rfl)
      (step_modUser _ _ (fun _ => rfl) (step_SetIdent env user username h)))))

theorem step_tail {a b : World} (env : Env) (user : Nat) (nick username host server : String)
    (ipbuf : String) (h : SameModes a b) :
    SameModes a (do_nick_new_tail env b user nick username host server ipbuf).2 := by
  have h2 : SameModes a (((User.SetVIdent env b user username).modUser user
      (fun u => { u with hostip := if env.nickip then ipbuf else "" })).emit
      (.OnPreUserConnect user)) :=
    step_emit _ (step_modUser _ _ (fun _ => rfl) (step_SetVIdent env user username h))
  unfold do_nick_new_tail
  simp only []
  generalize (((User.SetVIdent env b user username).modUser user
      (fun u => { u with hostip := if env.nickip then ipbuf else "" })).emit
      (.OnPreUserConnect user)) = W2 at h2 ⊢
  generalize (match env.Server_Find server with
    | some s => env.Server_IsULined s
    | none => false) = ulined
  split
  · exact h2
  · split
    · split
      · exact step_emit _ (step_emit _ h2)
      · exact step_emit _ (step_emit _ (step_emit _ h2))
    · split
      · exact step_emit _ h2
      · exact step_emit _ (step_emit _ h2)

/-- The handler `do_nick` for a new client does to sessions, flags and the
operator counter what the constructor does. -/
theorem do_nick_new_same (env : Env) (w : World) (nick username host server realname : String)
    (ts : Int) (ip : Nat) (vhost uid : String) :
    SameModes (User.new w nick (if !(uid == "") then uid else "")).2
      (do_nick_new env w nick username host server realname ts ip vhost uid).2 := by
  rw [do_nick_new_eq]
  generalize (if !(uid == "") then uid else "") = suid
  generalize (if env.nickvhost && !(vhost == "") && vhost == "*" then "" else vhost) = vhost2
  cases hnew : User.new w nick suid with
  | mk r w1 =>
    cases r with
    | error e => exact same_refl _
    | ok user =>
      simp only []
      have hw : SameModes w1 (if !(vhost2 == "") then
          User.SetCloakedHost env
            (do_nick_new_fields env w1 user username host server realname ts) user vhost2
          else (.ok (), do_nick_new_fields env w1 user username host server realname ts)).2 := by
        split
        · exact step_SetCloakedHost env user vhost2 (step_fields env user _ _ _ _ _ (same_refl _))
        · exact step_fields env user _ _ _ _ _ (same_refl _)
      cases hc : (if !(vhost2 == "") then
          User.SetCloakedHost env
            (do_nick_new_fields env w1 user username host server realname ts) user vhost2
          else (.ok (), do_nick_new_fields env w1 user username host server realname ts)) with
      | mk r2 w2 =>
        rw [hc] at hw
        cases r2 with
        | error e => exact hw
        | ok x => exact step_tail env user nick username host server _ hw

theorem OperInv_same {w w1 : World} (h : OperInv w) (hs : SameModes w w1) : OperInv w1 := by
  have hoper : ∀ q, is_oper (w1.users q) = is_oper (w.users q) := by
    intro q
    have := hs.2.2 q
    cases h1 : w1.users q <;> cases h2 : w.users q <;> simp [h1, h2] at this
    · rfl
    · simp [is_oper, User.HasMode, this]
  constructor
  · intro q hq
    rw [hs.1] at hq
    have := hs.2.2 q
    rw [h.1 q hq] at this
    cases h1 : w1.users q
    · rfl
    · simp [h1] at this
  · have hc : operCount w1 = operCount w := by
      unfold operCount
      rw [hs.1]
      simp only [hoper]
    rw [hs.2.1, hc]
    exact h.2

theorem new_opcnt (w : World) (snick suid : String) : (User.new w snick suid).2.opcnt = w.opcnt := by
  unfold User.new
  split
  · rfl
  · simp only []
    repeat' split
    all_goals simp

theorem delete_opcnt (env : Env) (w : World) (p : Nat) (u : User) (hu : w.users p = some u) :
    (User.delete env w p).opcnt =
      if u.modes .UMODE_OPER then int32_dec w.opcnt else w.opcnt := by
  unfold User.delete
  rw [delUser_opcnt, dtor_eq env w p u hu]
  simp only [dtor_cancel_opcnt, dtor_uid_opcnt, dtor_nick_opcnt, dtor_session_opcnt,
    leaveChannels_opcnt]
  unfold dtor_opcnt
  have h1 : (dtor_usercnt (dtor_logoff (User.Logout w p) p)).users p
      = some { u with nc := none } := by
    simp [Logout_users w p u hu]
  rw [h1]
  simp only [is_oper, User.HasMode]
  split <;> simp

theorem live_below {w : World} (h : FreshAbove w) {p : Nat} {u : User}
    (hu : w.users p = some u) : p < w.nextUser := by
  by_contra hp
  rw [h p (by omega)] at hu
  cases hu

theorem OperInv_update {w w1 : World} (h : OperInv w) (p : Nat) (u v : User)
    (hu : w.users p = some u) (hn : w1.nextUser = w.nextUser)
    (hv : w1.users = Function.update w.users p (some v))
    (hc : (w1.opcnt + (if u.modes .UMODE_OPER then 1 else 0)
      - (w.opcnt + (if v.modes .UMODE_OPER then 1 else 0))) % 4294967296 = 0)
    (hr1 : -2147483648 ≤ w1.opcnt) (hr2 : w1.opcnt ≤ 2147483647) : OperInv w1 := by
  refine ⟨?_, ?_, hr1, hr2⟩
  · intro q hq
    rw [hv, Function.update_noteq, h.1 q (by omega)]
    intro hqp
    subst hqp
    have := live_below h.1 hu
    omega
  · have h1 := operCount_update w w1 p (some v) (live_below h.1 hu) hn hv
    rw [hu, is_oper_some, is_oper_some] at h1
    have h2 := h.2.1
    omega

theorem OperInv_new (w : World) (nick uid : String) (h : OperInv w) :
    OperInv (User.new w nick uid).2 := by
  by_cases hn : nick = ""
  · subst hn
    rw [new_empty]
    exact h
  · constructor
    · intro q hq
      rw [new_nextUser w nick uid hn] at hq
      rw [new_users w nick uid hn, Function.update_noteq (by omega), h.1 q (by omega)]
    · have hc : operCount (User.new w nick uid).2 = operCount w := by
        unfold operCount
        rw [new_nextUser w nick uid hn, new_users w nick uid hn, List.range_succ,
          List.countP_append]
        have h1 : (List.range w.nextUser).countP
            (fun q => is_oper (Function.update w.users w.nextUser
              (some (User.init nick uid)) q))
            = (List.range w.nextUser).countP (fun q => is_oper (w.users q)) := by
          apply countP_range_congr
          intro q hq
          rw [Function.update_noteq (by omega)]
        rw [h1]
        simp [is_oper, User.HasMode, User.init]
      rw [new_opcnt, hc]
      exact h.2

theorem OperInv_connect (env : Env) (w : World) (nick username host server realname : String)
    (ts : Int) (ip : Nat) (vhost uid : String) (h : OperInv w) :
    OperInv (OperOp.apply env w
      (.connect nick username host server realname ts ip vhost uid)) := by
  show OperInv (do_nick env w "" nick username host server realname ts ip vhost uid).2
  unfold do_nick
  rw [if_pos rfl]
  exact OperInv_same (OperInv_new w nick _ h) (do_nick_new_same env w nick _ _ _ _ _ _ _ _)

theorem OperInv_destroy (env : Env) (w : World) (p : Nat) (h : OperInv w) :
    OperInv (OperOp.apply env w (.destroy p)) := by
  show OperInv (User.delete env w p)
  cases hu : w.users p with
  | none =>
    rw [delete_dead env w p hu]
    exact h
  | some u =>
    constructor
    · intro q hq
      rw [delete_nextUser] at hq
      rw [delete_users]
      by_cases hqp : q = p
      · subst hqp
        simp
      · rw [Function.update_noteq hqp, h.1 q hq]
    · have h1 := operCount_update w (User.delete env w p) p none (live_below h.1 hu)
        (delete_nextUser env w p) (delete_users env w p)
      rw [hu, is_oper_some] at h1
      obtain ⟨h2, h3, h4⟩ := h.2
      obtain ⟨hd, hd1, hd2⟩ := int32_dec_mod w.opcnt h3 h4
      rw [delete_opcnt env w p u hu]
      simp only [is_oper] at h1
      cases hm : u.modes .UMODE_OPER
      · simp only [hm, Bool.false_eq_true, if_false, add_zero] at h1 ⊢
        rw [h1]
        exact ⟨h2, h3, h4⟩
      · simp only [hm, if_true, Bool.false_eq_true, if_false, add_zero] at h1 ⊢
        refine ⟨?_, hd1, hd2⟩
        omega

theorem OperInv_mode (env : Env) (w : World) (p : Nat) (op : ModeOp) (h : OperInv w)
    (hs : (OperOp.mode p op).sound env w) : OperInv (OperOp.apply env w (.mode p op)) := by
  show OperInv (op.apply env p w)
  cases hu : w.users p with
  | none =>
    rw [ModeOp_dead env p w op hu]
    exact h
  | some u =>
    by_cases hin : ∃ av, op = .UserSetInternalModes av
    · obtain ⟨av, hav⟩ := hin
      subst hav
      cases av with
      | nil =>
        have : ModeOp.apply env p w (.UserSetInternalModes []) = w := by
          simp [ModeOp.apply, UserSetInternalModes]
        rw [this]
        exact h
      | cons modes rest =>
        have hreal : operReal (modes :: rest) (u.HasMode .UMODE_OPER)
            (UserSetInternalModes_scan env (-1) 0 modes.data) := by
          simpa [OperOp.sound, hu] using hs
        obtain ⟨v, hv, hc, hc1, hc2⟩ := UserSetInternalModes_oper env w p modes rest u hu hreal
          h.2.2.1 h.2.2.2
        exact OperInv_update h p u v hu (by simp [ModeOp.apply]) hv hc hc1 hc2
    · have hnot : ∀ av, op ≠ .UserSetInternalModes av := fun av hav => hin ⟨av, hav⟩
      have hasks : ∀ x ∈ op.asks env, x.1 ≠ .UMODE_OPER := by
        cases op with
        | UserSetInternalModes av => exact absurd rfl (hnot av)
        | _ => simpa [OperOp.sound] using hs
      obtain ⟨v, hv, hQ⟩ := ModeOp_keeps env p
        (fun v => v.modes .UMODE_OPER = u.modes .UMODE_OPER) (fun x => x.1 ≠ .UMODE_OPER)
        (by
          intro v k P hk hQ
          rw [withMode_modes, Function.update_noteq (Ne.symm hk)]
          exact hQ)
        (by
          intro v k hk hQ
          rw [withoutMode_modes, Function.update_noteq (Ne.symm hk)]
          exact hQ)
        (fun _ _ hQ => hQ) (fun _ hQ => hQ) op hasks w u hu rfl
      exact OperInv_update h p u v hu (ModeOp_nextUser env p w op) hv
        (by rw [ModeOp_opcnt env p w op hnot, hQ]; simp)
        (by rw [ModeOp_opcnt env p w op hnot]; exact h.2.2.1)
        (by rw [ModeOp_opcnt env p w op hnot]; exact h.2.2.2)

theorem OperInv_run (env : Env) :
    ∀ (ops : List OperOp) (w : World), OperInv w → OperOp.soundSeq env w ops →
      OperInv (OperOp.run env w ops) := by
  intro ops
  induction ops with
  | nil =>
    intro w h _
    exact h
  | cons op ops ih =>
    intro w h hs
    have h1 : OperInv (op.apply env w) := by
      cases op with
      | connect nick username host server realname ts ip vhost uid =>
        exact OperInv_connect env w nick username host server realname ts ip vhost uid h
      | mode p o => exact OperInv_mode env w p o h hs.1
      | destroy p => exact OperInv_destroy env w p h
    exact ih _ h1 hs.2

/-- C16 fails as stated: `User::SetMode` sets the operator flag of the one
session and leaves `opcnt` at 0; an inbound "+oo" counts the one operator
twice. -/
theorem C16_opcnt_drifts :
    ((OperOp.run Env.example World.init
        [.connect "bob" "bob" "example.org" "irc.example.net" "Bob" 100 0 "" "", .mode 0 (.SetMode "OperServ"
          (FindUserModeByName Env.example .UMODE_OPER) "")]).opcnt = 0 ∧
      operCount (OperOp.run Env.example World.init
        [.connect "bob" "bob" "example.org" "irc.example.net" "Bob" 100 0 "" "", .mode 0 (.SetMode "OperServ"
          (FindUserModeByName Env.example .UMODE_OPER) "")]) = 1) ∧
    ((OperOp.run Env.example World.init
        [.connect "bob" "bob" "example.org" "irc.example.net" "Bob" 100 0 "" "", .mode 0 (.UserSetInternalModes ["+oo"])]).opcnt = 2 ∧
      operCount (OperOp.run Env.example World.init
        [.connect "bob" "bob" "example.org" "irc.example.net" "Bob" 100 0 "" "", .mode 0 (.UserSetInternalModes ["+oo"])]) = 1) := by
  decide

/-- C16 (amended): for every sequence of connect, mode-change
(`UserSetInternalModes`, `User::SetMode`, `User::RemoveMode`, `User::SetModes`,
and the two internal setters) and destroy events from a state without sessions
and with `opcnt` 0, in which the operator mode changes with the network only
(each round of an inbound mode change on the operator mode is applied and
changes the flag, no other mode operation names the operator mode), `opcnt`
is the number of live sessions that have the operator flag, as long as that
number is at most 2147483647: `opcnt` is an `int32`, it stays in the range of
its type and equals the number of operators modulo `2 ^ 32`.  The live
sessions are those counted. -/
theorem C16_opcnt_counts_operators (env : Env) (w : World) (ops : List OperOp)
    (hempty : ∀ p, w.users p = none) (h0 : w.opcnt = 0)
    (hs : OperOp.soundSeq env w ops) :
    (operCount (OperOp.run env w ops) ≤ 2147483647 →
      (OperOp.run env w ops).opcnt = operCount (OperOp.run env w ops)) ∧
    ((OperOp.run env w ops).opcnt - operCount (OperOp.run env w ops)) % 4294967296 = 0 ∧
    (-2147483648 ≤ (OperOp.run env w ops).opcnt ∧ (OperOp.run env w ops).opcnt ≤ 2147483647) ∧
    ∀ p u, (OperOp.run env w ops).users p = some u → p < (OperOp.run env w ops).nextUser := by
  have hinv : OperInv w := by
    have hc : operCount w = 0 := by
      unfold operCount
      rw [List.countP_eq_zero]
      intro q _
      simp [hempty q, is_oper]
    refine ⟨fun p _ => hempty p, ?_, ?_, ?_⟩
    · rw [h0, hc]
      rfl
    · rw [h0]
      decide
    · rw [h0]
      decide
  have h := OperInv_run env ops w hinv hs
  obtain ⟨h1, h2, h3, h4⟩ := h
  refine ⟨?_, h2, ⟨h3, h4⟩, fun p u hu => live_below h1 hu⟩
  intro hb
  omega

theorem C16_opcnt_counts_operators_witness :
    (OperOp.run Env.example World.init
        [.connect "bob" "bob" "example.org" "irc.example.net" "Bob" 100 0 "" "", .connect "amy" "amy" "example.net" "irc.example.net" "Amy" 101 0 "" "", .mode 0 (.UserSetInternalModes ["+o"]),
         .mode 1 (.SetMode "NickServ" (FindUserModeByName Env.example .UMODE_REGISTERED) ""),
         .mode 1 (.UserSetInternalModes ["+o"]), .mode 0 (.UserSetInternalModes ["-o+o"]),
         .destroy 0]).opcnt
      = operCount (OperOp.run Env.example World.init
        [.connect "bob" "bob" "example.org" "irc.example.net" "Bob" 100 0 "" "", .connect "amy" "amy" "example.net" "irc.example.net" "Amy" 101 0 "" "", .mode 0 (.UserSetInternalModes ["+o"]),
         .mode 1 (.SetMode "NickServ" (FindUserModeByName Env.example .UMODE_REGISTERED) ""),
         .mode 1 (.UserSetInternalModes ["+o"]), .mode 0 (.UserSetInternalModes ["-o+o"]),
         .destroy 0]) := by
  have h := C16_opcnt_counts_operators Env.example World.init
    [.connect "bob" "bob" "example.org" "irc.example.net" "Bob" 100 0 "" "", .connect "amy" "amy" "example.net" "irc.example.net" "Amy" 101 0 "" "", .mode 0 (.UserSetInternalModes ["+o"]),
         .mode 1 (.SetMode "NickServ" (FindUserModeByName Env.example .UMODE_REGISTERED) ""),
         .mode 1 (.UserSetInternalModes ["+o"]), .mode 0 (.UserSetInternalModes ["-o+o"]),
         .destroy 0]
    (fun _ => rfl) rfl
    ⟨trivial, trivial,
      (show operReal ["+o"] false
          [({ Name := .UMODE_OPER, ModeChar := 'o', Type_ := .MODE_REGULAR }, 1, 0)]
        from ⟨Or.inl rfl, rfl, trivial⟩),
      (show ∀ x ∈ [(UserModeName.UMODE_REGISTERED, some "")], x.1 ≠ UserModeName.UMODE_OPER
        from by decide),
      (show operReal ["+o"] false
          [({ Name := .UMODE_OPER, ModeChar := 'o', Type_ := .MODE_REGULAR }, 1, 0)]
        from ⟨Or.inl rfl, rfl, trivial⟩),
      (show operReal ["-o+o"] true
          [({ Name := .UMODE_OPER, ModeChar := 'o', Type_ := .MODE_REGULAR }, 0, 0),
           ({ Name := .UMODE_OPER, ModeChar := 'o', Type_ := .MODE_REGULAR }, 1, 0)]
        from ⟨Or.inl rfl, rfl, Or.inl rfl, rfl, trivial⟩),
      trivial, trivial⟩
  exact h.1 (by decide)

/-! ## C20: the guest nickname of `User::Collide` -/

/-! What `Collide_flag` leaves alone. -/

@[simp]
theorem Collide_flag_users (w : World) (na : Option (List Char)) :
    (Collide_flag w na).users = w.users := by
  unfold Collide_flag
  repeat' split
  all_goals simp

@[simp]
theorem Collide_flag_nextUser (w : World) (na : Option (List Char)) :
    (Collide_flag w na).nextUser = w.nextUser := by
  unfold Collide_flag
  repeat' split
  all_goals simp

@[simp]
theorem Collide_flag_UserListByNick (w : World) (na : Option (List Char)) :
    (Collide_flag w na).UserListByNick = w.UserListByNick := by
  unfold Collide_flag
  repeat' split
  all_goals simp

@[simp]
theorem Collide_flag_UserListByUID (w : World) (na : Option (List Char)) :
    (Collide_flag w na).UserListByUID = w.UserListByUID := by
  unfold Collide_flag
  repeat' split
  all_goals simp

@[simp]
theorem Collide_flag_opcnt (w : World) (na : Option (List Char)) :
    (Collide_flag w na).opcnt = w.opcnt := by
  unfold Collide_flag
  repeat' split
  all_goals simp

@[simp]
theorem Collide_flag_usercnt (w : World) (na : Option (List Char)) :
    (Collide_flag w na).usercnt = w.usercnt := by
  unfold Collide_flag
  repeat' split
  all_goals simp

@[simp]
theorem Collide_flag_maxusercnt (w : World) (na : Option (List Char)) :
    (Collide_flag w na).maxusercnt = w.maxusercnt := by
  unfold Collide_flag
  repeat' split
  all_goals simp

@[simp]
theorem Collide_flag_maxusertime (w : World) (na : Option (List Char)) :
    (Collide_flag w na).maxusertime = w.maxusertime := by
  unfold Collide_flag
  repeat' split
  all_goals simp

@[simp]
theorem Collide_flag_cores (w : World) (na : Option (List Char)) :
    (Collide_flag w na).cores = w.cores := by
  unfold Collide_flag
  repeat' split
  all_goals simp

@[simp]
theorem Collide_flag_channels (w : World) (na : Option (List Char)) :
    (Collide_flag w na).channels = w.channels := by
  unfold Collide_flag
  repeat' split
  all_goals simp

@[simp]
theorem Collide_flag_now (w : World) (na : Option (List Char)) :
    (Collide_flag w na).now = w.now := by
  unfold Collide_flag
  repeat' split
  all_goals simp

@[simp]
theorem Collide_flag_log (w : World) (na : Option (List Char)) :
    (Collide_flag w na).log = w.log := by
  unfold Collide_flag
  repeat' split
  all_goals simp

theorem digitChar_isDigit : ∀ d, d < 10 → (Nat.digitChar d).isDigit = true := by decide

theorem toDigitsCore_isDigit :
    ∀ (fuel n : Nat) (ds : List Char), (∀ c ∈ ds, c.isDigit = true) →
      ∀ c ∈ Nat.toDigitsCore 10 fuel n ds, c.isDigit = true := by
  intro fuel
  induction fuel with
  | zero =>
    intro n ds h c hc
    exact h c hc
  | succ fuel ih =>
    intro n ds h c hc
    have hds : ∀ c ∈ Nat.digitChar (n % 10) :: ds, c.isDigit = true := by
      intro c hc
      rcases List.mem_cons.1 hc with h1 | h1
      · rw [h1]
        exact digitChar_isDigit _ (Nat.mod_lt _ (by decide))
      · exact h c h1
    unfold Nat.toDigitsCore at hc
    simp only [] at hc
    split at hc
    · exact hds c hc
    · exact ih _ _ hds c hc

/-- The suffix of a guest nickname consists of decimal digits. -/
theorem stringify_isDigit (n : Nat) : ∀ c ∈ (stringify n).data, c.isDigit = true := by
  intro c hc
  exact toDigitsCore_isDigit (n + 1) n [] (fun _ h => by cases h) c hc

/-- The loop of `User::Collide` ends with a name that `finduser` does not find,
made of the prefix and one of the numbers drawn. -/
theorem Collide_guestnick_some (env : Env) (w : World) (rnd : Nat → Nat) :
    ∀ (fuel i : Nat) (g : String), Collide_guestnick env w rnd i fuel = some g →
      ∃ k, i ≤ k ∧ k < i + fuel ∧ g = env.NSGuestNickPrefix ++ stringify (rnd k) ∧
        finduser env w g = none := by
  intro fuel
  induction fuel with
  | zero =>
    intro i g h
    simp [Collide_guestnick] at h
  | succ fuel ih =>
    intro i g h
    unfold Collide_guestnick at h
    simp only [] at h
    split at h
    · obtain ⟨k, h1, h2, h3⟩ := ih (i + 1) g h
      exact ⟨k, by omega, by omega, h3⟩
    · rename_i hf
      cases h
      refine ⟨i, le_refl _, by omega, rfl, ?_⟩
      simpa using hf

/-- The loop of `User::Collide` ends when a number is drawn that gives a name
`finduser` does not find, if it has the rounds to get there. -/
theorem Collide_guestnick_ends (env : Env) (w : World) (rnd : Nat → Nat) :
    ∀ (n i fuel : Nat),
      finduser env w (env.NSGuestNickPrefix ++ stringify (rnd (i + n))) = none → n < fuel →
      ∃ g, Collide_guestnick env w rnd i fuel = some g := by
  intro n
  induction n with
  | zero =>
    intro i fuel hfree hfuel
    obtain ⟨f, rfl⟩ : ∃ f, fuel = f + 1 := ⟨fuel - 1, by omega⟩
    unfold Collide_guestnick
    simp only []
    split
    · rename_i hf
      rw [Nat.add_zero] at hfree
      rw [hfree] at hf
      cases hf
    · exact ⟨_, rfl⟩
  | succ n ih =>
    intro i fuel hfree hfuel
    obtain ⟨f, rfl⟩ : ∃ f, fuel = f + 1 := ⟨fuel - 1, by omega⟩
    unfold Collide_guestnick
    simp only []
    split
    · exact ih (i + 1) f (by rw [show i + 1 + n = i + (n + 1) by omega]; exact hfree) (by omega)
    · exact ⟨_, rfl⟩

/-- A name that `finduser` looks up in the nickname index and does not find
is the nickname of no live session, when every live session is found under
its nickname. -/
theorem finduser_none_free (env : Env) (w : World) (g : String)
    (hfound : ∀ q v, w.users q = some v →
      hmap_find ci_fold w.UserListByNick v.nick = some (v.nick, q))
    (hd : (isdigit0 g && env.ts6) = false) (hfree : finduser env w g = none) :
    ∀ q v, w.users q = some v → equals_ci v.nick g = false := by
  intro q v hv
  by_contra hne
  have heq : ci_fold v.nick = ci_fold g := by
    unfold equals_ci at hne
    simpa using hne
  have h1 := hfound q v hv
  rw [hmap_find_congr _ heq] at h1
  unfold finduser at hfree
  rw [hd] at hfree
  simp [h1] at hfree

/-- C20 fails as stated on a TS6 network when the guest nickname begins with a
digit: with the prefix "0" and the number 7 drawn, `finduser` looks "07" up
among the uids, finds nothing, and the forced nick change to "07" goes out
while the live session at address 2 holds the nickname "07". -/
theorem C20_guest_nick_held_by_live_session :
    ((User.new World.demo "07" "").2.users 2).map (fun u => u.nick) = some "07" ∧
    (User.Collide { Env.example with NSGuestNickPrefix := "0" } (User.new World.demo "07" "").2
        1 none (fun _ => 7) 1).map (fun w1 => (w1.users 2).map (fun u => u.nick)) = some (some "07") ∧
    (User.Collide { Env.example with NSGuestNickPrefix := "0" } (User.new World.demo "07" "").2
        1 none (fun _ => 7) 1).map (fun w1 => w1.log)
      = some [Event.notice_lang "NickServ" 1 "FORCENICKCHANGE_CHANGING" "07",
              Event.SendForceNickChange 1 "07" 1000] := by
  refine ⟨by decide, by decide, ?_⟩
  rfl

/-- C20 (amended): when the network supports forced rename and the random
source draws a number whose guest nickname `finduser` does not find,
`User::Collide` ends (the loop has the rounds to get to that number) and
sends one forced nick change; the nickname it sends is the configured prefix
followed by the decimal digits of a number drawn, and, when that nickname does
not begin with a digit or the network is not TS6, no live session holds it
in the state in which the directive is issued (every live session being filed
under its nickname in the index). -/
theorem C20_guest_nick_is_free (env : Env) (w : World) (p : Nat) (na : Option (List Char))
    (rnd : Nat → Nat) (n fuel : Nat) (u : User)
    (hsvs : env.svsnick = true) (hu : w.users p = some u)
    (hfound : ∀ q v, w.users q = some v →
      hmap_find ci_fold w.UserListByNick v.nick = some (v.nick, q))
    (hfree : finduser env w (env.NSGuestNickPrefix ++ stringify (rnd n)) = none)
    (hfuel : n < fuel) :
    ∃ w1 k, User.Collide env w p na rnd fuel = some w1 ∧
      w1.log = w.log ++
        [Event.notice_lang env.s_NickServ p "FORCENICKCHANGE_CHANGING"
            (env.NSGuestNickPrefix ++ stringify (rnd k)),
         Event.SendForceNickChange p (env.NSGuestNickPrefix ++ stringify (rnd k)) w.now] ∧
      (∀ c ∈ (stringify (rnd k)).data, c.isDigit = true) ∧
      w1.users = w.users ∧
      ((isdigit0 (env.NSGuestNickPrefix ++ stringify (rnd k)) && env.ts6) = false →
        ∀ q v, w1.users q = some v →
          equals_ci v.nick (env.NSGuestNickPrefix ++ stringify (rnd k)) = false) := by
  have hfree0 : finduser env (Collide_flag w na)
      (env.NSGuestNickPrefix ++ stringify (rnd (0 + n))) = none := by
    rw [finduser_congr env w (Collide_flag w na) (by simp) (by simp), Nat.zero_add]
    exact hfree
  obtain ⟨g, hg⟩ := Collide_guestnick_ends env (Collide_flag w na) rnd n 0 fuel hfree0 hfuel
  obtain ⟨k, _, _, hgk, hnone⟩ := Collide_guestnick_some env (Collide_flag w na) rnd fuel 0 g hg
  rw [finduser_congr env w (Collide_flag w na) (by simp) (by simp)] at hnone
  have hres : User.Collide env w p na rnd fuel
      = some (((Collide_flag w na).emit
          (.notice_lang env.s_NickServ p "FORCENICKCHANGE_CHANGING" g)).emit
          (.SendForceNickChange p g w.now)) := by
    unfold User.Collide
    simp only [hu, hsvs, if_true, hg]
    simp
  subst hgk
  refine ⟨_, k, hres, ?_, stringify_isDigit _, ?_, ?_⟩
  · simp [World.emit]
  · simp
  · intro hd q v hv
    rw [emit_users, emit_users, Collide_flag_users] at hv
    exact finduser_none_free env w _ hfound hd hnone q v hv

theorem C20_guest_nick_is_free_witness :
    ∃ w1 k, User.Collide Env.example World.demo 1 (some (ci_fold "carol")) (fun i => i + 5) 1
        = some w1 ∧
      w1.log = World.demo.log ++
        [Event.notice_lang Env.example.s_NickServ 1 "FORCENICKCHANGE_CHANGING"
            (Env.example.NSGuestNickPrefix ++ stringify ((fun i => i + 5) k)),
         Event.SendForceNickChange 1
            (Env.example.NSGuestNickPrefix ++ stringify ((fun i => i + 5) k)) World.demo.now] ∧
      (∀ c ∈ (stringify ((fun i => i + 5) k)).data, c.isDigit = true) ∧
      w1.users = World.demo.users ∧
      ((isdigit0 (Env.example.NSGuestNickPrefix ++ stringify ((fun i => i + 5) k))
          && Env.example.ts6) = false →
        ∀ q v, w1.users q = some v →
          equals_ci v.nick (Env.example.NSGuestNickPrefix ++ stringify ((fun i => i + 5) k))
            = false) :=
  C20_guest_nick_is_free Env.example World.demo 1 (some (ci_fold "carol")) (fun i => i + 5) 0 1
    User.amy rfl rfl
    (by
      intro q v hv
      by_cases h0 : q = 0
      · subst h0
        cases hv
        decide
      · by_cases h1 : q = 1
        · subst h1
          cases hv
          decide
        · simp [World.demo, h0, h1] at hv)
    (by decide) (by decide)

/-! ## C21: the live-session count and its peak -/

theorem new_usercnt (w : World) (snick suid : String) (h : snick ≠ "") :
    (User.new w snick suid).2.usercnt = uint32_inc w.usercnt := by
  unfold User.new
  rw [if_neg h]
  simp only []
  repeat' split
  all_goals simp

theorem new_peak (w : World) (snick suid : String) (h : snick ≠ "") :
    (User.new w snick suid).2.maxusercnt =
        (if uint32_inc w.usercnt > w.maxusercnt then uint32_inc w.usercnt else w.maxusercnt) ∧
      (User.new w snick suid).2.maxusertime =
        (if uint32_inc w.usercnt > w.maxusercnt then w.now else w.maxusertime) := by
  unfold User.new
  rw [if_neg h]
  simp only []
  cases hs : decide (suid = "") <;> simp at hs <;> simp [hs] <;> split <;> simp

theorem delete_usercnt (env : Env) (w : World) (p : Nat) (u : User) (hu : w.users p = some u) :
    (User.delete env w p).usercnt = uint32_dec w.usercnt := by
  unfold User.delete
  rw [delUser_usercnt, dtor_eq env w p u hu]
  simp [dtor_usercnt]

theorem delete_peak (env : Env) (w : World) (p : Nat) :
    (User.delete env w p).maxusercnt = w.maxusercnt ∧
      (User.delete env w p).maxusertime = w.maxusertime := by
  cases hu : w.users p with
  | none => rw [delete_dead env w p hu]; exact ⟨rfl, rfl⟩
  | some u =>
    unfold User.delete
    rw [delUser_maxusercnt, delUser_maxusertime, dtor_eq env w p u hu]
    simp

/-- C21. A create (the constructor, given a non-empty nickname) raises the
live-session count `usercnt` by exactly one; the recorded peak, `maxusercnt`
with `maxusertime`, changes if and only if the new count is strictly greater
than the previous peak, and then the peak is the new count, stamped with the
current time.  A destroy lowers the count by exactly one and leaves the peak
and its time as they were.  The count is a `uint32`; it is taken below its
largest value at a create and above zero at a destroy. -/
theorem C21_count_and_peak (env : Env) (w : World) :
    (∀ snick suid : String, snick ≠ "" → w.usercnt < 4294967295 →
      (User.new w snick suid).2.usercnt = w.usercnt + 1 ∧
      (((User.new w snick suid).2.maxusercnt, (User.new w snick suid).2.maxusertime)
          ≠ (w.maxusercnt, w.maxusertime) ↔
        w.maxusercnt < (User.new w snick suid).2.usercnt) ∧
      (w.maxusercnt < (User.new w snick suid).2.usercnt →
        (User.new w snick suid).2.maxusercnt = (User.new w snick suid).2.usercnt ∧
        (User.new w snick suid).2.maxusertime = w.now)) ∧
    (∀ (p : Nat) (u : User), w.users p = some u → 0 < w.usercnt →
      (User.delete env w p).usercnt + 1 = w.usercnt ∧
      (User.delete env w p).maxusercnt = w.maxusercnt ∧
      (User.delete env w p).maxusertime = w.maxusertime) := by
  constructor
  · intro snick suid h hlt
    have hinc : uint32_inc w.usercnt = w.usercnt + 1 := by
      unfold uint32_inc
      rw [if_neg (by omega)]
    obtain ⟨h1, h2⟩ := new_peak w snick suid h
    rw [new_usercnt w snick suid h, h1, h2, hinc]
    refine ⟨rfl, ?_, ?_⟩
    · by_cases hgt : w.usercnt + 1 > w.maxusercnt
      · simp only [if_pos hgt]
        constructor
        · intro _
          exact hgt
        · intro _ heq
          have h3 := congrArg Prod.fst heq
          simp only at h3
          omega
      · simp only [if_neg hgt]
        constructor
        · intro hne
          exact absurd rfl hne
        · intro h3
          exact absurd h3 hgt
    · intro hgt
      rw [if_pos hgt, if_pos hgt]
      exact ⟨rfl, rfl⟩
  · intro p u hu hpos
    obtain ⟨h1, h2⟩ := delete_peak env w p
    refine ⟨?_, h1, h2⟩
    rw [delete_usercnt env w p u hu]
    unfold uint32_dec
    rw [if_neg (by omega)]
    omega

theorem C21_count_and_peak_witness :
    ((User.new World.demo "carol" "").2.usercnt = 3 ∧
      (User.new World.demo "carol" "").2.maxusercnt = 3 ∧
      (User.new World.demo "carol" "").2.maxusertime = 1000) ∧
    ((User.delete Env.example World.demo 0).usercnt + 1 = 2 ∧
      (User.delete Env.example World.demo 0).maxusercnt = 2 ∧
      (User.delete Env.example World.demo 0).maxusertime = 900) :=
  ⟨⟨((C21_count_and_peak Env.example World.demo).1 "carol" "" (by decide) (by decide)).1,
    ((C21_count_and_peak Env.example World.demo).1 "carol" "" (by decide) (by decide)).2.2
      (by decide)⟩,
   (C21_count_and_peak Env.example World.demo).2 0 User.bob rfl (by decide)⟩

/-! ## C30: `kill_user` -/

theorem delete_finduser (env : Env) (w : World) (p : Nat) (u : User) (name : String)
    (hu : w.users p = some u) (hf : finduser env w name = some p)
    (hN : ∀ k, (k, p) ∈ w.UserListByNick → ci_fold k = ci_fold u.nick)
    (hU : ∀ k, (k, p) ∈ w.UserListByUID → k = u.uid ∧ u.uid ≠ "") :
    finduser env (User.delete env w p) name = none := by
  unfold finduser at hf ⊢
  unfold User.delete
  rw [delUser_UserListByNick, delUser_UserListByUID, dtor_UserListByNick env w p u hu,
    dtor_UserListByUID env w p u hu]
  split
  · rename_i hd
    rw [if_pos hd] at hf
    cases hx : hmap_find String.data w.UserListByUID name with
    | none => rw [hx] at hf; cases hf
    | some e =>
      rw [hx] at hf
      obtain ⟨hm, hk⟩ := hmap_find_some hx
      have he : e = (e.1, p) := by
        cases e
        simp only [Option.some.injEq] at hf
        simp [hf]
      rw [he] at hm
      obtain ⟨h1, h2⟩ := hU e.1 hm
      rw [if_neg h2, hmap_find_erase_self _ (by rw [← hk, h1])]
  · rename_i hd
    rw [if_neg hd] at hf
    cases hx : hmap_find ci_fold w.UserListByNick name with
    | none => rw [hx] at hf; cases hf
    | some e =>
      rw [hx] at hf
      obtain ⟨hm, hk⟩ := hmap_find_some hx
      have he : e = (e.1, p) := by
        cases e
        simp only [Option.some.injEq] at hf
        simp [hf]
      rw [he] at hm
      rw [hmap_find_erase_self _ (by rw [← hk, hN e.1 hm])]

theorem kill_user_found (env : Env) (w : World) (source user reason : String) (p : Nat)
    (hne : user ≠ "") (hq : env.quitonkill = false) (hf : finduser env w user = some p) :
    kill_user env w source user reason =
      User.delete env (note_last_quit (w.emit (Event.SendSVSKill source (some p)
        ((if source = "" then env.ServerName else source) ++ " (" ++ reason ++ ")"))) p
        ((if source = "" then env.ServerName else source) ++ " (" ++ reason ++ ")")) p := by
  have hf1 : ∀ e, finduser env (w.emit e) user = some p := by
    intro e
    rw [finduser_congr env w (w.emit e) rfl rfl]
    exact hf
  unfold kill_user
  rw [if_neg hne]
  simp only [hq, hf, hf1, Bool.not_false, Option.isSome_some, Bool.and_self, if_true]
  unfold do_kill
  simp only [hf1]

theorem kill_user_missed (env : Env) (w : World) (source user reason : String)
    (hne : user ≠ "") (hf : finduser env w user = none) :
    kill_user env w source user reason =
      w.emit (Event.SendSVSKill source none
        ((if source = "" then env.ServerName else source) ++ " (" ++ reason ++ ")")) := by
  have hf1 : ∀ e, finduser env (w.emit e) user = none := by
    intro e
    rw [finduser_congr env w (w.emit e) rfl rfl]
    exact hf
  unfold kill_user
  rw [if_neg hne]
  simp only [hf, hf1, Option.isSome_none, Bool.and_false]
  rfl

/-- C30. With an empty target name `kill_user` leaves the state as it is and
sends nothing.  With a non-empty target, where a kill is not followed by a
QUIT: if `finduser` found a live session under the target name (the index
entries that lead to the session carrying its nickname and uid), then after
`kill_user` `finduser` finds nothing under that name and the live-session
count (a `uint32` above zero) has dropped by one; if no session was found,
none is found afterwards and the count is as before. -/
theorem C30_kill_user (env : Env) (w : World) (source user reason : String) :
    kill_user env w source "" reason = w ∧
    (user ≠ "" → env.quitonkill = false →
      (∀ (p : Nat) (u : User), finduser env w user = some p → w.users p = some u →
        (∀ k, (k, p) ∈ w.UserListByNick → ci_fold k = ci_fold u.nick) →
        (∀ k, (k, p) ∈ w.UserListByUID → k = u.uid ∧ u.uid ≠ "") →
        0 < w.usercnt →
        finduser env (kill_user env w source user reason) user = none ∧
        (kill_user env w source user reason).usercnt + 1 = w.usercnt) ∧
      (finduser env w user = none →
        finduser env (kill_user env w source user reason) user = none ∧
        (kill_user env w source user reason).usercnt = w.usercnt)) := by
  refine ⟨by simp [kill_user], ?_⟩
  intro hne hq
  constructor
  · intro p u hf hu hN hU hpos
    rw [kill_user_found env w source user reason p hne hq hf]
    generalize hW : note_last_quit (w.emit (Event.SendSVSKill source (some p)
      ((if source = "" then env.ServerName else source) ++ " (" ++ reason ++ ")"))) p
      ((if source = "" then env.ServerName else source) ++ " (" ++ reason ++ ")") = W
    have hWu : W.users = w.users := by rw [← hW]; simp
    have hWn : W.UserListByNick = w.UserListByNick := by rw [← hW]; simp
    have hWi : W.UserListByUID = w.UserListByUID := by rw [← hW]; simp
    have hWc : W.usercnt = w.usercnt := by rw [← hW]; simp
    have hu1 : W.users p = some u := by rw [hWu]; exact hu
    constructor
    · refine delete_finduser env W p u user hu1 ?_ ?_ ?_
      · rw [finduser_congr env w W hWn hWi]
        exact hf
      · rw [hWn]
        exact hN
      · rw [hWi]
        exact hU
    · rw [delete_usercnt env W p u hu1, hWc]
      unfold uint32_dec
      rw [if_neg (by omega)]
      omega
  · intro hf
    rw [kill_user_missed env w source user reason hne hf]
    constructor
    · exact (finduser_congr env w (w.emit _) rfl rfl user).trans hf
    · rfl

theorem C30_kill_user_witness :
    finduser Env.example (kill_user Env.example World.demo "" "Bob" "bye") "Bob" = none ∧
    (kill_user Env.example World.demo "" "Bob" "bye").usercnt + 1 = 2 :=
  ((C30_kill_user Env.example World.demo "" "Bob" "bye").2 (by decide) rfl).1 0 User.bob
    (by decide) rfl demo_bob_linked.byNick demo_bob_linked.byUID (by decide)

/-! ## C22: the order of the steps of the destructor -/

/-- The state after the channel loop of the destructor: the session is in no
channel of its `chans`; the indices and the account lists are those left by
`User::Logout()`. -/
theorem dtor_after_channels (w : World) (p : Nat) (u : User) (hu : w.users p = some u) :
    (∀ c ∈ u.chans,
      p ∉ (User.leaveChannels (dtor_opcnt (dtor_usercnt (dtor_logoff (User.Logout w p) p)) p)
        p u.chans.length).channels c) ∧
    (User.leaveChannels (dtor_opcnt (dtor_usercnt (dtor_logoff (User.Logout w p) p)) p)
        p u.chans.length).UserListByNick = w.UserListByNick ∧
    (User.leaveChannels (dtor_opcnt (dtor_usercnt (dtor_logoff (User.Logout w p) p)) p)
        p u.chans.length).UserListByUID = w.UserListByUID ∧
    (User.leaveChannels (dtor_opcnt (dtor_usercnt (dtor_logoff (User.Logout w p) p)) p)
        p u.chans.length).cores = (User.Logout w p).cores := by
  have h1 : (dtor_opcnt (dtor_usercnt (dtor_logoff (User.Logout w p) p)) p).users p
      = some { u with nc := none } := by
    simp [Logout_users w p u hu]
  refine ⟨?_, by simp, by simp, by simp⟩
  intro c hc
  rw [leaveChannels_eq _ _ p _ h1 (le_refl _)]
  simp [afterLeave, hc]

/-- C22 (as the code has it). The destructor of a live session runs its steps
in this order: removal from the session list of its account (`Logout`), the
module logoff hook, the two counters, removal from all channels, the session
limit bookkeeping, removal from the nickname index and from the uid index, and
last the cleanup hook of the registered record.  The module logoff hook is the
first call that is logged; it runs in the state left by `Logout`, in which the
indices and the channels are still those from before.  After the channel loop
the session is in none of its channels and both indices are still untouched.
In the final state the nickname and the uid of the session are erased from
the indices, and the cleanup hook runs in that state. -/
theorem C22_destroy_order (env : Env) (w : World) (p : Nat) (u : User)
    (hu : w.users p = some u) :
    User.dtor env w p =
      dtor_cancel (dtor_uid (dtor_nick (dtor_session env
        (User.leaveChannels (dtor_opcnt (dtor_usercnt (dtor_logoff (User.Logout w p) p)) p)
          p u.chans.length) u) u) u) p u ∧
    (∀ A, u.nc = some A →
      ((User.Logout w p).cores A).Users = (w.cores A).Users.erase p) ∧
    ((User.Logout w p).UserListByNick = w.UserListByNick ∧
      (User.Logout w p).UserListByUID = w.UserListByUID ∧
      (User.Logout w p).channels = w.channels) ∧
    (∃ rest, (User.dtor env w p).log =
      w.log ++ Event.OnUserLogoff p (User.Logout w p).toState :: rest) ∧
    ((∀ c ∈ u.chans,
        p ∉ (User.leaveChannels (dtor_opcnt (dtor_usercnt (dtor_logoff (User.Logout w p) p)) p)
          p u.chans.length).channels c) ∧
      (User.leaveChannels (dtor_opcnt (dtor_usercnt (dtor_logoff (User.Logout w p) p)) p)
          p u.chans.length).UserListByNick = w.UserListByNick ∧
      (User.leaveChannels (dtor_opcnt (dtor_usercnt (dtor_logoff (User.Logout w p) p)) p)
          p u.chans.length).UserListByUID = w.UserListByUID) ∧
    ((User.dtor env w p).UserListByNick = hmap_erase ci_fold w.UserListByNick u.nick ∧
      (User.dtor env w p).UserListByUID =
        (if u.uid = "" then w.UserListByUID
        else hmap_erase String.data w.UserListByUID u.uid)) ∧
    (∀ e ∈ cancelsSince w (User.dtor env w p),
      e = Event.OnCancel (ci_fold u.nick) p (User.dtor env w p).toState) := by
  refine ⟨dtor_eq env w p u hu, ?_, ⟨Logout_UserListByNick w p, Logout_UserListByUID w p,
    Logout_channels w p⟩, ?_, ?_,
    ⟨dtor_UserListByNick env w p u hu, dtor_UserListByUID env w p u hu⟩, ?_⟩
  · intro A hA
    rw [Logout_cores w p u hu]
    simp [hA]
  · have h := dtor_log env w p u hu
    rw [List.append_assoc, List.append_assoc, List.singleton_append] at h
    exact ⟨_, h⟩
  · obtain ⟨h1, h2, h3, _⟩ := dtor_after_channels w p u hu
    exact ⟨h1, h2, h3⟩
  · intro e he
    have h := delete_cancels env w p u hu
    have h0 : cancelsSince w (User.delete env w p) = cancelsSince w (User.dtor env w p) := rfl
    rw [h0] at h
    rw [h] at he
    split at he
    · simpa using he
    · cases he

theorem C22_destroy_order_witness :
    (((User.Logout World.demo 0).cores 7).Users = [0].erase 0) ∧
    (User.Logout World.demo 0).UserListByNick = [("bob", 0), ("amy", 1)] :=
  ⟨(C22_destroy_order Env.example World.demo 0 User.bob rfl).2.1 7 rfl,
   (C22_destroy_order Env.example World.demo 0 User.bob rfl).2.2.1.1⟩

/-- C22 as stated fails: when "bob" of the example state is destroyed, the
first call that leaves the core is the module logoff hook, and it runs in a
state in which the session has left the list of its account 7 but is still
found in both indices and is still a member of channel 3. -/
theorem C22_logoff_hook_before_detachment :
    ((User.delete Env.example World.demo 0).log.head?.bind Event.logoffState).map
        (fun s => (hmap_find ci_fold s.UserListByNick "bob",
          hmap_find String.data s.UserListByUID "001AAAAAB", s.channels 3, (s.cores 7).Users)) =
      some (some ("bob", 0), some ("001AAAAAB", 0), [0, 1], []) := by
  decide

/-! ## C23: what the cleanup hook is given -/

/-- C23 (as the code has it). When a live session is destroyed, the cleanup
hook `OnCancel` is invoked on the registered record filed under the nickname
of the session, once when there is such a record and not at all otherwise,
and its argument is the session object that is being destroyed
(`na->OnCancel(this)`).  In the state in which the hook runs that object is
still allocated, logged out and with an empty channel list; its nickname and
its uid are found in neither index; and, for a session that was linked as the
registry keeps it (the index entries, account lists and channels that lead to
it are those of its own nickname, uid, account and `chans`), no index entry,
no account list and no channel leads to it. -/
theorem C23_cancel_receives_session (env : Env) (w : World) (p : Nat) (u : User)
    (hu : w.users p = some u) :
    cancelsSince w (User.delete env w p) =
      (if (findnick w u.nick).isSome then
        [Event.OnCancel (ci_fold u.nick) p (User.dtor env w p).toState]
      else []) ∧
    (cancelsSince w (User.delete env w p)).map Event.cancelArg =
      (if (findnick w u.nick).isSome then [some p] else []) ∧
    (User.dtor env w p).toState.users p = some { u with nc := none, chans := [] } ∧
    hmap_find ci_fold (User.dtor env w p).toState.UserListByNick u.nick = none ∧
    (u.uid ≠ "" →
      hmap_find String.data (User.dtor env w p).toState.UserListByUID u.uid = none) ∧
    (Linked w p u → Detached (User.dtor env w p).toState p) := by
  have h := delete_cancels env w p u hu
  refine ⟨h, ?_, ?_, ?_, ?_, fun hl => dtor_detached env w p u hu hl⟩
  · rw [h]
    split <;> rfl
  · have h1 : (User.dtor env w p).toState.users = (User.dtor env w p).users := rfl
    rw [h1, dtor_users env w p u hu]
    simp
  · have h1 : (User.dtor env w p).toState.UserListByNick
        = (User.dtor env w p).UserListByNick := rfl
    rw [h1, dtor_UserListByNick env w p u hu]
    exact hmap_find_erase_self _ rfl
  · intro hne
    have h1 : (User.dtor env w p).toState.UserListByUID
        = (User.dtor env w p).UserListByUID := rfl
    rw [h1, dtor_UserListByUID env w p u hu, if_neg hne]
    exact hmap_find_erase_self _ rfl

theorem C23_cancel_receives_session_witness :
    (cancelsSince World.demo (User.delete Env.example World.demo 0)).map Event.cancelArg
      = [some 0] ∧
    (User.dtor Env.example World.demo 0).toState.users 0
      = some { User.bob with nc := none, chans := [] } ∧
    hmap_find ci_fold (User.dtor Env.example World.demo 0).toState.UserListByNick "bob"
      = none ∧
    hmap_find String.data (User.dtor Env.example World.demo 0).toState.UserListByUID
      "001AAAAAB" = none ∧
    Detached (User.dtor Env.example World.demo 0).toState 0 :=
  ⟨(C23_cancel_receives_session Env.example World.demo 0 User.bob rfl).2.1,
   (C23_cancel_receives_session Env.example World.demo 0 User.bob rfl).2.2.1,
   (C23_cancel_receives_session Env.example World.demo 0 User.bob rfl).2.2.2.1,
   (C23_cancel_receives_session Env.example World.demo 0 User.bob rfl).2.2.2.2.1 (by decide),
   (C23_cancel_receives_session Env.example World.demo 0 User.bob rfl).2.2.2.2.2
      demo_bob_linked⟩

/-- C23 as stated fails: when "bob" of the example state, the session object
at address 0, is destroyed, the cleanup hook runs once and its argument is
that object. -/
theorem C23_cancel_is_given_the_session :
    (World.demo.users 0).map (fun u => u.nick) = some "bob" ∧
    (cancelsSince World.demo (User.delete Env.example World.demo 0)).map Event.cancelArg
      = [some 0] := by
  decide

/-! ## C24 and C25: the recognition and the identification check -/

/-- What `IsRecognized(true)` computes: the session is on the access list, its
nickname is registered, and the owning account has the secure option on. -/
theorem IsRecognized_secure (w : World) (u : User) :
    User.IsRecognized w u true = true ↔
      u.OnAccess = true ∧
        ∃ na, findnick w u.nick = some na ∧ (w.cores na.nc).HasFlag .NI_SECURE = true := by
  unfold User.IsRecognized
  cases ha : u.OnAccess
  · simp
  · cases hn : findnick w u.nick with
    | none => simp
    | some na =>
      cases hs : (w.cores na.nc).HasFlag .NI_SECURE <;> simp [hs]

/-- C24. `IsRecognized(false)` returns exactly `OnAccess`.  At the failing
input the code departs from the claim and from its own documentation ("only
returns true if the user has secure off"): account 7, the owner of the
nickname "bob", has the secure option on, the session "bob" is on its access
list, and `IsRecognized(true)` returns true; with the option off, in the
example state, it returns false. -/
theorem C24_recognized_with_secure_on :
    (∀ (w : World) (u : User), User.IsRecognized w u false = u.OnAccess) ∧
    ((findnick World.demoSecure User.bob.nick).map (fun na => na.nc) = some 7 ∧
      (World.demoSecure.cores 7).HasFlag .NI_SECURE = true ∧
      User.bob.OnAccess = true ∧
      User.IsRecognized World.demoSecure User.bob true = true) ∧
    ((World.demo.cores 7).HasFlag .NI_SECURE = false ∧
      User.IsRecognized World.demo User.bob true = false) := by
  refine ⟨?_, by decide, by decide⟩
  intro w u
  simp [User.IsRecognized]

/-- What `IsIdentified(true)` computes: the session is logged in to an
account, and the record of the display nickname of that account belongs to
the account; the nickname of the session is not consulted. -/
theorem IsIdentified_display (w : World) (u : User) :
    User.IsIdentified w u true = true ↔
      ∃ c, u.nc = some c ∧
        ∃ na, findnick w (w.cores c).display = some na ∧ na.nc = c := by
  unfold User.IsIdentified
  cases hc : u.nc with
  | none => simp
  | some c =>
    cases hn : findnick w (w.cores c).display with
    | none => simp [hn]
    | some na => simp [hn]

/-- C25. `IsIdentified(false)` tells whether the session is logged in to an
account.  At the failing input the code departs from the claim and from its
own documentation ("check if the user is identified to the nickname they are
on too"): the session "bob", logged in to account 7, changes its nickname to
"carol", which is registered to account 8; it is still logged in to account
7, the record of its nickname belongs to account 8, and `IsIdentified(true)`
returns true. -/
theorem C25_identified_on_foreign_nickname :
    (∀ (w : World) (u : User), User.IsIdentified w u false = true ↔ u.nc.isSome = true) ∧
    (((do_nick Env.example World.demo "bob" "carol" "" "" "" "" 1000 0 "" "").2.users 0).map
        (fun u => (u.nick, u.nc,
          (findnick (do_nick Env.example World.demo "bob" "carol" "" "" "" "" 1000 0 "" "").2
            u.nick).map (fun na => na.nc),
          User.IsIdentified (do_nick Env.example World.demo "bob" "carol" "" "" "" "" 1000 0 ""
            "").2 u true))
      = some ("carol", some 7, some 8, true)) := by
  refine ⟨?_, by decide⟩
  intro w u
  rw [IsIdentified_false]

/-! ## The string methods -/

theorem find_idx_none {p : Char → Bool} {l : List Char} :
    find_idx p l = none ↔ ∀ x ∈ l, p x = false := by
  induction l with
  | nil => simp [find_idx]
  | cons a l ih =>
    unfold find_idx
    cases ha : p a
    · simp [ih, ha]
    · simp [ha]

theorem find_idx_isNone (p : Char → Bool) (l : List Char) :
    (find_idx p l).isNone = l.all (fun x => !p x) := by
  induction l with
  | nil => rfl
  | cons a l ih =>
    unfold find_idx
    cases ha : p a
    · simp [ih, ha]
    · simp [ha]

theorem find_idx_append {p : Char → Bool} (a b : List Char) (c : Char)
    (ha : ∀ x ∈ a, p x = false) (hc : p c = true) :
    find_idx p (a ++ c :: b) = some a.length := by
  induction a with
  | nil => simp [find_idx, hc]
  | cons x a ih =>
    have hx : p x = false := ha x (List.mem_cons_self x a)
    have h1 := ih (fun y hy => ha y (List.mem_cons_of_mem x hy))
    simp [find_idx, hx, h1]

/-- A position that `find_idx` returns splits the list: no character before it
satisfies `p`, the character at it does. -/
theorem find_idx_some {p : Char → Bool} {l : List Char} {i : Nat}
    (h : find_idx p l = some i) :
    ∃ c, p c = true ∧ l.drop i = c :: l.drop (i + 1) ∧ (∀ x ∈ l.take i, p x = false) := by
  induction l generalizing i with
  | nil => simp [find_idx] at h
  | cons a l ih =>
    unfold find_idx at h
    cases ha : p a
    · rw [ha] at h
      simp only [Bool.false_eq_true, if_false, Option.map_eq_some'] at h
      obtain ⟨j, hj, hij⟩ := h
      obtain ⟨c, hc, hl, hb⟩ := ih hj
      subst hij
      refine ⟨c, hc, ?_, ?_⟩
      · simpa using hl
      · intro x hx
        simp only [List.take_succ_cons, List.mem_cons] at hx
        cases hx with
        | inl h1 => rw [h1]; exact ha
        | inr h1 => exact hb x h1
    · rw [ha] at h
      simp only [if_true, Option.some.injEq] at h
      subst h
      exact ⟨a, ha, by simp, by simp⟩

theorem str_find_zero (s : String) (c : Char) :
    str_find s c 0 = find_idx (· == c) s.data := by
  unfold str_find
  rw [List.drop_zero]
  cases find_idx (· == c) s.data <;> rfl

/-- Either `find` returns `npos` and there is no `c` from `pos` on, or it
returns a position `d` from `pos` on that holds the first such `c`. -/
theorem str_find_cases (s : String) (c : Char) (pos : Nat) :
    (str_find s c pos = none ∧ (s.data.drop pos).count c = 0) ∨
    (∃ d, str_find s c pos = some d ∧ pos ≤ d ∧
      (s.data.drop pos).count c = (s.data.drop (d + 1)).count c + 1 ∧
      s.data.drop d = c :: s.data.drop (d + 1) ∧
      c ∉ (s.data.drop pos).take (d - pos)) := by
  unfold str_find
  cases h : find_idx (· == c) (s.data.drop pos) with
  | none =>
    left
    refine ⟨rfl, ?_⟩
    rw [List.count_eq_zero]
    intro hm
    have := find_idx_none.1 h c hm
    simp at this
  | some i =>
    right
    obtain ⟨x, hx, hl, hb⟩ := find_idx_some h
    have hxc : x = c := by simpa using hx
    subst hxc
    have hnot : x ∉ (s.data.drop pos).take i := by
      intro hm
      have := hb x hm
      simp at this
    have h1 : s.data.drop (i + pos) = (s.data.drop pos).drop i := by
      rw [List.drop_drop, Nat.add_comm]
    have h2 : s.data.drop (i + pos + 1) = (s.data.drop pos).drop (i + 1) := by
      rw [List.drop_drop]
      congr 1
      omega
    refine ⟨i + pos, rfl, by omega, ?_, ?_, ?_⟩
    · rw [h2]
      have h3 : (s.data.drop pos).count x
          = ((s.data.drop pos).take i ++ (s.data.drop pos).drop i).count x := by
        rw [List.take_append_drop]
      rw [h3, hl, List.count_append, List.count_eq_zero.2 hnot, List.count_cons_self]
      omega
    · rw [h1, h2]
      exact hl
    · have h4 : i + pos - pos = i := by omega
      rw [h4]
      exact hnot

/-! ## C26, C27, C28: `create_mask` -/

/-- The test for an IP address in `create_mask` holds exactly for the dotted
IPv4 addresses. -/
theorem create_mask_isip_eq (s : String) : create_mask_isip s = isDottedIPv4 s := by
  unfold create_mask_isip isDottedIPv4 str_find_first_not_of
  rw [find_idx_isNone]
  have hall : (s.data.all fun x => !(fun c => !"0123456789.".data.contains c) x)
      = s.data.all (fun c => "0123456789.".data.contains c) := by
    simp
  rw [hall]
  congr 1
  rcases str_find_cases s '.' 0 with ⟨h1, c1⟩ | ⟨d1, h1, -, c1, -, -⟩
  · rw [List.drop_zero] at c1
    rw [h1]
    simp [c1]
  rw [List.drop_zero] at c1
  rw [h1]
  simp only []
  rcases str_find_cases s '.' (d1 + 1) with ⟨h2, c2⟩ | ⟨d2, h2, -, c2, -, -⟩
  · rw [h2]
    simp [c1, c2]
  rw [h2]
  simp only []
  rcases str_find_cases s '.' (d2 + 1) with ⟨h3, c3⟩ | ⟨d3, h3, -, c3, -, -⟩
  · rw [h3]
    simp [c1, c2, c3]
  rw [h3]
  simp only []
  rcases str_find_cases s '.' (d3 + 1) with ⟨h4, c4⟩ | ⟨d4, h4, -, c4, -, -⟩
  · rw [h4]
    simp [c1, c2, c3, c4]
  · rw [h4]
    simp [c1, c2, c3, c4]

theorem splitOn_length (c : Char) (l : List Char) :
    (l.splitOn c).length = l.count c + 1 := by
  unfold List.splitOn
  induction l with
  | nil => simp
  | cons x l ih =>
    rw [List.splitOnP_cons]
    by_cases hx : x = c
    · subst hx
      simp [ih]
    · have h1 : (x == c) = false := by simpa using hx
      rw [h1]
      simp [ih, List.count_cons, h1]

/-- Replacing the first part of the split of `pre ++ c :: post` and joining
the parts again gives the replacement followed by `c :: post`. -/
theorem splitOn_replace_first (c : Char) (a pre post : List Char) (h : c ∉ pre) :
    [c].intercalate (a :: ((pre ++ c :: post).splitOn c).tail) = a ++ c :: post := by
  have h1 : (pre ++ c :: post).splitOn c = pre :: post.splitOn c := by
    unfold List.splitOn
    apply List.splitOnP_first
    · intro x hx hc
      have : x = c := by simpa using hc
      rw [this] at hx
      exact h hx
    · simp
  rw [h1, List.tail_cons]
  have h2 := List.intercalate_splitOn post c
  cases hs : post.splitOn c with
  | nil =>
    have := splitOn_length c post
    rw [hs] at this
    simp at this
  | cons y ys =>
    rw [hs] at h2
    rw [← h2]
    simp [List.intercalate, List.intersperse]

/-- C28. For a session whose displayed host is not a dotted IPv4 address
(only digits and dots, exactly three dots), the host part that `create_mask`
puts after the "@" is the host with its leftmost dot-separated part replaced
by "*" when the host has three or more parts, and the host itself when it has
one or two parts. -/
theorem C28_named_host (env : Env) (u : User)
    (h : isDottedIPv4 (u.GetDisplayedHost env) = false) :
    create_mask env u =
      (if str_front u.GetIdent = '~' then "*" ++ u.GetIdent else u.GetIdent) ++ "@" ++
        (if 3 ≤ (dotParts (u.GetDisplayedHost env)).length then
          starLeftmost (u.GetDisplayedHost env)
        else u.GetDisplayedHost env) := by
  have hmask : (if str_front u.GetIdent = '~' then "*" ++ u.GetIdent ++ "@"
      else u.GetIdent ++ "@")
      = (if str_front u.GetIdent = '~' then "*" ++ u.GetIdent else u.GetIdent) ++ "@" := by
    split <;> rfl
  unfold create_mask
  simp only [hmask]
  rw [create_mask_isip_eq, h]
  simp only [Bool.false_eq_true, if_false]
  generalize u.GetDisplayedHost env = host
  generalize (if str_front u.GetIdent = '~' then "*" ++ u.GetIdent else u.GetIdent) = user
  have hlen : (dotParts host).length = host.data.count '.' + 1 := splitOn_length '.' host.data
  rcases str_find_cases host '.' 0 with ⟨h1, c1⟩ | ⟨d1, h1, -, c1, e1, n1⟩
  · rw [List.drop_zero] at c1
    have hn : ¬ 3 ≤ (dotParts host).length := by omega
    rw [h1, if_neg hn]
  rw [List.drop_zero] at c1
  rw [h1]
  simp only []
  rcases str_find_cases host '.' (d1 + 1) with ⟨h2, c2⟩ | ⟨d2, h2, -, c2, -, -⟩
  · have hn : ¬ 3 ≤ (dotParts host).length := by omega
    rw [h2, if_neg hn]
    rfl
  · have hp : 3 ≤ (dotParts host).length := by omega
    rw [h2, if_pos hp]
    simp only [Option.isSome_some, if_true]
    have hstar : "*" ++ str_substr host d1 none = starLeftmost host := by
      apply String.ext
      unfold starLeftmost dotParts str_substr
      simp only [String.data_append]
      have hd : host.data = host.data.take d1 ++ '.' :: host.data.drop (d1 + 1) := by
        rw [← e1, List.take_append_drop]
      rw [List.drop_zero, Nat.sub_zero] at n1
      have h3 := splitOn_replace_first '.' ['*'] (host.data.take d1) (host.data.drop (d1 + 1)) n1
      rw [← hd] at h3
      rw [h3, e1]
    rw [hstar]

theorem C28_named_host_witness :
    isDottedIPv4 "irc.eu.example.org" = false ∧
    create_mask Env.example { User.bob with host := "irc.eu.example.org" } =
      "bob@*.eu.example.org" ∧
    isDottedIPv4 "example.org" = false ∧
    create_mask Env.example { User.bob with host := "example.org" } = "bob@example.org" :=
  ⟨by decide,
   (C28_named_host Env.example { User.bob with host := "irc.eu.example.org" }
      (by decide)).trans (by decide),
   by decide,
   (C28_named_host Env.example { User.bob with host := "example.org" }
      (by decide)).trans (by decide)⟩

/-- C26. At the failing input the code departs from the claim and from the
documentation of `create_mask` ("128.2.1.1 -> 128.2.*"): for the displayed
host "128.2.1.1", a dotted IPv4 address, the host part of the mask is "128.*",
the first octet only; for "35.1.1.1" it is "35.*", as documented. -/
theorem C26_ip_mask_keeps_one_octet :
    (isDottedIPv4 "128.2.1.1" = true ∧
      User.GetDisplayedHost Env.example { User.bob with host := "128.2.1.1" } = "128.2.1.1" ∧
      create_mask Env.example { User.bob with host := "128.2.1.1" } = "bob@128.*") ∧
    (isDottedIPv4 "35.1.1.1" = true ∧
      create_mask Env.example { User.bob with host := "35.1.1.1" } = "bob@35.*") := by
  decide

/-- C27. At the failing input the code departs from the claim and from the
documentation of `create_mask` ("if the username begins with a ~, delete
it"): for the ident "~bob" the user part of the mask is "*~bob", the ident
with its "~" kept and a "*" put before it; for the ident "bob" it is "bob". -/
theorem C27_tilde_is_kept :
    (User.GetIdent { User.bob with ident := "~bob" } = "~bob" ∧
      create_mask Env.example { User.bob with ident := "~bob" } = "*~bob@example.org") ∧
    create_mask Env.example User.bob = "bob@example.org" := by
  decide

/-! ## C29: `match_usermask` -/

theorem str_find_absent (s : String) (c : Char) (h : c ∉ s.data) : str_find s c 0 = none := by
  rw [str_find_zero, find_idx_none]
  intro x hx
  have hne : x ≠ c := fun he => h (he ▸ hx)
  simpa using hne

/-- The first `c` of `a ++ c :: b`, for `a` without `c`, is found after `a`;
`substr` then cuts out `a` and `b`. -/
theorem str_cut (s a b : String) (c : Char) (hs : s.data = a.data ++ c :: b.data)
    (hc : c ∉ a.data) :
    str_find s c 0 = some a.data.length ∧
      str_substr s 0 (some a.data.length) = a ∧
      str_substr s (a.data.length + 1) none = b := by
  refine ⟨?_, ?_, ?_⟩
  · rw [str_find_zero, hs]
    apply find_idx_append
    · intro x hx
      have hne : x ≠ c := fun he => hc (he ▸ hx)
      simpa using hne
    · simp
  · apply String.ext
    unfold str_substr
    simp [hs]
  · apply String.ext
    have h1 : a.data ++ c :: b.data = (a.data ++ [c]) ++ b.data := by simp
    show List.drop (a.data.length + 1) s.data = b.data
    rw [hs, h1, List.drop_left' (by simp)]

theorem data_ne_nil {s : String} (h : s ≠ "") : s.data ≠ [] := by
  intro hd
  apply h
  apply String.ext
  rw [hd]

/-- A mask without "!": the text before the first "@" is matched against the
ident, the text after it against the two hosts. -/
theorem match_usermask_plain (env : Env) (u : User) (user host : String)
    (h1 : '!' ∉ user.data) (h2 : '!' ∉ host.data) (h3 : '@' ∉ user.data) :
    match_usermask env (user ++ "@" ++ host) u =
      if user = "" ∨ host = "" then false
      else env.Match u.GetIdent user &&
        (env.Match u.host host || env.Match (u.GetDisplayedHost env) host) := by
  have hd : (user ++ "@" ++ host).data = user.data ++ '@' :: host.data := by
    simp [String.data_append]
  have hne : user ++ "@" ++ host ≠ "" := by
    intro he
    have := congrArg String.data he
    rw [hd] at this
    simp at this
  have hex : str_find (user ++ "@" ++ host) '!' 0 = none := by
    apply str_find_absent
    rw [hd]
    simp [h1, h2]
  obtain ⟨c1, c2, c3⟩ := str_cut (user ++ "@" ++ host) user host '@' hd h3
  unfold match_usermask
  rw [if_neg hne]
  simp only [hex, c1, c2, c3]
  by_cases hu : user = ""
  · simp [hu]
  · by_cases hh : host = ""
    · simp [hh]
    · simp [hu, hh]

/-- A mask with a "!": the text before the first "!" is matched against the
nickname unless it is empty; the rest is treated as a mask without "!". -/
theorem match_usermask_nick (env : Env) (u : User) (nick user host : String)
    (h1 : '!' ∉ nick.data) (h3 : '@' ∉ user.data) :
    match_usermask env (nick ++ "!" ++ (user ++ "@" ++ host)) u =
      if user = "" ∨ host = "" then false
      else (if nick = "" then true else env.Match u.nick nick) &&
        env.Match u.GetIdent user &&
        (env.Match u.host host || env.Match (u.GetDisplayedHost env) host) := by
  have hd2 : (user ++ "@" ++ host).data = user.data ++ '@' :: host.data := by
    simp [String.data_append]
  have hd : (nick ++ "!" ++ (user ++ "@" ++ host)).data
      = nick.data ++ '!' :: (user ++ "@" ++ host).data := by
    simp [String.data_append]
  have hne : nick ++ "!" ++ (user ++ "@" ++ host) ≠ "" := by
    intro he
    have := congrArg String.data he
    rw [hd] at this
    simp at this
  obtain ⟨e1, e2, e3⟩ := str_cut _ nick (user ++ "@" ++ host) '!' hd h1
  obtain ⟨c1, c2, c3⟩ := str_cut (user ++ "@" ++ host) user host '@' hd2 h3
  unfold match_usermask
  rw [if_neg hne]
  simp only [e1, e2, e3, c1, c2, c3]
  by_cases hu : user = ""
  · simp [hu]
  · by_cases hh : host = ""
    · simp [hh]
    · simp [hu, hh]

/-- Without an "@" after the optional "nick!" the result is false. -/
theorem match_usermask_no_at (env : Env) (u : User) (nick rest : String)
    (h1 : '!' ∉ nick.data) (h2 : '@' ∉ rest.data) :
    ('!' ∉ rest.data → match_usermask env rest u = false) ∧
      match_usermask env (nick ++ "!" ++ rest) u = false := by
  have hat : str_find rest '@' 0 = none := str_find_absent rest '@' h2
  constructor
  · intro h3
    unfold match_usermask
    split
    · rfl
    · simp only [str_find_absent rest '!' h3, hat]
      rfl
  · have hd : (nick ++ "!" ++ rest).data = nick.data ++ '!' :: rest.data := by
      simp [String.data_append]
    obtain ⟨e1, e2, e3⟩ := str_cut _ nick rest '!' hd h1
    unfold match_usermask
    split
    · rfl
    · simp only [e1, e3, hat]
      rfl

/-- C29 (as the code has it). `match_usermask` returns false for the empty
mask, for a mask without an "@" after its optional "nick!", and for a mask
whose user or host part is empty.  For a mask `user@host` without "!" the
result tells whether the ident matches `user` and the real host or the
displayed host matches `host`; it does not depend on the nickname.  For
`nick!user@host` with a non-empty `nick` the nickname must match `nick` in
addition; when the text before the "!" is empty the nickname is not
consulted. -/
theorem C29_match_usermask (env : Env) (u : User) :
    match_usermask env "" u = false ∧
    (∀ mask : String, '!' ∉ mask.data → '@' ∉ mask.data →
      match_usermask env mask u = false) ∧
    (∀ nick rest : String, '!' ∉ nick.data → '@' ∉ rest.data →
      match_usermask env (nick ++ "!" ++ rest) u = false) ∧
    (∀ user host : String, '!' ∉ user.data → '!' ∉ host.data → '@' ∉ user.data →
      (user = "" ∨ host = "" → match_usermask env (user ++ "@" ++ host) u = false) ∧
      (user ≠ "" → host ≠ "" →
        match_usermask env (user ++ "@" ++ host) u =
          (env.Match u.GetIdent user &&
            (env.Match u.host host || env.Match (u.GetDisplayedHost env) host)) ∧
        ∀ n : String, match_usermask env (user ++ "@" ++ host) { u with nick := n } =
          match_usermask env (user ++ "@" ++ host) u)) ∧
    (∀ nick user host : String, '!' ∉ nick.data → '@' ∉ user.data →
      (user = "" ∨ host = "" →
        match_usermask env (nick ++ "!" ++ user ++ "@" ++ host) u = false) ∧
      (user ≠ "" → host ≠ "" →
        (nick ≠ "" →
          match_usermask env (nick ++ "!" ++ user ++ "@" ++ host) u =
            (env.Match u.nick nick && env.Match u.GetIdent user &&
              (env.Match u.host host || env.Match (u.GetDisplayedHost env) host))) ∧
        (nick = "" →
          match_usermask env (nick ++ "!" ++ user ++ "@" ++ host) u =
            (env.Match u.GetIdent user &&
              (env.Match u.host host || env.Match (u.GetDisplayedHost env) host))))) := by
  refine ⟨by simp [match_usermask], ?_, ?_, ?_, ?_⟩
  · intro mask h1 h2
    exact (match_usermask_no_at env u "" mask (by simp) h2).1 h1
  · intro nick rest h1 h2
    exact (match_usermask_no_at env u nick rest h1 h2).2
  · intro user host h1 h2 h3
    constructor
    · intro he
      rw [match_usermask_plain env u user host h1 h2 h3, if_pos he]
    · intro hu hh
      have hn : ¬ (user = "" ∨ host = "") := by
        intro he
        cases he with
        | inl h => exact hu h
        | inr h => exact hh h
      constructor
      · rw [match_usermask_plain env u user host h1 h2 h3, if_neg hn]
      · intro n
        rw [match_usermask_plain env u user host h1 h2 h3,
          match_usermask_plain env _ user host h1 h2 h3]
        rfl
  · intro nick user host h1 h3
    have hassoc : nick ++ "!" ++ user ++ "@" ++ host = nick ++ "!" ++ (user ++ "@" ++ host) := by
      simp [String.append_assoc]
    rw [hassoc, match_usermask_nick env u nick user host h1 h3]
    constructor
    · intro he
      rw [if_pos he]
    · intro hu hh
      have hn : ¬ (user = "" ∨ host = "") := by
        intro he
        cases he with
        | inl h => exact hu h
        | inr h => exact hh h
      rw [if_neg hn]
      constructor
      · intro hk
        rw [if_neg hk]
      · intro hk
        rw [if_pos hk]
        simp

theorem C29_match_usermask_witness :
    match_usermask Env.example "bob" User.bob = false ∧
    match_usermask Env.example ("amy" ++ "!" ++ "bob") User.bob = false ∧
    match_usermask Env.example ("bob" ++ "@" ++ "") User.bob = false ∧
    match_usermask Env.example ("bob" ++ "@" ++ "*") User.bob =
      (Env.example.Match "bob" "bob" &&
        (Env.example.Match "example.org" "*" || Env.example.Match "example.org" "*")) ∧
    match_usermask Env.example ("amy" ++ "!" ++ "bob" ++ "@" ++ "*") User.bob =
      (Env.example.Match "bob" "amy" && Env.example.Match "bob" "bob" &&
        (Env.example.Match "example.org" "*" || Env.example.Match "example.org" "*")) ∧
    match_usermask Env.example ("" ++ "!" ++ "bob" ++ "@" ++ "*") User.bob =
      (Env.example.Match "bob" "bob" &&
        (Env.example.Match "example.org" "*" || Env.example.Match "example.org" "*")) :=
  ⟨(C29_match_usermask Env.example User.bob).2.1 "bob" (by decide) (by decide),
   (C29_match_usermask Env.example User.bob).2.2.1 "amy" "bob" (by decide) (by decide),
   ((C29_match_usermask Env.example User.bob).2.2.2.1 "bob" "" (by decide) (by decide)
     (by decide)).1 (Or.inr rfl),
   (((C29_match_usermask Env.example User.bob).2.2.2.1 "bob" "*" (by decide) (by decide)
     (by decide)).2 (by decide) (by decide)).1,
   (((C29_match_usermask Env.example User.bob).2.2.2.2 "amy" "bob" "*" (by decide)
     (by decide)).2 (by decide) (by decide)).1 (by decide),
   (((C29_match_usermask Env.example User.bob).2.2.2.2 "" "bob" "*" (by decide)
     (by decide)).2 (by decide) (by decide)).2 rfl⟩

/-- C29 as stated fails for a mask whose text before the "!" is empty: the
nickname "bob" does not match the empty text, and the mask "!bob@*" matches
the session "bob" all the same, as it matches the same session under the
nickname "amy". -/
theorem C29_empty_nick_part_is_not_checked :
    Env.example.Match User.bob.nick "" = false ∧
    match_usermask Env.example "!bob@*" User.bob = true ∧
    match_usermask Env.example "!bob@*" { User.bob with nick := "amy" } = true := by
  decide

/-! ## C31: does `DisplayNews` return -/

/-- For a type other than RANDOM the loop returns within one pass per
remaining item and one more. -/
theorem DisplayNews_loop_plain (nenv : NewsEnv) (News : List NewsItem) (Type_ : NewsType)
    (current_news : Nat) (hT : Type_ ≠ .NEWS_RANDOM) :
    ∀ (n i displayed : Nat) (NewsExists : Bool) (sent : List NewsItem),
      News.length - i ≤ n →
      ∃ r, DisplayNews_loop nenv News Type_ current_news (n + 1) i displayed NewsExists sent
        = some r := by
  intro n
  induction n with
  | zero =>
    intro i displayed NewsExists sent hn
    have hi : ¬ i < News.length := by omega
    exact ⟨⟨sent, current_news⟩, by simp [DisplayNews_loop, hi]⟩
  | succ m ih =>
    intro i displayed NewsExists sent hn
    unfold DisplayNews_loop
    by_cases hi : i < News.length
    · simp only [hi, dite_true, hT, false_and, and_false, if_false]
      by_cases ht : News[i].type = Type_
      · simp only [ht, if_true]
        by_cases hc : displayed + 1 ≥ nenv.NewsCount
        · simp only [hc, if_true]
          exact ⟨_, rfl⟩
        · simp only [hc, if_false]
          exact ih (i + 1) (displayed + 1) true _ (by omega)
      · simp only [ht, if_false]
        exact ih (i + 1) displayed NewsExists sent (by omega)
    · simp only [hi, dite_false]
      exact ⟨_, rfl⟩

/-- In the example list the loop for RANDOM comes back to the same state,
`i = 1` with `NewsExists` set, after every pass. -/
theorem DisplayNews_loop_spins (nenv : NewsEnv) :
    ∀ fuel, DisplayNews_loop nenv News.twoItems .NEWS_RANDOM 0 fuel 1 0 true [] = none := by
  intro fuel
  induction fuel with
  | zero => rfl
  | succ f ih =>
    have h : DisplayNews_loop nenv News.twoItems .NEWS_RANDOM 0 (f + 1) 1 0 true []
        = DisplayNews_loop nenv News.twoItems .NEWS_RANDOM 0 f 1 0 true [] := rfl
    rw [h, ih]

/-- C31. For LOGON and OPER `DisplayNews` returns for every news list and every
value of `current_news`, within one pass of the loop per item and one more,
and for a value outside the three types it throws.  At the failing input the
code departs from the claim: in the list left by a `RANDOMNEWS ADD` followed
by a `LOGONNEWS ADD`, with `current_news` at its initial value 0,
`DisplayNews` for RANDOM does not return, whatever the number of passes. -/
theorem C31_random_news_never_returns :
    (∀ (nenv : NewsEnv) (News : List NewsItem) (current_news k : Nat),
      (∃ r, DisplayNews nenv News current_news .NEWS_LOGON (News.length + 1 + k)
        = .ok (some r)) ∧
      (∃ r, DisplayNews nenv News current_news .NEWS_OPER (News.length + 1 + k)
        = .ok (some r)) ∧
      (∀ n, ∃ e, DisplayNews nenv News current_news (.NEWS_OTHER n) k = .error e)) ∧
    (News.twoItems.map (fun item => item.type) = [.NEWS_RANDOM, .NEWS_LOGON] ∧
      ∀ (nenv : NewsEnv) (fuel : Nat),
        DisplayNews nenv News.twoItems 0 .NEWS_RANDOM fuel = .ok none) := by
  constructor
  · intro nenv News current_news k
    refine ⟨?_, ?_, ?_⟩
    · obtain ⟨r, hr⟩ := DisplayNews_loop_plain nenv News .NEWS_LOGON current_news
        (by decide) (News.length + k) 0 0 false [] (by omega)
      refine ⟨r, ?_⟩
      have hk : News.length + 1 + k = News.length + k + 1 := by omega
      rw [hk]
      unfold DisplayNews
      simp only [hr]
    · obtain ⟨r, hr⟩ := DisplayNews_loop_plain nenv News .NEWS_OPER current_news
        (by decide) (News.length + k) 0 0 false [] (by omega)
      refine ⟨r, ?_⟩
      have hk : News.length + 1 + k = News.length + k + 1 := by omega
      rw [hk]
      unfold DisplayNews
      simp only [hr]
    · intro n
      exact ⟨_, rfl⟩
  · refine ⟨by decide, ?_⟩
    intro nenv fuel
    unfold DisplayNews
    simp only []
    cases fuel with
    | zero => rfl
    | succ f =>
      have h : DisplayNews_loop nenv News.twoItems .NEWS_RANDOM 0 (f + 1) 0 0 false []
          = DisplayNews_loop nenv News.twoItems .NEWS_RANDOM 0 f 1 0 true [] := rfl
      rw [h, DisplayNews_loop_spins nenv f]

/-! ## C32: the numbering of the news items -/

theorem newsNums_append (L M : List NewsItem) (type : NewsType) :
    newsNums (L ++ M) type = newsNums L type ++ newsNums M type := by
  simp [newsNums]

theorem take_succ_getElem? (L : List NewsItem) (i : Nat) (item : NewsItem)
    (h : L[i]? = some item) : L.take (i + 1) = L.take i ++ [item] := by
  rw [List.take_succ, h]
  rfl

/-- The scan of `add_newsitem` finds the number of the last item of the type
among the first `i` items, read into an `int`. -/
theorem add_newsitem_loop_eq (News : List NewsItem) (type : NewsType) (i : Nat) :
    add_newsitem_loop News type i =
      (((newsNums (News.take i) type).getLast?).map int32_of_uint32).getD 0 := by
  induction i with
  | zero => simp [add_newsitem_loop, newsNums]
  | succ i ih =>
    unfold add_newsitem_loop
    cases h : News[i]? with
    | none =>
      simp only []
      rw [ih, List.take_succ, h]
      simp
    | some item =>
      simp only []
      rw [take_succ_getElem? News i item h, newsNums_append]
      by_cases ht : item.type = type
      · simp [ht, newsNums]
      · simp [ht, newsNums, ih]

theorem range'_getLast (k : Nat) (hk : k ≤ 2147483647) :
    (((List.range' 1 k).getLast?).map int32_of_uint32).getD 0 = (k : Int) := by
  cases k with
  | zero => rfl
  | succ n =>
    have hor : ∀ (a : Nat) (o : Option Nat), (some a).or o = some a := fun _ _ => rfl
    have hle : 1 + n ≤ 2147483647 := by omega
    rw [List.range'_concat]
    simp only [List.getLast?_append, List.getLast?_singleton, hor, Option.map_some',
      Option.getD_some, Nat.one_mul]
    unfold int32_of_uint32
    rw [if_pos hle]
    omega

/-- What the loop of `del_newsitem` does from `i` down: it removes the items
of the type with the number (all items of the type for the number 0) among the
first `i` and counts them. -/
theorem del_newsitem_loop_eq (num : Nat) (type : NewsType) :
    ∀ (i : Nat) (L : List NewsItem) (c : Nat),
      del_newsitem_loop num type i L c =
        (c + (L.take i).countP (fun item =>
            decide (item.type = type ∧ (num = 0 ∨ item.num = num))),
          (L.take i).filter (fun item =>
            !decide (item.type = type ∧ (num = 0 ∨ item.num = num))) ++ L.drop i) := by
  intro i
  induction i with
  | zero =>
    intro L c
    simp [del_newsitem_loop]
  | succ i ih =>
    intro L c
    unfold del_newsitem_loop
    cases h : L[i]? with
    | none =>
      simp only []
      have hlen : L.length ≤ i := by
        rw [List.getElem?_eq_none_iff] at h
        exact h
      rw [ih, List.take_of_length_le hlen, List.take_of_length_le (Nat.le_succ_of_le hlen),
        List.drop_of_length_le hlen, List.drop_of_length_le (Nat.le_succ_of_le hlen)]
    | some item =>
      simp only []
      have hlt : i < L.length := by
        by_contra hge
        rw [List.getElem?_eq_none (by omega)] at h
        cases h
      have htake := take_succ_getElem? L i item h
      have hdrop : L.drop i = item :: L.drop (i + 1) := by
        rw [List.drop_eq_getElem_cons hlt]
        congr 1
        rw [List.getElem?_eq_getElem hlt] at h
        exact Option.some.inj h
      by_cases hp : item.type = type ∧ (num = 0 ∨ item.num = num)
      · rw [if_pos hp, ih]
        have h1 : (L.eraseIdx i).take i = L.take i := by
          rw [List.eraseIdx_eq_take_drop_succ, List.take_append_of_le_length (by simp; omega),
            List.take_take]
          simp
        have h2 : (L.eraseIdx i).drop i = L.drop (i + 1) := by
          rw [List.eraseIdx_eq_take_drop_succ]
          rw [List.drop_append_of_le_length (by simp; omega)]
          have h3 : (L.take i).drop i = [] := by
            rw [List.drop_eq_nil_iff]
            simp
          rw [h3]
          rfl
        rw [h1, h2, htake]
        have hP : decide (item.type = type ∧ (num = 0 ∨ item.num = num)) = true :=
          decide_eq_true hp
        simp only [List.countP_append, List.filter_append, List.countP_cons, List.countP_nil,
          List.filter_cons, List.filter_nil, hP, Bool.not_true, if_true, Bool.false_eq_true,
          if_false, List.append_nil, Nat.zero_add]
        rw [Nat.add_assoc, Nat.add_comm 1]
      · rw [if_neg hp, ih, htake, hdrop]
        have hP : decide (item.type = type ∧ (num = 0 ∨ item.num = num)) = false :=
          decide_eq_false hp
        simp only [List.countP_append, List.filter_append, List.countP_cons, List.countP_nil,
          List.filter_cons, List.filter_nil, hP, Bool.not_false, if_true, Bool.false_eq_true,
          if_false, List.append_assoc, List.singleton_append, Nat.add_zero, Nat.zero_add]

theorem del_newsitem_eq (News : List NewsItem) (num : Nat) (type : NewsType) :
    del_newsitem News num type =
      (News.countP (fun item => decide (item.type = type ∧ (num = 0 ∨ item.num = num))),
        News.filter (fun item => !decide (item.type = type ∧ (num = 0 ∨ item.num = num)))) := by
  unfold del_newsitem
  rw [del_newsitem_loop_eq]
  simp

theorem renumber_above (num : Nat) :
    ∀ (k s : Nat), num < s →
      ((List.range' s k).filter (fun m => !(m == num))).map
        (fun m => if m > num then m - 1 else m) = List.range' (s - 1) k := by
  intro k
  induction k with
  | zero => intro s _; rfl
  | succ k ih =>
    intro s hs
    have hne : (s == num) = false := by simpa using (by omega : s ≠ num)
    have h1 := ih (s + 1) (by omega)
    have h2 : s + 1 - 1 = s - 1 + 1 := by omega
    rw [h2] at h1
    simp only [List.range'_succ, List.filter_cons, hne, Bool.not_false, if_true, List.map_cons,
      if_pos hs, h1]

/-- Removing the number `num` from 1..k (written from `s` on) and lowering the
numbers above it gives the numbers of a list that is one shorter. -/
theorem renumber_range (num : Nat) :
    ∀ (k s : Nat), s ≤ num → num < s + k →
      ((List.range' s k).filter (fun m => !(m == num))).map
        (fun m => if m > num then m - 1 else m) = List.range' s (k - 1) := by
  intro k
  induction k with
  | zero => intro s h1 h2; omega
  | succ k ih =>
    intro s h1 h2
    by_cases hs : s = num
    · subst hs
      have h3 := renumber_above s k (s + 1) (by omega)
      simp only [List.range'_succ, List.filter_cons, beq_self_eq_true, Bool.not_true,
        Bool.false_eq_true, if_false, h3]
      rfl
    · have hne : (s == num) = false := by simpa using hs
      have hgt : ¬ s > num := by omega
      have h3 := ih (s + 1) (by omega) (by omega)
      have hk : k + 1 - 1 = (k - 1) + 1 := by omega
      rw [hk]
      simp only [List.range'_succ, List.filter_cons, hne, Bool.not_false, if_true, List.map_cons,
        if_neg hgt, h3]

theorem newsNums_other (L : List NewsItem) (type t : NewsType) (ht : t ≠ type) :
    newsNums L t = newsNums (otherNews L type) t := by
  unfold newsNums otherNews
  rw [List.filter_filter]
  congr 1
  apply List.filter_congr
  intro x _
  by_cases hx : x.type = t
  · have : x.type ≠ type := by rw [hx]; exact ht
    simp [hx, ht]
  · simp [hx]

theorem otherNews_append_same (L : List NewsItem) (x : NewsItem) :
    otherNews (L ++ [x]) x.type = otherNews L x.type := by
  simp [otherNews]

theorem otherNews_del (L : List NewsItem) (num : Nat) (type : NewsType) :
    otherNews (del_newsitem L num type).2 type = otherNews L type := by
  rw [del_newsitem_eq]
  unfold otherNews
  simp only [List.filter_filter]
  apply List.filter_congr
  intro x _
  by_cases hx : x.type = type
  · simp [hx]
  · simp [hx]

theorem otherNews_renumber (L : List NewsItem) (num : Nat) (type : NewsType) :
    otherNews (DoDel_renumber L type num) type = otherNews L type := by
  unfold otherNews DoDel_renumber
  induction L with
  | nil => rfl
  | cons x L ih =>
    rw [List.map_cons]
    by_cases hx : x.type = type
    · by_cases hn : x.num > num
      · simp only [hx, hn, and_self, if_true, List.filter_cons, beq_self_eq_true, Bool.not_true,
          Bool.false_eq_true, if_false]
        exact ih
      · simp only [hx, hn, and_false, if_false, List.filter_cons, beq_self_eq_true,
          Bool.not_true, Bool.false_eq_true]
        exact ih
    · have hb : (x.type == type) = false := by simpa using hx
      simp only [hx, false_and, if_false, List.filter_cons, hb, Bool.not_false, if_true]
      rw [ih]

theorem newsNums_cons_same (x : NewsItem) (L : List NewsItem) (type : NewsType)
    (hx : x.type = type) : newsNums (x :: L) type = x.num :: newsNums L type := by
  simp [newsNums, hx]

theorem newsNums_cons_other (x : NewsItem) (L : List NewsItem) (type : NewsType)
    (hx : x.type ≠ type) : newsNums (x :: L) type = newsNums L type := by
  simp [newsNums, hx]

theorem DoDel_renumber_cons (x : NewsItem) (L : List NewsItem) (type : NewsType) (num : Nat) :
    DoDel_renumber (x :: L) type num =
      (if x.type = type ∧ x.num > num then { x with num := x.num - 1 } else x)
        :: DoDel_renumber L type num := rfl

theorem newsNums_deleted_list (L : List NewsItem) (num : Nat) (type : NewsType)
    (P : NewsItem → Bool) (Q : Nat → Bool)
    (hP1 : ∀ x : NewsItem, x.type = type → P x = Q x.num)
    (hP2 : ∀ x : NewsItem, x.type ≠ type → P x = true) :
    newsNums (DoDel_renumber (L.filter P) type num) type =
      ((newsNums L type).filter Q).map (fun m => if m > num then m - 1 else m) := by
  induction L with
  | nil => rfl
  | cons x L ih =>
    by_cases hx : x.type = type
    · rw [newsNums_cons_same x L type hx]
      cases hq : Q x.num with
      | false =>
        have hp : ¬ P x = true := by rw [hP1 x hx, hq]; simp
        rw [List.filter_cons_of_neg hp, ih, List.filter_cons_of_neg (by rw [hq]; simp)]
      | true =>
        have hp : P x = true := by rw [hP1 x hx, hq]
        rw [List.filter_cons_of_pos hp, List.filter_cons_of_pos hq, DoDel_renumber_cons,
          List.map_cons]
        by_cases hg : x.num > num
        · rw [if_pos ⟨hx, hg⟩, if_pos hg,
            newsNums_cons_same { x with num := x.num - 1 } _ type hx, ih]
        · rw [if_neg (fun h => hg h.2), if_neg hg, newsNums_cons_same x _ type hx, ih]
    · rw [newsNums_cons_other x L type hx]
      rw [List.filter_cons_of_pos (hP2 x hx), DoDel_renumber_cons, if_neg (fun h => hx h.1),
        newsNums_cons_other _ _ type hx, ih]

/-- The numbers of the type after the removal of the number `num` and the
renumbering. -/
theorem newsNums_deleted (L : List NewsItem) (num : Nat) (type : NewsType) (hnum : num ≠ 0) :
    newsNums (DoDel_renumber (del_newsitem L num type).2 type num) type =
      ((newsNums L type).filter (fun m => !(m == num))).map
        (fun m => if m > num then m - 1 else m) := by
  rw [del_newsitem_eq]
  apply newsNums_deleted_list L num type
  · intro x hx
    by_cases h : x.num = num <;> simp [hx, hnum, h]
  · intro x hx
    simp [hx]

/-- The branch of `DoDel` that answers "deleted" for a number: the number is
positive, `del_newsitem` removed something, and the list is renumbered. -/
theorem DoDel_deleted (nenv : NewsEnv) (News : List NewsItem) (params : List String)
    (type : NewsType) (num : Nat)
    (h : (DoDel nenv News params type).1 = .MSG_DELETED num) :
    0 < num ∧ (del_newsitem News num type).1 ≠ 0 ∧
      (DoDel nenv News params type).2 =
        DoDel_renumber (del_newsitem News num type).2 type num := by
  unfold DoDel at h ⊢
  simp only [] at h ⊢
  generalize (if params.length > 1 then params.getD 1 "" else "") = text at h ⊢
  generalize (if nenv.is_pos_number_only text = true then nenv.convertTo text else 0) = n
    at h ⊢
  by_cases h1 : text = ""
  · simp [h1] at h
  by_cases h2 : nenv.readonly = true
  · simp [h1, h2] at h
  by_cases h3 : (!equals_ci text "ALL") = true
  · by_cases h4 : n > 0
    · by_cases h5 : (del_newsitem News n type).1 ≠ 0
      · rw [if_neg h1, if_neg h2, if_pos h3, if_pos h4, if_pos h5] at h ⊢
        have hn : n = num := by simpa using h
        subst hn
        exact ⟨h4, h5, rfl⟩
      · rw [if_neg h1, if_neg h2, if_pos h3, if_pos h4, if_neg h5] at h
        simp at h
    · rw [if_neg h1, if_neg h2, if_pos h3, if_neg h4] at h
      simp at h
  · rw [if_neg h1, if_neg h2, if_neg h3] at h
    split at h <;> simp at h

/-- Whatever `DoDel` answers, the items of the other types are as before. -/
theorem DoDel_other (nenv : NewsEnv) (News : List NewsItem) (params : List String)
    (type : NewsType) :
    otherNews (DoDel nenv News params type).2 type = otherNews News type := by
  unfold DoDel
  simp only []
  repeat' split
  all_goals first
    | rfl
    | exact otherNews_del News _ type
    | (rw [otherNews_renumber]; exact otherNews_del News _ type)

theorem range'_of_eq {l : List Nat} {m : Nat} (h : l = List.range' 1 m) :
    l = List.range' 1 l.length := by
  subst h
  simp

theorem add_newsitem_num (News : List NewsItem) (type : NewsType) (h : Numbered News)
    (hb : (newsNums News type).length ≤ 2147483647) :
    add_newsitem_loop News type News.length = ((newsNums News type).length : Int) := by
  rw [add_newsitem_loop_eq, List.take_length]
  generalize hk : (newsNums News type).length = k at hb
  have h1 := h type
  rw [hk] at h1
  rw [h1, range'_getLast k hb]

/-- Below the largest `int` the sum `num + 1` does not wrap, and it is stored
in the unsigned field as it is. -/
theorem add_newsitem_next (k : Nat) (hb : k < 2147483647) :
    int32_inc (k : Int) = ((k + 1 : Nat) : Int) ∧
      uint32_of_int32 (int32_inc (k : Int)) = k + 1 := by
  have h1 : int32_inc (k : Int) = ((k + 1 : Nat) : Int) := by
    unfold int32_inc
    rw [if_neg (by omega)]
    omega
  refine ⟨h1, ?_⟩
  rw [h1]
  unfold uint32_of_int32
  rw [if_pos (by omega)]
  omega

/-- When `del_newsitem` counts an item, the number is one of the numbers of
the type. -/
theorem del_newsitem_found (News : List NewsItem) (num : Nat) (type : NewsType)
    (hnum : num ≠ 0) (hc : (del_newsitem News num type).1 ≠ 0) :
    num ∈ newsNums News type := by
  rw [del_newsitem_eq] at hc
  have hpos : 0 < News.countP (fun item =>
      decide (item.type = type ∧ (num = 0 ∨ item.num = num))) := Nat.pos_of_ne_zero hc
  rw [List.countP_pos_iff] at hpos
  obtain ⟨item, hm, hp⟩ := hpos
  have hp1 : item.type = type ∧ (num = 0 ∨ item.num = num) := by simpa using hp
  have hn : item.num = num := hp1.2.elim (fun h0 => absurd h0 hnum) id
  unfold newsNums
  rw [List.mem_map]
  exact ⟨item, List.mem_filter.2 ⟨hm, by simpa using hp1.1⟩, hn⟩

/-- C32. Let, for every news type, the items of that type be numbered 1..k in
list order.  Then `add_newsitem`, for a type with fewer than 2147483647 items
(the number is computed on an `int`), appends an item of the given type with
the number k+1 and returns k+1, and the list is numbered in the same way
afterwards; after a call of `NewsBase::DoDel` that answers "deleted" for a
number (`del_newsitem` followed by the renumbering), the list is numbered in
the same way again, with one item of the type less.  In both cases, and
whatever `DoDel` answers, the items of the other types are what they were, in
the same order. -/
theorem C32_numbering_kept (nenv : NewsEnv) (News : List NewsItem) (h : Numbered News) :
    (∀ (CurTime : Int) (u : User) (text : String) (type : NewsType),
      (newsNums News type).length < 2147483647 →
      (add_newsitem News CurTime u text type).1
        = (((newsNums News type).length + 1 : Nat) : Int) ∧
      (add_newsitem News CurTime u text type).2 =
        News ++ [{ type := type, num := (newsNums News type).length + 1, Text := text,
                   time := CurTime, who := u.nick }] ∧
      Numbered (add_newsitem News CurTime u text type).2 ∧
      otherNews (add_newsitem News CurTime u text type).2 type = otherNews News type) ∧
    (∀ (params : List String) (type : NewsType) (num : Nat),
      (DoDel nenv News params type).1 = .MSG_DELETED num →
        Numbered (DoDel nenv News params type).2 ∧
        (newsNums (DoDel nenv News params type).2 type).length + 1
          = (newsNums News type).length) ∧
    (∀ (params : List String) (type : NewsType),
      otherNews (DoDel nenv News params type).2 type = otherNews News type) := by
  refine ⟨?_, ?_, fun params type => DoDel_other nenv News params type⟩
  · intro CurTime u text type hb
    have hnum := add_newsitem_num News type h (by omega)
    obtain ⟨hret, hfield⟩ := add_newsitem_next (newsNums News type).length hb
    have hother : otherNews (News ++ [NewsItem.mk type ((newsNums News type).length + 1)
        text CurTime u.nick]) type = otherNews News type :=
      otherNews_append_same News
        (NewsItem.mk type ((newsNums News type).length + 1) text CurTime u.nick)
    unfold add_newsitem
    simp only [hnum]
    rw [hfield, hret]
    refine ⟨rfl, rfl, ?_, hother⟩
    intro t
    by_cases ht : t = type
    · subst ht
      apply range'_of_eq (m := (newsNums News t).length + 1)
      rw [newsNums_append, List.range'_concat]
      have h1 : newsNums News t = List.range' 1 (newsNums News t).length := h t
      rw [← h1]
      simp [newsNums]
      omega
    · rw [newsNums_other _ type t ht, hother, ← newsNums_other _ type t ht]
      exact h t
  · intro params type num hd
    obtain ⟨hpos, hc, heq⟩ := DoDel_deleted nenv News params type num hd
    have hne : num ≠ 0 := by omega
    have hmem := del_newsitem_found News num type hne hc
    have h1 : newsNums News type = List.range' 1 (newsNums News type).length := h type
    generalize hk : (newsNums News type).length = k at h1 hmem ⊢
    have hle : num < 1 + k := by
      rw [h1] at hmem
      have := List.mem_range'_1.1 hmem
      omega
    have hnew : newsNums (DoDel nenv News params type).2 type = List.range' 1 (k - 1) := by
      rw [heq, newsNums_deleted News num type hne, h1]
      exact renumber_range num k 1 (by omega) hle
    constructor
    · intro t
      by_cases ht : t = type
      · subst ht
        exact range'_of_eq hnew
      · rw [newsNums_other _ type t ht, DoDel_other, ← newsNums_other _ type t ht]
        exact h t
    · rw [hnew]
      simp
      omega

theorem news_fourItems_numbered : Numbered News.fourItems := by
  intro t
  cases t <;> rfl

theorem C32_numbering_kept_witness :
    ((add_newsitem News.fourItems 5 User.amy "d" .NEWS_LOGON).1 = 4 ∧
      Numbered (add_newsitem News.fourItems 5 User.amy "d" .NEWS_LOGON).2) ∧
    (Numbered (DoDel NewsEnv.example News.fourItems ["DEL", "2"] .NEWS_LOGON).2 ∧
      (newsNums (DoDel NewsEnv.example News.fourItems ["DEL", "2"] .NEWS_LOGON).2
        .NEWS_LOGON).length + 1 = (newsNums News.fourItems .NEWS_LOGON).length) :=
  ⟨⟨((C32_numbering_kept NewsEnv.example News.fourItems news_fourItems_numbered).1
        5 User.amy "d" .NEWS_LOGON (by decide)).1,
    ((C32_numbering_kept NewsEnv.example News.fourItems news_fourItems_numbered).1
        5 User.amy "d" .NEWS_LOGON (by decide)).2.2.1⟩,
   (C32_numbering_kept NewsEnv.example News.fourItems news_fourItems_numbered).2.1
      ["DEL", "2"] .NEWS_LOGON 2 (by decide)⟩

end Anope
